import Mathlib

/-! HackerSM64 crash screen: instruction decoder and symbol lookup

A shallow embedding of `src/crash_screen/util/insn_disasm.c` and
`src/crash_screen/util/map_parser.c`.

Conventions of the embedding:

* A 32-bit word (`Word`, `Address`, `InsnData.raw`) is a `Nat`; every field
  access masks explicitly, and every 32-bit result is reduced `% 2 ^ 32`.
* A C pointer that may be `NULL` is an `Option`; dereferencing `NULL` or
  indexing an array outside its bounds is an explicit `fault` outcome.
* A sentinel-terminated `InsnTemplate[]` is the `List` of the entries before
  the terminator; reaching the end of the list is reaching the terminator.
-/

namespace HackerSM64

/-! ## Instruction word fields -/

/-- Modelled from the spec: the bit layout of the `InsnData` union, declared in
`insn_disasm.h` (not part of the sources). The spec gives a 6-bit primary
opcode, 5-bit register fields, a 6-bit function code and a 16-bit immediate;
the comment heading `insn_disasm.c` gives the coprocessor sub-fields.
`raw` is the whole 32-bit word. -/
def raw (insn : Nat) : Nat := insn % 2 ^ 32

/-- Modelled from the spec: field `opcode` of `InsnData`, the 6-bit primary
opcode, bits 31..26. -/
def opcode (insn : Nat) : Nat := insn / 2 ^ 26 % 64

/-- Modelled from the spec: field `rs` (also `base`) of `InsnData`, a 5-bit
register field, bits 25..21. -/
def rs (insn : Nat) : Nat := insn / 2 ^ 21 % 32

/-- Modelled from the spec: field `rt` (also `ft`) of `InsnData`, a 5-bit
register field, bits 20..16. -/
def rt (insn : Nat) : Nat := insn / 2 ^ 16 % 32

/-- Modelled from the spec: field `regimm` of `InsnData`, the 5 bits after the
first 11, bits 20..16. -/
def regimm (insn : Nat) : Nat := insn / 2 ^ 16 % 32

/-- Modelled from the spec: field `rd` (also `fs`) of `InsnData`, a 5-bit
register field, bits 15..11. -/
def rd (insn : Nat) : Nat := insn / 2 ^ 11 % 32

/-- Modelled from the spec: field `sa` (also `fd`) of `InsnData`, 5 bits,
bits 10..6. -/
def sa (insn : Nat) : Nat := insn / 2 ^ 6 % 32

/-- Modelled from the spec: field `func` of `InsnData`, the 6-bit function
code, the last 6 bits. -/
def func (insn : Nat) : Nat := insn % 64

/-- Modelled from the spec: field `immediate` (also `offset`) of `InsnData`,
the last 16 bits, as an unsigned pattern. -/
def immediate (insn : Nat) : Nat := insn % 2 ^ 16

/-- Modelled from the spec: field `instr_index` of `InsnData`, the 26-bit jump
index, the last 26 bits. -/
def instr_index (insn : Nat) : Nat := insn % 2 ^ 26

/-- Modelled from the spec: field `cop_opcode` of `InsnData`, the first 4 bits,
bits 31..28. -/
def cop_opcode (insn : Nat) : Nat := insn / 2 ^ 28 % 16

/-- Modelled from the spec: field `cop_num` of `InsnData`, the 2 bits after
`cop_opcode`, bits 27..26. -/
def cop_num (insn : Nat) : Nat := insn / 2 ^ 26 % 4

/-- Modelled from the spec: field `cop_subtype` of `InsnData`, the 2 bits after
`cop_num`, bits 25..24. -/
def cop_subtype (insn : Nat) : Nat := insn / 2 ^ 24 % 4

/-- Modelled from the spec: field `fmt` of `InsnData`, the 3 bits after the
first 8, bits 23..21. -/
def fmt (insn : Nat) : Nat := insn / 2 ^ 21 % 8

/-- Cast of a 16-bit pattern to `s16`. -/
def toS16 (x : Nat) : Int :=
  if x % 2 ^ 16 < 2 ^ 15 then (x % 2 ^ 16 : Nat) else (x % 2 ^ 16 : Nat) - 2 ^ 16

/-- Cast of a 32-bit pattern to `s32`. -/
def toS32 (x : Nat) : Int :=
  if x % 2 ^ 32 < 2 ^ 31 then (x % 2 ^ 32 : Nat) else (x % 2 ^ 32 : Nat) - 2 ^ 32

/-- Conversion of a C `int` to a 32-bit unsigned value. -/
def toU32 (x : Int) : Nat := (x % 2 ^ 32).toNat

/-! ## Opcode constants

The enums naming these values live in `insn_disasm.h`; the numbers are the
ones written beside each table entry in `insn_disasm.c`. -/

abbrev COP_OPCODE : Nat := 4
abbrev OPC_SPECIAL : Nat := 0
abbrev OPC_REGIMM : Nat := 1
abbrev OPC_J : Nat := 2
abbrev OPC_JAL : Nat := 3
abbrev OPC_BEQ : Nat := 4
abbrev OPC_BNE : Nat := 5
abbrev OPC_ADDI : Nat := 8
abbrev OPC_ADDIU : Nat := 9
abbrev OPC_COP0 : Nat := 16
abbrev OPC_COP1 : Nat := 17
abbrev OPC_COP2 : Nat := 18
abbrev OPC_COP3 : Nat := 19
abbrev OPC_BEQL : Nat := 20
abbrev OPC_BNEL : Nat := 21
abbrev OPC_DADDI : Nat := 24
abbrev OPS_SLL : Nat := 0
abbrev OPS_ADD : Nat := 32
abbrev OPS_OR : Nat := 37
abbrev INSN_TYPE_COP_FMT : Nat := 0
abbrev INSN_TYPE_REGIMM : Nat := 1
abbrev INSN_TYPE_FUNC : Nat := 2
abbrev INSN_TYPE_UNKNOWN : Nat := 3
abbrev COP0 : Nat := 0
abbrev COP1 : Nat := 1
abbrev COP2 : Nat := 2
abbrev COP3 : Nat := 3

/-- The operand-format directive of an instruction name. -/
abbrev CHAR_P_NAME : Char := Char.ofNat 39

/-- The operand-format directive of a branch offset. -/
abbrev CHAR_P_BRANCH : Char := 'B'

/-! ## Instruction templates -/

/-- An `InsnTemplate`: mnemonic, operand-format string, output-operand tag and
match key. -/
structure InsnTemplate where
  name : String
  fmt : String
  out : Nat
  opcode : Nat
deriving DecidableEq, Repr

/-- Opcode instructions (`INSN_TYPE_OPCODE`). -/
def insn_db_standard : List InsnTemplate := [
  ⟨"J", "\x27J", 0, 2⟩,
  ⟨"JAL", "\x27J", 0, 3⟩,
  ⟨"BEQ", "\x27stB", 0, 4⟩,
  ⟨"BNE", "\x27stB", 0, 5⟩,
  ⟨"BLEZ", "\x27sB", 0, 6⟩,
  ⟨"BGTZ", "\x27sB", 0, 7⟩,
  ⟨"ADDI", "\x27tsI", 1, 8⟩,
  ⟨"ADDIU", "\x27tsI", 1, 9⟩,
  ⟨"SLTI", "\x27tsI", 1, 10⟩,
  ⟨"SLTIU", "\x27tsI", 1, 11⟩,
  ⟨"ANDI", "\x27tsI", 1, 12⟩,
  ⟨"ORI", "\x27tsI", 1, 13⟩,
  ⟨"XORI", "\x27tsI", 1, 14⟩,
  ⟨"LUI", "\x27tI", 1, 15⟩,
  ⟨"BEQL", "\x27stB", 0, 20⟩,
  ⟨"BNEL", "\x27stB", 0, 21⟩,
  ⟨"BLEZL", "\x27sB", 0, 22⟩,
  ⟨"BGTZL", "\x27sB", 0, 23⟩,
  ⟨"DADDI", "\x27tsI", 1, 24⟩,
  ⟨"DADDIU", "\x27tsI", 1, 25⟩,
  ⟨"LDL", "\x27tI(", 1, 26⟩,
  ⟨"LDR", "\x27tI(", 1, 27⟩,
  ⟨"LB", "\x27tI(", 1, 32⟩,
  ⟨"LH", "\x27tI(", 1, 33⟩,
  ⟨"LWL", "\x27tI(", 1, 34⟩,
  ⟨"LW", "\x27tI(", 1, 35⟩,
  ⟨"LBU", "\x27tI(", 1, 36⟩,
  ⟨"LHU", "\x27tI(", 1, 37⟩,
  ⟨"LWR", "\x27tI(", 1, 38⟩,
  ⟨"LWU", "\x27tI(", 1, 39⟩,
  ⟨"SB", "\x27tI(", 0, 40⟩,
  ⟨"SH", "\x27tI(", 0, 41⟩,
  ⟨"SWL", "\x27tI(", 0, 42⟩,
  ⟨"SW", "\x27tI(", 0, 43⟩,
  ⟨"SDL", "\x27tI(", 0, 44⟩,
  ⟨"SDR", "\x27tI(", 0, 45⟩,
  ⟨"SWR", "\x27tI(", 0, 46⟩,
  ⟨"CACHE", "\x27tI(", 0, 47⟩,
  ⟨"LL", "\x27tI(", 1, 48⟩,
  ⟨"LWC1", "\x27TI(", 0, 49⟩,
  ⟨"LWC2", "\x27TI(", 0, 50⟩,
  ⟨"LWC3", "\x27TI(", 0, 51⟩,
  ⟨"LLD", "\x27tI(", 1, 52⟩,
  ⟨"LDC1", "\x27tI(", 1, 53⟩,
  ⟨"LDC2", "\x27tI(", 1, 54⟩,
  ⟨"LD", "\x27tI(", 1, 55⟩,
  ⟨"SC", "\x27tI(", 0, 56⟩,
  ⟨"SWC1", "\x27TI(", 0, 57⟩,
  ⟨"SWC2", "\x27TI(", 0, 58⟩,
  ⟨"SWC3", "\x27TI(", 0, 59⟩,
  ⟨"SCD", "\x27tI(", 0, 60⟩,
  ⟨"SDC1", "\x27tI(", 0, 61⟩,
  ⟨"SDC2", "\x27tI(", 0, 62⟩,
  ⟨"SD", "\x27tI(", 0, 63⟩]

/-- Special opcode instructions (`OPC_SPECIAL`, `INSN_TYPE_FUNC`). -/
def insn_db_spec : List InsnTemplate := [
  ⟨"SLL", "\x27dta", 1, 0⟩,
  ⟨"SRL", "\x27dta", 1, 2⟩,
  ⟨"SRA", "\x27dta", 1, 3⟩,
  ⟨"SLLV", "\x27dts", 1, 4⟩,
  ⟨"SRLV", "\x27dts", 1, 6⟩,
  ⟨"SRAV", "\x27dts", 1, 7⟩,
  ⟨"JR", "\x27s", 0, 8⟩,
  ⟨"JALR", "\x27ds", 0, 9⟩,
  ⟨"SYSCALL", "\x27", 0, 12⟩,
  ⟨"BREAK", "\x27", 0, 13⟩,
  ⟨"SYNC", "\x27", 0, 15⟩,
  ⟨"MFHI", "\x27d", 8, 16⟩,
  ⟨"MTHI", "\x27s", 8, 17⟩,
  ⟨"MFLO", "\x27d", 8, 18⟩,
  ⟨"MTLO", "\x27s", 8, 19⟩,
  ⟨"DSLLV", "\x27dts", 1, 20⟩,
  ⟨"DSRLV", "\x27dts", 1, 22⟩,
  ⟨"DSRAV", "\x27dts", 1, 23⟩,
  ⟨"MULT", "\x27st", 8, 24⟩,
  ⟨"MULTU", "\x27st", 8, 25⟩,
  ⟨"DIV", "\x27st", 8, 26⟩,
  ⟨"DIVU", "\x27st", 8, 27⟩,
  ⟨"DMULT", "\x27st", 8, 28⟩,
  ⟨"DMULTU", "\x27st", 8, 29⟩,
  ⟨"DDIV", "\x27st", 8, 30⟩,
  ⟨"DDIVU", "\x27st", 8, 31⟩,
  ⟨"ADD", "\x27dst", 1, 32⟩,
  ⟨"ADDU", "\x27dst", 1, 33⟩,
  ⟨"SUB", "\x27dst", 1, 34⟩,
  ⟨"SUBU", "\x27dst", 1, 35⟩,
  ⟨"AND", "\x27dst", 1, 36⟩,
  ⟨"OR", "\x27dst", 1, 37⟩,
  ⟨"XOR", "\x27dst", 1, 38⟩,
  ⟨"NOR", "\x27dst", 1, 39⟩,
  ⟨"SLT", "\x27dst", 1, 42⟩,
  ⟨"SLTU", "\x27dst", 1, 43⟩,
  ⟨"DADD", "\x27dst", 1, 44⟩,
  ⟨"DADDU", "\x27dst", 1, 45⟩,
  ⟨"DSUB", "\x27dst", 1, 46⟩,
  ⟨"DSUBU", "\x27dst", 1, 47⟩,
  ⟨"TGE", "\x27st", 0, 48⟩,
  ⟨"TGEU", "\x27st", 0, 49⟩,
  ⟨"TLT", "\x27st", 0, 50⟩,
  ⟨"TLTU", "\x27st", 0, 51⟩,
  ⟨"TEQ", "\x27st", 0, 52⟩,
  ⟨"TNE", "\x27st", 0, 54⟩,
  ⟨"DSLL", "\x27dta", 1, 56⟩,
  ⟨"DSRL", "\x27dta", 1, 58⟩,
  ⟨"DSRA", "\x27dta", 1, 59⟩,
  ⟨"DSLL32", "\x27dta", 1, 60⟩,
  ⟨"DSRL32", "\x27dta", 1, 62⟩,
  ⟨"DSRA32", "\x27dta", 1, 63⟩]

/-- Register opcode instructions (`OPC_REGIMM`, `INSN_TYPE_REGIMM`). -/
def insn_db_regi : List InsnTemplate := [
  ⟨"BLTZ", "\x27sB", 0, 0⟩,
  ⟨"BGEZ", "\x27sB", 0, 1⟩,
  ⟨"BLTZL", "\x27sB", 0, 2⟩,
  ⟨"BGEZL", "\x27sB", 0, 3⟩,
  ⟨"BLTZAL", "\x27sB", 9, 16⟩,
  ⟨"BGEZAL", "\x27sB", 9, 17⟩,
  ⟨"BLTZALL", "\x27sB", 9, 18⟩,
  ⟨"BGEZALL", "\x27sB", 9, 19⟩,
  ⟨"TGEI", "\x27sI", 0, 8⟩,
  ⟨"TGEIU", "\x27sI", 0, 9⟩,
  ⟨"TLTI", "\x27sI", 0, 10⟩,
  ⟨"TLTIU", "\x27sI", 0, 11⟩,
  ⟨"TEQI", "\x27sI", 0, 12⟩,
  ⟨"TNEI", "\x27sI", 0, 14⟩]

/-- Coprocessor-0 move instructions (`OPC_COP0`, `INSN_TYPE_COP_FMT`). -/
def insn_db_cop0_sub00 : List InsnTemplate := [
  ⟨"MFC0", "\x27t0", 1, 0⟩,
  ⟨"DMFC0", "\x27t0", 1, 1⟩,
  ⟨"MTC0", "\x27t0", 2, 4⟩,
  ⟨"DMTC0", "\x27t0", 2, 5⟩]

/-- Coprocessor-0 TLB instructions (`OPC_COP0`, `INSN_TYPE_FUNC`). -/
def insn_db_cop0_sub10 : List InsnTemplate := [
  ⟨"TLBP", "\x27", 0, 8⟩,
  ⟨"TLBR", "\x27", 0, 1⟩,
  ⟨"TLBWI", "\x27", 0, 2⟩,
  ⟨"TLBWR", "\x27", 0, 6⟩,
  ⟨"ERET", "\x27", 0, 24⟩]

/-- Coprocessor-1 move instructions (`OPC_COP1`, `INSN_TYPE_COP_FMT`). -/
def insn_db_cop1_sub00 : List InsnTemplate := [
  ⟨"MFC1", "\x27tS", 1, 0⟩,
  ⟨"DMFC1", "\x27tS", 1, 1⟩,
  ⟨"MTC1", "\x27tS", 2, 4⟩,
  ⟨"DMTC1", "\x27tS", 2, 5⟩,
  ⟨"CFC1", "\x27tS", 1, 2⟩,
  ⟨"CTC1", "\x27tS", 2, 6⟩]

/-- Coprocessor-1 branch instructions (`OPC_COP1`, `INSN_TYPE_REGIMM`). -/
def insn_db_cop1_sub01 : List InsnTemplate := [
  ⟨"BC1F", "\x27B", 0, 0⟩,
  ⟨"BC1T", "\x27B", 0, 1⟩,
  ⟨"BC1FL", "\x27B", 0, 2⟩,
  ⟨"BC1TL", "\x27B", 0, 3⟩]

/-- Coprocessor-1 arithmetic instructions (`OPC_COP1`, `INSN_TYPE_FUNC`). -/
def insn_db_cop1_sub10 : List InsnTemplate := [
  ⟨"ADD", "\x22DST", 1, 0⟩,
  ⟨"SUB", "\x22DST", 1, 1⟩,
  ⟨"MUL", "\x22DST", 1, 2⟩,
  ⟨"DIV", "\x22DST", 1, 3⟩,
  ⟨"SQRT", "\x22DS", 1, 4⟩,
  ⟨"ABS", "\x22DS", 1, 5⟩,
  ⟨"MOV", "\x22DS", 1, 6⟩,
  ⟨"NEG", "\x22DS", 1, 7⟩,
  ⟨"ROUND.L", "\x22DS", 1, 8⟩,
  ⟨"TRUNC.L", "\x22DS", 1, 9⟩,
  ⟨"CEIL.L", "\x22DS", 1, 10⟩,
  ⟨"FLOOR.L", "\x22DS", 1, 11⟩,
  ⟨"ROUND.W", "\x22DS", 1, 12⟩,
  ⟨"TRUNC.W", "\x22DS", 1, 13⟩,
  ⟨"CEIL.W", "\x22DS", 1, 14⟩,
  ⟨"FLOOR.W", "\x22DS", 1, 15⟩,
  ⟨"CVT.S", "\x22DS", 1, 32⟩,
  ⟨"CVT.D", "\x22DS", 1, 33⟩,
  ⟨"CVT.W", "\x22DS", 1, 36⟩,
  ⟨"CVT.L", "\x22DS", 1, 37⟩,
  ⟨"C.F", "\x22ST", 0, 48⟩,
  ⟨"C.UN", "\x22ST", 0, 49⟩,
  ⟨"C.EQ", "\x22ST", 0, 50⟩,
  ⟨"C.UEQ", "\x22ST", 0, 51⟩,
  ⟨"C.OLT", "\x22ST", 0, 52⟩,
  ⟨"C.ULT", "\x22ST", 0, 53⟩,
  ⟨"C.OLE", "\x22ST", 0, 54⟩,
  ⟨"C.ULE", "\x22ST", 0, 55⟩,
  ⟨"C.SF", "\x22ST", 0, 56⟩,
  ⟨"C.NGLE", "\x22ST", 0, 57⟩,
  ⟨"C.SEQ", "\x22ST", 0, 58⟩,
  ⟨"C.NGL", "\x22ST", 0, 59⟩,
  ⟨"C.LT", "\x22ST", 0, 60⟩,
  ⟨"C.NGE", "\x22ST", 0, 61⟩,
  ⟨"C.LE", "\x22ST", 0, 62⟩,
  ⟨"C.NGT", "\x22ST", 0, 63⟩]

/-- Coprocessor subtype lists: `insn_db_cop_lists[cop_num][cop_subtype]`, with
`none` for a `NULL` entry: every entry of the rows `COP2` and `COP3`, the
`INSN_TYPE_REGIMM` entry of `COP0` and every `INSN_TYPE_UNKNOWN` entry. -/
def insn_db_cop_lists (copNum copSubtype : Nat) : Option (List InsnTemplate) :=
  if copNum = COP0 then
    if copSubtype = INSN_TYPE_COP_FMT then some insn_db_cop0_sub00
    else if copSubtype = INSN_TYPE_FUNC then some insn_db_cop0_sub10
    else none
  else if copNum = COP1 then
    if copSubtype = INSN_TYPE_COP_FMT then some insn_db_cop1_sub00
    else if copSubtype = INSN_TYPE_REGIMM then some insn_db_cop1_sub01
    else if copSubtype = INSN_TYPE_FUNC then some insn_db_cop1_sub10
    else none
  else none

/-- Indices of `insn_db_pseudo` (`enum PseudoInsns`). -/
inductive PseudoInsns where
  | PSEUDO_NOP
  | PSEUDO_MOVET
  | PSEUDO_MOVES
  | PSEUDO_B
  | PSEUDO_BEQZ
  | PSEUDO_BNEZ
  | PSEUDO_LI
  | PSEUDO_SUBI
  | PSEUDO_BEQZL
  | PSEUDO_BNEZL
  | PSEUDO_DSUBI
deriving DecidableEq, Repr

open PseudoInsns

/-- Pseudo-instructions, indexed by `PseudoInsns`. -/
def insn_db_pseudo : PseudoInsns → InsnTemplate
  | PSEUDO_NOP => ⟨"NOP", "_", 0, 0⟩
  | PSEUDO_MOVET => ⟨"MOVE", "\x27dt", 1, 32⟩
  | PSEUDO_MOVES => ⟨"MOVE", "\x27ds", 1, 32⟩
  | PSEUDO_B => ⟨"B", "\x27B", 0, 4⟩
  | PSEUDO_BEQZ => ⟨"BEQZ", "\x27sB", 0, 4⟩
  | PSEUDO_BNEZ => ⟨"BNEZ", "\x27sB", 0, 5⟩
  | PSEUDO_LI => ⟨"LI", "\x27tI", 1, 8⟩
  | PSEUDO_SUBI => ⟨"SUBI", "\x27tsi", 1, 8⟩
  | PSEUDO_BEQZL => ⟨"BEQZL", "\x27sB", 0, 20⟩
  | PSEUDO_BNEZL => ⟨"BNEZL", "\x27sB", 0, 21⟩
  | PSEUDO_DSUBI => ⟨"DSUBI", "\x27tsi", 1, 24⟩

/-! ## Decoding -/

/-- Result of running a C function: it returns a value, or it faults by
dereferencing `NULL` or by reading an array outside its bounds. -/
inductive Run (α : Type) where
  | ret (v : α)
  | fault
deriving DecidableEq, Repr

/-- Use a specific pseudo-instruction from `insn_db_pseudo` if `cond` is true:
the template written to `*checkInsn`, or `none` when the function returns
`FALSE`. -/
def check_pseudo_insn (id : PseudoInsns) (cond : Bool) : Option InsnTemplate :=
  if cond then some (insn_db_pseudo id) else none

/-- Checks for pseudo-instructions: the converted template, or `none` when the
function returns `FALSE`. -/
def check_pseudo_instructions (insn : Nat) : Option InsnTemplate :=
  match check_pseudo_insn PSEUDO_NOP (decide (raw insn = 0)) with
  | some t => some t
  | none =>
    if cop_opcode insn = COP_OPCODE then none
    else if opcode insn = OPC_SPECIAL then
      if func insn = OPS_ADD then
        match check_pseudo_insn PSEUDO_MOVES (decide (rt insn = 0)) with
        | some t => some t
        | none => check_pseudo_insn PSEUDO_MOVET (decide (rs insn = 0))
      else if func insn = OPS_OR then
        check_pseudo_insn PSEUDO_MOVES (decide (rt insn = 0))
      else none
    else if opcode insn = OPC_BEQ then
      match check_pseudo_insn PSEUDO_B (decide (rs insn = rt insn)) with
      | some t => some t
      | none => check_pseudo_insn PSEUDO_BEQZ (decide (rt insn = 0))
    else if opcode insn = OPC_BNE then
      check_pseudo_insn PSEUDO_BNEZ (decide (rt insn = 0))
    else if opcode insn = OPC_ADDI then
      match check_pseudo_insn PSEUDO_LI (decide (rs insn = 0)) with
      | some t => some t
      | none => check_pseudo_insn PSEUDO_SUBI (decide (toS16 (immediate insn) < 0))
    else if opcode insn = OPC_ADDIU then
      check_pseudo_insn PSEUDO_LI (decide (rs insn = 0))
    else if opcode insn = OPC_BEQL then
      check_pseudo_insn PSEUDO_BEQZL (decide (rt insn = 0))
    else if opcode insn = OPC_BNEL then
      check_pseudo_insn PSEUDO_BNEZL (decide (rt insn = 0))
    else if opcode insn = OPC_DADDI then
      check_pseudo_insn PSEUDO_DSUBI (decide (toS16 (immediate insn) < 0))
    else none

/-- The `switch` of `get_insn`: the instruction list to scan (`none` for a
`NULL` list pointer) and the opcode to compare. -/
def get_insn_list (insn : Nat) : Option (List InsnTemplate) × Nat :=
  if opcode insn = OPC_COP0 ∨ opcode insn = OPC_COP1 ∨ opcode insn = OPC_COP2
      ∨ opcode insn = OPC_COP3 then
    (insn_db_cop_lists (cop_num insn) (cop_subtype insn),
      if cop_subtype insn = INSN_TYPE_COP_FMT then fmt insn
      else if cop_subtype insn = INSN_TYPE_REGIMM then regimm insn
      else if cop_subtype insn = INSN_TYPE_FUNC then func insn
      else opcode insn)
  else if opcode insn = OPC_SPECIAL then (some insn_db_spec, func insn)
  else if opcode insn = OPC_REGIMM then (some insn_db_regi, regimm insn)
  else (some insn_db_standard, opcode insn)

/-- The loop of `get_insn`: walk the list up to its terminator and return the
first entry whose key equals `opcode`. -/
def scan_list : List InsnTemplate → Nat → Option InsnTemplate
  | [], _ => none
  | t :: rest, opcode => if t.opcode = opcode then some t else scan_list rest opcode

/-- Gets the `InsnTemplate` matching the instruction word. `pseudoInsns` is the
value of the setting `CS_OPT_DISASM_PSEUDOINSNS`. Returns `ret none` for
`NULL`, and faults when the selected list pointer is `NULL`, which the loop
dereferences. -/
def get_insn (pseudoInsns : Bool) (insn : Nat) : Run (Option InsnTemplate) :=
  match (if pseudoInsns then check_pseudo_instructions insn else none) with
  | some t => .ret (some t)
  | none =>
    match get_insn_list insn with
    | (none, _) => .fault
    | (some list, key) => .ret (scan_list list key)

/-- The C library `strchr`, as a test: whether `c` occurs in `s`. -/
def strchr (s : String) (c : Char) : Bool := s.toList.contains c

/-- Checks an instruction for its branch offset: the `s16` offset, 0 if there
is no branch. -/
def insn_check_for_branch_offset (pseudoInsns : Bool) (insn : Nat) : Run Int :=
  match get_insn pseudoInsns insn with
  | .fault => .fault
  | .ret none => .ret 0
  | .ret (some info) =>
    if strchr info.fmt CHAR_P_BRANCH then .ret (toS16 (immediate insn)) else .ret 0

/-! ## Code segments and branch targets -/

/-- An `AddressPair`: one `.text` region, `start` inclusive and `end_`
exclusive. -/
structure AddressPair where
  start : Nat
  end_ : Nat
deriving DecidableEq, Repr

/-- Check whether the address is in a `.text` segment. The region list
`sTextRegions` is filled in by the linker and is a parameter here. -/
def is_in_code_segment : List AddressPair → Nat → Bool
  | [], _ => false
  | r :: rest, addr =>
    if addr ≥ r.start ∧ addr < r.end_ then true else is_in_code_segment rest addr

/-- Modelled from the spec: the macro `PHYSICAL_TO_VIRTUAL`, defined outside the
sources, combines an address with the segment high bits by OR with
`0x80000000`. -/
def PHYSICAL_TO_VIRTUAL (addr : Nat) : Nat := addr ||| 0x80000000

/-- Gets the target address of the instruction at `addr`. `mem` gives the word
stored at an address (`*(Word*)addr`); `sizeof(InsnData)` is 4. -/
def get_insn_branch_target_from_addr (sTextRegions : List AddressPair)
    (pseudoInsns : Bool) (mem : Nat → Nat) (addr : Nat) : Run Nat :=
  if !is_in_code_segment sTextRegions addr then .ret addr
  else
    let insn := mem addr
    if opcode insn = OPC_J ∨ opcode insn = OPC_JAL then
      .ret (PHYSICAL_TO_VIRTUAL (instr_index insn * 4))
    else
      match insn_check_for_branch_offset pseudoInsns insn with
      | .fault => .fault
      | .ret branchOffset =>
        if branchOffset ≠ 0 then .ret ((addr + toU32 (branchOffset + 1) * 4) % 2 ^ 32)
        else .ret addr

/-! ## Symbol table -/

/-- Modelled from the spec: a `MapSymbol` record, whose declaration is not part
of the sources: start address, byte size and name reference. -/
structure MapSymbol where
  addr : Nat
  size : Nat
  name_offset : Nat
deriving DecidableEq, Repr

/-- Check whether an address is within a map symbol range; the end
`symbol->addr + symbol->size` is a 32-bit sum. -/
def addr_is_in_symbol (addr : Nat) (symbol : MapSymbol) : Bool :=
  decide (addr ≥ symbol.addr ∧ addr < (symbol.addr + symbol.size) % 2 ^ 32)

/-- The loop of `get_symbol_index_from_addr_forward`: `symbol` walks the list
from the front while `i` counts up. -/
def forward_loop (addr : Nat) : List MapSymbol → Nat → Run Int
  | [], _ => .ret (-1)
  | symbol :: rest, i =>
    if addr_is_in_symbol addr symbol then .ret (toS32 i) else forward_loop addr rest (i + 1)

/-- Search for a symbol index starting from the beginning. `gMapSymbols` is the
table, `gNumMapSymbols` its length; without `INCLUDE_DEBUG_MAP` the function
returns -1 at once. -/
def get_symbol_index_from_addr_forward (INCLUDE_DEBUG_MAP : Bool)
    (gMapSymbols : List MapSymbol) (addr : Nat) : Run Int :=
  if !INCLUDE_DEBUG_MAP then .ret (-1) else forward_loop addr gMapSymbols 0

/-- The loop of `get_symbol_index_from_addr_backward`: the argument is the
value of `i` before `i-- > 0`; `symbol` is `gMapSymbols[i]` after it. -/
def backward_loop (gMapSymbols : List MapSymbol) (addr : Nat) : Nat → Run Int
  | 0 => .ret (-1)
  | i + 1 =>
    match gMapSymbols[i]? with
    | none => .fault
    | some symbol =>
      if addr_is_in_symbol addr symbol then .ret (toS32 i)
      else backward_loop gMapSymbols addr i

/-- Search for a symbol index starting from the end. -/
def get_symbol_index_from_addr_backward (INCLUDE_DEBUG_MAP : Bool)
    (gMapSymbols : List MapSymbol) (addr : Nat) : Run Int :=
  if !INCLUDE_DEBUG_MAP then .ret (-1)
  else backward_loop gMapSymbols addr gMapSymbols.length

/-- The loop of `get_symbol_index_from_addr_binary`. `searchStart`, `searchEnd`
and `index` are `size_t`, so `index - 1` and `index + 1` wrap at `2 ^ 32`;
reading `gMapSymbols[index]` outside the table faults. The first argument
bounds the number of iterations; `none` means it was used up. -/
def binary_loop (gMapSymbols : List MapSymbol) (addr : Nat) :
    Nat → Nat → Nat → Option (Run Int)
  | 0, _, _ => none
  | fuel + 1, searchStart, searchEnd =>
    if searchStart ≤ searchEnd then
      let index := (searchStart + (searchEnd - searchStart) / 2) % 2 ^ 32
      match gMapSymbols[index]? with
      | none => some .fault
      | some symbol =>
        if addr < symbol.addr then
          binary_loop gMapSymbols addr fuel searchStart ((index + 2 ^ 32 - 1) % 2 ^ 32)
        else if addr ≥ (symbol.addr + symbol.size) % 2 ^ 32 then
          binary_loop gMapSymbols addr fuel ((index + 1) % 2 ^ 32) searchEnd
        else some (.ret (toS32 index))
    else some (.ret (-1))

/-- Search for a symbol index using a binary search. `searchEnd` starts at
`gNumMapSymbols - 1` in `size_t`. The function has no `INCLUDE_DEBUG_MAP`
guard. -/
def get_symbol_index_from_addr_binary (gMapSymbols : List MapSymbol) (addr : Nat) :
    Option (Run Int) :=
  binary_loop gMapSymbols addr (gMapSymbols.length + 2) 0
    ((gMapSymbols.length % 2 ^ 32 + 2 ^ 32 - 1) % 2 ^ 32)


/-- Modelled from the spec: the strategy argument of `get_map_symbol`
(`enum SymbolSearchDirections`, declared outside the sources): forward,
backward or binary; `other` stands for any value that is none of the three. -/
inductive SymbolSearchDirections where
  | SYMBOL_SEARCH_FORWARD
  | SYMBOL_SEARCH_BACKWARD
  | SYMBOL_SEARCH_BINARY
  | other
deriving DecidableEq, Repr

open SymbolSearchDirections

/-- The cast of a 32-bit value to a pointer: `none` is `NULL`. -/
def ptr_of_u32 (x : Nat) : Option Nat := if x % 2 ^ 32 = 0 then none else some (x % 2 ^ 32)

/-- Get the name of a map symbol: the pointer
`(u32)gMapStrings + symbol->name_offset`, `NULL` without `INCLUDE_DEBUG_MAP`
or for a `NULL` symbol. -/
def get_map_symbol_name (INCLUDE_DEBUG_MAP : Bool) (gMapStrings : Nat)
    (symbol : Option MapSymbol) : Option Nat :=
  if !INCLUDE_DEBUG_MAP then none
  else
    match symbol with
    | none => none
    | some s => ptr_of_u32 (gMapStrings + s.name_offset)

/-- The `switch` of `get_map_symbol`: the index computed by the search of the
selected strategy; -1, the initial value of `index`, when the strategy is none
of the three. The outer `none` is the iteration bound of the binary search
used up. -/
def get_map_symbol_index (INCLUDE_DEBUG_MAP : Bool) (gMapSymbols : List MapSymbol)
    (addr : Nat) : SymbolSearchDirections → Option (Run Int)
  | SYMBOL_SEARCH_FORWARD =>
    some (get_symbol_index_from_addr_forward INCLUDE_DEBUG_MAP gMapSymbols addr)
  | SYMBOL_SEARCH_BACKWARD =>
    some (get_symbol_index_from_addr_backward INCLUDE_DEBUG_MAP gMapSymbols addr)
  | SYMBOL_SEARCH_BINARY => get_symbol_index_from_addr_binary gMapSymbols addr
  | other => some (.ret (-1))

/-- Get the `MapSymbol` that the given address is in: the pointer
`&gMapSymbols[index]`, given as its index, or `none` for `NULL`.
`try_read_word_aligned` is declared outside the sources and is a parameter
here: `none` when the guarded read fails. -/
def get_map_symbol (INCLUDE_DEBUG_MAP : Bool) (try_read_word_aligned : Nat → Option Nat)
    (gMapSymbols : List MapSymbol) (addr : Nat) (searchDirection : SymbolSearchDirections) :
    Option (Run (Option Int)) :=
  if !INCLUDE_DEBUG_MAP then some (.ret none)
  else
    match try_read_word_aligned addr with
    | none => some (.ret none)
    | some _ =>
      match get_map_symbol_index INCLUDE_DEBUG_MAP gMapSymbols addr searchDirection with
      | none => none
      | some .fault => some .fault
      | some (.ret index) => if index ≠ -1 then some (.ret (some index)) else some (.ret none)

/-! ## Formatting an instruction -/

/-- Modelled from the spec: the operand-format directives `CHAR_P_*` of
`insn_disasm.h` (not part of the sources), read off the format strings of the
tables: instruction name with a coprocessor-1 format suffix. -/
abbrev CHAR_P_NAMEF : Char := Char.ofNat 34

/-- Modelled from the spec: the directive of the NOP pseudo-instruction. -/
abbrev CHAR_P_NOP : Char := '_'

/-- Modelled from the spec: the directive of the CPU `rs` register. -/
abbrev CHAR_P_RS : Char := 's'

/-- Modelled from the spec: the directive of the CPU `rt` register. -/
abbrev CHAR_P_RT : Char := 't'

/-- Modelled from the spec: the directive of the CPU `rd` register. -/
abbrev CHAR_P_RD : Char := 'd'

/-- Modelled from the spec: the directive of the immediate. -/
abbrev CHAR_P_IMM : Char := 'I'

/-- Modelled from the spec: the directive of the negated immediate. -/
abbrev CHAR_P_NIMM : Char := 'i'

/-- Modelled from the spec: the directive of the shift amount. -/
abbrev CHAR_P_SHIFT : Char := 'a'

/-- Modelled from the spec: the directive of the base register of an offset. -/
abbrev CHAR_P_BASE : Char := '('

/-- Modelled from the spec: the directive of the coprocessor-0 `rd` register. -/
abbrev CHAR_P_COP0D : Char := '0'

/-- Modelled from the spec: the directive of the coprocessor-1 `ft` register. -/
abbrev CHAR_P_FT : Char := 'T'

/-- Modelled from the spec: the directive of the coprocessor-1 `fs` register. -/
abbrev CHAR_P_FS : Char := 'S'

/-- Modelled from the spec: the directive of the coprocessor-1 `fd` register. -/
abbrev CHAR_P_FD : Char := 'D'

/-- Modelled from the spec: the directive of the jump target. -/
abbrev CHAR_P_FUNC : Char := 'J'

/-- The string terminator. -/
abbrev CHAR_NULL : Char := Char.ofNat 0

/-- Modelled from the spec: the register class given to `get_reg_info` and
`append_reg_to_buffer` (declared in `registers.h`, not part of the sources):
integer, coprocessor-0 or coprocessor-1. -/
inductive RegisterSources where
  | CPU
  | COP0
  | COP1
deriving DecidableEq, Repr

/-- Modelled from the spec: the colours `cs_insn_to_string` uses; their values
are defined outside the sources and are parameters. -/
structure InsnColors where
  COLOR_RGBA32_NONE : Nat
  COLOR_RGBA32_CRASH_DISASM_NOP : Nat
  COLOR_RGBA32_CRASH_DISASM_INSN : Nat
  COLOR_RGBA32_CRASH_VARIABLE : Nat
  COLOR_RGBA32_CRASH_DISASM_IMMEDIATE : Nat
  COLOR_RGBA32_CRASH_OFFSET : Nat
  COLOR_RGBA32_CRASH_FUNCTION_NAME : Nat
deriving DecidableEq, Repr

/-- One `sprintf` into `insn_as_string`, with the arguments it prints; the
string is the concatenation of the pieces in order. -/
inductive Piece where
  /-- The colour prefix `STR_COLOR_PREFIX` with a colour. -/
  | color (c : Nat)
  /-- The name of the NOP pseudo-instruction, printed as it is. -/
  | nop (name : String)
  /-- The instruction name under `STR_INSN_NAME`. -/
  | name (name : String)
  /-- The instruction name with a format suffix, `name.f`, under `STR_INSN_NAME`. -/
  | nameFormat (name : String) (f : Char)
  /-- The separator `", "`. -/
  | separator
  /-- The register name under `STR_IREG`. -/
  | reg (cop : RegisterSources) (idx : Nat)
  /-- The register name under `STR_IREG_BASE`. -/
  | base (cop : RegisterSources) (idx : Nat)
  /-- The value under `"%d"` (`dec`) or under `STR_IMMEDIATE`. -/
  | immediate (dec : Bool) (v : Int)
  /-- The sign character and magnitude under `STR_OFFSET`. -/
  | offset (sign : Char) (v : Int)
  /-- The address under `STR_FUNCTION`. -/
  | function (v : Nat)
  /-- The placeholder `"unimpl "` and the raw word under `STR_HEX_WORD`. -/
  | unimpl (raw : Nat)
deriving DecidableEq, Repr

/-- Modelled from the spec: the print formats defined outside the sources
(`STR_COLOR_PREFIX`, `STR_HEX_PREFIX`, `STR_HEX_HALFWORD`, `STR_HEX_WORD`, the
padding of `STR_INSN_NAME` to `INSN_NAME_DISPLAY_WIDTH`) and the register
names of `get_reg_info`, as parameters. -/
structure InsnFormats where
  STR_COLOR_PREFIX : Nat → String
  STR_HEX_PREFIX : String
  STR_HEX_HALFWORD : Int → String
  STR_HEX_WORD : Nat → String
  STR_INSN_NAME : String → String
  reg_name : RegisterSources → Nat → String

/-- The text one piece adds to `insn_as_string`. -/
def Piece.render (f : InsnFormats) : Piece → String
  | .color c => f.STR_COLOR_PREFIX c
  | .nop n => n
  | .name n => f.STR_INSN_NAME n
  | .nameFormat n c => f.STR_INSN_NAME (n ++ "." ++ String.singleton c)
  | .separator => ", "
  | .reg cop idx => f.reg_name cop idx
  | .base cop idx => "(" ++ f.reg_name cop idx ++ ")"
  | .immediate dec v => if dec then toString v else f.STR_HEX_PREFIX ++ f.STR_HEX_HALFWORD v
  | .offset sign v => String.singleton sign ++ f.STR_HEX_PREFIX ++ f.STR_HEX_HALFWORD v
  | .function v => f.STR_HEX_PREFIX ++ f.STR_HEX_WORD v
  | .unimpl raw => "unimpl " ++ f.STR_HEX_WORD raw

/-- The build flag, the settings read by `cs_get_setting_val`, and the data
`cs_insn_to_string` reads: colours, text regions, symbol table, address of the
string table, memory and the guarded read. -/
structure CSEnv where
  INCLUDE_DEBUG_MAP : Bool
  CS_OPT_DISASM_PSEUDOINSNS : Bool
  /-- Whether `CS_OPT_DISASM_IMM_FMT` is `PRINT_NUM_FMT_DEC`. -/
  decImmediates : Bool
  CS_OPT_DISASM_OFFSET_ADDR : Bool
  CS_OPT_GLOBAL_SYMBOL_NAMES : Bool
  colors : InsnColors
  sTextRegions : List AddressPair
  gMapSymbols : List MapSymbol
  gMapStrings : Nat
  mem : Nat → Nat
  try_read_word_aligned : Nat → Option Nat

/-- Modelled from the spec: `clear_saved_reg_buffer`, defined outside the
sources, resets the register tracking: the saved-register buffer becomes
empty. -/
def clear_saved_reg_buffer : List (RegisterSources × Nat) := []

/-- Modelled from the spec: `append_reg_to_buffer`, defined outside the
sources, records one register in the saved-register buffer. -/
def append_reg_to_buffer (buf : List (RegisterSources × Nat)) (cop : RegisterSources)
    (idx : Nat) : List (RegisterSources × Nat) :=
  buf ++ [(cop, idx)]

/-- Modelled from the spec: `abss`, defined outside the sources, the magnitude
of a signed value. -/
def abss (x : Int) : Int := if x < 0 then -x else x

/-- Gets the character for the format of a Coprocessor-1 instruction. -/
def cop1_fmt_to_char (insn : Nat) : Char :=
  if fmt insn = 0 then 'S'
  else if fmt insn = 1 then 'D'
  else if fmt insn = 4 then 'W'
  else if fmt insn = 5 then 'L'
  else 'X'

/-- The local variables of `cs_insn_to_string` while it walks the format, with
the data it writes: the string so far, the current colour, the pending
separator, `*fname` and the saved-register buffer. -/
structure InsnLoopState where
  str : List Piece
  color : Nat
  separator : Bool
  fname : Option Nat
  savedRegs : List (RegisterSources × Nat)
deriving DecidableEq, Repr

/-- Prints the new colour code if the colour has changed (`ADD_COLOR`). -/
def cs_insn_param_check_color_change (s : InsnLoopState) (newColor : Nat) (format : Bool) :
    InsnLoopState :=
  if format && s.color != newColor then
    { s with color := newColor, str := s.str ++ [.color newColor] }
  else s

/-- The macro `ADD_STR`: append one piece. -/
def ADD_STR (s : InsnLoopState) (p : Piece) : InsnLoopState := { s with str := s.str ++ [p] }

/-- The macro `ADD_REG`: print the register under the given format and record
it in the saved-register buffer unless the command index is `info->out`. -/
def ADD_REG (s : InsnLoopState) (p : Piece) (cop : RegisterSources) (idx : Nat)
    (cmdIndex out : Nat) : InsnLoopState :=
  let s := ADD_STR s p
  if cmdIndex ≠ out then { s with savedRegs := append_reg_to_buffer s.savedRegs cop idx } else s

/-- How one command of the format leaves the loop body: on to the next
command, by `return insn_as_string`, or with `unimpl` set. -/
inductive LoopControl where
  | next
  | returned
  | unimpl
deriving DecidableEq, Repr

/-- The result of `cs_insn_to_string`: the pieces of `insn_as_string`, `*fname`
and the saved-register buffer after the call. -/
structure InsnString where
  str : List Piece
  fname : Option Nat
  savedRegs : List (RegisterSources × Nat)
deriving DecidableEq, Repr

/-- The text of `insn_as_string`. -/
def InsnString.text (f : InsnFormats) (r : InsnString) : String :=
  String.join (r.str.map (Piece.render f))

/-- The case `CHAR_P_FUNC` of `cs_insn_to_string`: the jump target, replaced by
the name of the symbol that starts exactly at it when there is one. -/
def cs_insn_func (env : CSEnv) (insn : Nat) (format : Bool) (s : InsnLoopState) :
    Option (Run InsnLoopState) :=
  let s := cs_insn_param_check_color_change s env.colors.COLOR_RGBA32_CRASH_FUNCTION_NAME format
  let target := PHYSICAL_TO_VIRTUAL (instr_index insn * 4)
  if env.INCLUDE_DEBUG_MAP then
    if env.CS_OPT_GLOBAL_SYMBOL_NAMES && is_in_code_segment env.sTextRegions target then
      match get_map_symbol env.INCLUDE_DEBUG_MAP env.try_read_word_aligned env.gMapSymbols
          target SYMBOL_SEARCH_BACKWARD with
      | none => none
      | some .fault => some .fault
      | some (.ret none) => some (.ret (ADD_STR s (.function target)))
      | some (.ret (some index)) =>
        match (if 0 ≤ index then env.gMapSymbols[index.toNat]? else none) with
        | none => some .fault
        | some symbol =>
          let fname := get_map_symbol_name env.INCLUDE_DEBUG_MAP env.gMapStrings (some symbol)
          let fname := if target ≠ symbol.addr then none else fname
          if fname ≠ none then some (.ret { s with fname := fname })
          else some (.ret (ADD_STR { s with fname := fname } (.function target)))
    else some (.ret (ADD_STR s (.function target)))
  else some (.ret (ADD_STR { s with fname := none } (.function target)))

/-- The `switch` of the loop of `cs_insn_to_string` for one command `c` at
position `cmdIndex` of the format. -/
def cs_insn_command (env : CSEnv) (addr insn : Nat) (info : InsnTemplate) (format : Bool)
    (cmdIndex : Nat) (c : Char) (s : InsnLoopState) :
    Option (Run (InsnLoopState × LoopControl)) :=
  let color := fun (s : InsnLoopState) (col : Nat) =>
    cs_insn_param_check_color_change s col format
  if c = CHAR_P_NOP then
    some (.ret (ADD_STR (color s env.colors.COLOR_RGBA32_CRASH_DISASM_NOP) (.nop info.name),
      .returned))
  else if c = CHAR_P_NAME then
    some (.ret (ADD_STR (color s env.colors.COLOR_RGBA32_CRASH_DISASM_INSN) (.name info.name),
      .next))
  else if c = CHAR_P_NAMEF then
    some (.ret (ADD_STR (color s env.colors.COLOR_RGBA32_CRASH_DISASM_INSN)
      (.nameFormat info.name (cop1_fmt_to_char insn)), .next))
  else if c = CHAR_P_RS then
    some (.ret ({ ADD_REG (color s env.colors.COLOR_RGBA32_CRASH_VARIABLE)
      (.reg .CPU (rs insn)) .CPU (rs insn) cmdIndex info.out with separator := true }, .next))
  else if c = CHAR_P_RT then
    some (.ret ({ ADD_REG (color s env.colors.COLOR_RGBA32_CRASH_VARIABLE)
      (.reg .CPU (rt insn)) .CPU (rt insn) cmdIndex info.out with separator := true }, .next))
  else if c = CHAR_P_RD then
    some (.ret ({ ADD_REG (color s env.colors.COLOR_RGBA32_CRASH_VARIABLE)
      (.reg .CPU (rd insn)) .CPU (rd insn) cmdIndex info.out with separator := true }, .next))
  else if c = CHAR_P_IMM then
    some (.ret (ADD_STR (color s env.colors.COLOR_RGBA32_CRASH_DISASM_IMMEDIATE)
      (.immediate env.decImmediates (immediate insn)), .next))
  else if c = CHAR_P_NIMM then
    some (.ret (ADD_STR (color s env.colors.COLOR_RGBA32_CRASH_DISASM_IMMEDIATE)
      (.immediate env.decImmediates (-(toS16 (immediate insn)))), .next))
  else if c = CHAR_P_SHIFT then
    some (.ret (ADD_STR (color s env.colors.COLOR_RGBA32_CRASH_DISASM_IMMEDIATE)
      (.immediate false (sa insn)), .next))
  else if c = CHAR_P_BASE then
    some (.ret (ADD_REG (color s env.colors.COLOR_RGBA32_CRASH_VARIABLE)
      (.base .CPU (rs insn)) .CPU (rs insn) cmdIndex info.out, .next))
  else if c = CHAR_P_BRANCH then
    let s := color s env.colors.COLOR_RGBA32_CRASH_OFFSET
    if env.CS_OPT_DISASM_OFFSET_ADDR then
      match get_insn_branch_target_from_addr env.sTextRegions env.CS_OPT_DISASM_PSEUDOINSNS
          env.mem addr with
      | .fault => some .fault
      | .ret target => some (.ret (ADD_STR s (.function target), .next))
    else
      let branchOffset := toS16 (immediate insn + 1)
      some (.ret (ADD_STR s (.offset (if branchOffset < 0 then '-' else '+')
        (abss branchOffset)), .next))
  else if c = CHAR_P_COP0D then
    some (.ret ({ ADD_REG (color s env.colors.COLOR_RGBA32_CRASH_VARIABLE)
      (.reg .COP0 (rd insn)) .COP0 (rd insn) cmdIndex info.out with separator := true }, .next))
  else if c = CHAR_P_FT then
    some (.ret ({ ADD_REG (color s env.colors.COLOR_RGBA32_CRASH_VARIABLE)
      (.reg .COP1 (rt insn)) .COP1 (rt insn) cmdIndex info.out with separator := true }, .next))
  else if c = CHAR_P_FS then
    some (.ret ({ ADD_REG (color s env.colors.COLOR_RGBA32_CRASH_VARIABLE)
      (.reg .COP1 (rd insn)) .COP1 (rd insn) cmdIndex info.out with separator := true }, .next))
  else if c = CHAR_P_FD then
    some (.ret ({ ADD_REG (color s env.colors.COLOR_RGBA32_CRASH_VARIABLE)
      (.reg .COP1 (sa insn)) .COP1 (sa insn) cmdIndex info.out with separator := true }, .next))
  else if c = CHAR_P_FUNC then
    match cs_insn_func env insn format s with
    | none => none
    | some .fault => some .fault
    | some (.ret s) => some (.ret (s, .next))
  else some (.ret (s, .unimpl))

/-- The loop of `cs_insn_to_string` over the commands of `info->fmt`, from
command `cmdIndex` on: the state at the end and whether `unimpl` is set. The
bound `STRLEN(info->fmt)` is taken to cover the whole format, as the spec's
"walks the matched template's operand-format string left to right". -/
def cs_insn_loop (env : CSEnv) (addr insn : Nat) (info : InsnTemplate) (format : Bool) :
    List Char → Nat → InsnLoopState → Option (Run (InsnLoopState × Bool))
  | [], _, s => some (.ret (s, false))
  | c :: rest, cmdIndex, s =>
    if c = CHAR_NULL then some (.ret (s, false))
    else
      let s := if s.separator then ADD_STR { s with separator := false } .separator else s
      match cs_insn_command env addr insn info format cmdIndex c s with
      | none => none
      | some .fault => some .fault
      | some (.ret (s, .next)) => cs_insn_loop env addr insn info format rest (cmdIndex + 1) s
      | some (.ret (s, .returned)) => some (.ret (s, false))
      | some (.ret (s, .unimpl)) => some (.ret (s, true))

/-- Converts MIPS instruction data into a formatted string. `fname` and
`savedRegs` are `*fname` and the saved-register buffer before the call. The
outer `none` is the iteration bound of a symbol search used up. -/
def cs_insn_to_string (env : CSEnv) (addr insn : Nat) (fname : Option Nat) (format : Bool)
    (savedRegs : List (RegisterSources × Nat)) : Option (Run InsnString) :=
  match get_insn env.CS_OPT_DISASM_PSEUDOINSNS insn with
  | .fault => some .fault
  | .ret none => some (.ret ⟨[.unimpl (raw insn)], fname, savedRegs⟩)
  | .ret (some info) =>
    match cs_insn_loop env addr insn info format info.fmt.toList 0
        ⟨[], env.colors.COLOR_RGBA32_NONE, false, fname, clear_saved_reg_buffer⟩ with
    | none => none
    | some .fault => some .fault
    | some (.ret (s, unimpl)) =>
      some (.ret ⟨if unimpl then s.str ++ [.unimpl (raw insn)] else s.str, s.fname,
        s.savedRegs⟩)

/-! ## Layout of the formatted string -/

/-- What a piece of `insn_as_string` is in the layout of the string: the
mnemonic, a separator, an operand (register, immediate, offset or address),
the base register that closes an operand, or the placeholder; a colour code is
no text. -/
inductive PieceKind where
  | mnemonic
  | separator
  | operand
  | base
  | unimpl
deriving DecidableEq, Repr

/-- The kind of a piece; `none` for a colour code. -/
def Piece.kind : Piece → Option PieceKind
  | .color _ => none
  | .nop _ => some .mnemonic
  | .name _ => some .mnemonic
  | .nameFormat _ _ => some .mnemonic
  | .separator => some .separator
  | .reg _ _ => some .operand
  | .base _ _ => some .base
  | .immediate _ _ => some .operand
  | .offset _ _ => some .operand
  | .function _ => some .operand
  | .unimpl _ => some .unimpl

/-- The layout of a string: the kinds of its pieces, colour codes left out. -/
def layout (str : List Piece) : List PieceKind := str.filterMap Piece.kind

/-- Following the spec: the directives of a format that stand for an operand of
the instruction (register, immediate, shift amount, branch offset, jump
target); the base register `(` closes the operand before it. -/
def is_operand_directive (c : Char) : Bool :=
  c = CHAR_P_RS || c = CHAR_P_RT || c = CHAR_P_RD || c = CHAR_P_IMM || c = CHAR_P_NIMM
    || c = CHAR_P_SHIFT || c = CHAR_P_BRANCH || c = CHAR_P_COP0D || c = CHAR_P_FT
    || c = CHAR_P_FS || c = CHAR_P_FD || c = CHAR_P_FUNC

/-- Following the spec: the comma-separated operands of a format, each with
the kinds of the pieces it prints: an operand, with the base register when
the next directive is `(`. -/
def operand_groups : List Char → List (List PieceKind)
  | [] => []
  | [c] => if is_operand_directive c then [[.operand]] else []
  | c :: c2 :: rest =>
    if is_operand_directive c then
      if c2 = CHAR_P_BASE then [.operand, .base] :: operand_groups rest
      else [.operand] :: operand_groups (c2 :: rest)
    else operand_groups (c2 :: rest)

/-- Following the spec: the layout of a formatted instruction: the mnemonic,
then the operands with a separator between successive operands and nowhere
else. -/
def separated_layout (groups : List (List PieceKind)) : List PieceKind :=
  .mnemonic :: List.intercalate [.separator] groups

/-- The pieces one command of the format prints, by kind; `named` says that a
jump target is replaced by the name of its function. -/
def command_layout (c : Char) (named : Bool) : List PieceKind :=
  if c = CHAR_P_NOP || c = CHAR_P_NAME || c = CHAR_P_NAMEF then [.mnemonic]
  else if c = CHAR_P_BASE then [.base]
  else if c = CHAR_P_FUNC then (if named then [] else [.operand])
  else if is_operand_directive c then [.operand]
  else []

/-- Whether a command sets `separator`: the register operands do. -/
def sets_separator (c : Char) : Bool :=
  c = CHAR_P_RS || c = CHAR_P_RT || c = CHAR_P_RD || c = CHAR_P_COP0D || c = CHAR_P_FT
    || c = CHAR_P_FS || c = CHAR_P_FD

/-- The layout the loop of `cs_insn_to_string` produces for a format of known
directives, read off the loop: a pending separator is printed before the next
command, whatever it is, and NOP ends the string. -/
def loop_layout : List Char → Bool → Bool → List PieceKind
  | [], _, _ => []
  | c :: rest, separator, named =>
    (if separator then [.separator] else [])
      ++ (if c = CHAR_P_NOP then [.mnemonic]
          else command_layout c named ++ loop_layout rest (sets_separator c) named)

/-- Whether a character is one of the directives of the `switch`. -/
def is_directive (c : Char) : Bool :=
  c = CHAR_P_NOP || c = CHAR_P_NAME || c = CHAR_P_NAMEF || c = CHAR_P_BASE
    || is_operand_directive c

/-- Every template of the instruction tables and of `insn_db_pseudo`. -/
def all_templates : List InsnTemplate :=
  insn_db_standard ++ insn_db_spec ++ insn_db_regi ++ insn_db_cop0_sub00 ++ insn_db_cop0_sub10
    ++ insn_db_cop1_sub00 ++ insn_db_cop1_sub01 ++ insn_db_cop1_sub10
    ++ [PSEUDO_NOP, PSEUDO_MOVET, PSEUDO_MOVES, PSEUDO_B, PSEUDO_BEQZ, PSEUDO_BNEZ, PSEUDO_LI,
      PSEUDO_SUBI, PSEUDO_BEQZL, PSEUDO_BNEZL, PSEUDO_DSUBI].map insn_db_pseudo

/-! ## Pseudo-instruction guards -/

/-- The guards of the `switch` of `check_pseudo_instructions` for a word: the
arguments `(id, cond)` of the `check_pseudo_insn` calls under the `case` that
the opcode and the function code of the word select, in source order. -/
def pseudo_guards (insn : Nat) : List (PseudoInsns × Bool) :=
  if opcode insn = OPC_SPECIAL then
    if func insn = OPS_ADD then
      [(PSEUDO_MOVES, decide (rt insn = 0)), (PSEUDO_MOVET, decide (rs insn = 0))]
    else if func insn = OPS_OR then [(PSEUDO_MOVES, decide (rt insn = 0))]
    else []
  else if opcode insn = OPC_BEQ then
    [(PSEUDO_B, decide (rs insn = rt insn)), (PSEUDO_BEQZ, decide (rt insn = 0))]
  else if opcode insn = OPC_BNE then [(PSEUDO_BNEZ, decide (rt insn = 0))]
  else if opcode insn = OPC_ADDI then
    [(PSEUDO_LI, decide (rs insn = 0)), (PSEUDO_SUBI, decide (toS16 (immediate insn) < 0))]
  else if opcode insn = OPC_ADDIU then [(PSEUDO_LI, decide (rs insn = 0))]
  else if opcode insn = OPC_BEQL then [(PSEUDO_BEQZL, decide (rt insn = 0))]
  else if opcode insn = OPC_BNEL then [(PSEUDO_BNEZL, decide (rt insn = 0))]
  else if opcode insn = OPC_DADDI then [(PSEUDO_DSUBI, decide (toS16 (immediate insn) < 0))]
  else []

/-- The guards of a word that are satisfied. -/
def satisfied_guards (insn : Nat) : List PseudoInsns :=
  ((pseudo_guards insn).filter (·.2)).map (·.1)


/-! ## Fault capture: the crashed thread -/

/-- Modelled from the spec: an `OSThread` of the operating system library,
declared outside the sources: the fields `crash_main.c` reads. `id` stands for
the address of the thread, `cause` and `pc` for `context.cause` and
`context.pc`. -/
structure OSThread where
  id : Nat
  priority : Int
  flags : Nat
  cause : Nat
  pc : Nat
deriving DecidableEq, Repr

/-- Modelled from the spec: the constants of the operating system library that
`crash_main.c` names and that are defined outside the sources, as
parameters. -/
structure OSConstants where
  OS_PRIORITY_THREADTAIL : Int
  OS_PRIORITY_IDLE : Int
  OS_PRIORITY_APPMAX : Int
  OS_FLAG_CPU_BREAK : Nat
  OS_FLAG_FAULT : Nat
  EXC_SYSCALL : Nat
  EXC_II : Nat
  THREAD_1000_CRASH_SCREEN_0 : Nat

/-- Iterates through the active thread queue for a user thread with either the
CPU break or Fault flag set. The queue is the list of the threads reached from
`__osGetCurrFaultedThread()` along `tlnext`, the end of the list being `NULL`;
`gCrashedThread` is compared as a pointer. -/
def get_crashed_thread (os : OSConstants) (gCrashedThread : Option OSThread) :
    List OSThread → Option OSThread
  | [] => none
  | thread :: tlnext =>
    if thread.priority = os.OS_PRIORITY_THREADTAIL then none
    else if thread.priority > os.OS_PRIORITY_IDLE
        ∧ thread.priority < os.OS_PRIORITY_APPMAX
        ∧ thread.flags &&& (os.OS_FLAG_CPU_BREAK ||| os.OS_FLAG_FAULT) ≠ 0
        ∧ some thread.id ≠ gCrashedThread.map (·.id) then some thread
    else get_crashed_thread os gCrashedThread tlnext

/-- Following the spec: a thread in the user priority band that has the
CPU-break or the fault flag set and is not the thread already under
diagnosis. -/
def is_crash_candidate (os : OSConstants) (gCrashedThread : Option OSThread)
    (thread : OSThread) : Bool :=
  decide (os.OS_PRIORITY_IDLE < thread.priority)
    && decide (thread.priority < os.OS_PRIORITY_APPMAX)
    && (decide (thread.flags &&& os.OS_FLAG_CPU_BREAK ≠ 0)
      || decide (thread.flags &&& os.OS_FLAG_FAULT ≠ 0))
    && decide (some thread.id ≠ gCrashedThread.map (·.id))


/-! ## Fault capture: the ring of crash screen threads

`crash_main.c` without the optional blocks under `UNF` and
`FUNNY_CRASH_SOUND`. A call of a function defined outside `crash_main.c` is
recorded in the list `calls` of the state, in program order. -/

/-- The number of crash screen threads that are cycled through
(`crash_types.h`). -/
abbrev NUM_CRASH_SCREEN_BUFFERS : Nat := 3

/-- The pages of `enum CSPages`; `PAGE_MAP_VIEWER` exists in builds with the
debug map only. -/
inductive CSPages where
  | PAGE_HOME
  | PAGE_CONTEXT
  | PAGE_LOGS
  | PAGE_STACK_TRACE
  | PAGE_MAP_VIEWER
  | PAGE_RAM_VIEWER
  | PAGE_DISASM
  | PAGE_SETTINGS
  | PAGE_ABOUT
deriving DecidableEq, Repr

/-- The page shown first (`crash_pages.h`). -/
abbrev CRASH_SCREEN_START_PAGE : CSPages := .PAGE_HOME

/-- The flags of a `CSPage`. -/
structure CSPageFlags where
  crashed : Bool
  initialized : Bool
deriving DecidableEq, Repr

/-- Modelled from the spec: the messages a crash screen thread receives; their
values are defined outside the sources. -/
inductive CSMesg where
  | CRASH_SCREEN_MSG_VI_VBLANK
  | CRASH_SCREEN_MSG_CPU_BREAK
  | CRASH_SCREEN_MSG_SP_BREAK
  | CRASH_SCREEN_MSG_FAULT
deriving DecidableEq, Repr

/-- Modelled from the spec: the three fault-class events of the operating
system that the thread subscribes to. -/
inductive OSEvent where
  | OS_EVENT_CPU_BREAK
  | OS_EVENT_SP_BREAK
  | OS_EVENT_FAULT
deriving DecidableEq, Repr

/-- Where the thread of a slot is in `crash_screen_thread_entry`: created and
started but not yet run, in the loop that waits for a crash, in the loop
that shows the crash screen, or stopped by a fault of its own before it got
there. -/
inductive CSThreadPhase where
  | started
  | waiting
  | active
  | stopped
deriving DecidableEq, Repr

/-- A `CSThreadInfo`, one slot of `sCSThreadInfos`: the thread (id and
priority given to `osCreateThread`; `none` in a zeroed slot), what its stack
holds (where the thread is, and its local variable `threadInfo` as a slot
number), the message queue of capacity 1 and the message received last. -/
structure CSThreadInfo where
  thread : Option (Nat × Int)
  phase : Option CSThreadPhase
  threadInfo : Option Nat
  mesgQueue : Option CSMesg
  mesg : Option CSMesg
deriving DecidableEq, Repr

/-- The calls `crash_main.c` makes to functions defined outside it. -/
inductive CSCall where
  | cs_settings_apply_func_to_all_reset
  | cs_settings_set_all_headers (expand : Bool)
  | osViSetEvent (slot : Nat)
  | cs_set_page (page : CSPages)
  | cs_take_screenshot_of_game
  | map_data_init
  | osCreateMesgQueue (slot : Nat)
  | osCreateThread (slot : Nat) (id : Nat) (priority : Int)
  | osStartThread (slot : Nat)
  | osSetEventMesg (event : OSEvent) (slot : Nat) (mesg : CSMesg)
deriving DecidableEq, Repr

/-- The variables of `crash_main.c` and the globals it writes, with the event
table of the operating system (`osEvents`: the queue and the message
registered for each event) and the record of the outside calls. A pointer to a
`CSThreadInfo` is its slot number; a pointer to a thread is given with the
thread it points to. -/
structure CSState where
  sCSThreadInfos : Nat → CSThreadInfo
  sCSThreadIndex : Nat
  sFirstCrash : Bool
  gActiveCSThreadInfo : Option Nat
  gCrashedThread : Option OSThread
  gInspectThread : Option OSThread
  gSetCrashAddress : Nat
  gSelectedAddress : Nat
  gCSPageID : CSPages
  gCSSwitchedPage : Bool
  gCSPopupID : Nat
  gCSSwitchedPopup : Bool
  gCSDirectionFlags : Nat
  gCSPages : CSPages → CSPageFlags
  osEvents : OSEvent → Option (Nat × CSMesg)
  calls : List CSCall

/-- The state the initialisers of `crash_main.c` give: every slot zeroed, index
0, `sFirstCrash` true, the pointers `NULL`; no page crashed or initialised, the
start page current, no event registered. -/
def cs_initial : CSState :=
  { sCSThreadInfos := fun _ => ⟨none, none, none, none, none⟩
    sCSThreadIndex := 0
    sFirstCrash := true
    gActiveCSThreadInfo := none
    gCrashedThread := none
    gInspectThread := none
    gSetCrashAddress := 0
    gSelectedAddress := 0
    gCSPageID := CRASH_SCREEN_START_PAGE
    gCSSwitchedPage := false
    gCSPopupID := 0
    gCSSwitchedPopup := false
    gCSDirectionFlags := 0
    gCSPages := fun _ => ⟨false, false⟩
    osEvents := fun _ => none
    calls := [] }

/-- Reinitialize all of the crash screen's pages. -/
def cs_reinitialize_pages (s : CSState) : CSState :=
  { s with gCSPages := fun pageID => { s.gCSPages pageID with initialized := false } }

/-- Modelled from the spec: `cs_get_current_page`, defined outside the
sources, returns the page `gCSPages[gCSPageID]`. -/
def cs_get_current_page (s : CSState) : CSPages := s.gCSPageID

/-- Modelled from the spec: `cs_set_page`, defined outside the sources, makes
the page the current page. -/
def cs_set_page (s : CSState) (page : CSPages) : CSState :=
  { s with
    gCSPageID := page, gCSSwitchedPage := true
    calls := s.calls ++ [CSCall.cs_set_page page] }

/-- Reinitialize the crash screen's global variables, settings, buffers, etc.
It faults when `gCrashedThread` is `NULL` and has to be read. -/
def cs_reinitialize (os : OSConstants) (s : CSState) : Run CSState :=
  let crashed : Run Bool :=
    if s.sFirstCrash then .ret false
    else
      match s.gCrashedThread with
      | none => .fault
      | some thread => .ret (decide (thread.cause ≠ os.EXC_SYSCALL))
  match crashed with
  | .fault => .fault
  | .ret crashed =>
    let s :=
      if crashed then
        { s with gCSPages := fun page =>
            if page = cs_get_current_page s then { s.gCSPages page with crashed := true }
            else s.gCSPages page }
      else s
    let s := { s with
      gCSPageID := CRASH_SCREEN_START_PAGE, gCSSwitchedPage := false,
      gCSPopupID := 0, gCSSwitchedPopup := false }
    let s :=
      if s.sFirstCrash then
        { s with calls := s.calls ++ [CSCall.cs_settings_apply_func_to_all_reset] }
      else s
    let s := { s with calls := s.calls ++ [CSCall.cs_settings_set_all_headers false] }
    let s := { s with gSelectedAddress := 0, gCSDirectionFlags := 0 }
    .ret (cs_reinitialize_pages s)

/-- Create a crash screen thread in the slot `sCSThreadIndex`: the slot is
zeroed, its queue created empty, and its thread created and started. An index
outside the array is a fault. -/
def create_crash_screen_thread (os : OSConstants) (s : CSState) : Run CSState :=
  if s.sCSThreadIndex < NUM_CRASH_SCREEN_BUFFERS then
    .ret { s with
      sCSThreadInfos := fun slot =>
        if slot = s.sCSThreadIndex then
          ⟨some (os.THREAD_1000_CRASH_SCREEN_0 + s.sCSThreadIndex, os.OS_PRIORITY_APPMAX - 1),
            some .started, none, none, none⟩
        else s.sCSThreadInfos slot
      calls := s.calls ++ [CSCall.osCreateMesgQueue s.sCSThreadIndex,
        CSCall.osCreateThread s.sCSThreadIndex (os.THREAD_1000_CRASH_SCREEN_0 + s.sCSThreadIndex)
          (os.OS_PRIORITY_APPMAX - 1),
        CSCall.osStartThread s.sCSThreadIndex] }
  else .fault

/-- The part of `on_crash` after `create_crash_screen_thread()`, from
`gActiveCSThreadInfo = threadInfo` on. It faults when `gInspectThread` is
`NULL`. -/
def on_crash_session (os : OSConstants) (INCLUDE_DEBUG_MAP : Bool) (threadInfo : Nat)
    (s : CSState) : Run CSState :=
  let s := { s with gActiveCSThreadInfo := some threadInfo }
  match cs_reinitialize os s with
  | .fault => .fault
  | .ret s =>
    let s := { s with calls := s.calls ++ [CSCall.osViSetEvent threadInfo] }
    match s.gInspectThread with
    | none => .fault
    | some tc =>
      let s := if tc.cause = os.EXC_II then cs_set_page s .PAGE_DISASM else s
      if s.sFirstCrash then
        let s := { s with sFirstCrash := false }
        let setPc := decide (s.gSetCrashAddress ≠ 0)
        let tc := if setPc then { tc with pc := s.gSetCrashAddress } else tc
        let s :=
          if setPc then
            cs_set_page { s with
              gInspectThread := some tc
              gCrashedThread := s.gCrashedThread.map
                (fun (t : OSThread) => if t.id = tc.id then { t with pc := tc.pc } else t)
              gSetCrashAddress := 0 } .PAGE_RAM_VIEWER
          else s
        let s := { s with calls := s.calls ++ [CSCall.cs_take_screenshot_of_game] }
        let s :=
          if INCLUDE_DEBUG_MAP then { s with calls := s.calls ++ [CSCall.map_data_init] } else s
        .ret { s with gSelectedAddress := tc.pc }
      else .ret { s with gSelectedAddress := tc.pc }

/-- Runs once on every crash: first `create_crash_screen_thread()`, then the
rest. -/
def on_crash (os : OSConstants) (INCLUDE_DEBUG_MAP : Bool) (threadInfo : Nat) (s : CSState) :
    Run CSState :=
  match create_crash_screen_thread os s with
  | .fault => .fault
  | .ret s => on_crash_session os INCLUDE_DEBUG_MAP threadInfo s

/-- Modelled from the spec: `osSetEventMesg` of the operating system library
registers a queue and a message for an event, replacing what was registered
before. -/
def osSetEventMesg (s : CSState) (event : OSEvent) (slot : Nat) (mesg : CSMesg) : CSState :=
  { s with
    osEvents := fun e => if e = event then some (slot, mesg) else s.osEvents e
    calls := s.calls ++ [CSCall.osSetEventMesg event slot mesg] }

/-- Modelled from the spec: the operating system raises an event: the message
registered for it is sent to the queue registered for it; nothing is
registered, or the queue of capacity 1 is full, and nothing changes. -/
def os_send_event (event : OSEvent) (s : CSState) : CSState :=
  match s.osEvents event with
  | none => s
  | some (slot, mesg) =>
    match (s.sCSThreadInfos slot).mesgQueue with
    | some _ => s
    | none =>
      { s with sCSThreadInfos := fun k =>
          if k = slot then { s.sCSThreadInfos k with mesgQueue := some mesg }
          else s.sCSThreadInfos k }

/-- The start of `crash_screen_thread_entry`, run by the thread of slot `self`
up to its first `osRecvMesg`: it takes the slot `sCSThreadIndex`, increments
the index and registers its queue for the three events. -/
def crash_screen_thread_entry_begin (self : Nat) (s : CSState) : Run CSState :=
  if s.sCSThreadIndex < NUM_CRASH_SCREEN_BUFFERS then
    let threadInfo := s.sCSThreadIndex
    let s := { s with sCSThreadIndex := (s.sCSThreadIndex + 1) % NUM_CRASH_SCREEN_BUFFERS }
    let s := osSetEventMesg s .OS_EVENT_CPU_BREAK threadInfo .CRASH_SCREEN_MSG_CPU_BREAK
    let s := osSetEventMesg s .OS_EVENT_SP_BREAK threadInfo .CRASH_SCREEN_MSG_SP_BREAK
    let s := osSetEventMesg s .OS_EVENT_FAULT threadInfo .CRASH_SCREEN_MSG_FAULT
    .ret { s with sCSThreadInfos := fun k =>
      if k = self then
        { s.sCSThreadInfos k with phase := some .waiting, threadInfo := some threadInfo }
      else s.sCSThreadInfos k }
  else .fault

/-- One turn of the loop of `crash_screen_thread_entry` that waits for a
crash, run by the thread of slot `self`, and what follows when a crashed
thread is found: `osRecvMesg` blocks while the queue is empty (the state is
unchanged); with a message, `get_crashed_thread` looks at the thread queue
`queue`; without a crashed thread the thread keeps waiting, with one it
records it, runs `on_crash` and enters the loop of the open crash screen. A
thread that is not waiting does nothing here. -/
def crash_screen_thread_entry_recv (os : OSConstants) (INCLUDE_DEBUG_MAP : Bool)
    (self : Nat) (queue : List OSThread) (s : CSState) : Run CSState :=
  if (s.sCSThreadInfos self).phase ≠ some .waiting then .ret s
  else
    match (s.sCSThreadInfos self).threadInfo with
    | none => .fault
    | some threadInfo =>
      if threadInfo < NUM_CRASH_SCREEN_BUFFERS then
        match (s.sCSThreadInfos threadInfo).mesgQueue with
        | none => .ret s
        | some mesg =>
          let s := { s with sCSThreadInfos := fun k =>
            if k = threadInfo then
              { s.sCSThreadInfos k with mesgQueue := none, mesg := some mesg }
            else s.sCSThreadInfos k }
          match get_crashed_thread os s.gCrashedThread queue with
          | none => .ret s
          | some crashedThread =>
            let s := { s with
              gCrashedThread := some crashedThread, gInspectThread := some crashedThread }
            match on_crash os INCLUDE_DEBUG_MAP threadInfo s with
            | .fault => .fault
            | .ret s =>
              .ret { s with sCSThreadInfos := fun k =>
                if k = self then { s.sCSThreadInfos k with phase := some .active }
                else s.sCSThreadInfos k }
      else .fault

/-! ## Fault capture: a run of `on_crash` cut short by a fault

The crash screen thread can fault while it runs `on_crash`; `on_crash` arms
the next thread "in case the current one crashes". The run then stops where it
is. `cut` is the number of statements of `on_crash` that have run when the
fault stops the thread, those of `cs_reinitialize` counted one by one. -/

/-- One statement of a run that a fault may cut short. The first component
counts the statements still to run before the fault: at 0 the thread has
stopped and the statement does nothing. -/
def cs_statement (f : CSState → Run CSState) : Run (Nat × CSState) → Run (Nat × CSState)
  | .fault => .fault
  | .ret (0, s) => .ret (0, s)
  | .ret (cut + 1, s) =>
    match f s with
    | .fault => .fault
    | .ret s => .ret (cut, s)

/-- The statements of `cs_reinitialize`, one by one: the test that marks the
page that crashed (lines 55 to 57), the page and popup variables (59 to 62),
the reset of the settings on the first crash (64 to 66),
`cs_settings_set_all_headers(FALSE)` (67), `gSelectedAddress` and
`gCSDirectionFlags` (69 and 71), `cs_reinitialize_pages()` (73). -/
def cs_reinitialize_cut (os : OSConstants) (r : Run (Nat × CSState)) : Run (Nat × CSState) :=
  let r := cs_statement (fun s =>
    if s.sFirstCrash then .ret s
    else
      match s.gCrashedThread with
      | none => .fault
      | some thread =>
        if thread.cause ≠ os.EXC_SYSCALL then
          .ret { s with gCSPages := fun page =>
            if page = cs_get_current_page s then { s.gCSPages page with crashed := true }
            else s.gCSPages page }
        else .ret s) r
  let r := cs_statement (fun s => .ret { s with
    gCSPageID := CRASH_SCREEN_START_PAGE, gCSSwitchedPage := false,
    gCSPopupID := 0, gCSSwitchedPopup := false }) r
  let r := cs_statement (fun s =>
    if s.sFirstCrash then
      .ret { s with calls := s.calls ++ [CSCall.cs_settings_apply_func_to_all_reset] }
    else .ret s) r
  let r := cs_statement (fun s =>
    .ret { s with calls := s.calls ++ [CSCall.cs_settings_set_all_headers false] }) r
  let r := cs_statement (fun s =>
    .ret { s with gSelectedAddress := 0, gCSDirectionFlags := 0 }) r
  cs_statement (fun s => .ret (cs_reinitialize_pages s)) r

/-- The function `on_crash`, stopped by a fault after `cut` of its statements:
`create_crash_screen_thread()` (line 145), `gActiveCSThreadInfo` (148), the six
statements of `cs_reinitialize()` (151), `osViSetEvent` (153), the test of the
cause with `cs_set_page(PAGE_DISASM)` (159 to 164), then inside
`if (sFirstCrash)` the statements `sFirstCrash = FALSE` (168), the block of
`gSetCrashAddress` (171 to 175), `cs_take_screenshot_of_game` (178) and, in
builds with the debug map, `map_data_init()` (181), and last
`gSelectedAddress = tc->pc` (189). With `cut` 15 or more the run is the whole
of `on_crash`. The result is the state the thread leaves behind. -/
def on_crash_cut (os : OSConstants) (INCLUDE_DEBUG_MAP : Bool) (threadInfo : Nat) (cut : Nat)
    (s : CSState) : Run CSState :=
  let r : Run (Nat × CSState) := .ret (cut, s)
  let r := cs_statement (create_crash_screen_thread os) r
  let r := cs_statement (fun s => .ret { s with gActiveCSThreadInfo := some threadInfo }) r
  let r := cs_reinitialize_cut os r
  let r := cs_statement (fun s =>
    .ret { s with calls := s.calls ++ [CSCall.osViSetEvent threadInfo] }) r
  let r := cs_statement (fun s =>
    match s.gInspectThread with
    | none => .fault
    | some tc => .ret (if tc.cause = os.EXC_II then cs_set_page s .PAGE_DISASM else s)) r
  let r :=
    match r with
    | .fault => .fault
    | .ret (cut, s) =>
      if s.sFirstCrash then
        let r := cs_statement (fun s => .ret { s with sFirstCrash := false }) (.ret (cut, s))
        let r := cs_statement (fun s =>
          match s.gInspectThread with
          | none => .fault
          | some tc =>
            if s.gSetCrashAddress ≠ 0 then
              .ret (cs_set_page { s with
                gInspectThread := some { tc with pc := s.gSetCrashAddress }
                gCrashedThread := s.gCrashedThread.map
                  (fun (t : OSThread) =>
                    if t.id = tc.id then { t with pc := s.gSetCrashAddress } else t)
                gSetCrashAddress := 0 } .PAGE_RAM_VIEWER)
            else .ret s) r
        let r := cs_statement (fun s =>
          .ret { s with calls := s.calls ++ [CSCall.cs_take_screenshot_of_game] }) r
        if INCLUDE_DEBUG_MAP then
          cs_statement (fun s => .ret { s with calls := s.calls ++ [CSCall.map_data_init] }) r
        else r
      else .ret (cut, s)
  let r := cs_statement (fun s =>
    match s.gInspectThread with
    | none => .fault
    | some tc => .ret { s with gSelectedAddress := tc.pc }) r
  match r with
  | .fault => .fault
  | .ret (_, s) => .ret s

/-- A turn of the waiting loop of `crash_screen_thread_entry`, run by the
thread of slot `self`, in which the thread faults after `cut` statements of
`on_crash`: as `crash_screen_thread_entry_recv` up to the call of `on_crash`;
the thread is stopped afterwards and does not reach the loop of the open crash
screen. -/
def crash_screen_thread_entry_recv_cut (os : OSConstants) (INCLUDE_DEBUG_MAP : Bool)
    (self : Nat) (queue : List OSThread) (cut : Nat) (s : CSState) : Run CSState :=
  if (s.sCSThreadInfos self).phase ≠ some .waiting then .ret s
  else
    match (s.sCSThreadInfos self).threadInfo with
    | none => .fault
    | some threadInfo =>
      if threadInfo < NUM_CRASH_SCREEN_BUFFERS then
        match (s.sCSThreadInfos threadInfo).mesgQueue with
        | none => .ret s
        | some mesg =>
          let s := { s with sCSThreadInfos := fun k =>
            if k = threadInfo then
              { s.sCSThreadInfos k with mesgQueue := none, mesg := some mesg }
            else s.sCSThreadInfos k }
          match get_crashed_thread os s.gCrashedThread queue with
          | none => .ret s
          | some crashedThread =>
            let s := { s with
              gCrashedThread := some crashedThread, gInspectThread := some crashedThread }
            match on_crash_cut os INCLUDE_DEBUG_MAP threadInfo cut s with
            | .fault => .fault
            | .ret s =>
              .ret { s with sCSThreadInfos := fun k =>
                if k = self then { s.sCSThreadInfos k with phase := some .stopped }
                else s.sCSThreadInfos k }
      else .fault


/-! ## Fault capture: the steps of the crash screen -/

/-- The message `crash_screen_thread_entry` registers for each event. -/
def cs_event_mesg : OSEvent → CSMesg
  | .OS_EVENT_CPU_BREAK => .CRASH_SCREEN_MSG_CPU_BREAK
  | .OS_EVENT_SP_BREAK => .CRASH_SCREEN_MSG_SP_BREAK
  | .OS_EVENT_FAULT => .CRASH_SCREEN_MSG_FAULT

/-- Values for the constants of the operating system headers, those of
libultra (`OS_PRIORITY_APPMAX` 127, `EXC_SYSCALL` 8 << 2, `EXC_II` 10 << 2),
with 1000 for the first crash screen thread id: the theorems hold for all
values, the evaluations on concrete inputs use these. -/
def ultra_constants : OSConstants :=
  { OS_PRIORITY_THREADTAIL := -1
    OS_PRIORITY_IDLE := 0
    OS_PRIORITY_APPMAX := 127
    OS_FLAG_CPU_BREAK := 1
    OS_FLAG_FAULT := 2
    EXC_SYSCALL := 32
    EXC_II := 40
    THREAD_1000_CRASH_SCREEN_0 := 1000 }

/-- The one-time actions of the first crash. -/
def is_first_crash_call (c : CSCall) : Bool :=
  c = CSCall.cs_settings_apply_func_to_all_reset || c = CSCall.cs_take_screenshot_of_game
    || c = CSCall.map_data_init

/-- One step of the crash screen: the start of the thread of a slot that was
started, a turn of the waiting loop of a thread that waits, with `on_crash`
run to its end or cut short by a fault of the thread after any number of its
statements, an event raised by the operating system, or code outside
`crash_main.c` writing the globals it can name (not the `static` variables of
`crash_main.c`, the event table or the record of calls). -/
inductive CSStep (os : OSConstants) (INCLUDE_DEBUG_MAP : Bool) : CSState → CSState → Prop where
  | entry_begin (s s' : CSState) (self : Nat) :
      self < NUM_CRASH_SCREEN_BUFFERS → (s.sCSThreadInfos self).phase = some .started →
      crash_screen_thread_entry_begin self s = .ret s' → CSStep os INCLUDE_DEBUG_MAP s s'
  | entry_recv (s s' : CSState) (self : Nat) (queue : List OSThread) :
      self < NUM_CRASH_SCREEN_BUFFERS → (s.sCSThreadInfos self).phase = some .waiting →
      crash_screen_thread_entry_recv os INCLUDE_DEBUG_MAP self queue s = .ret s' →
      CSStep os INCLUDE_DEBUG_MAP s s'
  | entry_recv_cut (s s' : CSState) (self : Nat) (queue : List OSThread) (cut : Nat) :
      self < NUM_CRASH_SCREEN_BUFFERS → (s.sCSThreadInfos self).phase = some .waiting →
      crash_screen_thread_entry_recv_cut os INCLUDE_DEBUG_MAP self queue cut s = .ret s' →
      CSStep os INCLUDE_DEBUG_MAP s s'
  | event (s : CSState) (event : OSEvent) :
      CSStep os INCLUDE_DEBUG_MAP s (os_send_event event s)
  | outside (s s' : CSState) :
      s'.sCSThreadInfos = s.sCSThreadInfos → s'.sCSThreadIndex = s.sCSThreadIndex →
      s'.sFirstCrash = s.sFirstCrash → s'.osEvents = s.osEvents → s'.calls = s.calls →
      CSStep os INCLUDE_DEBUG_MAP s s'

/-- The states the crash screen can be in: the state after the one call of
`create_crash_screen_thread` at startup, and from there any number of steps. -/
inductive CSReachable (os : OSConstants) (INCLUDE_DEBUG_MAP : Bool) : CSState → Prop where
  | startup (s : CSState) :
      create_crash_screen_thread os cs_initial = .ret s → CSReachable os INCLUDE_DEBUG_MAP s
  | step (s s' : CSState) :
      CSReachable os INCLUDE_DEBUG_MAP s → CSStep os INCLUDE_DEBUG_MAP s s' →
      CSReachable os INCLUDE_DEBUG_MAP s'

/-- The invariant of the ring: the index is inside the ring; a thread that was
started and has not run is the one of the slot `sCSThreadIndex`; a waiting
thread listens on its own slot, is the one of the slot before
`sCSThreadIndex`, no thread is started and not run while it waits, and the
three events are registered to its slot. -/
def cs_ring_invariant (s : CSState) : Prop :=
  s.sCSThreadIndex < NUM_CRASH_SCREEN_BUFFERS
    ∧ (∀ k, (s.sCSThreadInfos k).phase = some .started → k = s.sCSThreadIndex)
    ∧ (∀ k, (s.sCSThreadInfos k).phase = some .waiting →
        (s.sCSThreadInfos k).threadInfo = some k ∧ k < NUM_CRASH_SCREEN_BUFFERS
          ∧ (k + 1) % NUM_CRASH_SCREEN_BUFFERS = s.sCSThreadIndex
          ∧ (s.sCSThreadInfos s.sCSThreadIndex).phase ≠ some .started
          ∧ ∀ e, s.osEvents e = some (k, cs_event_mesg e))


/-- The crash screen after startup and the start of the thread of slot 0: the
thread waits for a crash. -/
def cs_armed (os : OSConstants) : Run CSState :=
  match create_crash_screen_thread os cs_initial with
  | .fault => .fault
  | .ret s => crash_screen_thread_entry_begin 0 s

/-- A game thread that faulted, for the evaluations on concrete inputs: id 5,
priority 10, `OS_FLAG_FAULT` set. -/
def cs_sample_game_thread : OSThread :=
  { id := 5, priority := 10, flags := 2, cause := 8, pc := 0x80001000 }

/-- The crash screen thread of slot 0 faulting while it shows the crash screen,
for the evaluations on concrete inputs: id 1000, priority 126, `OS_FLAG_FAULT`
set. -/
def cs_sample_crash_screen_thread : OSThread :=
  { id := 1000, priority := 126, flags := 2, cause := 12, pc := 0x80002000 }

/-- A second game thread that faulted, for the evaluations on concrete inputs:
id 4, priority 20, `OS_FLAG_FAULT` set. -/
def cs_sample_second_game_thread : OSThread :=
  { id := 4, priority := 20, flags := 2, cause := 16, pc := 0x80003000 }

/-! ## Disassembly page: the branch arrow buffer

`disasm_fill_branch_buffer` of `page_disasm.c`, which exists in builds with
the debug map. The state carries the record `reads` of the addresses the code
reads directly (`*(Word*)addr`), in program order. -/

/-- Modelled from the spec: constants of `page_disasm.h`, which is not part of
the sources, as parameters: how far past the start of a function branches are
searched, the capacity of the arrow buffer and the size of an instruction. -/
structure DisasmConstants where
  DISASM_FUNCTION_SEARCH_MAX_OFFSET : Nat
  DISASM_BRANCH_BUFFER_SIZE : Nat
  PAGE_DISASM_STEP : Nat
deriving DecidableEq, Repr

/-- A `BranchArrow`, without its colour index and horizontal position: these
are drawing data, computed from the arrow before and read nowhere in the
loop. -/
structure BranchArrow where
  startAddr : Nat
  branchOffset : Int
deriving DecidableEq, Repr

/-- The branch arrow buffer: the arrows `sBranchArrows[0 .. sNumBranchArrows)`,
the address `sBranchBufferCurrAddr` where the search continues, and the
addresses read directly so far. -/
structure BranchBuffer where
  sBranchArrows : List BranchArrow
  sBranchBufferCurrAddr : Nat
  reads : List Nat
deriving DecidableEq, Repr

/-- Empty the arrow buffer and restart the search at `funcAddr`. -/
def reset_branch_buffer (funcAddr : Nat) (b : BranchBuffer) : BranchBuffer :=
  { b with sBranchArrows := [], sBranchBufferCurrAddr := funcAddr }

/-- One turn of the loop of `disasm_fill_branch_buffer`, up to the test of the
time: `false` with the buffer when the function returns `FALSE` in this turn,
`true` with the buffer when the turn reaches the test of the time. The word
at `sBranchBufferCurrAddr` is read directly from `mem`. The outer `none` is
the iteration bound of a symbol search used up. -/
def disasm_fill_branch_buffer_turn (c : DisasmConstants) (pseudoInsns : Bool)
    (sTextRegions : List AddressPair) (gMapSymbols : List MapSymbol)
    (try_read_word_aligned : Nat → Option Nat) (mem : Nat → Nat) (funcAddr : Nat)
    (b : BranchBuffer) : Option (Run (Bool × BranchBuffer)) :=
  if b.sBranchBufferCurrAddr > (funcAddr + c.DISASM_FUNCTION_SEARCH_MAX_OFFSET) % 2 ^ 32 then
    some (.ret (false, b))
  else if b.sBranchArrows.length ≥ c.DISASM_BRANCH_BUFFER_SIZE then some (.ret (false, b))
  else
    match get_map_symbol true try_read_word_aligned gMapSymbols b.sBranchBufferCurrAddr
        SYMBOL_SEARCH_FORWARD with
    | none => none
    | some .fault => some .fault
    | some (.ret symbol) =>
      let leftFunction : Run Bool :=
        match symbol with
        | none => .ret false
        | some index =>
          match gMapSymbols[index.toNat]? with
          | none => .fault
          | some symbol =>
            .ret (!is_in_code_segment sTextRegions symbol.addr || decide (funcAddr ≠ symbol.addr))
      match leftFunction with
      | .fault => some .fault
      | .ret true => some (.ret (false, b))
      | .ret false =>
        let insn := mem b.sBranchBufferCurrAddr
        let b := { b with reads := b.reads ++ [b.sBranchBufferCurrAddr] }
        match insn_check_for_branch_offset pseudoInsns insn with
        | .fault => some .fault
        | .ret branchOffset =>
          let b :=
            if branchOffset ≠ 0 then
              { b with sBranchArrows :=
                  b.sBranchArrows ++ [⟨b.sBranchBufferCurrAddr, branchOffset⟩] }
            else b
          some (.ret (true, { b with sBranchBufferCurrAddr :=
            (b.sBranchBufferCurrAddr + c.PAGE_DISASM_STEP) % 2 ^ 32 }))

/-- The loop of `disasm_fill_branch_buffer`. The test of the time at the end
of a turn, `(osGetTime() - startTime) > FRAMES_TO_CYCLES(1)`, is given by
`frame`, the number of further turns that fit into the frame: with none left
the function returns `TRUE`. -/
def disasm_fill_branch_buffer_loop (c : DisasmConstants) (pseudoInsns : Bool)
    (sTextRegions : List AddressPair) (gMapSymbols : List MapSymbol)
    (try_read_word_aligned : Nat → Option Nat) (mem : Nat → Nat) (funcAddr : Nat) :
    Nat → BranchBuffer → Option (Run (Bool × BranchBuffer))
  | frame, b =>
    match disasm_fill_branch_buffer_turn c pseudoInsns sTextRegions gMapSymbols
        try_read_word_aligned mem funcAddr b with
    | none => none
    | some .fault => some .fault
    | some (.ret (false, b)) => some (.ret (false, b))
    | some (.ret (true, b)) =>
      match frame with
      | 0 => some (.ret (true, b))
      | frame + 1 =>
        disasm_fill_branch_buffer_loop c pseudoInsns sTextRegions gMapSymbols
          try_read_word_aligned mem funcAddr frame b

/-- Fill the branch arrow buffer for the function `fname` at `funcAddr`:
whether to continue next frame, and the buffer. -/
def disasm_fill_branch_buffer (c : DisasmConstants) (pseudoInsns : Bool)
    (sTextRegions : List AddressPair) (gMapSymbols : List MapSymbol)
    (try_read_word_aligned : Nat → Option Nat) (mem : Nat → Nat) (fname : Option Nat)
    (funcAddr : Nat) (frame : Nat) (b : BranchBuffer) : Option (Run (Bool × BranchBuffer)) :=
  match fname with
  | none => some (.ret (false, b))
  | some _ =>
    disasm_fill_branch_buffer_loop c pseudoInsns sTextRegions gMapSymbols
      try_read_word_aligned mem funcAddr frame b

/-- The addresses `get_insn_branch_target_from_addr` reads directly: the
address itself when it is in a code segment, none otherwise. -/
def get_insn_branch_target_from_addr_reads (sTextRegions : List AddressPair) (addr : Nat) :
    List Nat :=
  if !is_in_code_segment sTextRegions addr then [] else [addr]

/-- The addresses one row of `disasm_draw_asm_entries` reads directly: none
when the guarded read of the row's address fails or the address is outside
the code segments; otherwise `print_as_insn` formats the word with
`cs_insn_to_string`, whose only direct read of memory is the one of
`get_insn_branch_target_from_addr` at the row's address (made for a branch
shown as an address, counted here for every word). -/
def disasm_draw_asm_entry_reads (sTextRegions : List AddressPair)
    (try_read_word_aligned : Nat → Option Nat) (addr : Nat) : List Nat :=
  match try_read_word_aligned addr with
  | none => []
  | some _ =>
    if is_in_code_segment sTextRegions addr then
      get_insn_branch_target_from_addr_reads sTextRegions addr
    else []

/-- A guarded read for the evaluations on concrete inputs: memory is the 4 MB
from `0x80000000`, every word of it 0; outside it the read fails. -/
def sample_try_read_word_aligned (addr : Nat) : Option Nat :=
  if 0x80000000 ≤ addr ∧ addr < 0x80400000 then some 0 else none

/-! ## Saved registers -/

/-- Following the spec: the register operand a directive of a format stands
for in a word, by register class and number; `none` for a directive that is no
register. -/
def register_operand (insn : Nat) (c : Char) : Option (RegisterSources × Nat) :=
  if c = CHAR_P_RS then some (.CPU, rs insn)
  else if c = CHAR_P_RT then some (.CPU, rt insn)
  else if c = CHAR_P_RD then some (.CPU, rd insn)
  else if c = CHAR_P_BASE then some (.CPU, rs insn)
  else if c = CHAR_P_COP0D then some (.COP0, rd insn)
  else if c = CHAR_P_FT then some (.COP1, rt insn)
  else if c = CHAR_P_FS then some (.COP1, rd insn)
  else if c = CHAR_P_FD then some (.COP1, sa insn)
  else none

/-- Following the spec: the register operands of a format at the positions
other than `out`, in the order of the format; `k` is the position of the first
directive of the list. -/
def read_register_operands (insn : Nat) (out : Nat) : List Char → Nat →
    List (RegisterSources × Nat)
  | [], _ => []
  | c :: rest, k =>
    (if k ≠ out then (register_operand insn c).toList else [])
      ++ read_register_operands insn out rest (k + 1)


/-! ## Address select popup

The part of `cs_address_select_input` of `popup_address_select.c` that changes
the digit of `sAddressSelectTarget` under the cursor, after the cursor has
moved. -/

/-- Modelled from the spec: the macro `GET_HEX_DIGIT`, defined outside the
sources: the hexadecimal digit of `src` at the bit position `shift`. -/
def GET_HEX_DIGIT (src shift : Nat) : Nat := src / 2 ^ shift % 16

/-- Modelled from the spec: the macro `SET_HEX_DIGIT`, defined outside the
sources: the 32-bit value `dst` with its hexadecimal digit at the bit position
`shift` replaced by `src`. -/
def SET_HEX_DIGIT (dst src shift : Nat) : Nat :=
  (dst - GET_HEX_DIGIT dst shift * 2 ^ shift + src * 2 ^ shift) % 2 ^ 32

/-- The loop `do { new = ((new + change) & BITMASK(BITS_PER_HEX)); } while
(SET_HEX_DIGIT(sAddressSelectTarget, new, shift) < VIRTUAL_RAM_START)`, run
for at most `fuel` turns from the digit `new`: the digit at the end, or `none`
when the loop is still running after `fuel` turns. `VIRTUAL_RAM_START` is
`RAM_START`, defined outside the sources, and is a parameter. -/
def address_select_digit_loop (VIRTUAL_RAM_START sAddressSelectTarget shift : Nat)
    (change : Int) : Nat → Nat → Option Nat
  | 0, _ => none
  | fuel + 1, new =>
    let new := (((new : Int) + change) % 16).toNat
    if SET_HEX_DIGIT sAddressSelectTarget new shift < VIRTUAL_RAM_START then
      address_select_digit_loop VIRTUAL_RAM_START sAddressSelectTarget shift change fuel new
    else some new

/-- The digit change of `cs_address_select_input` with the cursor at
`sAddressSelectCharIndex`: the new value of `sAddressSelectTarget`, or `none`
when the loop is still running after `fuel` turns. Down is tested after up and
overrides it. -/
def cs_address_select_input (VIRTUAL_RAM_START : Nat) (up down : Bool)
    (sAddressSelectTarget sAddressSelectCharIndex : Nat) (fuel : Nat) : Option Nat :=
  let shift := (32 - 4) - sAddressSelectCharIndex * 4
  let digit := GET_HEX_DIGIT sAddressSelectTarget shift
  let change : Int := if down then -1 else if up then 1 else 0
  let new : Option Nat :=
    if change ≠ 0 then
      address_select_digit_loop VIRTUAL_RAM_START sAddressSelectTarget shift change fuel digit
    else some digit
  match new with
  | none => none
  | some new =>
    if new ≠ digit then some (SET_HEX_DIGIT sAddressSelectTarget new shift)
    else some sAddressSelectTarget


/-! ## Disassembly page: a word drawn as binary (`page_disasm.c`)

`print_as_binary` draws one glyph for each turn of its loop. The model returns
the `cs_draw_glyph` calls in order, each as the x position and the glyph;
`charY` and the colour are passed through unchanged and left out. -/

/-- Modelled from the spec: `SIZEOF_BITS(Word)`, the macro is not in the
sources; a `Word` is a 32-bit value. -/
def SIZEOF_BITS_Word : Nat := 32

/-- Modelled from the spec: `SIZEOF_BITS(Byte)`, the macro is not in the
sources; a `Byte` has 8 bits. -/
def SIZEOF_BITS_Byte : Nat := 8

/-- The C expression `data >> s` on a 32-bit word. A shift by the width of the
type is undefined in C; its result is the parameter `shr32` applied to the
word. -/
def word_shift_right (shr32 : Nat → Nat) (data s : Nat) : Nat :=
  if s < 32 then data % 2 ^ 32 / 2 ^ s else shr32 data

/-- The loop of `print_as_binary` from turn `c` on, with `bitCharX` where the
loop has it. `TEXT_WIDTH_1` is `TEXT_WIDTH(1)`, whose macro is not in the
sources. -/
def print_as_binary_loop (TEXT_WIDTH_1 : Nat) (shr32 : Nat → Nat) (data : Nat) :
    Nat → Nat → Nat → List (Nat × Char)
  | 0, _, _ => []
  | fuel + 1, c, bitCharX =>
    if c < SIZEOF_BITS_Word then
      let bitCharX :=
        if c % SIZEOF_BITS_Byte = 0 then (bitCharX + TEXT_WIDTH_1) % 2 ^ 32 else bitCharX
      let glyph :=
        if word_shift_right shr32 data (SIZEOF_BITS_Word - c) % 2 ≠ 0 then '1' else '0'
      (bitCharX, glyph) ::
        print_as_binary_loop TEXT_WIDTH_1 shr32 data fuel (c + 1)
          ((bitCharX + TEXT_WIDTH_1) % 2 ^ 32)
    else []

/-- The function `print_as_binary` of `page_disasm.c`: the glyphs it draws,
first to last. The loop makes 32 turns and is left at the 33rd test. -/
def print_as_binary (TEXT_WIDTH_1 : Nat) (shr32 : Nat → Nat) (charX data : Nat) :
    List (Nat × Char) :=
  print_as_binary_loop TEXT_WIDTH_1 shr32 data 33 0 charX

/-- The glyph for position `c` of a word written in binary, most significant
bit first: `1` exactly when bit `31 - c` is set. -/
def binary_glyph (data c : Nat) : Char :=
  if data / 2 ^ (31 - c) % 2 = 1 then '1' else '0'

/-! ## Printing an integer with commas (`cs_print.c`)

`sprintf_int_with_commas` writes through `sprintf`, which is libc. The two
conversions it uses, `%d` and `%03d`, are modelled on lists of characters. -/

/-- Value that a C `int` holds after an arithmetic result is stored in it: the
result wrapped to 32 bits. -/
def wrap_int (x : Int) : Int := toS32 (toU32 x)

/-- The character of the decimal digit `d`, `0 + d` in ASCII. -/
def decimal_digit (d : Nat) : Char := Char.ofNat (48 + d)

/-- Modelled from the spec: the decimal digits of a value that is not
negative, most significant first, without leading zeros, as the conversion
`%d` of libc prints them. `fuel` bounds the number of digits. -/
def sprintf_decimal : Nat → Nat → List Char
  | 0, _ => []
  | fuel + 1, n =>
    if n < 10 then [decimal_digit n]
    else sprintf_decimal fuel (n / 10) ++ [decimal_digit (n % 10)]

/-- Modelled from the spec: the characters `sprintf(p, "%d", n)` writes for an
`int`: a minus sign when `n` is negative, then the digits of its size. An `int`
has at most 10 digits. -/
def sprintf_d (n : Int) : List Char :=
  if n < 0 then '-' :: sprintf_decimal 10 n.natAbs else sprintf_decimal 10 n.natAbs

/-- Modelled from the spec: the characters `sprintf(p, "%03d", n)` writes for
an `int`: as `%d`, with zeros after the sign until the text is 3 wide. -/
def sprintf_03d (n : Int) : List Char :=
  let digits := sprintf_decimal 10 n.natAbs
  if n < 0 then '-' :: (List.replicate (2 - digits.length) '0' ++ digits)
  else List.replicate (3 - digits.length) '0' ++ digits

/-- The statement `p += sprintf(p, ...)`: the text is written where `p`
points and `p` moves by the number of characters `sprintf` reports, which is
the length of what it wrote. The state is the text so far and `p - buf`. -/
def sprintf_advance (st : List Char × Nat) (text : List Char) : List Char × Nat :=
  (st.1 ++ text, st.2 + text.length)

/-- The first loop of `sprintf_int_with_commas`:
`while (n >= 1000) { n2 += (scale * (n % 1000)); n /= 1000; scale *= 1000; }`.
The result is `n`, `n2` and `scale` when the loop is left. -/
def sprintf_int_with_commas_split : Nat → Int → Int → Int → Option (Int × Int × Int)
  | 0, _, _, _ => none
  | fuel + 1, n, n2, scale =>
    if n ≥ 1000 then
      sprintf_int_with_commas_split fuel (Int.tdiv n 1000)
        (wrap_int (n2 + wrap_int (scale * Int.tmod n 1000))) (wrap_int (scale * 1000))
    else some (n, n2, scale)

/-- The second loop of `sprintf_int_with_commas`:
`while (scale != 1) { scale /= 1000; n = (n2 / scale); n2 = (n2 % scale);
p += sprintf(p, ",%03d", n); }`. -/
def sprintf_int_with_commas_groups : Nat → Int → Int → List Char × Nat →
    Option (List Char × Nat)
  | 0, _, _, _ => none
  | fuel + 1, n2, scale, st =>
    if scale ≠ 1 then
      let scale := Int.tdiv scale 1000
      let n := Int.tdiv n2 scale
      let n2 := Int.tmod n2 scale
      sprintf_int_with_commas_groups fuel n2 scale (sprintf_advance st (',' :: sprintf_03d n))
    else some st

/-- The function `sprintf_int_with_commas` of `cs_print.c`: the text written to
`buf` and the value returned, `p - buf`. `fuel` bounds the turns of each
loop. -/
def sprintf_int_with_commas (fuel : Nat) (n : Int) : Option (List Char × Nat) :=
  let st : List Char × Nat := ([], 0)
  let st := if n < 0 then sprintf_advance st ['-'] else st
  let n := if n < 0 then wrap_int (-n) else n
  match sprintf_int_with_commas_split fuel n 0 1 with
  | none => none
  | some (n, n2, scale) =>
    let st := sprintf_advance st (sprintf_d n)
    sprintf_int_with_commas_groups fuel n2 scale st

/-- The plain decimal text of an integer: a minus sign when it is negative,
then the decimal digits of its size. -/
def plain_decimal_text (n : Int) : List Char :=
  (if n < 0 then ['-'] else []) ++ Nat.toDigits 10 n.natAbs

/-- The number a text of decimal digits stands for. -/
def decimal_value (text : List Char) : Nat :=
  text.foldl (fun acc c => acc * 10 + (c.toNat - 48)) 0

/-! ## Decoder: supporting lemmas -/

/-- In a list whose keys are pairwise distinct the scan for the key of an entry
returns that entry. -/
theorem scan_list_of_mem (l : List InsnTemplate) (t : InsnTemplate)
    (hn : (l.map (·.opcode)).Nodup) (ht : t ∈ l) : scan_list l t.opcode = some t := by
  induction l with
  | nil => simp at ht
  | cons a rest ih =>
    simp only [List.map_cons, List.nodup_cons] at hn
    rcases List.mem_cons.mp ht with rfl | h
    · simp [scan_list]
    · have hne : a.opcode ≠ t.opcode := fun e => hn.1 (e ▸ List.mem_map_of_mem _ h)
      simp [scan_list, hne, ih hn.2 h]

/-- The keys of `insn_db_spec` are pairwise distinct. -/
theorem insn_db_spec_keys_nodup : (insn_db_spec.map (·.opcode)).Nodup := by decide

/-- A word with primary opcode SPECIAL selects `insn_db_spec`, keyed by the
function code. -/
theorem get_insn_list_special (insn : Nat) (hop : opcode insn = OPC_SPECIAL) :
    get_insn_list insn = (some insn_db_spec, func insn) := by
  simp [get_insn_list, hop]

/-- An `s16` is zero exactly when its 16 bits are. -/
theorem toS16_eq_zero_iff (x : Nat) : toS16 x = 0 ↔ x % 2 ^ 16 = 0 := by
  unfold toS16
  split <;> omega

/-! ## Decoder: claims -/

/-- C1 (counterexample): with pseudo-instruction display enabled the word
`0x00201825` (OR r3, r1, r0) has primary opcode SPECIAL and function code 37,
the key of the `insn_db_spec` entry OR, yet `get_insn` returns the MOVE entry
of `insn_db_pseudo`, which is not an entry of `insn_db_spec` and whose key is
32; likewise the word `0x00000000` (function code 0, SLL) returns NOP. -/
theorem get_insn_special_counterexample :
    opcode 0x00201825 = OPC_SPECIAL
      ∧ func 0x00201825 = 37
      ∧ (⟨"OR", "\x27dst", 1, 37⟩ : InsnTemplate) ∈ insn_db_spec
      ∧ get_insn true 0x00201825 = .ret (some (insn_db_pseudo PSEUDO_MOVES))
      ∧ get_insn true 0x00201825 ≠ .ret (some ⟨"OR", "\x27dst", 1, 37⟩)
      ∧ insn_db_pseudo PSEUDO_MOVES ∉ insn_db_spec
      ∧ (insn_db_pseudo PSEUDO_MOVES).opcode ≠ func 0x00201825
      ∧ get_insn true 0 = .ret (some (insn_db_pseudo PSEUDO_NOP))
      ∧ insn_db_pseudo PSEUDO_NOP ∉ insn_db_spec := by
  decide

/-- C1 (amended): for every word whose primary opcode is SPECIAL and whose
function code is the key of an entry of `insn_db_spec`, if pseudo-instruction
display is disabled or no pseudo guard holds for the word, `get_insn` returns
that entry, and the list it scans is `insn_db_spec` keyed by the function
code. -/
theorem get_insn_special (pseudoInsns : Bool) (insn : Nat) (t : InsnTemplate)
    (hop : opcode insn = OPC_SPECIAL) (ht : t ∈ insn_db_spec) (hkey : t.opcode = func insn)
    (hps : pseudoInsns = false ∨ check_pseudo_instructions insn = none) :
    get_insn pseudoInsns insn = .ret (some t)
      ∧ get_insn_list insn = (some insn_db_spec, func insn) := by
  have hp : (if pseudoInsns then check_pseudo_instructions insn else none) = none := by
    rcases hps with h | h <;> simp [h]
  refine ⟨?_, get_insn_list_special insn hop⟩
  unfold get_insn
  rw [hp, get_insn_list_special insn hop, ← hkey]
  simp [scan_list_of_mem insn_db_spec t insn_db_spec_keys_nodup ht]

/-- Witness of C1 (amended): the word `0x00221820` (ADD r3, r1, r2) with
pseudo-instruction display enabled. -/
theorem get_insn_special_witness :
    (opcode 0x00221820 = OPC_SPECIAL
      ∧ (⟨"ADD", "\x27dst", 1, 32⟩ : InsnTemplate) ∈ insn_db_spec
      ∧ (⟨"ADD", "\x27dst", 1, 32⟩ : InsnTemplate).opcode = func 0x00221820
      ∧ (true = false ∨ check_pseudo_instructions 0x00221820 = none))
      ∧ (get_insn true 0x00221820 = .ret (some ⟨"ADD", "\x27dst", 1, 32⟩)
        ∧ get_insn_list 0x00221820 = (some insn_db_spec, func 0x00221820)) :=
  ⟨by decide, get_insn_special true 0x00221820 ⟨"ADD", "\x27dst", 1, 32⟩
    (by decide) (by decide) (by decide) (Or.inr (by decide))⟩

/-- C2: with pseudo-instruction display enabled the word `0x00000000` decodes
to the NOP pseudo-template: the NOP guard is the first test of
`check_pseudo_instructions`, which `get_insn` runs before any table lookup,
while with the display disabled the same word decodes to SLL. -/
theorem get_insn_nop :
    check_pseudo_instructions 0 = some (insn_db_pseudo PSEUDO_NOP)
      ∧ get_insn true 0 = .ret (some (insn_db_pseudo PSEUDO_NOP))
      ∧ (insn_db_pseudo PSEUDO_NOP).name = "NOP"
      ∧ get_insn false 0 = .ret (some ⟨"SLL", "\x27dta", 1, 0⟩) := by
  decide

/-- C3: with pseudo-instruction display enabled every word whose primary opcode
is ADDI (8) or ADDIU (9) and whose `rs` field is 0 decodes to the pseudo
template LI, whatever `rt` and the immediate are. -/
theorem get_insn_li (insn : Nat) (hop : opcode insn = OPC_ADDI ∨ opcode insn = OPC_ADDIU)
    (hrs : rs insn = 0) :
    get_insn true insn = .ret (some (insn_db_pseudo PSEUDO_LI))
      ∧ (insn_db_pseudo PSEUDO_LI).name = "LI" := by
  refine ⟨?_, by decide⟩
  have hop' : insn / 2 ^ 26 % 64 = 8 ∨ insn / 2 ^ 26 % 64 = 9 := hop
  have hraw : raw insn ≠ 0 := by
    show insn % 2 ^ 32 ≠ 0
    omega
  have hcop : cop_opcode insn ≠ COP_OPCODE := by
    show insn / 2 ^ 28 % 16 ≠ 4
    omega
  rcases hop with h | h <;>
    simp [get_insn, check_pseudo_instructions, check_pseudo_insn, hraw, hcop, h, hrs]

/-- Witness of C3: `0x20010005` (ADDI r1, r0, 5). -/
theorem get_insn_li_witness :
    ((opcode 0x20010005 = OPC_ADDI ∨ opcode 0x20010005 = OPC_ADDIU) ∧ rs 0x20010005 = 0)
      ∧ (get_insn true 0x20010005 = .ret (some (insn_db_pseudo PSEUDO_LI))
        ∧ (insn_db_pseudo PSEUDO_LI).name = "LI") :=
  ⟨by decide, get_insn_li 0x20010005 (by decide) (by decide)⟩


/-- What `insn_check_for_branch_offset` returns, by the result of `get_insn`. -/
theorem insn_check_for_branch_offset_of_ret (pseudoInsns : Bool) (insn : Nat) :
    (get_insn pseudoInsns insn = .ret none →
        insn_check_for_branch_offset pseudoInsns insn = .ret 0)
      ∧ (∀ t, get_insn pseudoInsns insn = .ret (some t) → strchr t.fmt CHAR_P_BRANCH = false →
        insn_check_for_branch_offset pseudoInsns insn = .ret 0)
      ∧ (∀ t, get_insn pseudoInsns insn = .ret (some t) → strchr t.fmt CHAR_P_BRANCH = true →
        insn_check_for_branch_offset pseudoInsns insn = .ret (toS16 (insn % 2 ^ 16))) := by
  refine ⟨fun h => ?_, fun t h hb => ?_, fun t h hb => ?_⟩
  · simp [insn_check_for_branch_offset, h]
  · simp [insn_check_for_branch_offset, h, hb]
  · simp [insn_check_for_branch_offset, h, hb, immediate]

/-- C4 (counterexample): the word `0x10220000` (BEQ r1, r2 with offset field 0)
matches the template BEQ, whose operand format contains the branch-offset
directive, under either setting, yet `insn_check_for_branch_offset` returns
0. -/
theorem insn_check_for_branch_offset_counterexample :
    get_insn false 0x10220000 = .ret (some ⟨"BEQ", "\x27stB", 0, 4⟩)
      ∧ get_insn true 0x10220000 = .ret (some ⟨"BEQ", "\x27stB", 0, 4⟩)
      ∧ strchr "\x27stB" CHAR_P_BRANCH = true
      ∧ insn_check_for_branch_offset false 0x10220000 = .ret 0
      ∧ insn_check_for_branch_offset true 0x10220000 = .ret 0 := by
  decide

/-- C4 (amended): for every instruction word, `insn_check_for_branch_offset`
returns a nonzero value if and only if `get_insn` returns a template whose
operand format contains the branch-offset directive and the 16-bit offset field
of the word is nonzero. -/
theorem insn_check_for_branch_offset_nonzero_iff (pseudoInsns : Bool) (insn : Nat) :
    (∃ v, insn_check_for_branch_offset pseudoInsns insn = .ret v ∧ v ≠ 0)
      ↔ ∃ t, get_insn pseudoInsns insn = .ret (some t)
          ∧ strchr t.fmt CHAR_P_BRANCH = true ∧ immediate insn ≠ 0 := by
  have himm : toS16 (immediate insn) ≠ 0 ↔ immediate insn ≠ 0 := by
    rw [Ne, toS16_eq_zero_iff]
    unfold immediate
    omega
  unfold insn_check_for_branch_offset
  cases hg : get_insn pseudoInsns insn with
  | fault => simp
  | ret o =>
    cases o with
    | none => simp
    | some t =>
      by_cases hb : strchr t.fmt CHAR_P_BRANCH = true
      · simp [hb, himm]
      · simp [hb]

/-- C5 (failing input): the word `0x48000000` has primary opcode COP2, whose
entry of `insn_db_cop_lists` is `NULL`; `get_insn` dereferences it, so
`insn_check_for_branch_offset` faults instead of returning 0 for a word that
matches no template. -/
theorem insn_check_for_branch_offset_null_list :
    opcode 0x48000000 = OPC_COP2
      ∧ get_insn_list 0x48000000 = (none, 0)
      ∧ get_insn false 0x48000000 = .fault
      ∧ get_insn true 0x48000000 = .fault
      ∧ insn_check_for_branch_offset false 0x48000000 = .fault
      ∧ insn_check_for_branch_offset true 0x48000000 = .fault := by
  decide

/-- The branch target of a word with a nonzero branch offset is
`addr + (offset + 1) * 4` in 32-bit arithmetic. -/
theorem branch_target_of_nonzero_offset (sTextRegions : List AddressPair)
    (pseudoInsns : Bool) (mem : Nat → Nat) (addr : Nat) (t : InsnTemplate)
    (hseg : is_in_code_segment sTextRegions addr = true)
    (hop : ¬ (opcode (mem addr) = OPC_J ∨ opcode (mem addr) = OPC_JAL))
    (ht : get_insn pseudoInsns (mem addr) = .ret (some t))
    (hb : strchr t.fmt CHAR_P_BRANCH = true) (hoff : immediate (mem addr) ≠ 0) :
    get_insn_branch_target_from_addr sTextRegions pseudoInsns mem addr
      = .ret (((addr : Int) + (toS16 (immediate (mem addr)) + 1) * 4) % 2 ^ 32).toNat := by
  have hne : toS16 (immediate (mem addr)) ≠ 0 := by
    rw [Ne, toS16_eq_zero_iff]
    unfold immediate at hoff ⊢
    omega
  have hcalc : (addr + toU32 (toS16 (immediate (mem addr)) + 1) * 4) % 2 ^ 32
      = (((addr : Int) + (toS16 (immediate (mem addr)) + 1) * 4) % 2 ^ 32).toNat := by
    unfold toU32
    omega
  simp only [get_insn_branch_target_from_addr, hseg, hop, insn_check_for_branch_offset, ht, hb,
    hne, hcalc, Bool.not_true, Bool.false_eq_true, if_false, if_true, ne_eq, not_false_eq_true]

/-- C6 (failing input): at address `0x80000100` of a code segment the word
`0x10220000` (BEQ r1, r2 with offset field 0) decodes to a branch template, and
`get_insn_branch_target_from_addr` returns the address itself instead of
`0x80000104 = addr + (0 + 1) * 4`. -/
theorem get_insn_branch_target_zero_offset :
    is_in_code_segment [⟨0x80000000, 0x80001000⟩] 0x80000100 = true
      ∧ get_insn false 0x10220000 = .ret (some ⟨"BEQ", "\x27stB", 0, 4⟩)
      ∧ toS16 (immediate 0x10220000) = 0
      ∧ get_insn_branch_target_from_addr [⟨0x80000000, 0x80001000⟩] false
          (fun _ => 0x10220000) 0x80000100 = .ret 0x80000100
      ∧ get_insn_branch_target_from_addr [⟨0x80000000, 0x80001000⟩] true
          (fun _ => 0x10220000) 0x80000100 = .ret 0x80000100
      ∧ (0x80000100 + (0 + 1) * 4) % 2 ^ 32 = 0x80000104 := by
  decide

/-- C7: for every address in a code segment whose word has primary opcode J or
JAL, the target is the 26-bit jump index times 4, OR-ed with `0x80000000`
(numerically `0x80000000 + 4 * instr_index`); it is a function of the jump
index alone, not of the address, the setting or a 16-bit offset. -/
theorem get_insn_branch_target_jump (sTextRegions : List AddressPair) (pseudoInsns : Bool)
    (mem : Nat → Nat) (addr : Nat)
    (hseg : is_in_code_segment sTextRegions addr = true)
    (hop : opcode (mem addr) = OPC_J ∨ opcode (mem addr) = OPC_JAL) :
    get_insn_branch_target_from_addr sTextRegions pseudoInsns mem addr
        = .ret (instr_index (mem addr) * 4 ||| 0x80000000)
      ∧ (instr_index (mem addr) * 4 ||| 0x80000000) = 0x80000000 + 4 * (mem addr % 2 ^ 26) := by
  refine ⟨by simp [get_insn_branch_target_from_addr, hseg, hop, PHYSICAL_TO_VIRTUAL], ?_⟩
  have hlt : instr_index (mem addr) * 4 < 2 ^ 31 := by
    unfold instr_index
    omega
  have h := Nat.mul_add_lt_is_or hlt 1
  rw [Nat.lor_comm, show (0x80000000 : Nat) = 2 ^ 31 * 1 from rfl, ← h]
  unfold instr_index
  omega

/-- Witness of C7: `0x0C000123` (JAL with jump index `0x123`) at `0x80000100`. -/
theorem get_insn_branch_target_jump_witness :
    (is_in_code_segment [⟨0x80000000, 0x80001000⟩] 0x80000100 = true
      ∧ (opcode 0x0C000123 = OPC_J ∨ opcode 0x0C000123 = OPC_JAL))
      ∧ (get_insn_branch_target_from_addr [⟨0x80000000, 0x80001000⟩] true
            (fun _ => 0x0C000123) 0x80000100
          = .ret (instr_index 0x0C000123 * 4 ||| 0x80000000)
        ∧ (instr_index 0x0C000123 * 4 ||| 0x80000000)
          = 0x80000000 + 4 * (0x0C000123 % 2 ^ 26)) :=
  ⟨by decide, get_insn_branch_target_jump [⟨0x80000000, 0x80001000⟩] true
    (fun _ => 0x0C000123) 0x80000100 (by decide) (by decide)⟩

/-- Where `get_insn_branch_target_from_addr` returns the address unchanged:
outside the code segments, and at a word that is neither J/JAL nor has a
nonzero branch offset, provided `get_insn` returns. -/
theorem branch_target_unchanged (sTextRegions : List AddressPair) (pseudoInsns : Bool)
    (mem : Nat → Nat) (addr : Nat) :
    (is_in_code_segment sTextRegions addr = false →
        get_insn_branch_target_from_addr sTextRegions pseudoInsns mem addr = .ret addr)
      ∧ (¬ (opcode (mem addr) = OPC_J ∨ opcode (mem addr) = OPC_JAL) →
          insn_check_for_branch_offset pseudoInsns (mem addr) = .ret 0 →
          get_insn_branch_target_from_addr sTextRegions pseudoInsns mem addr = .ret addr) := by
  refine ⟨fun h => by simp [get_insn_branch_target_from_addr, h], fun hop h0 => ?_⟩
  unfold get_insn_branch_target_from_addr
  by_cases hseg : is_in_code_segment sTextRegions addr = true
  · simp [hseg, hop, h0]
  · simp [hseg]

/-- C8 (failing input): at address `0x80000100` of a code segment the word
`0x48000000` (primary opcode COP2) is neither J/JAL nor matched by any
template, and `get_insn_branch_target_from_addr` faults on the `NULL`
coprocessor list instead of returning the address. -/
theorem get_insn_branch_target_null_list :
    is_in_code_segment [⟨0x80000000, 0x80001000⟩] 0x80000100 = true
      ∧ opcode 0x48000000 = OPC_COP2
      ∧ get_insn_list 0x48000000 = (none, 0)
      ∧ get_insn_branch_target_from_addr [⟨0x80000000, 0x80001000⟩] false
          (fun _ => 0x48000000) 0x80000100 = .fault
      ∧ get_insn_branch_target_from_addr [⟨0x80000000, 0x80001000⟩] true
          (fun _ => 0x48000000) 0x80000100 = .fault := by
  decide


/-! ## Symbol table: supporting lemmas -/

/-- An index below `2 ^ 31` is unchanged by the cast to `s32`. -/
theorem toS32_of_lt (i : Nat) (h : i < 2 ^ 31) : toS32 i = (i : Int) := by
  unfold toS32
  have h1 : i % 2 ^ 32 = i := Nat.mod_eq_of_lt (by omega)
  rw [h1, if_pos h]

/-- The forward loop returns the position of the first symbol containing the
address, counted from `k`, or -1 when there is none. -/
theorem forward_loop_eq (addr : Nat) (l : List MapSymbol) (k : Nat) :
    forward_loop addr l k
      = if l.findIdx (addr_is_in_symbol addr) < l.length
        then .ret (toS32 (k + l.findIdx (addr_is_in_symbol addr))) else .ret (-1) := by
  induction l generalizing k with
  | nil => simp [forward_loop]
  | cons s rest ih =>
    by_cases hs : addr_is_in_symbol addr s = true
    · simp [forward_loop, List.findIdx_cons, hs]
    · simp only [Bool.not_eq_true] at hs
      simp only [forward_loop, hs, List.findIdx_cons, cond_false, List.length_cons,
        Nat.add_lt_add_iff_right, ih (k + 1), Bool.false_eq_true, if_false]
      have : k + 1 + List.findIdx (addr_is_in_symbol addr) rest
          = k + (List.findIdx (addr_is_in_symbol addr) rest + 1) := by omega
      rw [this]

/-- The range test of `addr_is_in_symbol`, as a proposition. -/
theorem addr_is_in_symbol_iff (addr : Nat) (s : MapSymbol) :
    addr_is_in_symbol addr s = true ↔ s.addr ≤ addr ∧ addr < (s.addr + s.size) % 2 ^ 32 := by
  simp [addr_is_in_symbol]

/-- On a table whose ranges follow one another without overlap, at most one
record contains a given address. -/
theorem addr_is_in_symbol_unique (l : List MapSymbol) (addr : Nat)
    (hno : l.Pairwise (fun a b => a.addr + a.size ≤ b.addr))
    (i j : Nat) (hi : i < l.length) (hj : j < l.length)
    (pi : addr_is_in_symbol addr l[i] = true) (pj : addr_is_in_symbol addr l[j] = true) :
    i = j := by
  rw [addr_is_in_symbol_iff] at pi pj
  rcases Nat.lt_trichotomy i j with h | h | h
  · have := (List.pairwise_iff_getElem.mp hno) i j hi hj h
    have := Nat.mod_le (l[i].addr + l[i].size) (2 ^ 32)
    omega
  · exact h
  · have := (List.pairwise_iff_getElem.mp hno) j i hj hi h
    have := Nat.mod_le (l[j].addr + l[j].size) (2 ^ 32)
    omega

/-- With at most one containing record, a containing record is the first one. -/
theorem findIdx_of_unique (l : List MapSymbol) (addr : Nat)
    (hno : l.Pairwise (fun a b => a.addr + a.size ≤ b.addr))
    (m : Nat) (hm : m < l.length) (pm : addr_is_in_symbol addr l[m] = true) :
    l.findIdx (addr_is_in_symbol addr) = m := by
  rw [List.findIdx_eq hm]
  refine ⟨pm, fun j hj => ?_⟩
  cases hp : addr_is_in_symbol addr l[j] with
  | false => rfl
  | true =>
    have := addr_is_in_symbol_unique l addr hno j m (by omega) hm hp pm
    omega

/-- The forward search in closed form. -/
theorem get_symbol_index_from_addr_forward_eq (l : List MapSymbol) (addr : Nat)
    (hlen : l.length ≤ 2 ^ 31) :
    get_symbol_index_from_addr_forward true l addr
      = if l.findIdx (addr_is_in_symbol addr) < l.length
        then .ret ((l.findIdx (addr_is_in_symbol addr) : Nat) : Int) else .ret (-1) := by
  simp only [get_symbol_index_from_addr_forward, Bool.not_true, Bool.false_eq_true, if_false,
    forward_loop_eq, Nat.zero_add]
  split
  · rw [toS32_of_lt _ (by omega)]
  · rfl

/-- The backward loop on a table with at most one containing record. -/
theorem backward_loop_eq_of_unique (l : List MapSymbol) (addr : Nat)
    (hlen : l.length ≤ 2 ^ 31)
    (hno : l.Pairwise (fun a b => a.addr + a.size ≤ b.addr))
    (k : Nat) (hk : k ≤ l.length)
    (habove : ∀ (j : Nat) (hj : j < l.length), k ≤ j → addr_is_in_symbol addr l[j] = false) :
    backward_loop l addr k
      = if l.findIdx (addr_is_in_symbol addr) < l.length
        then .ret ((l.findIdx (addr_is_in_symbol addr) : Nat) : Int) else .ret (-1) := by
  induction k with
  | zero =>
    have hall : ∀ x ∈ l, addr_is_in_symbol addr x = false := by
      intro x hx
      obtain ⟨j, hj, rfl⟩ := List.getElem_of_mem hx
      exact habove j hj (Nat.zero_le _)
    have := List.findIdx_eq_length.mpr hall
    simp [backward_loop, this]
  | succ k ih =>
    have hk' : k < l.length := by omega
    simp only [backward_loop, List.getElem?_eq_getElem hk']
    cases hp : addr_is_in_symbol addr l[k] with
    | true =>
      have hfi := findIdx_of_unique l addr hno k hk' hp
      simp [hfi, hk', toS32_of_lt k (by omega)]
    | false =>
      simp only [Bool.false_eq_true, if_false]
      refine ih (by omega) (fun j hj hkj => ?_)
      rcases Nat.eq_or_lt_of_le hkj with rfl | hlt
      · exact hp
      · exact habove j hj hlt

/-- The binary loop on a start-sorted table whose ranges follow one another
without overlap, for an address not below the first record: the window never
wraps, no read leaves the table, and the result is that of the forward
search. -/
theorem binary_loop_eq_of_sorted (l : List MapSymbol) (addr : Nat)
    (hlen : l.length ≤ 2 ^ 31) (hpos : 0 < l.length)
    (hsorted : l.Pairwise (fun a b => a.addr ≤ b.addr))
    (hno : l.Pairwise (fun a b => a.addr + a.size ≤ b.addr))
    (hfirst : l[0].addr ≤ addr)
    (fuel searchStart searchEnd : Nat) (hend : searchEnd < l.length)
    (hwin : searchStart ≤ searchEnd + 1) (hfuel : searchEnd + 1 - searchStart < fuel)
    (hbelow : ∀ (j : Nat) (hj : j < l.length), j < searchStart →
      addr_is_in_symbol addr l[j] = false)
    (habove : ∀ (j : Nat) (hj : j < l.length), searchEnd < j →
      addr_is_in_symbol addr l[j] = false) :
    binary_loop l addr fuel searchStart searchEnd
      = some (if l.findIdx (addr_is_in_symbol addr) < l.length
        then .ret ((l.findIdx (addr_is_in_symbol addr) : Nat) : Int) else .ret (-1)) := by
  induction fuel generalizing searchStart searchEnd with
  | zero => omega
  | succ fuel ih =>
    unfold binary_loop
    by_cases hle : searchStart ≤ searchEnd
    · have hmod : (searchStart + (searchEnd - searchStart) / 2) % 2 ^ 32
          = searchStart + (searchEnd - searchStart) / 2 := Nat.mod_eq_of_lt (by omega)
      have hlo : searchStart ≤ searchStart + (searchEnd - searchStart) / 2 := by omega
      have hhi : searchStart + (searchEnd - searchStart) / 2 ≤ searchEnd := by omega
      simp only [hle, if_true, hmod]
      generalize searchStart + (searchEnd - searchStart) / 2 = m at hlo hhi
      have hm : m < l.length := by omega
      simp only [List.getElem?_eq_getElem hm]
      by_cases hlt : addr < l[m].addr
      · have hm0 : m ≠ 0 := by
          rintro rfl
          omega
        have hdec : (m + 2 ^ 32 - 1) % 2 ^ 32 = m - 1 := by omega
        simp only [hlt, if_true, hdec]
        refine ih searchStart _ (by omega) (by omega) (by omega) hbelow (fun j hj hmj => ?_)
        cases hp : addr_is_in_symbol addr l[j] with
        | false => rfl
        | true =>
          rw [addr_is_in_symbol_iff] at hp
          rcases Nat.eq_or_lt_of_le (show m ≤ j by omega) with rfl | h
          · omega
          · have := (List.pairwise_iff_getElem.mp hsorted) m j hm hj h
            omega
      · by_cases hge : addr ≥ (l[m].addr + l[m].size) % 2 ^ 32
        · have hinc : (m + 1) % 2 ^ 32 = m + 1 := Nat.mod_eq_of_lt (by omega)
          simp only [hlt, if_false, hge, if_true, hinc]
          refine ih _ searchEnd hend (by omega) (by omega) (fun j hj hjm => ?_) habove
          cases hp : addr_is_in_symbol addr l[j] with
          | false => rfl
          | true =>
            rw [addr_is_in_symbol_iff] at hp
            rcases Nat.eq_or_lt_of_le (show j ≤ m by omega) with rfl | h
            · omega
            · have := (List.pairwise_iff_getElem.mp hno) j m hj hm h
              have := Nat.mod_le (l[j].addr + l[j].size) (2 ^ 32)
              omega
        · have hp : addr_is_in_symbol addr l[m] = true := by
            rw [addr_is_in_symbol_iff]
            omega
          have hfi := findIdx_of_unique l addr hno m hm hp
          simp only [hlt, if_false, hge, hfi, hm, if_true]
          rw [toS32_of_lt _ (by omega)]
    · have hall : ∀ x ∈ l, addr_is_in_symbol addr x = false := by
        intro x hx
        obtain ⟨j, hj, rfl⟩ := List.getElem_of_mem hx
        by_cases h : j < searchStart
        · exact hbelow j hj h
        · exact habove j hj (by omega)
      have := List.findIdx_eq_length.mpr hall
      simp [hle, this]

/-- Agreement of the three searches where the binary search stays inside the
table: on a non-empty start-sorted table whose ranges follow one another
without overlap, and for an address not below the first record, the forward,
backward and binary searches return the same result. -/
theorem symbol_searches_agree_of_not_below_first (l : List MapSymbol) (addr : Nat)
    (hlen : l.length ≤ 2 ^ 31) (hpos : 0 < l.length)
    (hsorted : l.Pairwise (fun a b => a.addr ≤ b.addr))
    (hno : l.Pairwise (fun a b => a.addr + a.size ≤ b.addr))
    (hfirst : l[0].addr ≤ addr) :
    get_symbol_index_from_addr_backward true l addr
        = get_symbol_index_from_addr_forward true l addr
      ∧ get_symbol_index_from_addr_binary l addr
        = some (get_symbol_index_from_addr_forward true l addr) := by
  rw [get_symbol_index_from_addr_forward_eq l addr hlen]
  constructor
  · simp only [get_symbol_index_from_addr_backward, Bool.not_true, Bool.false_eq_true, if_false]
    exact backward_loop_eq_of_unique l addr hlen hno l.length (Nat.le_refl _)
      (fun j hj hk => by omega)
  · unfold get_symbol_index_from_addr_binary
    have hinit : (l.length % 2 ^ 32 + 2 ^ 32 - 1) % 2 ^ 32 = l.length - 1 := by omega
    rw [hinit]
    exact binary_loop_eq_of_sorted l addr hlen hpos hsorted hno hfirst _ 0 (l.length - 1)
      (by omega) (by omega) (by omega) (fun j hj h => by omega) (fun j hj h => by omega)

/-! ## Symbol table: claims -/

/-- C10: in a build with the debug map, for every symbol table (of at most
`2 ^ 31` entries, so that an index fits the `s32` result) and every address,
`get_symbol_index_from_addr_forward` returns index `i` exactly when record `i`
contains the address and no record before it does; it returns -1 exactly when
no record contains the address; it always returns one of the two; and on a
table sorted by start address no record containing the address starts earlier
than the one returned. Containment is the test of `addr_is_in_symbol`, which
is `addr_i <= A < addr_i + size_i` whenever the end fits 32 bits. -/
theorem get_symbol_index_from_addr_forward_smallest (gMapSymbols : List MapSymbol)
    (addr : Nat) (hlen : gMapSymbols.length ≤ 2 ^ 31) :
    (∀ (i : Nat) (h : i < gMapSymbols.length),
        get_symbol_index_from_addr_forward true gMapSymbols addr = .ret (i : Int)
          ↔ addr_is_in_symbol addr gMapSymbols[i] = true
            ∧ ∀ (j : Nat) (hj : j < i), addr_is_in_symbol addr gMapSymbols[j] = false)
      ∧ (get_symbol_index_from_addr_forward true gMapSymbols addr = .ret (-1)
          ↔ ∀ s ∈ gMapSymbols, addr_is_in_symbol addr s = false)
      ∧ (get_symbol_index_from_addr_forward true gMapSymbols addr = .ret (-1)
          ∨ ∃ i : Nat, i < gMapSymbols.length
              ∧ get_symbol_index_from_addr_forward true gMapSymbols addr = .ret (i : Int))
      ∧ (gMapSymbols.Pairwise (fun a b => a.addr ≤ b.addr) →
          ∀ (i j : Nat) (h : i < gMapSymbols.length) (hj : j < gMapSymbols.length),
            get_symbol_index_from_addr_forward true gMapSymbols addr = .ret (i : Int) →
            addr_is_in_symbol addr gMapSymbols[j] = true →
            gMapSymbols[i].addr ≤ gMapSymbols[j].addr)
      ∧ (∀ s : MapSymbol, s.addr + s.size < 2 ^ 32 →
          (addr_is_in_symbol addr s = true ↔ s.addr ≤ addr ∧ addr < s.addr + s.size)) := by
  have hfwd := get_symbol_index_from_addr_forward_eq gMapSymbols addr hlen
  have hiff : ∀ (i : Nat) (h : i < gMapSymbols.length),
      get_symbol_index_from_addr_forward true gMapSymbols addr = .ret (i : Int)
        ↔ addr_is_in_symbol addr gMapSymbols[i] = true
          ∧ ∀ (j : Nat) (hj : j < i), addr_is_in_symbol addr gMapSymbols[j] = false := by
    intro i h
    rw [← List.findIdx_eq h, hfwd]
    split
    · constructor
      · intro e
        have e1 := Run.ret.inj e
        exact_mod_cast e1
      · intro e
        rw [e]
    · constructor
      · intro e
        have e1 := Run.ret.inj e
        omega
      · intro e
        omega
  refine ⟨hiff, ?_, ?_, ?_, ?_⟩
  · rw [hfwd, ← List.findIdx_eq_length]
    split
    · constructor
      · intro e
        have e1 := Run.ret.inj e
        omega
      · intro e
        omega
    · constructor
      · intro _
        have := @List.findIdx_le_length _ (addr_is_in_symbol addr) gMapSymbols
        omega
      · intro _
        rfl
  · rw [hfwd]
    split
    · exact Or.inr ⟨_, by assumption, rfl⟩
    · exact Or.inl rfl
  · intro hsorted i j h hj hi hin
    have hmin := ((hiff i h).mp hi).2
    have hle : i ≤ j := by
      by_contra hlt
      have := hmin j (by omega)
      rw [hin] at this
      exact Bool.noConfusion this
    rcases Nat.eq_or_lt_of_le hle with rfl | hlt
    · exact Nat.le_refl _
    · exact (List.pairwise_iff_getElem.mp hsorted) i j h hj hlt
  · intro s hs
    rw [addr_is_in_symbol_iff, Nat.mod_eq_of_lt hs]

/-- Witness of C10: an overlapping, start-sorted table of three records and the
address `0x1008`, where the forward search returns index 0. -/
theorem get_symbol_index_from_addr_forward_smallest_witness :
    ([⟨0x1000, 0x20, 0⟩, ⟨0x1000, 0x10, 4⟩, ⟨0x2000, 0x10, 8⟩] : List MapSymbol).length ≤ 2 ^ 31
      ∧ get_symbol_index_from_addr_forward true
          [⟨0x1000, 0x20, 0⟩, ⟨0x1000, 0x10, 4⟩, ⟨0x2000, 0x10, 8⟩] 0x1008 = .ret 0
      ∧ (get_symbol_index_from_addr_forward true
            [⟨0x1000, 0x20, 0⟩, ⟨0x1000, 0x10, 4⟩, ⟨0x2000, 0x10, 8⟩] 0x1008 = .ret (-1)
          ↔ ∀ s ∈ ([⟨0x1000, 0x20, 0⟩, ⟨0x1000, 0x10, 4⟩, ⟨0x2000, 0x10, 8⟩] : List MapSymbol),
              addr_is_in_symbol 0x1008 s = false) :=
  ⟨by decide, by decide,
    (get_symbol_index_from_addr_forward_smallest
      [⟨0x1000, 0x20, 0⟩, ⟨0x1000, 0x10, 4⟩, ⟨0x2000, 0x10, 8⟩] 0x1008 (by decide)).2.1⟩

/-- C9 (failing input): on the start-sorted, non-overlapping table
`[(0x80001000, 0x10), (0x80002000, 0x20)]` and the address `0x80000000`, below
the first record, the forward and backward searches return -1, while the binary
search moves `searchEnd` to `0 - 1 = 0xFFFFFFFF` and then reads
`gMapSymbols[0x7FFFFFFF]`, outside the table; on the empty table it starts
with `searchEnd = 0 - 1` and does the same. -/
theorem get_symbol_index_from_addr_binary_below_first :
    ([⟨0x80001000, 0x10, 0⟩, ⟨0x80002000, 0x20, 4⟩] : List MapSymbol).Pairwise
        (fun a b => a.addr ≤ b.addr ∧ a.addr + a.size ≤ b.addr)
      ∧ get_symbol_index_from_addr_forward true
          [⟨0x80001000, 0x10, 0⟩, ⟨0x80002000, 0x20, 4⟩] 0x80000000 = .ret (-1)
      ∧ get_symbol_index_from_addr_backward true
          [⟨0x80001000, 0x10, 0⟩, ⟨0x80002000, 0x20, 4⟩] 0x80000000 = .ret (-1)
      ∧ binary_loop [⟨0x80001000, 0x10, 0⟩, ⟨0x80002000, 0x20, 4⟩] 0x80000000 4 0 1
          = binary_loop [⟨0x80001000, 0x10, 0⟩, ⟨0x80002000, 0x20, 4⟩] 0x80000000 3 0 0xFFFFFFFF
      ∧ ([⟨0x80001000, 0x10, 0⟩, ⟨0x80002000, 0x20, 4⟩] : List MapSymbol)[0x7FFFFFFF]? = none
      ∧ get_symbol_index_from_addr_binary
          [⟨0x80001000, 0x10, 0⟩, ⟨0x80002000, 0x20, 4⟩] 0x80000000 = some .fault
      ∧ get_symbol_index_from_addr_forward true [] 0x80000000 = .ret (-1)
      ∧ get_symbol_index_from_addr_backward true [] 0x80000000 = .ret (-1)
      ∧ get_symbol_index_from_addr_binary [] 0x80000000 = some .fault := by
  decide


/-! ## Symbol table: further supporting lemmas -/

/-- The backward loop from position `k` returns the last record before `k`
that contains the address, or -1 when there is none. -/
theorem backward_loop_spec (l : List MapSymbol) (addr : Nat) (k : Nat) (hk : k ≤ l.length) :
    (∃ (i : Nat) (_ : i < l.length), i < k ∧ addr_is_in_symbol addr l[i] = true
        ∧ (∀ (j : Nat) (_ : j < l.length), i < j → j < k →
            addr_is_in_symbol addr l[j] = false)
        ∧ backward_loop l addr k = .ret (toS32 i))
      ∨ ((∀ (j : Nat) (_ : j < l.length), j < k → addr_is_in_symbol addr l[j] = false)
        ∧ backward_loop l addr k = .ret (-1)) := by
  induction k with
  | zero =>
    right
    exact ⟨fun j _ h => by omega, by simp [backward_loop]⟩
  | succ k ih =>
    have hk' : k < l.length := by omega
    simp only [backward_loop, List.getElem?_eq_getElem hk']
    cases hp : addr_is_in_symbol addr l[k] with
    | true =>
      left
      exact ⟨k, hk', by omega, hp, fun j _ h1 h2 => by omega, by simp⟩
    | false =>
      simp only [Bool.false_eq_true, if_false]
      rcases ih (by omega) with ⟨i, hi, hik, hpi, hmax, hret⟩ | ⟨hnone, hret⟩
      · left
        refine ⟨i, hi, by omega, hpi, fun j hj h1 h2 => ?_, hret⟩
        rcases Nat.eq_or_lt_of_le (show j ≤ k by omega) with rfl | h
        · exact hp
        · exact hmax j hj h1 h
      · right
        refine ⟨fun j hj h => ?_, hret⟩
        rcases Nat.eq_or_lt_of_le (show j ≤ k by omega) with rfl | h'
        · exact hp
        · exact hnone j hj h'

/-- A window that wrapped to `[0, 0xFFFFFFFF]` makes the binary search read
`gMapSymbols[0x7FFFFFFF]`, outside any table of fewer than `2 ^ 31` records. -/
theorem binary_loop_wrapped (l : List MapSymbol) (addr : Nat) (hlen : l.length < 2 ^ 31)
    (fuel : Nat) : binary_loop l addr (fuel + 1) 0 (2 ^ 32 - 1) = some .fault := by
  unfold binary_loop
  have hnone : l[(0 + (2 ^ 32 - 1 - 0) / 2) % 2 ^ 32]? = none := by
    apply List.getElem?_eq_none
    omega
  simp only [Nat.zero_le, if_true, hnone]

/-- The binary loop always ends within its iteration bound. -/
theorem binary_loop_total (l : List MapSymbol) (addr : Nat) (hlen : l.length < 2 ^ 31)
    (fuel searchStart searchEnd : Nat) (hend : searchEnd < l.length)
    (hwin : searchStart ≤ searchEnd + 1) (hfuel : searchEnd + 1 - searchStart + 2 ≤ fuel) :
    ∃ r, binary_loop l addr fuel searchStart searchEnd = some r := by
  induction fuel generalizing searchStart searchEnd with
  | zero => omega
  | succ fuel ih =>
    unfold binary_loop
    by_cases hle : searchStart ≤ searchEnd
    · have hmod : (searchStart + (searchEnd - searchStart) / 2) % 2 ^ 32
          = searchStart + (searchEnd - searchStart) / 2 := Nat.mod_eq_of_lt (by omega)
      have hlo : searchStart ≤ searchStart + (searchEnd - searchStart) / 2 := by omega
      have hhi : searchStart + (searchEnd - searchStart) / 2 ≤ searchEnd := by omega
      simp only [hle, if_true, hmod]
      generalize searchStart + (searchEnd - searchStart) / 2 = m at hlo hhi
      have hm : m < l.length := by omega
      simp only [List.getElem?_eq_getElem hm]
      by_cases hlt : addr < l[m].addr
      · simp only [hlt, if_true]
        by_cases hm0 : m = 0
        · subst hm0
          have hs : searchStart = 0 := by omega
          subst hs
          obtain ⟨f, rfl⟩ : ∃ f, fuel = f + 1 := ⟨fuel - 1, by omega⟩
          exact ⟨_, binary_loop_wrapped l addr hlen f⟩
        · have hdec : (m + 2 ^ 32 - 1) % 2 ^ 32 = m - 1 := by omega
          rw [hdec]
          exact ih searchStart (m - 1) (by omega) (by omega) (by omega)
      · by_cases hge : addr ≥ (l[m].addr + l[m].size) % 2 ^ 32
        · have hinc : (m + 1) % 2 ^ 32 = m + 1 := Nat.mod_eq_of_lt (by omega)
          simp only [hlt, if_false, hge, if_true, hinc]
          exact ih (m + 1) searchEnd hend (by omega) (by omega)
        · simp only [hlt, if_false, hge]
          exact ⟨_, rfl⟩
    · simp only [hle, if_false]
      exact ⟨_, rfl⟩

/-- The binary search ends on every table of fewer than `2 ^ 31` records:
it returns an index or -1, or it faults. -/
theorem get_symbol_index_from_addr_binary_total (l : List MapSymbol) (addr : Nat)
    (hlen : l.length < 2 ^ 31) : ∃ r, get_symbol_index_from_addr_binary l addr = some r := by
  unfold get_symbol_index_from_addr_binary
  by_cases h0 : l.length = 0
  · have hinit : (l.length % 2 ^ 32 + 2 ^ 32 - 1) % 2 ^ 32 = 2 ^ 32 - 1 := by omega
    rw [hinit]
    exact ⟨_, binary_loop_wrapped l addr hlen (l.length + 1)⟩
  · have hinit : (l.length % 2 ^ 32 + 2 ^ 32 - 1) % 2 ^ 32 = l.length - 1 := by omega
    rw [hinit]
    exact binary_loop_total l addr hlen _ 0 (l.length - 1) (by omega) (by omega) (by omega)

/-- On a start-sorted table the binary loop faults for an address below the
first record: it walks left to index 0, wraps the window and reads outside the
table. -/
theorem binary_loop_below_first (l : List MapSymbol) (addr : Nat) (hlen : l.length < 2 ^ 31)
    (hpos : 0 < l.length) (hsorted : l.Pairwise (fun a b => a.addr ≤ b.addr))
    (hbelow : addr < l[0].addr)
    (fuel searchEnd : Nat) (hend : searchEnd < l.length) (hfuel : searchEnd + 3 ≤ fuel) :
    binary_loop l addr fuel 0 searchEnd = some .fault := by
  induction fuel generalizing searchEnd with
  | zero => omega
  | succ fuel ih =>
    unfold binary_loop
    have hmod : (0 + (searchEnd - 0) / 2) % 2 ^ 32 = searchEnd / 2 := by omega
    have hhi : searchEnd / 2 ≤ searchEnd := by omega
    simp only [Nat.zero_le, if_true, hmod]
    generalize searchEnd / 2 = m at hhi
    have hm : m < l.length := by omega
    have hlt : addr < l[m].addr := by
      by_cases hm0 : m = 0
      · subst hm0
        exact hbelow
      · have := (List.pairwise_iff_getElem.mp hsorted) 0 m hpos hm (by omega)
        omega
    simp only [List.getElem?_eq_getElem hm, hlt, if_true]
    by_cases hm0 : m = 0
    · subst hm0
      obtain ⟨f, rfl⟩ : ∃ f, fuel = f + 1 := ⟨fuel - 1, by omega⟩
      exact binary_loop_wrapped l addr hlen f
    · have hdec : (m + 2 ^ 32 - 1) % 2 ^ 32 = m - 1 := by omega
      rw [hdec]
      exact ih (m - 1) (by omega) (by omega)

/-- The defect of the binary search in general: on every start-sorted table
of fewer than `2 ^ 31` records it reads outside the table for every address
below the first record, and on the empty table for every address. -/
theorem get_symbol_index_from_addr_binary_faults (l : List MapSymbol) (addr : Nat)
    (hlen : l.length < 2 ^ 31) (hsorted : l.Pairwise (fun a b => a.addr ≤ b.addr))
    (hbelow : ∀ h : 0 < l.length, addr < l[0].addr) :
    get_symbol_index_from_addr_binary l addr = some .fault := by
  unfold get_symbol_index_from_addr_binary
  by_cases h0 : l.length = 0
  · have hinit : (l.length % 2 ^ 32 + 2 ^ 32 - 1) % 2 ^ 32 = 2 ^ 32 - 1 := by omega
    rw [hinit]
    exact binary_loop_wrapped l addr hlen (l.length + 1)
  · have hinit : (l.length % 2 ^ 32 + 2 ^ 32 - 1) % 2 ^ 32 = l.length - 1 := by omega
    rw [hinit]
    exact binary_loop_below_first l addr hlen (by omega) hsorted (hbelow (by omega)) _
      (l.length - 1) (by omega) (by omega)

/-- An index returned by the binary loop is -1 or the position of a record of
the table that contains the address. -/
theorem binary_loop_ret (l : List MapSymbol) (addr : Nat) (hlen : l.length ≤ 2 ^ 31)
    (fuel searchStart searchEnd : Nat) (v : Int)
    (h : binary_loop l addr fuel searchStart searchEnd = some (.ret v)) :
    v = -1 ∨ ∃ (i : Nat) (_ : i < l.length), v = (i : Int)
      ∧ addr_is_in_symbol addr l[i] = true := by
  induction fuel generalizing searchStart searchEnd with
  | zero => simp [binary_loop] at h
  | succ fuel ih =>
    unfold binary_loop at h
    by_cases hle : searchStart ≤ searchEnd
    · simp only [hle, if_true] at h
      generalize (searchStart + (searchEnd - searchStart) / 2) % 2 ^ 32 = m at h
      by_cases hm : m < l.length
      · simp only [List.getElem?_eq_getElem hm] at h
        by_cases hlt : addr < l[m].addr
        · simp only [hlt, if_true] at h
          exact ih _ _ h
        · by_cases hge : addr ≥ (l[m].addr + l[m].size) % 2 ^ 32
          · simp only [hlt, if_false, hge, if_true] at h
            exact ih _ _ h
          · simp only [hlt, if_false, hge] at h
            right
            refine ⟨m, hm, ?_, ?_⟩
            · have := Run.ret.inj (Option.some.inj h)
              rw [← this, toS32_of_lt m (by omega)]
            · rw [addr_is_in_symbol_iff]
              omega
      · have hnone : l[m]? = none := List.getElem?_eq_none (by omega)
        simp [hnone] at h
    · simp only [hle, if_false] at h
      left
      exact (Run.ret.inj (Option.some.inj h)).symm



/-! ## Symbol table: claims C11 to C16 -/

/-- C11: in a build with the debug map, for every symbol table (of at most
`2 ^ 31` entries, so that an index fits the `s32` result; the empty table
included) and every address, `get_symbol_index_from_addr_backward` returns
index `i` exactly when record `i` contains the address and no record after it
does; it returns -1 exactly when no record contains the address; it always
returns one of the two; on the empty table it returns -1; and on a table
sorted by start address no record containing the address starts later than the
one returned. Containment is the test of `addr_is_in_symbol`, which is
`addr_i <= A < addr_i + size_i` whenever the end fits 32 bits. -/
theorem get_symbol_index_from_addr_backward_largest (gMapSymbols : List MapSymbol)
    (addr : Nat) (hlen : gMapSymbols.length ≤ 2 ^ 31) :
    (∀ (i : Nat) (h : i < gMapSymbols.length),
        get_symbol_index_from_addr_backward true gMapSymbols addr = .ret (i : Int)
          ↔ addr_is_in_symbol addr gMapSymbols[i] = true
            ∧ ∀ (j : Nat) (hj : j < gMapSymbols.length), i < j →
                addr_is_in_symbol addr gMapSymbols[j] = false)
      ∧ (get_symbol_index_from_addr_backward true gMapSymbols addr = .ret (-1)
          ↔ ∀ s ∈ gMapSymbols, addr_is_in_symbol addr s = false)
      ∧ (get_symbol_index_from_addr_backward true gMapSymbols addr = .ret (-1)
          ∨ ∃ i : Nat, i < gMapSymbols.length
              ∧ get_symbol_index_from_addr_backward true gMapSymbols addr = .ret (i : Int))
      ∧ get_symbol_index_from_addr_backward true [] addr = .ret (-1)
      ∧ (gMapSymbols.Pairwise (fun a b => a.addr ≤ b.addr) →
          ∀ (i j : Nat) (h : i < gMapSymbols.length) (hj : j < gMapSymbols.length),
            get_symbol_index_from_addr_backward true gMapSymbols addr = .ret (i : Int) →
            addr_is_in_symbol addr gMapSymbols[j] = true →
            gMapSymbols[j].addr ≤ gMapSymbols[i].addr)
      ∧ (∀ s : MapSymbol, s.addr + s.size < 2 ^ 32 →
          (addr_is_in_symbol addr s = true ↔ s.addr ≤ addr ∧ addr < s.addr + s.size)) := by
  have hbwd : get_symbol_index_from_addr_backward true gMapSymbols addr
      = backward_loop gMapSymbols addr gMapSymbols.length := by
    simp [get_symbol_index_from_addr_backward]
  have hspec := backward_loop_spec gMapSymbols addr gMapSymbols.length (Nat.le_refl _)
  rw [← hbwd] at hspec
  have hiff : ∀ (i : Nat) (h : i < gMapSymbols.length),
      get_symbol_index_from_addr_backward true gMapSymbols addr = .ret (i : Int)
        ↔ addr_is_in_symbol addr gMapSymbols[i] = true
          ∧ ∀ (j : Nat) (hj : j < gMapSymbols.length), i < j →
              addr_is_in_symbol addr gMapSymbols[j] = false := by
    intro i h
    rcases hspec with ⟨k, hk, _, hpk, hmax, hret⟩ | ⟨hnone, hret⟩
    · rw [hret, toS32_of_lt k (by omega)]
      constructor
      · intro e
        have e1 : (k : Int) = (i : Int) := Run.ret.inj e
        have e2 : k = i := by exact_mod_cast e1
        subst e2
        exact ⟨hpk, fun j hj hij => hmax j hj hij hj⟩
      · rintro ⟨hpi, hmaxi⟩
        have e2 : k = i := by
          rcases Nat.lt_trichotomy k i with hlt | heq | hgt
          · have := hmax i h hlt h
            rw [hpi] at this
            exact Bool.noConfusion this
          · exact heq
          · have := hmaxi k hk hgt
            rw [hpk] at this
            exact Bool.noConfusion this
        rw [e2]
    · rw [hret]
      constructor
      · intro e
        have e1 : (-1 : Int) = (i : Int) := Run.ret.inj e
        omega
      · rintro ⟨hpi, _⟩
        have := hnone i h h
        rw [hpi] at this
        exact Bool.noConfusion this
  refine ⟨hiff, ?_, ?_, rfl, ?_, ?_⟩
  · rcases hspec with ⟨k, hk, _, hpk, _, hret⟩ | ⟨hnone, hret⟩
    · rw [hret, toS32_of_lt k (by omega)]
      constructor
      · intro e
        have e1 : (k : Int) = (-1 : Int) := Run.ret.inj e
        omega
      · intro hall
        have := hall _ (List.getElem_mem hk)
        rw [hpk] at this
        exact Bool.noConfusion this
    · rw [hret]
      refine ⟨fun _ s hs => ?_, fun _ => rfl⟩
      obtain ⟨j, hj, rfl⟩ := List.getElem_of_mem hs
      exact hnone j hj hj
  · rcases hspec with ⟨k, hk, _, _, _, hret⟩ | ⟨_, hret⟩
    · exact Or.inr ⟨k, hk, by rw [hret, toS32_of_lt k (by omega)]⟩
    · exact Or.inl hret
  · intro hsorted i j h hj hi hin
    have hmax := ((hiff i h).mp hi).2
    have hle : j ≤ i := by
      by_contra hlt
      have := hmax j hj (by omega)
      rw [hin] at this
      exact Bool.noConfusion this
    rcases Nat.eq_or_lt_of_le hle with rfl | hlt
    · exact Nat.le_refl _
    · exact (List.pairwise_iff_getElem.mp hsorted) j i hj h hlt
  · intro s hs
    rw [addr_is_in_symbol_iff, Nat.mod_eq_of_lt hs]

/-- Witness of C11: an overlapping, start-sorted table of three records and the
address `0x1008`, where the backward search returns index 1. -/
theorem get_symbol_index_from_addr_backward_largest_witness :
    ([⟨0x1000, 0x20, 0⟩, ⟨0x1000, 0x10, 4⟩, ⟨0x2000, 0x10, 8⟩] : List MapSymbol).length ≤ 2 ^ 31
      ∧ get_symbol_index_from_addr_backward true
          [⟨0x1000, 0x20, 0⟩, ⟨0x1000, 0x10, 4⟩, ⟨0x2000, 0x10, 8⟩] 0x1008 = .ret 1
      ∧ (get_symbol_index_from_addr_backward true
            [⟨0x1000, 0x20, 0⟩, ⟨0x1000, 0x10, 4⟩, ⟨0x2000, 0x10, 8⟩] 0x1008 = .ret (-1)
          ↔ ∀ s ∈ ([⟨0x1000, 0x20, 0⟩, ⟨0x1000, 0x10, 4⟩, ⟨0x2000, 0x10, 8⟩] : List MapSymbol),
              addr_is_in_symbol 0x1008 s = false) :=
  ⟨by decide, by decide,
    (get_symbol_index_from_addr_backward_largest
      [⟨0x1000, 0x20, 0⟩, ⟨0x1000, 0x10, 4⟩, ⟨0x2000, 0x10, 8⟩] 0x1008 (by decide)).2.1⟩

/-- C12: on the table `[S1 = (0x1000, 0x20), S2 = (0x1000, 0x10)]` and address
`0x1008` the forward search returns index 0 (S1) and the backward search index
1 (S2); and on every table (of at most `2 ^ 31` entries), whenever two
different records contain an address, the forward search returns an index
strictly smaller than the one the backward search returns, so the two
strategies return different records. -/
theorem forward_backward_differ (gMapSymbols : List MapSymbol) (addr : Nat)
    (hlen : gMapSymbols.length ≤ 2 ^ 31) (i j : Nat)
    (hi : i < gMapSymbols.length) (hj : j < gMapSymbols.length) (hij : i ≠ j)
    (pi : addr_is_in_symbol addr gMapSymbols[i] = true)
    (pj : addr_is_in_symbol addr gMapSymbols[j] = true) :
    (get_symbol_index_from_addr_forward true [⟨0x1000, 0x20, 0⟩, ⟨0x1000, 0x10, 4⟩] 0x1008
        = .ret 0
      ∧ get_symbol_index_from_addr_backward true [⟨0x1000, 0x20, 0⟩, ⟨0x1000, 0x10, 4⟩] 0x1008
        = .ret 1)
      ∧ ∃ a b : Nat, a < b ∧ b < gMapSymbols.length
          ∧ get_symbol_index_from_addr_forward true gMapSymbols addr = .ret (a : Int)
          ∧ get_symbol_index_from_addr_backward true gMapSymbols addr = .ret (b : Int)
          ∧ get_symbol_index_from_addr_forward true gMapSymbols addr
            ≠ get_symbol_index_from_addr_backward true gMapSymbols addr := by
  refine ⟨by decide, ?_⟩
  have hfwd := get_symbol_index_from_addr_forward_eq gMapSymbols addr hlen
  have hbwd : get_symbol_index_from_addr_backward true gMapSymbols addr
      = backward_loop gMapSymbols addr gMapSymbols.length := by
    simp [get_symbol_index_from_addr_backward]
  have hex : ∃ x ∈ gMapSymbols, addr_is_in_symbol addr x = true :=
    ⟨_, List.getElem_mem hi, pi⟩
  have hfi : gMapSymbols.findIdx (addr_is_in_symbol addr) < gMapSymbols.length :=
    List.findIdx_lt_length_of_exists hex
  rw [if_pos hfi] at hfwd
  have hmin : gMapSymbols.findIdx (addr_is_in_symbol addr) ≤ Nat.min i j := by
    by_contra hcon
    have hlt : Nat.min i j < gMapSymbols.findIdx (addr_is_in_symbol addr) := by omega
    have hnot := @List.not_of_lt_findIdx _ (addr_is_in_symbol addr) gMapSymbols _ hlt
    rcases Nat.le_total i j with h | h
    · have e : Nat.min i j = i := Nat.min_eq_left h
      simp only [e] at hnot
      rw [pi] at hnot
      exact Bool.noConfusion hnot
    · have e : Nat.min i j = j := Nat.min_eq_right h
      simp only [e] at hnot
      rw [pj] at hnot
      exact Bool.noConfusion hnot
  have hminlt : Nat.min i j < Nat.max i j := by
    have h1 : Nat.min i j ≤ i := Nat.min_le_left i j
    have h2 : Nat.min i j ≤ j := Nat.min_le_right i j
    have h3 : i ≤ Nat.max i j := Nat.le_max_left i j
    have h4 : j ≤ Nat.max i j := Nat.le_max_right i j
    omega
  rcases backward_loop_spec gMapSymbols addr gMapSymbols.length (Nat.le_refl _) with
    ⟨k, hk, _, hpk, hmax, hret⟩ | ⟨hnone, _⟩
  · have hmaxle : Nat.max i j ≤ k := by
      by_contra hcon
      rcases Nat.le_total i j with h | h
      · have e : Nat.max i j = j := Nat.max_eq_right h
        have := hmax j hj (by omega) hj
        rw [pj] at this
        exact Bool.noConfusion this
      · have e : Nat.max i j = i := Nat.max_eq_left h
        have := hmax i hi (by omega) hi
        rw [pi] at this
        exact Bool.noConfusion this
    rw [toS32_of_lt k (by omega)] at hret
    refine ⟨_, k, by omega, hk, hfwd, by rw [hbwd, hret], ?_⟩
    rw [hfwd, hbwd, hret]
    intro e
    have e1 : ((gMapSymbols.findIdx (addr_is_in_symbol addr) : Nat) : Int) = (k : Int) :=
      Run.ret.inj e
    omega
  · have := hnone i hi hi
    rw [pi] at this
    exact Bool.noConfusion this

/-- Witness of C12: the table and address of the claim, with the two records
at indices 0 and 1. -/
theorem forward_backward_differ_witness :
    get_symbol_index_from_addr_forward true [⟨0x1000, 0x20, 0⟩, ⟨0x1000, 0x10, 4⟩] 0x1008
      ≠ get_symbol_index_from_addr_backward true [⟨0x1000, 0x20, 0⟩, ⟨0x1000, 0x10, 4⟩] 0x1008 :=
  let ⟨_, _, _, _, _, _, h⟩ := (forward_backward_differ
    [⟨0x1000, 0x20, 0⟩, ⟨0x1000, 0x10, 4⟩] 0x1008 (by decide) 0 1 (by decide) (by decide)
    (by decide) (by decide) (by decide)).2
  h



/-- C13 (failing input): on the empty table `searchEnd` starts at
`0 - 1 = 0xFFFFFFFF` and the first read is `gMapSymbols[0x7FFFFFFF]`; on the
table `[(0x80001000, 0x10)]` and the address `0x80000000`, which no record
contains, the search reaches index 0, wraps `searchEnd` to `0xFFFFFFFF` and
reads `gMapSymbols[0x7FFFFFFF]`. In both cases the read is outside the table
and the result is not -1. -/
theorem get_symbol_index_from_addr_binary_wraps :
    (([] : List MapSymbol).length % 2 ^ 32 + 2 ^ 32 - 1) % 2 ^ 32 = 0xFFFFFFFF
      ∧ (0 + (0xFFFFFFFF - 0) / 2) % 2 ^ 32 = 0x7FFFFFFF
      ∧ ([] : List MapSymbol)[0x7FFFFFFF]? = none
      ∧ get_symbol_index_from_addr_binary [] 0x80000000 = some .fault
      ∧ (∀ s ∈ ([⟨0x80001000, 0x10, 0⟩] : List MapSymbol),
          addr_is_in_symbol 0x80000000 s = false)
      ∧ binary_loop [⟨0x80001000, 0x10, 0⟩] 0x80000000 3 0 0
          = binary_loop [⟨0x80001000, 0x10, 0⟩] 0x80000000 2 0 0xFFFFFFFF
      ∧ ([⟨0x80001000, 0x10, 0⟩] : List MapSymbol)[0x7FFFFFFF]? = none
      ∧ get_symbol_index_from_addr_binary [⟨0x80001000, 0x10, 0⟩] 0x80000000 = some .fault
      ∧ get_symbol_index_from_addr_binary [⟨0x80001000, 0x10, 0⟩] 0x80000000
          ≠ some (.ret (-1)) := by
  decide

/-- What `get_map_symbol` returns in a build with the debug map once the
guarded read has succeeded, by the result of the search. -/
theorem get_map_symbol_of_read (try_read_word_aligned : Nat → Option Nat)
    (gMapSymbols : List MapSymbol) (addr d : Nat) (dir : SymbolSearchDirections)
    (hd : try_read_word_aligned addr = some d) :
    get_map_symbol true try_read_word_aligned gMapSymbols addr dir
      = match get_map_symbol_index true gMapSymbols addr dir with
        | none => none
        | some .fault => some .fault
        | some (.ret index) =>
          if index ≠ -1 then some (.ret (some index)) else some (.ret none) := by
  unfold get_map_symbol
  rw [hd]
  rfl

/-- An index computed by the search of any strategy is -1 or the position of a
record of the table that contains the address; the forward and backward
searches always compute one. -/
theorem get_map_symbol_index_ret (gMapSymbols : List MapSymbol) (addr : Nat)
    (hlen : gMapSymbols.length ≤ 2 ^ 31) :
    (∀ (dir : SymbolSearchDirections) (i : Int),
        get_map_symbol_index true gMapSymbols addr dir = some (.ret i) →
        i = -1 ∨ ∃ (k : Nat) (_ : k < gMapSymbols.length), i = (k : Int)
          ∧ addr_is_in_symbol addr gMapSymbols[k] = true)
      ∧ (∃ i : Int, get_symbol_index_from_addr_forward true gMapSymbols addr = .ret i)
      ∧ (∃ i : Int, get_symbol_index_from_addr_backward true gMapSymbols addr = .ret i) := by
  have hfwd := get_symbol_index_from_addr_forward_eq gMapSymbols addr hlen
  have hbwd : get_symbol_index_from_addr_backward true gMapSymbols addr
      = backward_loop gMapSymbols addr gMapSymbols.length := by
    simp [get_symbol_index_from_addr_backward]
  refine ⟨fun dir i hi => ?_, ?_, ?_⟩
  · cases dir with
    | SYMBOL_SEARCH_FORWARD =>
      have hi' : get_symbol_index_from_addr_forward true gMapSymbols addr = .ret i :=
        Option.some.inj hi
      rw [hfwd] at hi'
      split at hi'
      · next hlt =>
        right
        exact ⟨_, hlt, (Run.ret.inj hi').symm, List.findIdx_getElem⟩
      · left
        exact (Run.ret.inj hi').symm
    | SYMBOL_SEARCH_BACKWARD =>
      have hi' : get_symbol_index_from_addr_backward true gMapSymbols addr = .ret i :=
        Option.some.inj hi
      rw [hbwd] at hi'
      rcases backward_loop_spec gMapSymbols addr gMapSymbols.length (Nat.le_refl _) with
        ⟨k, hk, _, hpk, _, hret⟩ | ⟨_, hret⟩
      · right
        rw [hret, toS32_of_lt k (by omega)] at hi'
        exact ⟨k, hk, (Run.ret.inj hi').symm, hpk⟩
      · left
        rw [hret] at hi'
        exact (Run.ret.inj hi').symm
    | SYMBOL_SEARCH_BINARY =>
      exact binary_loop_ret gMapSymbols addr hlen _ _ _ i hi
    | other =>
      left
      exact (Run.ret.inj (Option.some.inj hi)).symm
  · rw [hfwd]
    split <;> exact ⟨_, rfl⟩
  · rw [hbwd]
    rcases backward_loop_spec gMapSymbols addr gMapSymbols.length (Nat.le_refl _) with
      ⟨k, _, _, _, _, hret⟩ | ⟨_, hret⟩ <;> exact ⟨_, hret⟩

/-- C14: in a build with the debug map, `get_map_symbol` returns `NULL` for
every strategy and every table when the guarded read of the address fails;
when the read succeeds and the search of the selected strategy (forward,
backward or binary, as `get_map_symbol_index` selects it) returns index `i`,
it returns `NULL` if `i` is -1 and the pointer `&gMapSymbols[i]` otherwise,
and that record is in the table and contains the address; the forward and
backward searches always return an index; a strategy value that is none of the
three gives `NULL`. -/
theorem get_map_symbol_spec (try_read_word_aligned : Nat → Option Nat)
    (gMapSymbols : List MapSymbol) (addr : Nat) (hlen : gMapSymbols.length ≤ 2 ^ 31) :
    (try_read_word_aligned addr = none → ∀ (dir : SymbolSearchDirections) (l : List MapSymbol),
        get_map_symbol true try_read_word_aligned l addr dir = some (.ret none))
      ∧ (∀ d, try_read_word_aligned addr = some d →
          (∀ (dir : SymbolSearchDirections) (i : Int),
              get_map_symbol_index true gMapSymbols addr dir = some (.ret i) →
              get_map_symbol true try_read_word_aligned gMapSymbols addr dir
                  = some (.ret (if i = -1 then none else some i))
                ∧ (i ≠ -1 → ∃ (k : Nat) (_ : k < gMapSymbols.length), i = (k : Int)
                    ∧ addr_is_in_symbol addr gMapSymbols[k] = true))
          ∧ (∀ dir : SymbolSearchDirections,
              get_map_symbol true try_read_word_aligned gMapSymbols addr dir = some (.ret none)
                ↔ get_map_symbol_index true gMapSymbols addr dir = some (.ret (-1)))
          ∧ get_map_symbol_index true gMapSymbols addr SYMBOL_SEARCH_FORWARD
              = some (get_symbol_index_from_addr_forward true gMapSymbols addr)
          ∧ get_map_symbol_index true gMapSymbols addr SYMBOL_SEARCH_BACKWARD
              = some (get_symbol_index_from_addr_backward true gMapSymbols addr)
          ∧ get_map_symbol_index true gMapSymbols addr SYMBOL_SEARCH_BINARY
              = get_symbol_index_from_addr_binary gMapSymbols addr
          ∧ get_map_symbol true try_read_word_aligned gMapSymbols addr other = some (.ret none)
          ∧ (∃ i : Int, get_symbol_index_from_addr_forward true gMapSymbols addr = .ret i)
          ∧ (∃ i : Int, get_symbol_index_from_addr_backward true gMapSymbols addr = .ret i)) := by
  obtain ⟨hret, hf, hb⟩ := get_map_symbol_index_ret gMapSymbols addr hlen
  refine ⟨fun h dir l => ?_, fun d hd => ⟨fun dir i hi => ⟨?_, fun hne => ?_⟩, fun dir => ?_,
    rfl, rfl, rfl, ?_, hf, hb⟩⟩
  · unfold get_map_symbol
    rw [h]
    rfl
  · rw [get_map_symbol_of_read _ _ _ d dir hd, hi]
    by_cases h1 : i = -1
    · rw [if_pos h1]
      simp only [ne_eq, h1, not_true_eq_false, if_false]
    · rw [if_neg h1]
      simp only [ne_eq, h1, not_false_eq_true, if_true]
  · rcases hret dir i hi with h | h
    · exact absurd h hne
    · exact h
  · rw [get_map_symbol_of_read _ _ _ d dir hd]
    generalize get_map_symbol_index true gMapSymbols addr dir = r
    cases r with
    | none => simp
    | some r =>
      cases r with
      | fault => simp
      | ret v =>
        by_cases hv : v = -1
        · simp [hv]
        · simp [hv]
  · rw [get_map_symbol_of_read _ _ _ d other hd]
    rfl

/-- Witness of C14: the table `[(0x1000, 0x20), (0x1000, 0x10)]`, the address
`0x1008` and a guarded read that succeeds: the backward strategy returns the
record at index 1. -/
theorem get_map_symbol_spec_witness :
    ([⟨0x1000, 0x20, 0⟩, ⟨0x1000, 0x10, 4⟩] : List MapSymbol).length ≤ 2 ^ 31
      ∧ get_map_symbol true (fun _ => some 0) [⟨0x1000, 0x20, 0⟩, ⟨0x1000, 0x10, 4⟩] 0x1008
          SYMBOL_SEARCH_BACKWARD = some (.ret (some 1))
      ∧ get_map_symbol true (fun _ => some 0) [⟨0x1000, 0x20, 0⟩, ⟨0x1000, 0x10, 4⟩] 0x1008
          other = some (.ret none) :=
  ⟨by decide, by decide,
    ((get_map_symbol_spec (fun _ => some 0) [⟨0x1000, 0x20, 0⟩, ⟨0x1000, 0x10, 4⟩] 0x1008
      (by decide)).2 0 rfl).2.2.2.2.2.1⟩

/-- C15 (failing input): without `INCLUDE_DEBUG_MAP` the forward and backward
searches return -1, `get_map_symbol` returns `NULL` and `get_map_symbol_name`
returns `NULL` for every input, but `get_symbol_index_from_addr_binary` has no
such guard: it searches the table all the same, so on the empty table it reads
`gMapSymbols[0x7FFFFFFF]` and on `[(0x80001000, 0x10)]` with address
`0x80001008` it returns index 0, not -1. -/
theorem get_symbol_index_from_addr_binary_unguarded :
    (∀ (l : List MapSymbol) (addr : Nat),
        get_symbol_index_from_addr_forward false l addr = .ret (-1))
      ∧ (∀ (l : List MapSymbol) (addr : Nat),
        get_symbol_index_from_addr_backward false l addr = .ret (-1))
      ∧ (∀ (read : Nat → Option Nat) (l : List MapSymbol) (addr : Nat)
          (dir : SymbolSearchDirections),
        get_map_symbol false read l addr dir = some (.ret none))
      ∧ (∀ (gMapStrings : Nat) (symbol : Option MapSymbol),
        get_map_symbol_name false gMapStrings symbol = none)
      ∧ get_symbol_index_from_addr_binary [] 0x80001008 = some .fault
      ∧ get_symbol_index_from_addr_binary [⟨0x80001000, 0x10, 0⟩] 0x80001008
          = some (.ret 0) := by
  refine ⟨fun _ _ => rfl, fun _ _ => rfl, fun _ _ _ _ => rfl, fun _ _ => rfl, ?_, ?_⟩ <;> decide

/-- C16: `is_in_code_segment` is true exactly when some entry of the region
list has `start <= addr < end`; when every region is empty it is false for
every address. -/
theorem is_in_code_segment_iff (sTextRegions : List AddressPair) (addr : Nat) :
    (is_in_code_segment sTextRegions addr = true
        ↔ ∃ r ∈ sTextRegions, r.start ≤ addr ∧ addr < r.end_)
      ∧ ((∀ r ∈ sTextRegions, r.end_ ≤ r.start) →
          is_in_code_segment sTextRegions addr = false) := by
  have hiff : is_in_code_segment sTextRegions addr = true
      ↔ ∃ r ∈ sTextRegions, r.start ≤ addr ∧ addr < r.end_ := by
    induction sTextRegions with
    | nil => simp [is_in_code_segment]
    | cons r rest ih =>
      by_cases h : addr ≥ r.start ∧ addr < r.end_
      · simp only [is_in_code_segment, h, and_self, if_true, true_iff]
        exact ⟨r, List.mem_cons_self _ _, h⟩
      · have hr : ¬ (r.start ≤ addr ∧ addr < r.end_) := h
        simp only [is_in_code_segment, h, if_false, ih, List.mem_cons, exists_eq_or_imp, hr,
          false_or]
  refine ⟨hiff, fun hempty => ?_⟩
  cases hc : is_in_code_segment sTextRegions addr with
  | false => rfl
  | true =>
    obtain ⟨r, hr, h1, h2⟩ := hiff.mp hc
    have := hempty r hr
    omega



/-! ## Formatting: supporting lemmas -/

/-- A scan returns an entry of the list it scans. -/
theorem scan_list_mem (l : List InsnTemplate) (key : Nat) (t : InsnTemplate)
    (h : scan_list l key = some t) : t ∈ l := by
  induction l with
  | nil => simp [scan_list] at h
  | cons a rest ih =>
    unfold scan_list at h
    by_cases hk : a.opcode = key
    · rw [if_pos hk] at h
      rw [← Option.some.inj h]
      exact List.mem_cons_self _ _
    · rw [if_neg hk] at h
      exact List.mem_cons_of_mem _ (ih h)

/-- A successful `check_pseudo_insn` yields the entry it was asked for. -/
theorem check_pseudo_insn_mem (id : PseudoInsns) (c : Bool) (t : InsnTemplate)
    (h : check_pseudo_insn id c = some t) : ∃ id, t = insn_db_pseudo id := by
  unfold check_pseudo_insn at h
  cases c
  · exact absurd h (by simp)
  · exact ⟨id, (Option.some.inj h).symm⟩

/-- A pseudo-instruction check that converts returns an entry of
`insn_db_pseudo`. -/
theorem check_pseudo_instructions_mem (insn : Nat) (t : InsnTemplate)
    (h : check_pseudo_instructions insn = some t) : ∃ id, t = insn_db_pseudo id := by
  unfold check_pseudo_instructions at h
  repeat' (split at h)
  all_goals first
    | exact check_pseudo_insn_mem _ _ _ h
    | (cases h; exact check_pseudo_insn_mem _ _ _ (by assumption))
    | simp at h

/-- Every template of the tables and of `insn_db_pseudo` that `get_insn` can
return is listed in `all_templates`. -/
theorem get_insn_mem_all_templates (p : Bool) (insn : Nat) (t : InsnTemplate)
    (h : get_insn p insn = .ret (some t)) : t ∈ all_templates := by
  unfold get_insn at h
  split at h
  · next t0 h0 =>
    cases p
    · simp at h0
    · rw [if_pos rfl] at h0
      obtain ⟨id, hid⟩ := check_pseudo_instructions_mem insn t0 h0
      cases h
      rw [hid]
      cases id <;> decide
  · split at h
    · exact absurd h (by simp)
    · next list key hl =>
      have hs : scan_list list key = some t := by
        injection h
      have hm := scan_list_mem list key t hs
      have hlist : list = insn_db_standard ∨ list = insn_db_spec ∨ list = insn_db_regi
          ∨ list = insn_db_cop0_sub00 ∨ list = insn_db_cop0_sub10
          ∨ list = insn_db_cop1_sub00 ∨ list = insn_db_cop1_sub01
          ∨ list = insn_db_cop1_sub10 := by
        unfold get_insn_list at hl
        by_cases hc : opcode insn = OPC_COP0 ∨ opcode insn = OPC_COP1 ∨ opcode insn = OPC_COP2
            ∨ opcode insn = OPC_COP3
        · rw [if_pos hc] at hl
          have hc : insn_db_cop_lists (cop_num insn) (cop_subtype insn) = some list :=
            congrArg Prod.fst hl
          unfold insn_db_cop_lists at hc
          split_ifs at hc <;> first
            | exact absurd hc (Option.noConfusion)
            | (rw [← Option.some.inj hc]; simp)
        · rw [if_neg hc] at hl
          by_cases hs : opcode insn = OPC_SPECIAL
          · rw [if_pos hs] at hl
            have hc : some insn_db_spec = some list := congrArg Prod.fst hl
            rw [← Option.some.inj hc]; simp
          · rw [if_neg hs] at hl
            by_cases hr : opcode insn = OPC_REGIMM
            · rw [if_pos hr] at hl
              have hc : some insn_db_regi = some list := congrArg Prod.fst hl
              rw [← Option.some.inj hc]; simp
            · rw [if_neg hr] at hl
              have hc : some insn_db_standard = some list := congrArg Prod.fst hl
              rw [← Option.some.inj hc]; simp
      simp only [all_templates, List.mem_append]
      rcases hlist with h1 | h1 | h1 | h1 | h1 | h1 | h1 | h1 <;> subst h1 <;> simp [hm]


/-- The layout of a concatenation. -/
theorem layout_append (a b : List Piece) : layout (a ++ b) = layout a ++ layout b := by
  simp [layout, List.filterMap_append]

/-- A colour change adds no text and leaves the rest of the state alone. -/
theorem color_change_frame (s : InsnLoopState) (c : Nat) (format : Bool) :
    layout (cs_insn_param_check_color_change s c format).str = layout s.str
      ∧ (cs_insn_param_check_color_change s c format).separator = s.separator
      ∧ (cs_insn_param_check_color_change s c format).fname = s.fname
      ∧ (cs_insn_param_check_color_change s c format).savedRegs = s.savedRegs
      ∧ ∀ v, Piece.function v ∈ (cs_insn_param_check_color_change s c format).str
          ↔ Piece.function v ∈ s.str := by
  unfold cs_insn_param_check_color_change
  split
  · simp [layout, List.filterMap_append, Piece.kind]
  · simp

/-- The backward lookup of `get_map_symbol` returns `NULL` or a record of the
table that contains the address. -/
theorem get_map_symbol_backward_cases (read : Nat → Option Nat) (l : List MapSymbol)
    (addr : Nat) (hlen : l.length ≤ 2 ^ 31) :
    get_map_symbol true read l addr SYMBOL_SEARCH_BACKWARD = some (.ret none)
      ∨ ∃ (k : Nat) (_ : k < l.length),
          get_map_symbol true read l addr SYMBOL_SEARCH_BACKWARD = some (.ret (some (k : Int)))
            ∧ addr_is_in_symbol addr l[k] = true := by
  cases hr : read addr with
  | none =>
    left
    unfold get_map_symbol
    rw [hr]
    rfl
  | some d =>
    rw [get_map_symbol_of_read read l addr d _ hr]
    obtain ⟨hall, _, ⟨i, hi⟩⟩ := get_map_symbol_index_ret l addr hlen
    have hidx : get_map_symbol_index true l addr SYMBOL_SEARCH_BACKWARD = some (.ret i) := by
      show some (get_symbol_index_from_addr_backward true l addr) = _
      rw [hi]
    rw [hidx]
    rcases hall _ i hidx with rfl | ⟨k, hk, rfl, hin⟩
    · left
      simp
    · right
      refine ⟨k, hk, ?_, hin⟩
      have hne : (k : Int) ≠ -1 := by omega
      simp [hne]


/-- The three ways the case `CHAR_P_FUNC` ends, each the same for every state
it starts from: the raw target is appended and `*fname` is left alone, which
happens only when no symbol lookup returned a record; the raw target is
appended and `*fname` is set to `NULL`; or nothing is appended and `*fname` is
the name of the record the backward lookup returned, which starts at the
target. -/
theorem cs_insn_func_cases (env : CSEnv) (insn : Nat) (format : Bool)
    (hlen : env.gMapSymbols.length ≤ 2 ^ 31) :
    ((∀ s, cs_insn_func env insn format s
          = some (.ret (ADD_STR (cs_insn_param_check_color_change s
              env.colors.COLOR_RGBA32_CRASH_FUNCTION_NAME format)
              (.function (PHYSICAL_TO_VIRTUAL (instr_index insn * 4))))))
        ∧ ∀ k : Nat, ¬ (env.INCLUDE_DEBUG_MAP = true ∧ env.CS_OPT_GLOBAL_SYMBOL_NAMES = true
            ∧ is_in_code_segment env.sTextRegions (PHYSICAL_TO_VIRTUAL (instr_index insn * 4))
                = true
            ∧ get_map_symbol env.INCLUDE_DEBUG_MAP env.try_read_word_aligned env.gMapSymbols
                (PHYSICAL_TO_VIRTUAL (instr_index insn * 4)) SYMBOL_SEARCH_BACKWARD
                = some (.ret (some (k : Int)))))
      ∨ (∀ s, cs_insn_func env insn format s
          = some (.ret (ADD_STR { cs_insn_param_check_color_change s
              env.colors.COLOR_RGBA32_CRASH_FUNCTION_NAME format with fname := none }
              (.function (PHYSICAL_TO_VIRTUAL (instr_index insn * 4))))))
      ∨ ∃ (k : Nat) (_ : k < env.gMapSymbols.length) (p : Nat),
          env.INCLUDE_DEBUG_MAP = true ∧ env.CS_OPT_GLOBAL_SYMBOL_NAMES = true
            ∧ is_in_code_segment env.sTextRegions (PHYSICAL_TO_VIRTUAL (instr_index insn * 4))
                = true
            ∧ get_map_symbol env.INCLUDE_DEBUG_MAP env.try_read_word_aligned env.gMapSymbols
                (PHYSICAL_TO_VIRTUAL (instr_index insn * 4)) SYMBOL_SEARCH_BACKWARD
                = some (.ret (some (k : Int)))
            ∧ env.gMapSymbols[k].addr = PHYSICAL_TO_VIRTUAL (instr_index insn * 4)
            ∧ get_map_symbol_name env.INCLUDE_DEBUG_MAP env.gMapStrings
                (some env.gMapSymbols[k]) = some p
            ∧ ∀ s, cs_insn_func env insn format s
                = some (.ret { cs_insn_param_check_color_change s
                    env.colors.COLOR_RGBA32_CRASH_FUNCTION_NAME format with fname := some p }) := by
  obtain ⟨target, ht⟩ : ∃ t, PHYSICAL_TO_VIRTUAL (instr_index insn * 4) = t := ⟨_, rfl⟩
  simp only [ht]
  cases hmap : env.INCLUDE_DEBUG_MAP with
  | false =>
    right; left
    intro s
    simp only [cs_insn_func, ht, hmap, Bool.false_eq_true, if_false]
  | true =>
    cases hc : (env.CS_OPT_GLOBAL_SYMBOL_NAMES && is_in_code_segment env.sTextRegions target) with
    | false =>
      left
      refine ⟨fun s => ?_, fun k h => ?_⟩
      · simp only [cs_insn_func, ht, hmap, hc, Bool.false_eq_true, if_false, if_true]
      · rw [h.2.1, h.2.2.1] at hc
        exact absurd hc (by decide)
    | true =>
      have hnames : env.CS_OPT_GLOBAL_SYMBOL_NAMES = true := (Bool.and_eq_true _ _ ▸ hc).1
      have hcode : is_in_code_segment env.sTextRegions target = true :=
        (Bool.and_eq_true _ _ ▸ hc).2
      rcases get_map_symbol_backward_cases env.try_read_word_aligned env.gMapSymbols target hlen
        with hnone | ⟨k, hk, hsome, _⟩
      · left
        refine ⟨fun s => ?_, fun k h => ?_⟩
        · simp only [cs_insn_func, ht, hmap, hc, if_true, hnone]
        · rw [hnone] at h
          exact absurd h.2.2.2 (by simp)
      · have hidx : (if 0 ≤ (k : Int) then env.gMapSymbols[(k : Int).toNat]? else none)
            = some env.gMapSymbols[k] := by
          simp [hk]
        by_cases haddr : target = env.gMapSymbols[k].addr
        · subst haddr
          cases hname : get_map_symbol_name true env.gMapStrings (some env.gMapSymbols[k]) with
          | none =>
            right; left
            intro s
            simp only [cs_insn_func, ht, hmap, hc, if_true, hsome, hidx, hname, ne_eq,
              not_true_eq_false, if_false]
          | some p =>
            right; right
            refine ⟨k, hk, p, rfl, hnames, hcode, hsome, rfl, hname, fun s => ?_⟩
            simp only [cs_insn_func, ht, hmap, hc, if_true, hsome, hidx, hname, ne_eq,
              not_true_eq_false, if_false, reduceCtorEq, not_false_eq_true]
        · right; left
          intro s
          simp only [cs_insn_func, ht, hmap, hc, if_true, hsome, hidx, haddr, ne_eq,
            not_false_eq_true, not_true_eq_false, if_false]


/-- The layout after one more piece. -/
theorem layout_add (str : List Piece) (p : Piece) :
    layout (str ++ [p]) = layout str ++ p.kind.toList := by
  cases h : p.kind <;> simp [layout, List.filterMap_append, h]

/-- The case `CHAR_P_FUNC` always returns, prints the target as one operand or
nothing, the same for every state it starts from, and leaves `separator`
alone. -/
theorem cs_insn_func_layout (env : CSEnv) (insn : Nat) (format : Bool)
    (hlen : env.gMapSymbols.length ≤ 2 ^ 31) :
    ∃ named : Bool, ∀ s, ∃ s', cs_insn_func env insn format s = some (.ret s')
      ∧ layout s'.str = layout s.str ++ (if named then [] else [.operand])
      ∧ s'.separator = s.separator := by
  rcases cs_insn_func_cases env insn format hlen with ⟨h, _⟩ | h | ⟨k, hk, p, _, _, _, _, _, _, h⟩
  · refine ⟨false, fun s => ⟨_, h s, ?_, ?_⟩⟩
    · simp only [ADD_STR, layout_add, (color_change_frame s _ format).1, Piece.kind,
        Option.toList, Bool.false_eq_true, if_false]
    · simp only [ADD_STR, (color_change_frame s _ format).2.1]
  · refine ⟨false, fun s => ⟨_, h s, ?_, ?_⟩⟩
    · simp only [ADD_STR, layout_add, (color_change_frame s _ format).1, Piece.kind,
        Option.toList, Bool.false_eq_true, if_false]
    · simp only [ADD_STR, (color_change_frame s _ format).2.1]
  · refine ⟨true, fun s => ⟨_, h s, ?_, ?_⟩⟩
    · simp only [(color_change_frame s _ format).1, if_true, List.append_nil]
    · simp only [(color_change_frame s _ format).2.1]

/-- One command of a known directive, started without a pending separator:
it returns, prints the pieces of `command_layout`, and sets `separator` as
`sets_separator` says; only NOP leaves by `return`. -/
theorem cs_insn_command_layout (env : CSEnv) (addr insn : Nat) (info : InsnTemplate)
    (format : Bool) (cmdIndex : Nat) (c : Char) (s : InsnLoopState) (named : Bool)
    (hfunc : ∀ s, ∃ s', cs_insn_func env insn format s = some (.ret s')
      ∧ layout s'.str = layout s.str ++ (if named then [] else [.operand])
      ∧ s'.separator = s.separator)
    (hbranch : env.CS_OPT_DISASM_OFFSET_ADDR = true →
      ∃ t, get_insn_branch_target_from_addr env.sTextRegions
        env.CS_OPT_DISASM_PSEUDOINSNS env.mem addr = .ret t)
    (hc : is_directive c = true) (hsep : s.separator = false) :
    ∃ s', cs_insn_command env addr insn info format cmdIndex c s
        = some (.ret (s', if c = CHAR_P_NOP then .returned else .next))
      ∧ layout s'.str = layout s.str ++ command_layout c named
      ∧ s'.separator = sets_separator c := by
  have hl := fun col => (color_change_frame s col format).1
  have hs := fun col => (color_change_frame s col format).2.1
  have hb : env.CS_OPT_DISASM_OFFSET_ADDR = false
      ∨ (env.CS_OPT_DISASM_OFFSET_ADDR = true
        ∧ ∃ t, get_insn_branch_target_from_addr env.sTextRegions
          env.CS_OPT_DISASM_PSEUDOINSNS env.mem addr = .ret t) := by
    cases h : env.CS_OPT_DISASM_OFFSET_ADDR
    · exact Or.inl rfl
    · exact Or.inr ⟨rfl, hbranch h⟩
  obtain ⟨sf, hf1, hf2, hf3⟩ := hfunc s
  simp only [is_directive, is_operand_directive, Bool.or_eq_true, decide_eq_true_eq] at hc
  rcases hc with ((((rfl | rfl) | rfl) | rfl) |
    (((((((((((rfl | rfl) | rfl) | rfl) | rfl) | rfl) | rfl) | rfl) | rfl) | rfl) | rfl) | rfl))
  all_goals rcases hb with hoff | ⟨hoff, t, ht⟩
  all_goals
    simp only [cs_insn_command, CHAR_P_NOP, CHAR_P_NAME, CHAR_P_NAMEF, CHAR_P_RS, CHAR_P_RT,
      CHAR_P_RD, CHAR_P_IMM, CHAR_P_NIMM, CHAR_P_SHIFT, CHAR_P_BASE, CHAR_P_BRANCH, CHAR_P_COP0D,
      CHAR_P_FT, CHAR_P_FS, CHAR_P_FD, CHAR_P_FUNC, Char.reduceEq, if_true,
      if_false, hoff, Bool.false_eq_true, hf1]
  all_goals try simp only [ht]
  all_goals
    refine ⟨_, rfl, ?_, ?_⟩ <;> (try simp only [ADD_REG]) <;> (try split_ifs) <;>
    simp [ADD_STR, ADD_REG, layout_add, hl, hs, hsep, hf2, hf3, Piece.kind, command_layout,
      sets_separator, is_operand_directive, CHAR_P_NOP, CHAR_P_NAME, CHAR_P_NAMEF, CHAR_P_RS,
      CHAR_P_RT, CHAR_P_RD, CHAR_P_IMM, CHAR_P_NIMM, CHAR_P_SHIFT, CHAR_P_BASE, CHAR_P_BRANCH,
      CHAR_P_COP0D, CHAR_P_FT, CHAR_P_FS, CHAR_P_FD, CHAR_P_FUNC]


/-- The loop of `cs_insn_to_string` over a format of known directives returns
without `unimpl` and prints the layout `loop_layout`. -/
theorem cs_insn_loop_layout (env : CSEnv) (addr insn : Nat) (info : InsnTemplate)
    (format : Bool) (named : Bool)
    (hfunc : ∀ s, ∃ s', cs_insn_func env insn format s = some (.ret s')
      ∧ layout s'.str = layout s.str ++ (if named then [] else [.operand])
      ∧ s'.separator = s.separator)
    (hbranch : env.CS_OPT_DISASM_OFFSET_ADDR = true →
      ∃ t, get_insn_branch_target_from_addr env.sTextRegions
        env.CS_OPT_DISASM_PSEUDOINSNS env.mem addr = .ret t) :
    ∀ (cs : List Char) (cmdIndex : Nat) (s : InsnLoopState),
      (∀ c ∈ cs, is_directive c = true ∧ c ≠ CHAR_NULL) →
      ∃ r, cs_insn_loop env addr insn info format cs cmdIndex s = some (.ret (r, false))
        ∧ layout r.str = layout s.str ++ loop_layout cs s.separator named := by
  intro cs
  induction cs with
  | nil =>
    intro cmdIndex s _
    exact ⟨s, rfl, by simp [loop_layout]⟩
  | cons c rest ih =>
    intro cmdIndex s hcs
    obtain ⟨hdir, hnz⟩ := hcs c (List.mem_cons_self _ _)
    have h1 : ∃ s1, s1 = (if s.separator then ADD_STR { s with separator := false } .separator
        else s) ∧ s1.separator = false
        ∧ layout s1.str = layout s.str ++ (if s.separator then [.separator] else []) := by
      refine ⟨_, rfl, ?_, ?_⟩
      · cases hsp : s.separator <;> simp [ADD_STR, hsp]
      · cases hsp : s.separator <;> simp [ADD_STR, hsp, layout_add, Piece.kind]
    obtain ⟨s1, hs1, h1sep, h1lay⟩ := h1
    obtain ⟨s2, hcmd, hlay2, hsep2⟩ :=
      cs_insn_command_layout env addr insn info format cmdIndex c s1 named hfunc hbranch hdir
        h1sep
    unfold cs_insn_loop
    rw [if_neg hnz]
    simp only []
    rw [← hs1, hcmd]
    by_cases hnop : c = CHAR_P_NOP
    · rw [if_pos hnop]
      refine ⟨s2, rfl, ?_⟩
      rw [hlay2, h1lay]
      simp [loop_layout, hnop, command_layout]
    · rw [if_neg hnop]
      obtain ⟨r, hr, hlr⟩ := ih (cmdIndex + 1) s2 (fun c hc => hcs c (List.mem_cons_of_mem _ hc))
      refine ⟨r, hr, ?_⟩
      rw [hlr, hlay2, h1lay, hsep2]
      simp [loop_layout, hnop, List.append_assoc]

/-- The target of the instruction at `addr` is computed whenever `get_insn`
returns on the word stored there. -/
theorem get_insn_branch_target_total (sTextRegions : List AddressPair) (p : Bool)
    (mem : Nat → Nat) (addr : Nat) (h : get_insn p (mem addr) ≠ .fault) :
    ∃ t, get_insn_branch_target_from_addr sTextRegions p mem addr = .ret t := by
  have hb : ∃ b, insn_check_for_branch_offset p (mem addr) = .ret b := by
    unfold insn_check_for_branch_offset
    cases hg : get_insn p (mem addr) with
    | fault => exact absurd hg h
    | ret o =>
      cases o with
      | none => exact ⟨_, rfl⟩
      | some info =>
        simp only []
        split_ifs
        · exact ⟨_, rfl⟩
        · exact ⟨_, rfl⟩
  obtain ⟨b, hb⟩ := hb
  simp only [get_insn_branch_target_from_addr, hb]
  split_ifs <;> exact ⟨_, rfl⟩


/-! ## Formatting: the placeholder and the saved registers -/

/-- For a word without a template `cs_insn_to_string` skips the whole
`if (info != NULL)` block: the string is the placeholder alone, and `*fname`
and the saved-register buffer are what they were before the call. -/
theorem cs_insn_to_string_of_no_template (env : CSEnv) (addr insn : Nat) (fname : Option Nat)
    (format : Bool) (savedRegs : List (RegisterSources × Nat))
    (h : get_insn env.CS_OPT_DISASM_PSEUDOINSNS insn = .ret none) :
    cs_insn_to_string env addr insn fname format savedRegs
      = some (.ret ⟨[.unimpl (raw insn)], fname, savedRegs⟩) := by
  unfold cs_insn_to_string
  rw [h]

/-- For a word with a template the saved-register buffer is cleared before the
format is walked: the result does not depend on the buffer before the call. -/
theorem cs_insn_to_string_of_template_resets (env : CSEnv) (addr insn : Nat)
    (fname : Option Nat) (format : Bool) (savedRegs : List (RegisterSources × Nat))
    (t : InsnTemplate) (h : get_insn env.CS_OPT_DISASM_PSEUDOINSNS insn = .ret (some t)) :
    cs_insn_to_string env addr insn fname format savedRegs
      = cs_insn_to_string env addr insn fname format [] := by
  unfold cs_insn_to_string
  rw [h]

/-- C17: for every address, every setting, either colour flag and every word
for which `get_insn` finds no template, `cs_insn_to_string` returns the string
made of the single placeholder piece: `"unimpl "` followed by the raw word
under `STR_HEX_WORD`, with no colour code, mnemonic, operand or separator. -/
theorem cs_insn_to_string_unimpl (env : CSEnv) (addr insn : Nat) (fname : Option Nat)
    (format : Bool) (savedRegs : List (RegisterSources × Nat))
    (h : get_insn env.CS_OPT_DISASM_PSEUDOINSNS insn = .ret none) :
    ∃ out, cs_insn_to_string env addr insn fname format savedRegs = some (.ret out)
      ∧ out.str = [.unimpl (raw insn)]
      ∧ layout out.str = [.unimpl]
      ∧ ∀ f : InsnFormats, out.text f = "unimpl " ++ f.STR_HEX_WORD (raw insn) := by
  refine ⟨_, cs_insn_to_string_of_no_template env addr insn fname format savedRegs h, rfl, rfl,
    fun f => ?_⟩
  simp [InsnString.text, String.join, Piece.render]

/-- Witness of C17: the word `0x70000000` (primary opcode 28, in no table),
with pseudo-instructions, colours and symbol names enabled. -/
theorem cs_insn_to_string_unimpl_witness :
    get_insn true 0x70000000 = .ret none
      ∧ ∃ out, cs_insn_to_string
            ⟨true, true, false, false, true, ⟨0, 1, 2, 3, 4, 5, 6⟩,
              [⟨0x80000000, 0x80100000⟩], [⟨0x80000400, 0x100, 0⟩], 0x80700000,
              fun _ => 0, fun _ => some 0⟩
            0x80000100 0x70000000 none true [] = some (.ret out)
          ∧ out.str = [.unimpl (raw 0x70000000)]
          ∧ layout out.str = [.unimpl]
          ∧ ∀ f : InsnFormats, out.text f = "unimpl " ++ f.STR_HEX_WORD (raw 0x70000000) :=
  ⟨by decide, cs_insn_to_string_unimpl
    ⟨true, true, false, false, true, ⟨0, 1, 2, 3, 4, 5, 6⟩,
      [⟨0x80000000, 0x80100000⟩], [⟨0x80000400, 0x100, 0⟩], 0x80700000,
      fun _ => 0, fun _ => some 0⟩
    0x80000100 0x70000000 none true [] (by decide)⟩

/-- C20 (failing input): the call for `0x8C880004` (LW r8, 4(r4)) starts from
a buffer that holds r3 and ends with the buffer holding r4 alone, the register
it read; the call for `0x70000000`, which has no template, starts from the
same buffer and ends with r3 still in it: `clear_saved_reg_buffer` is called
only inside `if (info != NULL)`. -/
theorem cs_insn_to_string_saved_regs_kept :
    get_insn true 0x70000000 = .ret none
      ∧ cs_insn_to_string
          ⟨true, true, false, false, true, ⟨0, 1, 2, 3, 4, 5, 6⟩,
            [⟨0x80000000, 0x80100000⟩], [⟨0x80000400, 0x100, 0⟩], 0x80700000,
            fun _ => 0, fun _ => some 0⟩
          0x80000100 0x70000000 none false [(.CPU, 3)]
        = some (.ret ⟨[.unimpl 0x70000000], none, [(.CPU, 3)]⟩)
      ∧ (∃ out, cs_insn_to_string
          ⟨true, true, false, false, true, ⟨0, 1, 2, 3, 4, 5, 6⟩,
            [⟨0x80000000, 0x80100000⟩], [⟨0x80000400, 0x100, 0⟩], 0x80700000,
            fun _ => 0, fun _ => some 0⟩
          0x80000100 0x8C880004 none false [(.CPU, 3)] = some (.ret out)
        ∧ out.savedRegs = [(.CPU, 4)]) := by
  refine ⟨by decide, by decide, _, rfl, ?_⟩
  decide


/-! ## Formatting: jumps -/

/-- A word with primary opcode J or JAL decodes to the template J or JAL of
`insn_db_standard` under either setting; its format is the mnemonic followed by
the jump target. -/
theorem get_insn_jump (p : Bool) (insn : Nat) (hop : opcode insn = OPC_J ∨ opcode insn = OPC_JAL) :
    ∃ t, get_insn p insn = .ret (some t) ∧ t.fmt.toList = [CHAR_P_NAME, CHAR_P_FUNC] := by
  have hop' : insn / 2 ^ 26 % 64 = 2 ∨ insn / 2 ^ 26 % 64 = 3 := hop
  have hraw : raw insn ≠ 0 := by
    show insn % 2 ^ 32 ≠ 0
    omega
  have hcop : cop_opcode insn ≠ COP_OPCODE := by
    show insn / 2 ^ 28 % 16 ≠ 4
    omega
  have hpseudo : check_pseudo_instructions insn = none := by
    rcases hop with h | h <;>
      simp [check_pseudo_instructions, check_pseudo_insn, hraw, hcop, h]
  have hlist : get_insn_list insn = (some insn_db_standard, opcode insn) := by
    rcases hop with h | h <;> simp [get_insn_list, h]
  have hget : get_insn p insn = .ret (scan_list insn_db_standard (opcode insn)) := by
    unfold get_insn
    cases p
    · simp only [Bool.false_eq_true, if_false, hlist]
    · simp only [if_true, hpseudo, hlist]
  rw [hget]
  rcases hop with h | h <;> rw [h]
  · exact ⟨⟨"J", "\x27J", 0, 2⟩, by decide, by decide⟩
  · exact ⟨⟨"JAL", "\x27J", 0, 3⟩, by decide, by decide⟩


/-- C18: for every word with primary opcode J or JAL `cs_insn_to_string`
returns the mnemonic followed by at most the raw target. Whenever the lookup
is made (symbol names enabled, target in a code segment) and the backward
lookup `get_map_symbol(target, SYMBOL_SEARCH_BACKWARD)` returns a record whose
start address is not the target, `*fname` is `NULL` and the raw target is
appended. The raw target is left out only when that backward lookup returned a
record that starts exactly at the target and has a name, and then `*fname` is
that name. -/
theorem cs_insn_to_string_jump (env : CSEnv) (addr insn : Nat) (fname : Option Nat)
    (format : Bool) (savedRegs : List (RegisterSources × Nat))
    (hop : opcode insn = OPC_J ∨ opcode insn = OPC_JAL)
    (hlen : env.gMapSymbols.length ≤ 2 ^ 31) :
    ∃ out, cs_insn_to_string env addr insn fname format savedRegs = some (.ret out)
      ∧ (∀ (k : Nat) (_ : k < env.gMapSymbols.length),
          env.INCLUDE_DEBUG_MAP = true → env.CS_OPT_GLOBAL_SYMBOL_NAMES = true →
          is_in_code_segment env.sTextRegions (PHYSICAL_TO_VIRTUAL (instr_index insn * 4))
            = true →
          get_map_symbol env.INCLUDE_DEBUG_MAP env.try_read_word_aligned env.gMapSymbols
            (PHYSICAL_TO_VIRTUAL (instr_index insn * 4)) SYMBOL_SEARCH_BACKWARD
            = some (.ret (some (k : Int))) →
          env.gMapSymbols[k].addr ≠ PHYSICAL_TO_VIRTUAL (instr_index insn * 4) →
          out.fname = none
            ∧ Piece.function (PHYSICAL_TO_VIRTUAL (instr_index insn * 4)) ∈ out.str
            ∧ layout out.str = [.mnemonic, .operand])
      ∧ (Piece.function (PHYSICAL_TO_VIRTUAL (instr_index insn * 4)) ∉ out.str →
          ∃ (k : Nat) (_ : k < env.gMapSymbols.length) (p : Nat),
            get_map_symbol env.INCLUDE_DEBUG_MAP env.try_read_word_aligned env.gMapSymbols
                (PHYSICAL_TO_VIRTUAL (instr_index insn * 4)) SYMBOL_SEARCH_BACKWARD
                = some (.ret (some (k : Int)))
              ∧ env.gMapSymbols[k].addr = PHYSICAL_TO_VIRTUAL (instr_index insn * 4)
              ∧ get_map_symbol_name env.INCLUDE_DEBUG_MAP env.gMapStrings
                  (some env.gMapSymbols[k]) = some p
              ∧ out.fname = some p
              ∧ layout out.str = [.mnemonic])
      ∧ (layout out.str = [.mnemonic] ∨ layout out.str = [.mnemonic, .operand]) := by
  obtain ⟨t, hget, hfmt⟩ := get_insn_jump env.CS_OPT_DISASM_PSEUDOINSNS insn hop
  obtain ⟨s1, hs1⟩ : ∃ s1, s1 = ADD_STR (cs_insn_param_check_color_change
      ⟨[], env.colors.COLOR_RGBA32_NONE, false, fname, clear_saved_reg_buffer⟩
      env.colors.COLOR_RGBA32_CRASH_DISASM_INSN format) (.name t.name) := ⟨_, rfl⟩
  have hlay1 : layout s1.str = [.mnemonic] := by
    rw [hs1]
    simp only [ADD_STR, layout_add, (color_change_frame _ _ format).1, Piece.kind,
      Option.toList]
    rfl
  have hcompute : ∀ res : InsnLoopState → InsnLoopState,
      (∀ s, cs_insn_func env insn format s = some (.ret (res s))) →
      cs_insn_to_string env addr insn fname format savedRegs
        = some (.ret ⟨(res s1).str, (res s1).fname, (res s1).savedRegs⟩) := by
    intro res hres
    have hsep : (ADD_STR (cs_insn_param_check_color_change
        ⟨[], env.colors.COLOR_RGBA32_NONE, false, fname, clear_saved_reg_buffer⟩
        env.colors.COLOR_RGBA32_CRASH_DISASM_INSN format) (.name t.name)).separator = false :=
      (color_change_frame _ _ format).2.1
    rw [hs1]
    unfold cs_insn_to_string
    rw [hget]
    simp only [hfmt, cs_insn_loop, cs_insn_command, CHAR_NULL, CHAR_P_NOP, CHAR_P_NAME,
      CHAR_P_NAMEF, CHAR_P_RS, CHAR_P_RT, CHAR_P_RD, CHAR_P_IMM, CHAR_P_NIMM, CHAR_P_SHIFT,
      CHAR_P_BASE, CHAR_P_BRANCH, CHAR_P_COP0D, CHAR_P_FT, CHAR_P_FS, CHAR_P_FD, CHAR_P_FUNC,
      Char.reduceEq, if_true, if_false, Bool.false_eq_true, hsep, hres]
  have hcol := color_change_frame s1 env.colors.COLOR_RGBA32_CRASH_FUNCTION_NAME format
  rcases cs_insn_func_cases env insn format hlen with
    ⟨h, hno⟩ | h | ⟨k, hk, p, hmap, hnames, hcode, hgm, haddr, hname, h⟩
  · refine ⟨_, hcompute _ h, fun k hk h1 h2 h3 h4 _ => absurd ⟨h1, h2, h3, h4⟩ (hno k),
      fun hn => absurd (by simp [ADD_STR]) hn, Or.inr ?_⟩
    simp only [ADD_STR, layout_add, hcol.1, hlay1, Piece.kind, Option.toList]
    rfl
  · have hl : layout (ADD_STR { cs_insn_param_check_color_change s1
          env.colors.COLOR_RGBA32_CRASH_FUNCTION_NAME format with fname := none }
          (.function (PHYSICAL_TO_VIRTUAL (instr_index insn * 4)))).str
        = [.mnemonic, .operand] := by
      simp only [ADD_STR, layout_add, hcol.1, hlay1, Piece.kind, Option.toList]
      rfl
    exact ⟨_, hcompute _ h, fun k hk _ _ _ _ _ => ⟨rfl, by simp [ADD_STR], hl⟩,
      fun hn => absurd (by simp [ADD_STR]) hn, Or.inr hl⟩
  · have hl : layout (cs_insn_param_check_color_change s1
          env.colors.COLOR_RGBA32_CRASH_FUNCTION_NAME format).str = [.mnemonic] := by
      rw [hcol.1, hlay1]
    refine ⟨_, hcompute _ h, fun k2 hk2 _ _ _ h4 hne => ?_,
      fun _ => ⟨k, hk, p, hgm, haddr, hname, rfl, hl⟩, Or.inl hl⟩
    rw [hgm] at h4
    have hkk : (k : Int) = (k2 : Int) := by
      injection h4 with h4
      injection h4 with h4
      injection h4
    have hkk2 : k = k2 := by omega
    subst hkk2
    exact absurd haddr hne

/-- Witness of C18: `0x0C000100` and `0x0C000101` (JAL to `0x80000400` and to
`0x80000404`) with the table `[(0x80000400, 0x100)]`: the first target is the
start of the record, so the name is reported and the address left out; the
second is inside the record, so the name is suppressed and the address
printed. -/
theorem cs_insn_to_string_jump_witness :
    ((opcode 0x0C000101 = OPC_J ∨ opcode 0x0C000101 = OPC_JAL)
        ∧ ([⟨0x80000400, 0x100, 0⟩] : List MapSymbol).length ≤ 2 ^ 31)
      ∧ cs_insn_to_string
          ⟨true, true, false, false, true, ⟨0, 1, 2, 3, 4, 5, 6⟩,
            [⟨0x80000000, 0x80100000⟩], [⟨0x80000400, 0x100, 0⟩], 0x80700000,
            fun _ => 0, fun _ => some 0⟩
          0x80000100 0x0C000101 (some 7) false []
        = some (.ret ⟨[.name "JAL", .function 0x80000404], none, []⟩)
      ∧ cs_insn_to_string
          ⟨true, true, false, false, true, ⟨0, 1, 2, 3, 4, 5, 6⟩,
            [⟨0x80000000, 0x80100000⟩], [⟨0x80000400, 0x100, 0⟩], 0x80700000,
            fun _ => 0, fun _ => some 0⟩
          0x80000100 0x0C000100 none false []
        = some (.ret ⟨[.name "JAL"], some 0x80700000, []⟩)
      ∧ ∃ out, cs_insn_to_string
            ⟨true, true, false, false, true, ⟨0, 1, 2, 3, 4, 5, 6⟩,
              [⟨0x80000000, 0x80100000⟩], [⟨0x80000400, 0x100, 0⟩], 0x80700000,
              fun _ => 0, fun _ => some 0⟩
            0x80000100 0x0C000101 (some 7) false [] = some (.ret out)
          ∧ (layout out.str = [.mnemonic] ∨ layout out.str = [.mnemonic, .operand]) :=
  ⟨by decide, by decide, by decide,
    (cs_insn_to_string_jump
      ⟨true, true, false, false, true, ⟨0, 1, 2, 3, 4, 5, 6⟩,
        [⟨0x80000000, 0x80100000⟩], [⟨0x80000400, 0x100, 0⟩], 0x80700000,
        fun _ => 0, fun _ => some 0⟩
      0x80000100 0x0C000101 (some 7) false [] (by decide) (by decide)).imp
      (fun _ h => ⟨h.1, h.2.2.2⟩)⟩


/-! ## Formatting: separators -/

set_option maxRecDepth 1000000 in
/-- Every format of the tables is made of directives of the `switch`, and the
layout the loop prints for it is the mnemonic followed by the operands of the
format with a separator between successive operands and nowhere else; the
separators are one fewer than the operands when there is an operand. -/
theorem all_templates_layout :
    ∀ t ∈ all_templates, ∀ named : Bool,
      (∀ c ∈ t.fmt.toList, is_directive c = true ∧ c ≠ CHAR_NULL)
        ∧ loop_layout t.fmt.toList false named
          = separated_layout
              (operand_groups (t.fmt.toList.filter (fun c => !(named && c = CHAR_P_FUNC))))
        ∧ (loop_layout t.fmt.toList false named)[1]? ≠ some .separator
        ∧ (loop_layout t.fmt.toList false named).getLast? ≠ some .separator
        ∧ ((operand_groups t.fmt.toList).length = 0 →
            (loop_layout t.fmt.toList false named).count .separator = 0)
        ∧ (0 < (operand_groups t.fmt.toList).length →
            (loop_layout t.fmt.toList false named).count .separator + 1
              = (operand_groups t.fmt.toList).length) := by
  decide

/-- C19 (counterexample): `0x0000000C` (SYSCALL) is matched by a template with
no operand; its string is the mnemonic alone, so the number of separators is
0, which is not one less than the number of operands, 0. -/
theorem cs_insn_to_string_separators_counterexample :
    get_insn true 0x0000000C = .ret (some ⟨"SYSCALL", "\x27", 0, 12⟩)
      ∧ operand_groups ("\x27").toList = []
      ∧ cs_insn_to_string
          ⟨true, true, false, false, true, ⟨0, 1, 2, 3, 4, 5, 6⟩,
            [⟨0x80000000, 0x80100000⟩], [⟨0x80000400, 0x100, 0⟩], 0x80700000,
            fun _ => 0x0000000C, fun _ => some 0⟩
          0x80000100 0x0000000C none false []
        = some (.ret ⟨[.name "SYSCALL"], none, []⟩)
      ∧ (layout [.name "SYSCALL"]).count .separator = 0
      ∧ (((layout [.name "SYSCALL"]).count .separator : Nat) : Int)
          ≠ ((operand_groups ("\x27").toList).length : Int) - 1 := by
  decide

/-- C19 (amended): for every word matched by a template `cs_insn_to_string`
returns a string whose layout is the mnemonic followed by the operands of the
template, with the separator between successive operands and nowhere else:
none right after the mnemonic, none at the end; the separators are one fewer
than the comma-separated operands of the template when it has an operand, and
none when it has no operand. `named` says that the jump target was replaced by
the name of its function and is not printed. -/
theorem cs_insn_to_string_separators (env : CSEnv) (addr insn : Nat) (fname : Option Nat)
    (format : Bool) (savedRegs : List (RegisterSources × Nat)) (t : InsnTemplate)
    (hinfo : get_insn env.CS_OPT_DISASM_PSEUDOINSNS insn = .ret (some t))
    (hword : env.CS_OPT_DISASM_OFFSET_ADDR = true →
      get_insn env.CS_OPT_DISASM_PSEUDOINSNS (env.mem addr) ≠ .fault)
    (hlen : env.gMapSymbols.length ≤ 2 ^ 31) :
    ∃ (out : InsnString) (named : Bool),
      cs_insn_to_string env addr insn fname format savedRegs = some (.ret out)
        ∧ layout out.str
          = separated_layout
              (operand_groups (t.fmt.toList.filter (fun c => !(named && c = CHAR_P_FUNC))))
        ∧ (layout out.str)[1]? ≠ some .separator
        ∧ (layout out.str).getLast? ≠ some .separator
        ∧ ((operand_groups t.fmt.toList).length = 0 →
            (layout out.str).count .separator = 0)
        ∧ (0 < (operand_groups t.fmt.toList).length →
            (layout out.str).count .separator + 1 = (operand_groups t.fmt.toList).length) := by
  obtain ⟨named, hfunc⟩ := cs_insn_func_layout env insn format hlen
  have hbranch := fun h =>
    get_insn_branch_target_total env.sTextRegions env.CS_OPT_DISASM_PSEUDOINSNS env.mem addr
      (hword h)
  have hmem := get_insn_mem_all_templates _ _ _ hinfo
  obtain ⟨hdir, hlayout, h1, hlast, hzero, hpos⟩ := all_templates_layout t hmem named
  obtain ⟨r, hr, hlr⟩ := cs_insn_loop_layout env addr insn t format named hfunc hbranch
    t.fmt.toList 0 ⟨[], env.colors.COLOR_RGBA32_NONE, false, fname, clear_saved_reg_buffer⟩ hdir
  have hl : layout r.str = loop_layout t.fmt.toList false named := by
    rw [hlr]
    rfl
  refine ⟨⟨r.str, r.fname, r.savedRegs⟩, named, ?_, ?_, ?_, ?_, ?_, ?_⟩
  · unfold cs_insn_to_string
    rw [hinfo]
    simp only [hr, Bool.false_eq_true, if_false]
  · exact hl.trans hlayout
  · exact hl ▸ h1
  · exact hl ▸ hlast
  · exact hl ▸ hzero
  · exact hl ▸ hpos

/-- Witness of C19 (amended): `0x10220003` (BEQ r1, r2 with offset field 3)
at `0x80000100`, with branch targets displayed as addresses. -/
theorem cs_insn_to_string_separators_witness :
    get_insn true 0x10220003 = .ret (some ⟨"BEQ", "\x27stB", 0, 4⟩)
      ∧ cs_insn_to_string
          ⟨true, true, false, true, true, ⟨0, 1, 2, 3, 4, 5, 6⟩,
            [⟨0x80000000, 0x80100000⟩], [⟨0x80000400, 0x100, 0⟩], 0x80700000,
            fun _ => 0x10220003, fun _ => some 0⟩
          0x80000100 0x10220003 none false []
        = some (.ret ⟨[.name "BEQ", .reg .CPU 1, .separator, .reg .CPU 2, .separator,
            .function 0x80000110], none, [(.CPU, 1), (.CPU, 2)]⟩)
      ∧ ∃ (out : InsnString) (named : Bool),
          cs_insn_to_string
            ⟨true, true, false, true, true, ⟨0, 1, 2, 3, 4, 5, 6⟩,
              [⟨0x80000000, 0x80100000⟩], [⟨0x80000400, 0x100, 0⟩], 0x80700000,
              fun _ => 0x10220003, fun _ => some 0⟩
            0x80000100 0x10220003 none false [] = some (.ret out)
          ∧ layout out.str
            = separated_layout
                (operand_groups
                  (("\x27stB").toList.filter (fun c => !(named && c = CHAR_P_FUNC)))) :=
  ⟨by decide, by decide,
    (cs_insn_to_string_separators
      ⟨true, true, false, true, true, ⟨0, 1, 2, 3, 4, 5, 6⟩,
        [⟨0x80000000, 0x80100000⟩], [⟨0x80000400, 0x100, 0⟩], 0x80700000,
        fun _ => 0x10220003, fun _ => some 0⟩
      0x80000100 0x10220003 none false [] ⟨"BEQ", "\x27stB", 0, 4⟩ (by decide) (by decide)
      (by decide)).imp (fun _ h => h.imp (fun _ h => ⟨h.1, h.2.1⟩))⟩



/-! ## Decoder: tables and guards -/

/-- A scan returns an entry with the key it looked for. -/
theorem scan_list_key (l : List InsnTemplate) (key : Nat) (t : InsnTemplate)
    (h : scan_list l key = some t) : t.opcode = key := by
  induction l with
  | nil => simp [scan_list] at h
  | cons a rest ih =>
    unfold scan_list at h
    by_cases hk : a.opcode = key
    · rw [if_pos hk] at h
      rw [← Option.some.inj h]
      exact hk
    · rw [if_neg hk] at h
      exact ih h

/-- A scan finds nothing exactly when no entry has the key. -/
theorem scan_list_eq_none_iff (l : List InsnTemplate) (key : Nat) :
    scan_list l key = none ↔ ∀ t ∈ l, t.opcode ≠ key := by
  induction l with
  | nil => simp [scan_list]
  | cons a rest ih =>
    unfold scan_list
    by_cases hk : a.opcode = key
    · simp [hk]
    · simp [hk, ih]

/-- In a list with pairwise distinct keys the scan returns an entry exactly
when it is the entry of the list with that key. -/
theorem scan_list_eq_some_iff (l : List InsnTemplate) (key : Nat) (t : InsnTemplate)
    (hn : (l.map (·.opcode)).Nodup) :
    scan_list l key = some t ↔ t ∈ l ∧ t.opcode = key := by
  constructor
  · intro h
    exact ⟨scan_list_mem l key t h, scan_list_key l key t h⟩
  · rintro ⟨hm, rfl⟩
    exact scan_list_of_mem l t hn hm

/-- In a list with pairwise distinct keys two entries with the same key are
the same entry. -/
theorem key_unique_of_nodup (l : List InsnTemplate) (hn : (l.map (·.opcode)).Nodup)
    (t1 t2 : InsnTemplate) (h1 : t1 ∈ l) (h2 : t2 ∈ l) (hk : t1.opcode = t2.opcode) :
    t1 = t2 := by
  have h := scan_list_of_mem l t1 hn h1
  rw [hk, scan_list_of_mem l t2 hn h2] at h
  exact (Option.some.inj h).symm

/-- C21: in each of the eight instruction tables the match keys of the entries
before the terminator are pairwise distinct; so in each table two entries with
the same key are the same entry, and the linear scan returns an entry exactly
when it is the one entry with the key, and nothing exactly when no entry has
the key. -/
theorem insn_tables_keys_unique :
    ((insn_db_standard.map (·.opcode)).Nodup
        ∧ (insn_db_spec.map (·.opcode)).Nodup
        ∧ (insn_db_regi.map (·.opcode)).Nodup
        ∧ (insn_db_cop0_sub00.map (·.opcode)).Nodup
        ∧ (insn_db_cop0_sub10.map (·.opcode)).Nodup
        ∧ (insn_db_cop1_sub00.map (·.opcode)).Nodup
        ∧ (insn_db_cop1_sub01.map (·.opcode)).Nodup
        ∧ (insn_db_cop1_sub10.map (·.opcode)).Nodup)
      ∧ ∀ l ∈ [insn_db_standard, insn_db_spec, insn_db_regi, insn_db_cop0_sub00,
          insn_db_cop0_sub10, insn_db_cop1_sub00, insn_db_cop1_sub01, insn_db_cop1_sub10],
        (∀ t1 ∈ l, ∀ t2 ∈ l, t1.opcode = t2.opcode → t1 = t2)
          ∧ (∀ (key : Nat) (t : InsnTemplate),
              scan_list l key = some t ↔ t ∈ l ∧ t.opcode = key)
          ∧ (∀ key : Nat, scan_list l key = none ↔ ∀ t ∈ l, t.opcode ≠ key) := by
  have hall : (insn_db_standard.map (·.opcode)).Nodup
      ∧ (insn_db_spec.map (·.opcode)).Nodup
      ∧ (insn_db_regi.map (·.opcode)).Nodup
      ∧ (insn_db_cop0_sub00.map (·.opcode)).Nodup
      ∧ (insn_db_cop0_sub10.map (·.opcode)).Nodup
      ∧ (insn_db_cop1_sub00.map (·.opcode)).Nodup
      ∧ (insn_db_cop1_sub01.map (·.opcode)).Nodup
      ∧ (insn_db_cop1_sub10.map (·.opcode)).Nodup := by
    decide
  refine ⟨hall, fun l hl => ?_⟩
  have hn : (l.map (·.opcode)).Nodup := by
    obtain ⟨h1, h2, h3, h4, h5, h6, h7, h8⟩ := hall
    simp only [List.mem_cons, List.mem_singleton, List.not_mem_nil, or_false] at hl
    rcases hl with rfl | rfl | rfl | rfl | rfl | rfl | rfl | rfl <;> assumption
  exact ⟨fun t1 h1 t2 h2 hk => key_unique_of_nodup l hn t1 t2 h1 h2 hk,
    fun key t => scan_list_eq_some_iff l key t hn, fun key => scan_list_eq_none_iff l key⟩


/-- What `check_pseudo_instructions` returns, by the guards of the word: NOP
for the word 0, nothing for a coprocessor word, and otherwise the template of
the first satisfied guard of `pseudo_guards`. -/
theorem check_pseudo_instructions_eq (insn : Nat) :
    check_pseudo_instructions insn
      = (if raw insn = 0 then some (insn_db_pseudo PSEUDO_NOP)
         else if cop_opcode insn = COP_OPCODE then none
         else ((pseudo_guards insn).find? (·.2)).map (fun g => insn_db_pseudo g.1)) := by
  unfold check_pseudo_instructions pseudo_guards
  by_cases h0 : raw insn = 0
  · rw [if_pos h0]
    have : decide (raw insn = 0) = true := decide_eq_true h0
    rw [this]
    rfl
  rw [if_neg h0]
  have hd : decide (raw insn = 0) = false := decide_eq_false h0
  rw [hd]
  show (if cop_opcode insn = COP_OPCODE then none else _) = _
  by_cases hc : cop_opcode insn = COP_OPCODE
  · rw [if_pos hc, if_pos hc]
  rw [if_neg hc, if_neg hc]
  generalize decide (rt insn = 0) = b1
  generalize decide (rs insn = 0) = b2
  generalize decide (rs insn = rt insn) = b3
  generalize decide (toS16 (immediate insn) < 0) = b4
  split_ifs <;> first
    | rfl
    | (cases b1 <;> cases b2 <;> rfl)
    | (cases b3 <;> cases b1 <;> rfl)
    | (cases b2 <;> cases b4 <;> rfl)


/-- How many guards of a word are satisfied: at most two, and two exactly for
ADD with `rs == 0` and `rt == 0`, BEQ with `rs == rt == 0`, and ADDI with
`rs == 0` and a negative immediate. -/
theorem satisfied_guards_length (insn : Nat) :
    (satisfied_guards insn).length ≤ 2
      ∧ ((satisfied_guards insn).length = 2
          ↔ (opcode insn = OPC_SPECIAL ∧ func insn = OPS_ADD ∧ rs insn = 0 ∧ rt insn = 0)
            ∨ (opcode insn = OPC_BEQ ∧ rs insn = 0 ∧ rt insn = 0)
            ∨ (opcode insn = OPC_ADDI ∧ rs insn = 0 ∧ toS16 (immediate insn) < 0)) := by
  have key : ∀ (o f : Nat) (b1 b2 b3 b4 : Bool) (p1 p2 p3 p4 : Prop),
      (b1 = true ↔ p1) → (b2 = true ↔ p2) → (b3 = true ↔ p3) → (b4 = true ↔ p4) →
      (p2 → p1 → p3) → (p3 → p1 → p2) →
      ((((if o = OPC_SPECIAL then
            if f = OPS_ADD then [(PSEUDO_MOVES, b1), (PSEUDO_MOVET, b2)]
            else if f = OPS_OR then [(PSEUDO_MOVES, b1)]
            else []
          else if o = OPC_BEQ then [(PSEUDO_B, b3), (PSEUDO_BEQZ, b1)]
          else if o = OPC_BNE then [(PSEUDO_BNEZ, b1)]
          else if o = OPC_ADDI then [(PSEUDO_LI, b2), (PSEUDO_SUBI, b4)]
          else if o = OPC_ADDIU then [(PSEUDO_LI, b2)]
          else if o = OPC_BEQL then [(PSEUDO_BEQZL, b1)]
          else if o = OPC_BNEL then [(PSEUDO_BNEZL, b1)]
          else if o = OPC_DADDI then [(PSEUDO_DSUBI, b4)]
          else []).filter (·.2)).map (·.1)).length ≤ 2
        ∧ ((((if o = OPC_SPECIAL then
            if f = OPS_ADD then [(PSEUDO_MOVES, b1), (PSEUDO_MOVET, b2)]
            else if f = OPS_OR then [(PSEUDO_MOVES, b1)]
            else []
          else if o = OPC_BEQ then [(PSEUDO_B, b3), (PSEUDO_BEQZ, b1)]
          else if o = OPC_BNE then [(PSEUDO_BNEZ, b1)]
          else if o = OPC_ADDI then [(PSEUDO_LI, b2), (PSEUDO_SUBI, b4)]
          else if o = OPC_ADDIU then [(PSEUDO_LI, b2)]
          else if o = OPC_BEQL then [(PSEUDO_BEQZL, b1)]
          else if o = OPC_BNEL then [(PSEUDO_BNEZL, b1)]
          else if o = OPC_DADDI then [(PSEUDO_DSUBI, b4)]
          else []).filter (·.2)).map (·.1)).length = 2
          ↔ (o = OPC_SPECIAL ∧ f = OPS_ADD ∧ p2 ∧ p1) ∨ (o = OPC_BEQ ∧ p2 ∧ p1)
            ∨ (o = OPC_ADDI ∧ p2 ∧ p4))) := by
    intro o f b1 b2 b3 b4 p1 p2 p3 p4 h1 h2 h3 h4 h231 h312
    split_ifs with c1 c2 c3 c4 c5 c6 c7 c8 c9 c10
    all_goals
      try subst c1
      try subst c2
      try subst c3
      try subst c4
      try subst c5
      try subst c6
      try subst c7
      try subst c8
      try subst c9
      try subst c10
    all_goals cases b1 <;> cases b2 <;> cases b3 <;> cases b4 <;> simp_all
  exact key (opcode insn) (func insn) _ _ _ _ _ _ _ _ decide_eq_true_iff decide_eq_true_iff
    decide_eq_true_iff decide_eq_true_iff (fun h2 h1 => h2.trans h1.symm)
    (fun h3 h1 => h3.trans h1)


/-- C22 (counterexample): for `0x00000820` (ADD r1, r0, r0) both guards of ADD
hold, `rt == 0` and `rs == 0`; for `0x10000000` (BEQ r0, r0) both guards of
BEQ hold, `rs == rt` and `rt == 0`; for `0x2001FFFF` (ADDI r1, r0, -1) both
guards of ADDI hold, `rs == 0` and a negative immediate. In each case
`check_pseudo_instructions` returns the template of the guard tested first. -/
theorem pseudo_guards_overlap_counterexample :
    (pseudo_guards 0x00000820 = [(PSEUDO_MOVES, true), (PSEUDO_MOVET, true)]
        ∧ ¬ (satisfied_guards 0x00000820).length ≤ 1
        ∧ check_pseudo_instructions 0x00000820 = some (insn_db_pseudo PSEUDO_MOVES))
      ∧ (pseudo_guards 0x10000000 = [(PSEUDO_B, true), (PSEUDO_BEQZ, true)]
        ∧ ¬ (satisfied_guards 0x10000000).length ≤ 1
        ∧ check_pseudo_instructions 0x10000000 = some (insn_db_pseudo PSEUDO_B))
      ∧ (pseudo_guards 0x2001FFFF = [(PSEUDO_LI, true), (PSEUDO_SUBI, true)]
        ∧ ¬ (satisfied_guards 0x2001FFFF).length ≤ 1
        ∧ check_pseudo_instructions 0x2001FFFF = some (insn_db_pseudo PSEUDO_LI)) := by
  decide

/-- C22 (amended): the guards that share one opcode/function are tested in
source order and the first satisfied one decides: `check_pseudo_instructions`
returns NOP for the word 0, nothing for a coprocessor word, and otherwise the
template of the first satisfied guard. At most one guard of a word is
satisfied, except for ADD with `rs == 0` and `rt == 0`, BEQ with
`rs == rt == 0` and ADDI with `rs == 0` and a negative immediate, where both
guards hold. -/
theorem check_pseudo_instructions_first_guard (insn : Nat) :
    check_pseudo_instructions insn
        = (if raw insn = 0 then some (insn_db_pseudo PSEUDO_NOP)
           else if cop_opcode insn = COP_OPCODE then none
           else ((pseudo_guards insn).find? (·.2)).map (fun g => insn_db_pseudo g.1))
      ∧ (satisfied_guards insn).length ≤ 2
      ∧ ((satisfied_guards insn).length = 2
          ↔ (opcode insn = OPC_SPECIAL ∧ func insn = OPS_ADD ∧ rs insn = 0 ∧ rt insn = 0)
            ∨ (opcode insn = OPC_BEQ ∧ rs insn = 0 ∧ rt insn = 0)
            ∨ (opcode insn = OPC_ADDI ∧ rs insn = 0 ∧ toS16 (immediate insn) < 0))
      ∧ (¬ ((opcode insn = OPC_SPECIAL ∧ func insn = OPS_ADD ∧ rs insn = 0 ∧ rt insn = 0)
            ∨ (opcode insn = OPC_BEQ ∧ rs insn = 0 ∧ rt insn = 0)
            ∨ (opcode insn = OPC_ADDI ∧ rs insn = 0 ∧ toS16 (immediate insn) < 0)) →
          (satisfied_guards insn).length ≤ 1) := by
  obtain ⟨hle, hiff⟩ := satisfied_guards_length insn
  refine ⟨check_pseudo_instructions_eq insn, hle, hiff, fun hn => ?_⟩
  have hne : (satisfied_guards insn).length ≠ 2 := fun h => hn (hiff.mp h)
  omega

/-- With pseudo-instruction display disabled `get_insn` is the scan of the
list selected by `get_insn_list`. -/
theorem get_insn_false_eq (insn : Nat) :
    get_insn false insn
      = match get_insn_list insn with
        | (none, _) => .fault
        | (some list, key) => .ret (scan_list list key) := by
  unfold get_insn
  rfl

/-- A coprocessor word is never rewritten to a pseudo-instruction. -/
theorem check_pseudo_instructions_cop (insn : Nat)
    (hop : opcode insn = OPC_COP0 ∨ opcode insn = OPC_COP1 ∨ opcode insn = OPC_COP2
      ∨ opcode insn = OPC_COP3) :
    check_pseudo_instructions insn = none := by
  have hop' : insn / 2 ^ 26 % 64 = 16 ∨ insn / 2 ^ 26 % 64 = 17 ∨ insn / 2 ^ 26 % 64 = 18
      ∨ insn / 2 ^ 26 % 64 = 19 := hop
  have hraw : raw insn ≠ 0 := by
    show insn % 2 ^ 32 ≠ 0
    omega
  have hcop : cop_opcode insn = COP_OPCODE := by
    show insn / 2 ^ 28 % 16 = 4
    omega
  rw [check_pseudo_instructions_eq, if_neg hraw, if_pos hcop]

/-- For a coprocessor word, under either setting, `get_insn` takes the list
`insn_db_cop_lists[cop_num][cop_subtype]` and the key selected by the
sub-format; it scans the list when there is one and dereferences `NULL` when
there is none. -/
theorem get_insn_cop (p : Bool) (insn : Nat)
    (hop : opcode insn = OPC_COP0 ∨ opcode insn = OPC_COP1 ∨ opcode insn = OPC_COP2
      ∨ opcode insn = OPC_COP3) :
    get_insn p insn
      = match insn_db_cop_lists (cop_num insn) (cop_subtype insn) with
        | none => .fault
        | some list =>
          .ret (scan_list list
            (if cop_subtype insn = INSN_TYPE_COP_FMT then fmt insn
             else if cop_subtype insn = INSN_TYPE_REGIMM then regimm insn
             else if cop_subtype insn = INSN_TYPE_FUNC then func insn
             else opcode insn)) := by
  have hp : (if p then check_pseudo_instructions insn else none) = none := by
    cases p
    · rfl
    · exact check_pseudo_instructions_cop insn hop
  have hl : get_insn_list insn
      = (insn_db_cop_lists (cop_num insn) (cop_subtype insn),
          if cop_subtype insn = INSN_TYPE_COP_FMT then fmt insn
          else if cop_subtype insn = INSN_TYPE_REGIMM then regimm insn
          else if cop_subtype insn = INSN_TYPE_FUNC then func insn
          else opcode insn) := by
    unfold get_insn_list
    rw [if_pos hop]
  unfold get_insn
  rw [hp, hl]
  cases insn_db_cop_lists (cop_num insn) (cop_subtype insn) <;> rfl


/-- C23: with pseudo-instruction display disabled, for a word whose primary
opcode is REGIMM `get_insn` scans `insn_db_regi` with the register-immediate
field (bits 20..16) as key, and for a word whose primary opcode is none of
SPECIAL, REGIMM and COP0..COP3 it scans `insn_db_standard` with the primary
opcode (bits 31..26) as key; it returns an entry exactly when it is the entry
of that table with that key, and `NULL` exactly when the table has no entry
with that key. -/
theorem get_insn_regimm_standard (insn : Nat) (hs : opcode insn ≠ OPC_SPECIAL)
    (hc : opcode insn ≠ OPC_COP0 ∧ opcode insn ≠ OPC_COP1 ∧ opcode insn ≠ OPC_COP2
      ∧ opcode insn ≠ OPC_COP3) :
    (opcode insn = OPC_REGIMM →
        get_insn_list insn = (some insn_db_regi, regimm insn)
          ∧ regimm insn = insn / 2 ^ 16 % 32
          ∧ get_insn false insn = .ret (scan_list insn_db_regi (regimm insn))
          ∧ (∀ t, get_insn false insn = .ret (some t)
              ↔ t ∈ insn_db_regi ∧ t.opcode = regimm insn)
          ∧ (get_insn false insn = .ret none
              ↔ ∀ t ∈ insn_db_regi, t.opcode ≠ regimm insn))
      ∧ (opcode insn ≠ OPC_REGIMM →
        get_insn_list insn = (some insn_db_standard, opcode insn)
          ∧ opcode insn = insn / 2 ^ 26 % 64
          ∧ get_insn false insn = .ret (scan_list insn_db_standard (opcode insn))
          ∧ (∀ t, get_insn false insn = .ret (some t)
              ↔ t ∈ insn_db_standard ∧ t.opcode = opcode insn)
          ∧ (get_insn false insn = .ret none
              ↔ ∀ t ∈ insn_db_standard, t.opcode ≠ opcode insn)) := by
  have hcop : ¬ (opcode insn = OPC_COP0 ∨ opcode insn = OPC_COP1 ∨ opcode insn = OPC_COP2
      ∨ opcode insn = OPC_COP3) := by
    rintro (h | h | h | h)
    · exact hc.1 h
    · exact hc.2.1 h
    · exact hc.2.2.1 h
    · exact hc.2.2.2 h
  have hregi : (insn_db_regi.map (·.opcode)).Nodup := by decide
  have hstd : (insn_db_standard.map (·.opcode)).Nodup := by decide
  constructor
  · intro hr
    have hl : get_insn_list insn = (some insn_db_regi, regimm insn) := by
      unfold get_insn_list
      rw [if_neg hcop, if_neg hs, if_pos hr]
    have hg : get_insn false insn = .ret (scan_list insn_db_regi (regimm insn)) := by
      rw [get_insn_false_eq, hl]
    refine ⟨hl, rfl, hg, fun t => ?_, ?_⟩
    · rw [hg, ← scan_list_eq_some_iff insn_db_regi (regimm insn) t hregi]
      exact ⟨fun h => Run.ret.inj h, fun h => congrArg Run.ret h⟩
    · rw [hg, ← scan_list_eq_none_iff insn_db_regi (regimm insn)]
      exact ⟨fun h => Run.ret.inj h, fun h => congrArg Run.ret h⟩
  · intro hr
    have hl : get_insn_list insn = (some insn_db_standard, opcode insn) := by
      unfold get_insn_list
      rw [if_neg hcop, if_neg hs, if_neg hr]
    have hg : get_insn false insn = .ret (scan_list insn_db_standard (opcode insn)) := by
      rw [get_insn_false_eq, hl]
    refine ⟨hl, rfl, hg, fun t => ?_, ?_⟩
    · rw [hg, ← scan_list_eq_some_iff insn_db_standard (opcode insn) t hstd]
      exact ⟨fun h => Run.ret.inj h, fun h => congrArg Run.ret h⟩
    · rw [hg, ← scan_list_eq_none_iff insn_db_standard (opcode insn)]
      exact ⟨fun h => Run.ret.inj h, fun h => congrArg Run.ret h⟩

/-- Witness of C23: `0x04110004` (REGIMM, register-immediate field 17, BGEZAL)
and `0x70000000` (primary opcode 28, which has no entry in
`insn_db_standard`). -/
theorem get_insn_regimm_standard_witness :
    (opcode 0x04110004 = OPC_REGIMM ∧ regimm 0x04110004 = 17
        ∧ get_insn false 0x04110004 = .ret (scan_list insn_db_regi (regimm 0x04110004))
        ∧ get_insn false 0x04110004 = .ret (some ⟨"BGEZAL", "\x27sB", 9, 17⟩))
      ∧ (opcode 0x70000000 ≠ OPC_REGIMM ∧ opcode 0x70000000 = 28
        ∧ get_insn false 0x70000000 = .ret (scan_list insn_db_standard (opcode 0x70000000))
        ∧ get_insn false 0x70000000 = .ret none) :=
  ⟨⟨by decide, by decide,
      ((get_insn_regimm_standard 0x04110004 (by decide) (by decide)).1 (by decide)).2.2.1,
      by decide⟩,
    ⟨by decide, by decide,
      ((get_insn_regimm_standard 0x70000000 (by decide) (by decide)).2 (by decide)).2.2.1,
      by decide⟩⟩

/-- C24 (failing input): every entry of the rows COP2 and COP3 of
`insn_db_cop_lists`, the register-immediate entry of COP0 and every entry of
sub-format 3 is `NULL`, and `get_insn` dereferences it: `0x48000000` (COP2),
`0x4C000000` (COP3), `0x41000000` (COP0, sub-format 1), `0x43000000` (COP0,
sub-format 3) and `0x47000000` (COP1, sub-format 3) fault under either
setting instead of returning `NULL`; `0x44000000` (COP1, sub-format 0, fmt 0)
has a list and is decoded. -/
theorem get_insn_cop_null_list :
    ((∀ sub, insn_db_cop_lists COP2 sub = none) ∧ (∀ sub, insn_db_cop_lists COP3 sub = none)
        ∧ insn_db_cop_lists COP0 INSN_TYPE_REGIMM = none
        ∧ insn_db_cop_lists COP0 INSN_TYPE_UNKNOWN = none
        ∧ insn_db_cop_lists COP1 INSN_TYPE_UNKNOWN = none)
      ∧ (get_insn false 0x48000000 = .fault ∧ get_insn true 0x48000000 = .fault)
      ∧ (get_insn false 0x4C000000 = .fault ∧ get_insn true 0x4C000000 = .fault)
      ∧ (get_insn false 0x41000000 = .fault ∧ get_insn true 0x41000000 = .fault)
      ∧ (get_insn false 0x43000000 = .fault ∧ get_insn true 0x43000000 = .fault)
      ∧ (get_insn false 0x47000000 = .fault ∧ get_insn true 0x47000000 = .fault)
      ∧ get_insn false 0x44000000 = .ret (scan_list insn_db_cop1_sub00 (fmt 0x44000000))
      ∧ get_insn false 0x44000000 = .ret (some ⟨"MFC1", "\x27tS", 1, 0⟩) := by
  refine ⟨⟨fun sub => rfl, fun sub => rfl, rfl, rfl, rfl⟩, ?_⟩
  decide


/-! ## Fault capture: the search for the crashed thread -/

/-- A bitwise OR is zero only when both operands are. -/
theorem lor_eq_zero (a b : Nat) (h : a ||| b = 0) : a = 0 ∧ b = 0 := by
  have hbit : ∀ i, (a ||| b).testBit i = false := by
    intro i
    rw [h]
    exact Nat.zero_testBit i
  constructor
  · apply Nat.eq_of_testBit_eq
    intro i
    have := hbit i
    rw [Nat.testBit_or, Bool.or_eq_false_iff] at this
    rw [this.1, Nat.zero_testBit]
  · apply Nat.eq_of_testBit_eq
    intro i
    have := hbit i
    rw [Nat.testBit_or, Bool.or_eq_false_iff] at this
    rw [this.2, Nat.zero_testBit]

/-- The test of `get_crashed_thread` on the two flags at once holds exactly
when one of the two flags is set. -/
theorem flags_test_iff (flags a b : Nat) :
    flags &&& (a ||| b) ≠ 0 ↔ flags &&& a ≠ 0 ∨ flags &&& b ≠ 0 := by
  rw [Nat.and_or_distrib_left]
  constructor
  · intro h
    by_contra hn
    push_neg at hn
    apply h
    rw [hn.1, hn.2]
    rfl
  · rintro (h | h) hz
    · exact h (lor_eq_zero _ _ hz).1
    · exact h (lor_eq_zero _ _ hz).2

/-- The `if` of `get_crashed_thread` is the candidate test. -/
theorem is_crash_candidate_iff (os : OSConstants) (g : Option OSThread) (thread : OSThread) :
    is_crash_candidate os g thread = true
      ↔ thread.priority > os.OS_PRIORITY_IDLE
        ∧ thread.priority < os.OS_PRIORITY_APPMAX
        ∧ thread.flags &&& (os.OS_FLAG_CPU_BREAK ||| os.OS_FLAG_FAULT) ≠ 0
        ∧ some thread.id ≠ g.map (·.id) := by
  simp only [is_crash_candidate, Bool.and_eq_true, Bool.or_eq_true, decide_eq_true_eq,
    flags_test_iff, gt_iff_lt]
  tauto

/-- The walk of `get_crashed_thread`: the first candidate among the threads
before the end of the queue. -/
theorem get_crashed_thread_eq (os : OSConstants) (g : Option OSThread) (queue : List OSThread) :
    get_crashed_thread os g queue
      = (queue.takeWhile (fun t => decide (t.priority ≠ os.OS_PRIORITY_THREADTAIL))).find?
          (is_crash_candidate os g) := by
  induction queue with
  | nil => rfl
  | cons thread tlnext ih =>
    unfold get_crashed_thread
    by_cases ht : thread.priority = os.OS_PRIORITY_THREADTAIL
    · rw [if_pos ht]
      simp [List.takeWhile, ht]
    · rw [if_neg ht]
      have hd : decide (thread.priority ≠ os.OS_PRIORITY_THREADTAIL) = true := by
        simp [ht]
      rw [List.takeWhile_cons, hd]
      simp only [if_true, List.find?_cons]
      by_cases hc : is_crash_candidate os g thread = true
      · rw [if_pos ((is_crash_candidate_iff os g thread).mp hc), hc]
      · rw [if_neg (fun h => hc ((is_crash_candidate_iff os g thread).mpr h))]
        have hf : is_crash_candidate os g thread = false := by
          cases h : is_crash_candidate os g thread
          · rfl
          · exact absurd h hc
        rw [hf, ih]


/-- C25: `get_crashed_thread` walks the queue from the current faulted thread
up to `NULL` or the first thread whose priority is `OS_PRIORITY_THREADTAIL`
and returns the first thread before that end which has
`OS_PRIORITY_IDLE < priority < OS_PRIORITY_APPMAX`, has the CPU-break or the
fault flag set and is not `gCrashedThread`; the threads before the one
returned are not such threads; it returns `NULL` exactly when no thread before
the end is one. -/
theorem get_crashed_thread_spec (os : OSConstants) (gCrashedThread : Option OSThread)
    (queue : List OSThread) :
    get_crashed_thread os gCrashedThread queue
        = (queue.takeWhile (fun t => decide (t.priority ≠ os.OS_PRIORITY_THREADTAIL))).find?
            (is_crash_candidate os gCrashedThread)
      ∧ (∀ u, (queue.dropWhile
            (fun t => decide (t.priority ≠ os.OS_PRIORITY_THREADTAIL))).head? = some u →
          u.priority = os.OS_PRIORITY_THREADTAIL)
      ∧ (∀ t, get_crashed_thread os gCrashedThread queue = some t ↔
          is_crash_candidate os gCrashedThread t = true
            ∧ ∃ before after,
                queue.takeWhile (fun t => decide (t.priority ≠ os.OS_PRIORITY_THREADTAIL))
                    = before ++ t :: after
                  ∧ ∀ u ∈ before, is_crash_candidate os gCrashedThread u = false)
      ∧ (get_crashed_thread os gCrashedThread queue = none ↔
          ∀ t ∈ queue.takeWhile (fun t => decide (t.priority ≠ os.OS_PRIORITY_THREADTAIL)),
            is_crash_candidate os gCrashedThread t = false)
      ∧ (∀ t, is_crash_candidate os gCrashedThread t = true ↔
          os.OS_PRIORITY_IDLE < t.priority ∧ t.priority < os.OS_PRIORITY_APPMAX
            ∧ (t.flags &&& os.OS_FLAG_CPU_BREAK ≠ 0 ∨ t.flags &&& os.OS_FLAG_FAULT ≠ 0)
            ∧ some t.id ≠ gCrashedThread.map (·.id)) := by
  refine ⟨get_crashed_thread_eq os gCrashedThread queue, fun u hu => ?_, fun t => ?_, ?_,
    fun t => ?_⟩
  · have h := List.head?_dropWhile_not
      (fun t : OSThread => decide (t.priority ≠ os.OS_PRIORITY_THREADTAIL)) queue
    rw [hu] at h
    simpa using h
  · rw [get_crashed_thread_eq, List.find?_eq_some]
    simp
  · rw [get_crashed_thread_eq, List.find?_eq_none]
    simp
  · rw [is_crash_candidate_iff, flags_test_iff]


/-! ## Fault capture: supporting lemmas -/

/-- In range, `create_crash_screen_thread` arms the slot `sCSThreadIndex` and
changes nothing else but the record of calls. -/
theorem create_crash_screen_thread_eq (os : OSConstants) (s : CSState)
    (h : s.sCSThreadIndex < NUM_CRASH_SCREEN_BUFFERS) :
    create_crash_screen_thread os s
      = .ret { s with
          sCSThreadInfos := fun slot =>
            if slot = s.sCSThreadIndex then
              ⟨some (os.THREAD_1000_CRASH_SCREEN_0 + s.sCSThreadIndex,
                  os.OS_PRIORITY_APPMAX - 1), some .started, none, none, none⟩
            else s.sCSThreadInfos slot
          calls := s.calls ++ [CSCall.osCreateMesgQueue s.sCSThreadIndex,
            CSCall.osCreateThread s.sCSThreadIndex
              (os.THREAD_1000_CRASH_SCREEN_0 + s.sCSThreadIndex) (os.OS_PRIORITY_APPMAX - 1),
            CSCall.osStartThread s.sCSThreadIndex] } := by
  unfold create_crash_screen_thread
  rw [if_pos h]

/-- What the part of `on_crash` after the arming leaves alone and what it
calls: the slots, the index and the event table are unchanged, `sFirstCrash`
is false afterwards, and the one-time actions are called, once each (the
symbol table initialisation in builds with the debug map), exactly when
`sFirstCrash` was true. -/
theorem on_crash_session_frame (os : OSConstants) (b : Bool) (threadInfo : Nat)
    (s s' : CSState) (h : on_crash_session os b threadInfo s = .ret s') :
    s'.sCSThreadInfos = s.sCSThreadInfos ∧ s'.sCSThreadIndex = s.sCSThreadIndex
      ∧ s'.osEvents = s.osEvents ∧ s'.sFirstCrash = false
      ∧ s'.gActiveCSThreadInfo = some threadInfo
      ∧ s'.gCrashedThread.map (·.id) = s.gCrashedThread.map (·.id)
      ∧ ∃ extra, s'.calls = s.calls ++ extra
          ∧ (s.sFirstCrash = false → ∀ c ∈ extra, is_first_crash_call c = false)
          ∧ (s.sFirstCrash = true →
              extra.count CSCall.cs_settings_apply_func_to_all_reset = 1
                ∧ extra.count CSCall.cs_take_screenshot_of_game = 1
                ∧ extra.count CSCall.map_data_init = (if b then 1 else 0)) := by
  rcases s with ⟨infos, idx, first, gact, gcr, gin, gset, gsel, pid, sw, pop, swp, dir, pages,
    evs, calls⟩
  cases first
  · cases gcr with
    | none => simp [on_crash_session, cs_reinitialize] at h
    | some t =>
      cases gin with
      | none =>
        by_cases hs : t.cause = os.EXC_SYSCALL <;>
          simp [on_crash_session, cs_reinitialize, cs_reinitialize_pages, hs] at h
      | some tc =>
        by_cases hs : t.cause = os.EXC_SYSCALL <;> by_cases hc : tc.cause = os.EXC_II <;>
          simp only [on_crash_session, cs_reinitialize, cs_reinitialize_pages,
            cs_get_current_page, cs_set_page, hs, hc, Bool.false_eq_true, if_false, if_true,
            ne_eq, not_true_eq_false, not_false_eq_true, decide_True, decide_False,
            Run.ret.injEq] at h <;>
          subst h <;>
          refine ⟨rfl, rfl, rfl, rfl, rfl, rfl, ?_⟩ <;>
          simp only [List.append_assoc, List.singleton_append, List.cons_append,
            List.nil_append] <;>
          exact ⟨_, rfl, fun _ => by simp [is_first_crash_call], fun h => by simp at h⟩
  · cases gin with
    | none => simp [on_crash_session, cs_reinitialize, cs_reinitialize_pages] at h
    | some tc =>
      by_cases hc : tc.cause = os.EXC_II <;> by_cases hp : gset = 0 <;> cases b <;>
        simp only [on_crash_session, cs_reinitialize, cs_reinitialize_pages,
          cs_get_current_page, cs_set_page, hc, hp, Bool.false_eq_true, if_false, if_true,
          ne_eq, not_true_eq_false, not_false_eq_true, decide_True, decide_False,
          Run.ret.injEq] at h <;>
        subst h <;>
        refine ⟨rfl, rfl, rfl, rfl, rfl, ?_, ?_⟩ <;>
        first
          | rfl
          | (cases gcr <;> simp <;> split <;> rfl)


/-- A turn of the waiting loop that finds a crashed thread: the message is
consumed, the thread recorded, the slot `sCSThreadIndex` armed, the session
set up by `on_crash`, and the thread enters the loop of the open crash
screen. -/
theorem crash_screen_thread_entry_recv_handled (os : OSConstants) (b : Bool) (self : Nat)
    (queue : List OSThread) (s s' : CSState) (mesg : CSMesg) (t : OSThread)
    (hph : (s.sCSThreadInfos self).phase = some .waiting)
    (hti : (s.sCSThreadInfos self).threadInfo = some self)
    (hself : self < NUM_CRASH_SCREEN_BUFFERS)
    (hidx : s.sCSThreadIndex < NUM_CRASH_SCREEN_BUFFERS)
    (hq : (s.sCSThreadInfos self).mesgQueue = some mesg)
    (hg : get_crashed_thread os s.gCrashedThread queue = some t)
    (h : crash_screen_thread_entry_recv os b self queue s = .ret s') :
    s'.sCSThreadIndex = s.sCSThreadIndex ∧ s'.sFirstCrash = false
      ∧ s'.osEvents = s.osEvents ∧ s'.gActiveCSThreadInfo = some self
      ∧ s'.gCrashedThread.map (·.id) = some t.id
      ∧ (∀ k, s'.sCSThreadInfos k
          = if k = self then
              { (if self = s.sCSThreadIndex then
                  (⟨some (os.THREAD_1000_CRASH_SCREEN_0 + s.sCSThreadIndex,
                      os.OS_PRIORITY_APPMAX - 1), some .started, none, none, none⟩ :
                    CSThreadInfo)
                else { s.sCSThreadInfos self with mesgQueue := none, mesg := some mesg })
                with phase := some .active }
            else if k = s.sCSThreadIndex then
              ⟨some (os.THREAD_1000_CRASH_SCREEN_0 + s.sCSThreadIndex,
                  os.OS_PRIORITY_APPMAX - 1), some .started, none, none, none⟩
            else s.sCSThreadInfos k)
      ∧ ∃ extra, s'.calls
            = s.calls ++ [CSCall.osCreateMesgQueue s.sCSThreadIndex,
                CSCall.osCreateThread s.sCSThreadIndex
                  (os.THREAD_1000_CRASH_SCREEN_0 + s.sCSThreadIndex)
                  (os.OS_PRIORITY_APPMAX - 1),
                CSCall.osStartThread s.sCSThreadIndex] ++ extra
          ∧ (s.sFirstCrash = false → ∀ c ∈ extra, is_first_crash_call c = false)
          ∧ (s.sFirstCrash = true →
              extra.count CSCall.cs_settings_apply_func_to_all_reset = 1
                ∧ extra.count CSCall.cs_take_screenshot_of_game = 1
                ∧ extra.count CSCall.map_data_init = (if b then 1 else 0)) := by
  unfold crash_screen_thread_entry_recv at h
  simp only [hph, hti, hself, hq, hg, ne_eq, not_true_eq_false, if_false, if_true, on_crash,
    create_crash_screen_thread, hidx] at h
  split at h
  · exact absurd h (by simp)
  · next s2 hs =>
    obtain ⟨h1, h2, h3, h4, h5, h6, extra, h7, h8, h9⟩ := on_crash_session_frame _ _ _ _ _ hs
    injection h with h
    subst h
    refine ⟨h2, h4, h3, h5, ?_, fun k => ?_, extra, ?_, h8, h9⟩
    · simpa using h6
    · simp only [h1]
      by_cases hk : k = self
      · subst hk
        by_cases hi : k = s.sCSThreadIndex <;> simp [hi]
      · simp [hk]
    · simpa using h7



/-- The invariant of the ring reads the index, the event table and, of each
slot, where its thread is and the slot it listens on. -/
theorem cs_ring_invariant_congr (s s' : CSState)
    (h1 : s'.sCSThreadIndex = s.sCSThreadIndex) (h6 : s'.osEvents = s.osEvents)
    (h4 : ∀ k, (s'.sCSThreadInfos k).phase = (s.sCSThreadInfos k).phase)
    (h5 : ∀ k, (s'.sCSThreadInfos k).threadInfo = (s.sCSThreadInfos k).threadInfo)
    (h : cs_ring_invariant s) : cs_ring_invariant s' := by
  unfold cs_ring_invariant at h ⊢
  simp only [h1, h4, h5, h6]
  exact h

/-- An event of the operating system changes the message queue of the slot
registered for it and nothing else. -/
theorem os_send_event_frame (event : OSEvent) (s : CSState) :
    (os_send_event event s).sCSThreadIndex = s.sCSThreadIndex
      ∧ (os_send_event event s).sFirstCrash = s.sFirstCrash
      ∧ (os_send_event event s).calls = s.calls
      ∧ (os_send_event event s).osEvents = s.osEvents
      ∧ (∀ k, ((os_send_event event s).sCSThreadInfos k).phase = (s.sCSThreadInfos k).phase)
      ∧ (∀ k, ((os_send_event event s).sCSThreadInfos k).threadInfo
          = (s.sCSThreadInfos k).threadInfo) := by
  cases he : s.osEvents event with
  | none => simp [os_send_event, he]
  | some p =>
    obtain ⟨slot, mesg⟩ := p
    cases hq : (s.sCSThreadInfos slot).mesgQueue with
    | some m => simp [os_send_event, he, hq]
    | none =>
      refine ⟨by simp [os_send_event, he, hq], by simp [os_send_event, he, hq],
        by simp [os_send_event, he, hq], by simp [os_send_event, he, hq], fun k => ?_,
        fun k => ?_⟩ <;>
        by_cases h0 : k = slot <;> simp [os_send_event, he, hq, h0]

/-- The start of the thread of slot `self`: the index advances by one around
the ring, the three events are registered to the slot the index named, and
the thread waits, listening on that slot. -/
theorem crash_screen_thread_entry_begin_frame (self : Nat) (s s' : CSState)
    (h : crash_screen_thread_entry_begin self s = .ret s') :
    s.sCSThreadIndex < NUM_CRASH_SCREEN_BUFFERS
      ∧ s'.sCSThreadIndex = (s.sCSThreadIndex + 1) % NUM_CRASH_SCREEN_BUFFERS
      ∧ s'.sFirstCrash = s.sFirstCrash
      ∧ (∀ k, (s'.sCSThreadInfos k).phase
          = if k = self then some .waiting else (s.sCSThreadInfos k).phase)
      ∧ (∀ k, (s'.sCSThreadInfos k).threadInfo
          = if k = self then some s.sCSThreadIndex else (s.sCSThreadInfos k).threadInfo)
      ∧ (∀ k, (s'.sCSThreadInfos k).mesgQueue = (s.sCSThreadInfos k).mesgQueue)
      ∧ s'.osEvents .OS_EVENT_CPU_BREAK = some (s.sCSThreadIndex, .CRASH_SCREEN_MSG_CPU_BREAK)
      ∧ s'.osEvents .OS_EVENT_SP_BREAK = some (s.sCSThreadIndex, .CRASH_SCREEN_MSG_SP_BREAK)
      ∧ s'.osEvents .OS_EVENT_FAULT = some (s.sCSThreadIndex, .CRASH_SCREEN_MSG_FAULT)
      ∧ ∃ extra, s'.calls = s.calls ++ extra ∧ ∀ c ∈ extra, is_first_crash_call c = false := by
  unfold crash_screen_thread_entry_begin at h
  by_cases hi : s.sCSThreadIndex < NUM_CRASH_SCREEN_BUFFERS
  · rw [if_pos hi] at h
    injection h with h
    subst h
    refine ⟨hi, rfl, rfl, fun k => ?_, fun k => ?_, fun k => ?_, rfl, rfl, rfl,
      [CSCall.osSetEventMesg .OS_EVENT_CPU_BREAK s.sCSThreadIndex .CRASH_SCREEN_MSG_CPU_BREAK,
        CSCall.osSetEventMesg .OS_EVENT_SP_BREAK s.sCSThreadIndex .CRASH_SCREEN_MSG_SP_BREAK,
        CSCall.osSetEventMesg .OS_EVENT_FAULT s.sCSThreadIndex .CRASH_SCREEN_MSG_FAULT],
      by simp [osSetEventMesg], fun c hc => ?_⟩
    · by_cases h0 : k = self <;> simp [osSetEventMesg, h0]
    · by_cases h0 : k = self <;> simp [osSetEventMesg, h0]
    · by_cases h0 : k = self <;> simp [osSetEventMesg, h0]
    · simp only [List.mem_cons, List.mem_singleton, List.not_mem_nil, or_false] at hc
      rcases hc with rfl | rfl | rfl <;> rfl
  · rw [if_neg hi] at h
    cases h

/-- A turn of the waiting loop with an empty queue blocks: nothing changes. -/
theorem crash_screen_thread_entry_recv_blocked (os : OSConstants) (b : Bool) (self : Nat)
    (queue : List OSThread) (s s' : CSState)
    (hph : (s.sCSThreadInfos self).phase = some .waiting)
    (hti : (s.sCSThreadInfos self).threadInfo = some self)
    (hself : self < NUM_CRASH_SCREEN_BUFFERS)
    (hq : (s.sCSThreadInfos self).mesgQueue = none)
    (h : crash_screen_thread_entry_recv os b self queue s = .ret s') : s' = s := by
  unfold crash_screen_thread_entry_recv at h
  simp only [hph, hti, hself, hq, ne_eq, not_true_eq_false, if_false, if_true] at h
  injection h with h
  exact h.symm

/-- A turn of the waiting loop that finds no crashed thread consumes the
message and changes nothing else. -/
theorem crash_screen_thread_entry_recv_pending (os : OSConstants) (b : Bool) (self : Nat)
    (queue : List OSThread) (s s' : CSState) (mesg : CSMesg)
    (hph : (s.sCSThreadInfos self).phase = some .waiting)
    (hti : (s.sCSThreadInfos self).threadInfo = some self)
    (hself : self < NUM_CRASH_SCREEN_BUFFERS)
    (hq : (s.sCSThreadInfos self).mesgQueue = some mesg)
    (hg : get_crashed_thread os s.gCrashedThread queue = none)
    (h : crash_screen_thread_entry_recv os b self queue s = .ret s') :
    s'.sCSThreadIndex = s.sCSThreadIndex ∧ s'.sFirstCrash = s.sFirstCrash
      ∧ s'.calls = s.calls ∧ s'.osEvents = s.osEvents
      ∧ (∀ k, (s'.sCSThreadInfos k).phase = (s.sCSThreadInfos k).phase)
      ∧ (∀ k, (s'.sCSThreadInfos k).threadInfo = (s.sCSThreadInfos k).threadInfo) := by
  unfold crash_screen_thread_entry_recv at h
  simp only [hph, hti, hself, hq, hg, ne_eq, not_true_eq_false, if_false, if_true] at h
  injection h with h
  subst h
  refine ⟨rfl, rfl, rfl, rfl, fun k => ?_, fun k => ?_⟩ <;>
    by_cases h0 : k = self <;> simp [h0]

/-- No turn of the waiting loop sets `sFirstCrash` back to true. -/
theorem crash_screen_thread_entry_recv_first_crash (os : OSConstants) (b : Bool) (self : Nat)
    (queue : List OSThread) (s s' : CSState) (hf : s.sFirstCrash = false)
    (h : crash_screen_thread_entry_recv os b self queue s = .ret s') :
    s'.sFirstCrash = false := by
  unfold crash_screen_thread_entry_recv at h
  split at h
  · injection h with h
    subst h
    exact hf
  · split at h
    · cases h
    · split at h
      · split at h
        · injection h with h
          subst h
          exact hf
        · dsimp only at h
          split at h
          · injection h with h
            subst h
            exact hf
          · split at h
            · cases h
            · next s2 hs =>
              injection h with h
              subst h
              unfold on_crash at hs
              split at hs
              · cases hs
              · exact (on_crash_session_frame _ _ _ _ _ hs).2.2.2.1
      · cases h


/-- The search of `get_crashed_thread` reads `gCrashedThread` only to tell
which thread it is. -/
theorem get_crashed_thread_congr (os : OSConstants) (g g' : Option OSThread)
    (h : g.map (·.id) = g'.map (·.id)) (queue : List OSThread) :
    get_crashed_thread os g queue = get_crashed_thread os g' queue := by
  induction queue with
  | nil => rfl
  | cons thread tlnext ih =>
    unfold get_crashed_thread
    rw [h, ih]

/-- A call of `on_crash` that returns is a call of `create_crash_screen_thread`
that returns followed by the rest of `on_crash`. -/
theorem on_crash_eq (os : OSConstants) (b : Bool) (threadInfo : Nat) (s s' : CSState)
    (h : on_crash os b threadInfo s = .ret s') :
    s.sCSThreadIndex < NUM_CRASH_SCREEN_BUFFERS
      ∧ ∃ s1, create_crash_screen_thread os s = .ret s1
          ∧ on_crash_session os b threadInfo s1 = .ret s' := by
  by_cases hi : s.sCSThreadIndex < NUM_CRASH_SCREEN_BUFFERS
  · refine ⟨hi, ?_⟩
    unfold on_crash at h
    split at h
    · cases h
    · next s1 hs => exact ⟨s1, hs, h⟩
  · unfold on_crash create_crash_screen_thread at h
    rw [if_neg hi] at h
    cases h

/-- The part of `on_crash` after the arming returns when `gInspectThread` is
set and, on a later crash, `gCrashedThread` is set. -/
theorem on_crash_session_total (os : OSConstants) (b : Bool) (threadInfo : Nat) (s : CSState)
    (hi : s.gInspectThread ≠ none) (hc : s.sFirstCrash = true ∨ s.gCrashedThread ≠ none) :
    ∃ s', on_crash_session os b threadInfo s = .ret s' := by
  rcases s with ⟨infos, idx, first, gact, gcr, gin, gset, gsel, pid, sw, pop, swp, dir, pages,
    evs, calls⟩
  cases gin with
  | none => exact absurd rfl hi
  | some tc =>
    cases first
    · cases gcr with
      | none => simp at hc
      | some t =>
        by_cases hs : t.cause = os.EXC_SYSCALL <;> by_cases he : tc.cause = os.EXC_II <;>
          simp only [on_crash_session, cs_reinitialize, cs_reinitialize_pages,
            cs_get_current_page, cs_set_page, hs, he, Bool.false_eq_true, if_false, if_true,
            ne_eq, not_true_eq_false, not_false_eq_true, decide_True, decide_False] <;>
          exact ⟨_, rfl⟩
    · by_cases he : tc.cause = os.EXC_II <;> by_cases hp : gset = 0 <;> cases b <;>
        simp only [on_crash_session, cs_reinitialize, cs_reinitialize_pages,
          cs_get_current_page, cs_set_page, he, hp, Bool.false_eq_true, if_false, if_true,
          ne_eq, not_true_eq_false, not_false_eq_true, decide_True, decide_False] <;>
        exact ⟨_, rfl⟩

/-- A call of `on_crash` returns when the index is inside the ring,
`gInspectThread` is set and, on a later crash, `gCrashedThread` is set. -/
theorem on_crash_total (os : OSConstants) (b : Bool) (threadInfo : Nat) (s : CSState)
    (hidx : s.sCSThreadIndex < NUM_CRASH_SCREEN_BUFFERS) (hi : s.gInspectThread ≠ none)
    (hc : s.sFirstCrash = true ∨ s.gCrashedThread ≠ none) :
    ∃ s', on_crash os b threadInfo s = .ret s' := by
  unfold on_crash
  rw [create_crash_screen_thread_eq os s hidx]
  exact on_crash_session_total os b threadInfo _ hi hc

/-- A call of `on_crash` faults only outside these conditions. -/
theorem on_crash_fault (os : OSConstants) (b : Bool) (threadInfo : Nat) (s : CSState)
    (h : on_crash os b threadInfo s = .fault) :
    ¬ (s.sCSThreadIndex < NUM_CRASH_SCREEN_BUFFERS ∧ s.gInspectThread ≠ none
        ∧ (s.sFirstCrash = true ∨ s.gCrashedThread ≠ none)) := by
  rintro ⟨h1, h2, h3⟩
  obtain ⟨s', hs⟩ := on_crash_total os b threadInfo s h1 h2 h3
  rw [hs] at h
  cases h

/-- A turn of the waiting loop that finds a crashed thread returns. -/
theorem crash_screen_thread_entry_recv_total (os : OSConstants) (b : Bool) (self : Nat)
    (queue : List OSThread) (s : CSState) (mesg : CSMesg) (t : OSThread)
    (hph : (s.sCSThreadInfos self).phase = some .waiting)
    (hti : (s.sCSThreadInfos self).threadInfo = some self)
    (hself : self < NUM_CRASH_SCREEN_BUFFERS)
    (hidx : s.sCSThreadIndex < NUM_CRASH_SCREEN_BUFFERS)
    (hq : (s.sCSThreadInfos self).mesgQueue = some mesg)
    (hg : get_crashed_thread os s.gCrashedThread queue = some t) :
    ∃ s', crash_screen_thread_entry_recv os b self queue s = .ret s' := by
  unfold crash_screen_thread_entry_recv
  simp only [hph, hti, hself, hq, hg, ne_eq, not_true_eq_false, if_false, if_true]
  split
  · next hf =>
    exact absurd ⟨hidx, by simp, Or.inr (by simp)⟩ (on_crash_fault _ _ _ _ hf)
  · exact ⟨_, rfl⟩

/-- An event that is registered puts its message into the queue of the slot it
is registered to, when that queue is empty, and leaves the other slots as they
are. -/
theorem os_send_event_delivers (event : OSEvent) (s : CSState) (slot : Nat) (mesg : CSMesg)
    (he : s.osEvents event = some (slot, mesg)) :
    ((os_send_event event s).sCSThreadInfos slot).mesgQueue
        = some (((s.sCSThreadInfos slot).mesgQueue).getD mesg)
      ∧ (∀ k, k ≠ slot → (os_send_event event s).sCSThreadInfos k = s.sCSThreadInfos k)
      ∧ (os_send_event event s).gCrashedThread = s.gCrashedThread := by
  cases hq : (s.sCSThreadInfos slot).mesgQueue with
  | some m => simp [os_send_event, he, hq]
  | none =>
    refine ⟨by simp [os_send_event, he, hq], fun k hk => ?_, by simp [os_send_event, he, hq]⟩
    simp [os_send_event, he, hq, hk]


/-! ## Fault capture: a run of `on_crash` cut short -/

/-- With room for all its statements the run cut short is the whole of
`on_crash`. -/
theorem on_crash_cut_whole (os : OSConstants) (b : Bool) (threadInfo : Nat) (cut : Nat)
    (s : CSState) (h : 15 ≤ cut) :
    on_crash_cut os b threadInfo cut s = on_crash os b threadInfo s := by
  obtain ⟨c, rfl⟩ : ∃ c, cut = c + 15 := ⟨cut - 15, by omega⟩
  rcases s with ⟨infos, idx, first, gact, gcr, gin, gset, gsel, pid, sw, pop, swp, dir, pages,
    evs, calls⟩
  by_cases hi : idx < NUM_CRASH_SCREEN_BUFFERS
  · cases first
    · cases gcr with
      | none =>
        simp [on_crash_cut, cs_reinitialize_cut, cs_statement, on_crash, on_crash_session,
          cs_reinitialize, create_crash_screen_thread, hi]
      | some t =>
        cases gin with
        | none =>
          by_cases hs : t.cause = os.EXC_SYSCALL <;>
            simp [on_crash_cut, cs_reinitialize_cut, cs_statement, on_crash, on_crash_session,
              cs_reinitialize, cs_reinitialize_pages, create_crash_screen_thread, hi, hs]
        | some tc =>
          by_cases hs : t.cause = os.EXC_SYSCALL <;> by_cases hc : tc.cause = os.EXC_II <;>
            simp [on_crash_cut, cs_reinitialize_cut, cs_statement, on_crash, on_crash_session,
              cs_reinitialize, cs_reinitialize_pages, cs_get_current_page, cs_set_page,
              create_crash_screen_thread, hi, hs, hc]
    · cases gin with
      | none =>
        simp [on_crash_cut, cs_reinitialize_cut, cs_statement, on_crash, on_crash_session,
          cs_reinitialize, cs_reinitialize_pages, create_crash_screen_thread, hi]
      | some tc =>
        by_cases hc : tc.cause = os.EXC_II <;> by_cases hp : gset = 0 <;> cases b <;>
          simp [on_crash_cut, cs_reinitialize_cut, cs_statement, on_crash, on_crash_session,
            cs_reinitialize, cs_reinitialize_pages, cs_get_current_page, cs_set_page,
            create_crash_screen_thread, hi, hc, hp]
  · simp [on_crash_cut, cs_reinitialize_cut, cs_statement, on_crash, create_crash_screen_thread,
      hi]

/-- A property that a statement keeps is kept whether the statement runs or the
fault has stopped the thread before it. -/
theorem cs_statement_preserves (P : CSState → Prop) (f : CSState → Run CSState)
    (hf : ∀ s s', P s → f s = .ret s' → P s') (r : Run (Nat × CSState))
    (hr : ∀ n s, r = .ret (n, s) → P s) (n : Nat) (s : CSState)
    (h : cs_statement f r = .ret (n, s)) : P s := by
  cases r with
  | fault => cases h
  | ret p =>
    obtain ⟨c, s0⟩ := p
    have h0 : P s0 := hr c s0 rfl
    cases c with
    | zero =>
      simp only [cs_statement] at h
      cases h
      exact h0
    | succ c =>
      simp only [cs_statement] at h
      cases hfs : f s0 with
      | fault =>
        rw [hfs] at h
        cases h
      | ret s1 =>
        rw [hfs] at h
        cases h
        exact hf s0 _ h0 hfs

/-- What a run of `on_crash`, whole or cut short, leaves alone: the index and
the event table are unchanged, only the slot `sCSThreadIndex` may have been
written, and then it was armed, and `sFirstCrash` is not set back to true. -/
theorem on_crash_cut_frame (os : OSConstants) (b : Bool) (threadInfo : Nat) (cut : Nat)
    (s s' : CSState) (hi : s.sCSThreadIndex < NUM_CRASH_SCREEN_BUFFERS)
    (h : on_crash_cut os b threadInfo cut s = .ret s') :
    s'.sCSThreadIndex = s.sCSThreadIndex ∧ s'.osEvents = s.osEvents
      ∧ (∀ k, k ≠ s.sCSThreadIndex → s'.sCSThreadInfos k = s.sCSThreadInfos k)
      ∧ (s'.sCSThreadInfos s.sCSThreadIndex = s.sCSThreadInfos s.sCSThreadIndex
          ∨ s'.sCSThreadInfos s.sCSThreadIndex
              = ⟨some (os.THREAD_1000_CRASH_SCREEN_0 + s.sCSThreadIndex,
                    os.OS_PRIORITY_APPMAX - 1), some .started, none, none, none⟩)
      ∧ (s.sFirstCrash = false → s'.sFirstCrash = false) := by
  obtain ⟨P, hPdef⟩ : ∃ P : CSState → Prop, P = fun x =>
      x.sCSThreadIndex = s.sCSThreadIndex ∧ x.osEvents = s.osEvents
        ∧ (∀ k, k ≠ s.sCSThreadIndex → x.sCSThreadInfos k = s.sCSThreadInfos k)
        ∧ (x.sCSThreadInfos s.sCSThreadIndex = s.sCSThreadInfos s.sCSThreadIndex
            ∨ x.sCSThreadInfos s.sCSThreadIndex
                = ⟨some (os.THREAD_1000_CRASH_SCREEN_0 + s.sCSThreadIndex,
                      os.OS_PRIORITY_APPMAX - 1), some .started, none, none, none⟩)
        ∧ (s.sFirstCrash = false → x.sFirstCrash = false) := ⟨_, rfl⟩
  have hP0 : ∀ n x, (Run.ret (cut, s) : Run (Nat × CSState)) = .ret (n, x) → P x := by
    intro n x hx
    cases hx
    rw [hPdef]
    exact ⟨rfl, rfl, fun _ _ => rfl, Or.inl rfl, id⟩
  -- a statement that writes none of these variables, or clears `sFirstCrash`
  have keep : ∀ (f : CSState → Run CSState),
      (∀ a a', f a = .ret a' →
        a'.sCSThreadIndex = a.sCSThreadIndex ∧ a'.osEvents = a.osEvents
          ∧ a'.sCSThreadInfos = a.sCSThreadInfos
          ∧ (a.sFirstCrash = false → a'.sFirstCrash = false)) →
      ∀ a a', P a → f a = .ret a' → P a' := by
    intro f hf a a' hPa hfa
    obtain ⟨e1, e2, e3, e4⟩ := hf a a' hfa
    rw [hPdef] at hPa ⊢
    obtain ⟨p1, p2, p3, p4, p5⟩ := hPa
    refine ⟨e1.trans p1, e2.trans p2, fun k hk => ?_, ?_, fun hf0 => e4 (p5 hf0)⟩
    · rw [e3]
      exact p3 k hk
    · rw [e3]
      exact p4
  have hcreate : ∀ a a', P a → create_crash_screen_thread os a = .ret a' → P a' := by
    intro a a' hPa hfa
    rw [hPdef] at hPa ⊢
    obtain ⟨p1, p2, p3, p4, p5⟩ := hPa
    rw [create_crash_screen_thread_eq os a (by rw [p1]; exact hi)] at hfa
    cases hfa
    refine ⟨p1, p2, fun k hk => ?_, Or.inr ?_, p5⟩
    · have hk' : k ≠ a.sCSThreadIndex := by
        rw [p1]
        exact hk
      simp only [hk', if_false]
      exact p3 k hk
    · simp only [p1, if_true]
  have hfinal : P s' := by
    unfold on_crash_cut cs_reinitialize_cut at h
    dsimp only at h
    split at h
    · cases h
    · next n15 x15 h15 =>
      cases h
      refine cs_statement_preserves P _ (keep _ ?_) _ (fun n x hx => ?_) _ _ h15
      · intro a a' hfa
        repeat' (split at hfa)
        all_goals cases hfa
        all_goals exact ⟨rfl, rfl, rfl, id⟩
      · split at hx
        · cases hx
        · next c10 x10 h10 =>
          have hP10 : P x10 := by
            refine cs_statement_preserves P _ (keep _ ?_) _ (fun n x hx => ?_) _ _ h10
            · intro a a' hfa
              repeat' (split at hfa)
              all_goals cases hfa
              all_goals exact ⟨rfl, rfl, rfl, id⟩
            · refine cs_statement_preserves P _ (keep _ ?_) _ (fun n x hx => ?_) _ _ hx
              · intro a a' hfa
                cases hfa
                exact ⟨rfl, rfl, rfl, id⟩
              · refine cs_statement_preserves P _ (keep _ ?_) _ (fun n x hx => ?_) _ _ hx
                · intro a a' hfa
                  cases hfa
                  exact ⟨rfl, rfl, rfl, id⟩
                · refine cs_statement_preserves P _ (keep _ ?_) _ (fun n x hx => ?_) _ _ hx
                  · intro a a' hfa
                    cases hfa
                    exact ⟨rfl, rfl, rfl, id⟩
                  · refine cs_statement_preserves P _ (keep _ ?_) _ (fun n x hx => ?_) _ _ hx
                    · intro a a' hfa
                      cases hfa
                      exact ⟨rfl, rfl, rfl, id⟩
                    · refine cs_statement_preserves P _ (keep _ ?_) _ (fun n x hx => ?_) _ _ hx
                      · intro a a' hfa
                        repeat' (split at hfa)
                        all_goals cases hfa
                        all_goals exact ⟨rfl, rfl, rfl, id⟩
                      · refine cs_statement_preserves P _ (keep _ ?_) _ (fun n x hx => ?_) _ _ hx
                        · intro a a' hfa
                          cases hfa
                          exact ⟨rfl, rfl, rfl, id⟩
                        · refine cs_statement_preserves P _ (keep _ ?_) _ (fun n x hx => ?_) _ _ hx
                          · intro a a' hfa
                            repeat' (split at hfa)
                            all_goals cases hfa
                            all_goals exact ⟨rfl, rfl, rfl, id⟩
                          · refine cs_statement_preserves P _ (keep _ ?_) _ (fun n x hx => ?_) _ _ hx
                            · intro a a' hfa
                              cases hfa
                              exact ⟨rfl, rfl, rfl, id⟩
                            · exact cs_statement_preserves P _ hcreate _ hP0 _ _ hx
          split at hx
          · split at hx
            · refine cs_statement_preserves P _ (keep _ ?_) _ (fun n x hx => ?_) _ _ hx
              · intro a a' hfa
                cases hfa
                exact ⟨rfl, rfl, rfl, id⟩
              · refine cs_statement_preserves P _ (keep _ ?_) _ (fun n x hx => ?_) _ _ hx
                · intro a a' hfa
                  cases hfa
                  exact ⟨rfl, rfl, rfl, id⟩
                · refine cs_statement_preserves P _ (keep _ ?_) _ (fun n x hx => ?_) _ _ hx
                  · intro a a' hfa
                    repeat' (split at hfa)
                    all_goals cases hfa
                    all_goals exact ⟨rfl, rfl, rfl, id⟩
                  · refine cs_statement_preserves P _ (keep _ ?_) _ (fun n x hx => ?_) _ _ hx
                    · intro a a' hfa
                      cases hfa
                      exact ⟨rfl, rfl, rfl, fun _ => rfl⟩
                    · cases hx
                      exact hP10
            · refine cs_statement_preserves P _ (keep _ ?_) _ (fun n x hx => ?_) _ _ hx
              · intro a a' hfa
                cases hfa
                exact ⟨rfl, rfl, rfl, id⟩
              · refine cs_statement_preserves P _ (keep _ ?_) _ (fun n x hx => ?_) _ _ hx
                · intro a a' hfa
                  repeat' (split at hfa)
                  all_goals cases hfa
                  all_goals exact ⟨rfl, rfl, rfl, id⟩
                · refine cs_statement_preserves P _ (keep _ ?_) _ (fun n x hx => ?_) _ _ hx
                  · intro a a' hfa
                    cases hfa
                    exact ⟨rfl, rfl, rfl, fun _ => rfl⟩
                  · cases hx
                    exact hP10
          · cases hx
            exact hP10
  rw [hPdef] at hfinal
  exact hfinal

/-- A turn of the waiting loop in which the thread may fault inside
`on_crash`: the index and the event table are unchanged, `sFirstCrash` is not
set back to true, the slots other than the one of the thread and the one the
index names are as before, and either the thread still waits, or it was
stopped, and then the slot the index names is as before or was armed. -/
theorem crash_screen_thread_entry_recv_cut_frame (os : OSConstants) (b : Bool) (self : Nat)
    (queue : List OSThread) (cut : Nat) (s s' : CSState)
    (hph : (s.sCSThreadInfos self).phase = some .waiting)
    (hti : (s.sCSThreadInfos self).threadInfo = some self)
    (hself : self < NUM_CRASH_SCREEN_BUFFERS)
    (hidx : s.sCSThreadIndex < NUM_CRASH_SCREEN_BUFFERS)
    (hne : self ≠ s.sCSThreadIndex)
    (h : crash_screen_thread_entry_recv_cut os b self queue cut s = .ret s') :
    s'.sCSThreadIndex = s.sCSThreadIndex ∧ s'.osEvents = s.osEvents
      ∧ (s.sFirstCrash = false → s'.sFirstCrash = false)
      ∧ (∀ k, k ≠ self → k ≠ s.sCSThreadIndex →
          (s'.sCSThreadInfos k).phase = (s.sCSThreadInfos k).phase
            ∧ (s'.sCSThreadInfos k).threadInfo = (s.sCSThreadInfos k).threadInfo)
      ∧ (((s'.sCSThreadInfos self).phase = some .waiting
            ∧ (s'.sCSThreadInfos self).threadInfo = some self
            ∧ (s'.sCSThreadInfos s.sCSThreadIndex).phase
                = (s.sCSThreadInfos s.sCSThreadIndex).phase)
          ∨ ((s'.sCSThreadInfos self).phase = some .stopped
            ∧ ((s'.sCSThreadInfos s.sCSThreadIndex).phase
                  = (s.sCSThreadInfos s.sCSThreadIndex).phase
                ∨ (s'.sCSThreadInfos s.sCSThreadIndex).phase = some .started))) := by
  unfold crash_screen_thread_entry_recv_cut at h
  simp only [hph, hti, hself, ne_eq, not_true_eq_false, if_false, if_true] at h
  cases hq : (s.sCSThreadInfos self).mesgQueue with
  | none =>
    simp only [hq] at h
    cases h
    exact ⟨rfl, rfl, id, fun k _ _ => ⟨rfl, rfl⟩, Or.inl ⟨hph, hti, rfl⟩⟩
  | some mesg =>
    simp only [hq] at h
    cases hg : get_crashed_thread os s.gCrashedThread queue with
    | none =>
      simp only [hg] at h
      cases h
      refine ⟨rfl, rfl, id, fun k hk _ => ?_, Or.inl ⟨?_, ?_, ?_⟩⟩
      · simp only [hk, if_false, and_self]
      · simp only [if_true]
        exact hph
      · simp only [if_true]
        exact hti
      · simp only [Ne.symm hne, if_false]
    | some t =>
      simp only [hg] at h
      split at h
      · cases h
      · next s2 hs2 =>
        cases h
        obtain ⟨f1, f2, f3, f4, f5⟩ :=
          on_crash_cut_frame os b self cut _ s2 (by exact hidx) hs2
        dsimp only at f1 f2 f3 f4 f5
        refine ⟨f1, f2, f5, fun k hk hk' => ?_, Or.inr ⟨?_, ?_⟩⟩
        · simp only [hk, if_false]
          rw [f3 k hk']
          simp only [hk, if_false, and_self]
        · simp only [if_true]
        · simp only [Ne.symm hne, if_false]
          rcases f4 with f4 | f4
          · left
            rw [f4]
            simp only [Ne.symm hne, if_false]
          · right
            rw [f4]

/-- The state after startup satisfies the invariant of the ring. -/
theorem cs_startup_invariant (os : OSConstants) (s : CSState)
    (hs : create_crash_screen_thread os cs_initial = .ret s) : cs_ring_invariant s := by
  rw [create_crash_screen_thread_eq os cs_initial (by decide)] at hs
  injection hs with hs
  subst hs
  have hi : cs_initial.sCSThreadIndex = 0 := rfl
  refine ⟨Nat.lt_of_le_of_lt (Nat.le_of_eq hi) (by decide), fun k hk => ?_, fun k hk => ?_⟩
  · by_cases h0 : k = cs_initial.sCSThreadIndex
    · exact h0
    · simp only [h0, if_false] at hk
      exact absurd hk (by simp [cs_initial])
  · by_cases h0 : k = cs_initial.sCSThreadIndex
    · simp only [h0, if_true] at hk
      exact absurd hk (by simp)
    · simp only [h0, if_false] at hk
      exact absurd hk (by simp [cs_initial])

/-- Every step keeps the invariant of the ring. -/
theorem cs_step_invariant (os : OSConstants) (b : Bool) (s s' : CSState)
    (h : CSStep os b s s') (ih : cs_ring_invariant s) : cs_ring_invariant s' := by
  cases h with
  | entry_begin _ self hself hph hb =>
    obtain ⟨i1, i2, i3⟩ := ih
    obtain ⟨_, f2, _, f4, f5, _, g1, g2, g3, _⟩ :=
      crash_screen_thread_entry_begin_frame self s s' hb
    have hsi : self = s.sCSThreadIndex := i2 self hph
    have hne : (s.sCSThreadIndex + 1) % NUM_CRASH_SCREEN_BUFFERS ≠ s.sCSThreadIndex := by
      have : s.sCSThreadIndex < 3 := i1
      show (s.sCSThreadIndex + 1) % 3 ≠ s.sCSThreadIndex
      omega
    refine ⟨by rw [f2]; exact Nat.mod_lt _ (by decide), fun k hk => ?_, fun k hk => ?_⟩
    · rw [f4 k] at hk
      by_cases h0 : k = self
      · rw [if_pos h0] at hk
        exact absurd hk (by decide)
      · rw [if_neg h0] at hk
        exact absurd ((i2 k hk).trans hsi.symm) h0
    · rw [f4 k] at hk
      by_cases h0 : k = self
      · refine ⟨by rw [f5 k, if_pos h0, h0, hsi], by rw [h0]; exact hself,
          by rw [f2, h0, hsi], ?_, fun e => ?_⟩
        · rw [f4, f2]
          by_cases h1 : (s.sCSThreadIndex + 1) % NUM_CRASH_SCREEN_BUFFERS = self
          · rw [if_pos h1]
            decide
          · rw [if_neg h1]
            intro hst
            exact hne (i2 _ hst)
        · rw [h0, hsi]
          cases e
          · exact g1
          · exact g2
          · exact g3
      · rw [if_neg h0] at hk
        refine absurd ?_ (i3 k hk).2.2.2.1
        rw [← hsi]
        exact hph
  | entry_recv _ self queue hself hph hr =>
    obtain ⟨j1, j2, j3, _, _⟩ := ih.2.2 self hph
    cases hq : (s.sCSThreadInfos self).mesgQueue with
    | none =>
      rw [crash_screen_thread_entry_recv_blocked os b self queue s s' hph j1 hself hq hr]
      exact ih
    | some mesg =>
      cases hg : get_crashed_thread os s.gCrashedThread queue with
      | none =>
        obtain ⟨p1, _, _, p4, p5, p6⟩ :=
          crash_screen_thread_entry_recv_pending os b self queue s s' mesg hph j1 hself hq hg hr
        exact cs_ring_invariant_congr s s' p1 p4 p5 p6 ih
      | some t =>
        obtain ⟨i1, i2, i3⟩ := ih
        obtain ⟨r1, _, _, _, _, r6, _⟩ :=
          crash_screen_thread_entry_recv_handled os b self queue s s' mesg t hph j1 hself i1 hq
            hg hr
        have hne : self ≠ s.sCSThreadIndex := by
          have h1 : self < 3 := j2
          have h2 : (self + 1) % 3 = s.sCSThreadIndex := j3
          omega
        have hp : ∀ k, (s'.sCSThreadInfos k).phase
            = if k = self then some .active
              else if k = s.sCSThreadIndex then some .started else (s.sCSThreadInfos k).phase := by
          intro k
          rw [r6 k]
          by_cases h0 : k = self
          · rw [if_pos h0, if_pos h0]
          · rw [if_neg h0, if_neg h0]
            by_cases h1 : k = s.sCSThreadIndex
            · rw [if_pos h1, if_pos h1]
            · rw [if_neg h1, if_neg h1]
        refine ⟨by rw [r1]; exact i1, fun k hk => ?_, fun k hk => ?_⟩
        · rw [hp k] at hk
          rw [r1]
          by_cases h0 : k = self
          · rw [if_pos h0] at hk
            exact absurd hk (by decide)
          · by_cases h1 : k = s.sCSThreadIndex
            · exact h1
            · rw [if_neg h0, if_neg h1] at hk
              exact i2 k hk
        · rw [hp k] at hk
          by_cases h0 : k = self
          · rw [if_pos h0] at hk
            exact absurd hk (by decide)
          · by_cases h1 : k = s.sCSThreadIndex
            · rw [if_neg h0, if_pos h1] at hk
              exact absurd hk (by decide)
            · rw [if_neg h0, if_neg h1] at hk
              obtain ⟨_, a2, a3, _⟩ := i3 k hk
              have b2 : k < 3 := a2
              have b3 : (k + 1) % 3 = s.sCSThreadIndex := a3
              have c2 : self < 3 := j2
              have c3 : (self + 1) % 3 = s.sCSThreadIndex := j3
              exact absurd (by omega : k = self) h0
  | entry_recv_cut _ self queue cut hself hph hr =>
    obtain ⟨i1, i2, i3⟩ := ih
    obtain ⟨j1, j2, j3, j4, j5⟩ := i3 self hph
    have hne : self ≠ s.sCSThreadIndex := by
      have h1 : self < 3 := j2
      have h2 : (self + 1) % 3 = s.sCSThreadIndex := j3
      omega
    obtain ⟨r1, r2, _, r4, r5⟩ :=
      crash_screen_thread_entry_recv_cut_frame os b self queue cut s s' hph j1 hself i1 hne hr
    have huniq : ∀ k, (s.sCSThreadInfos k).phase = some .waiting → k = self := by
      intro k hk
      obtain ⟨_, a2, a3, _⟩ := i3 k hk
      have b2 : k < 3 := a2
      have b3 : (k + 1) % 3 = s.sCSThreadIndex := a3
      have c2 : self < 3 := j2
      have c3 : (self + 1) % 3 = s.sCSThreadIndex := j3
      omega
    refine ⟨by rw [r1]; exact i1, fun k hk => ?_, fun k hk => ?_⟩
    · rw [r1]
      by_cases h0 : k = self
      · rw [h0] at hk
        rcases r5 with ⟨w, _, _⟩ | ⟨w, _⟩
        · rw [w] at hk
          exact absurd hk (by decide)
        · rw [w] at hk
          exact absurd hk (by decide)
      · by_cases h1 : k = s.sCSThreadIndex
        · exact h1
        · rw [(r4 k h0 h1).1] at hk
          exact i2 k hk
    · by_cases h0 : k = self
      · rw [h0] at hk ⊢
        rcases r5 with ⟨_, w2, w3⟩ | ⟨w, _⟩
        · refine ⟨w2, j2, by rw [r1]; exact j3, ?_, fun e => ?_⟩
          · rw [r1, w3]
            exact j4
          · rw [r2]
            exact j5 e
        · rw [w] at hk
          exact absurd hk (by decide)
      · by_cases h1 : k = s.sCSThreadIndex
        · rw [h1] at hk
          rcases r5 with ⟨_, _, w3⟩ | ⟨_, w | w⟩
          · rw [w3] at hk
            exact absurd (huniq _ hk) (Ne.symm hne)
          · rw [w] at hk
            exact absurd (huniq _ hk) (Ne.symm hne)
          · rw [w] at hk
            exact absurd hk (by decide)
        · rw [(r4 k h0 h1).1] at hk
          exact absurd (huniq k hk) h0
  | event event =>
    obtain ⟨e1, _, _, e4, e5, e6⟩ := os_send_event_frame event s
    exact cs_ring_invariant_congr s _ e1 e4 e5 e6 ih
  | outside _ e1 e2 _ e4 _ =>
    exact cs_ring_invariant_congr s s' e2 e4 (fun k => by rw [e1]) (fun k => by rw [e1]) ih

/-- Every reachable state satisfies the invariant of the ring. -/
theorem cs_reachable_invariant (os : OSConstants) (b : Bool) (s : CSState)
    (h : CSReachable os b s) : cs_ring_invariant s := by
  induction h with
  | startup s hs => exact cs_startup_invariant os s hs
  | step s s' _ hstep ih => exact cs_step_invariant os b s s' hstep ih

/-- No step sets `sFirstCrash` back to true. -/
theorem cs_step_first_crash (os : OSConstants) (b : Bool) (s s' : CSState)
    (h : CSStep os b s s') (hr : CSReachable os b s) (hf : s.sFirstCrash = false) :
    s'.sFirstCrash = false := by
  cases h with
  | entry_begin _ self hself hph hb =>
    rw [(crash_screen_thread_entry_begin_frame self s s' hb).2.2.1]
    exact hf
  | entry_recv _ self queue hself hph hr =>
    exact crash_screen_thread_entry_recv_first_crash os b self queue s s' hf hr
  | entry_recv_cut _ self queue cut hself hph hc =>
    obtain ⟨i1, _, i3⟩ := cs_reachable_invariant os b s hr
    obtain ⟨j1, j2, j3, _, _⟩ := i3 self hph
    have hne : self ≠ s.sCSThreadIndex := by
      have h1 : self < 3 := j2
      have h2 : (self + 1) % 3 = s.sCSThreadIndex := j3
      omega
    exact (crash_screen_thread_entry_recv_cut_frame os b self queue cut s s' hph j1 hself i1 hne
      hc).2.2.1 hf
  | event event =>
    rw [(os_send_event_frame event s).2.1]
    exact hf
  | outside _ e1 e2 e3 e4 e5 =>
    rw [e3]
    exact hf


/-- What a call of `on_crash` that returns leaves behind: the index and the
event table are unchanged, only the slot `sCSThreadIndex` is written (armed),
`sFirstCrash` is false, and the one-time actions are among the calls it made,
once each, exactly when `sFirstCrash` was true. -/
theorem on_crash_frame (os : OSConstants) (b : Bool) (threadInfo : Nat) (s s' : CSState)
    (h : on_crash os b threadInfo s = .ret s') :
    s.sCSThreadIndex < NUM_CRASH_SCREEN_BUFFERS ∧ s'.sCSThreadIndex = s.sCSThreadIndex
      ∧ s'.sFirstCrash = false ∧ s'.osEvents = s.osEvents
      ∧ s'.gActiveCSThreadInfo = some threadInfo
      ∧ (∀ k, k ≠ s.sCSThreadIndex → s'.sCSThreadInfos k = s.sCSThreadInfos k)
      ∧ ∃ extra, s'.calls = s.calls ++ extra
          ∧ (s.sFirstCrash = false → ∀ c ∈ extra, is_first_crash_call c = false)
          ∧ (s.sFirstCrash = true →
              extra.count CSCall.cs_settings_apply_func_to_all_reset = 1
                ∧ extra.count CSCall.cs_take_screenshot_of_game = 1
                ∧ extra.count CSCall.map_data_init = (if b then 1 else 0)) := by
  obtain ⟨hi, s1, hc, hs⟩ := on_crash_eq os b threadInfo s s' h
  rw [create_crash_screen_thread_eq os s hi] at hc
  injection hc with hc
  subst hc
  obtain ⟨h1, h2, h3, h4, h5, _, extra, h7, h8, h9⟩ := on_crash_session_frame _ _ _ _ _ hs
  obtain ⟨armed, harmed, hcreate⟩ : ∃ armed, [CSCall.osCreateMesgQueue s.sCSThreadIndex,
      CSCall.osCreateThread s.sCSThreadIndex
        (os.THREAD_1000_CRASH_SCREEN_0 + s.sCSThreadIndex) (os.OS_PRIORITY_APPMAX - 1),
      CSCall.osStartThread s.sCSThreadIndex] = armed
      ∧ ∀ c ∈ armed, is_first_crash_call c = false := by
    refine ⟨_, rfl, fun c hc => ?_⟩
    simp only [List.mem_cons, List.mem_singleton, List.not_mem_nil, or_false] at hc
    rcases hc with rfl | rfl | rfl <;> rfl
  dsimp only at h7
  rw [harmed, List.append_assoc] at h7
  have z : ∀ c, is_first_crash_call c = true → (armed ++ extra).count c = extra.count c := by
    intro c hc
    have h0 : armed.count c = 0 := by
      refine List.count_eq_zero.mpr (fun hm => ?_)
      rw [hcreate c hm] at hc
      exact absurd hc (by decide)
    rw [List.count_append, h0, Nat.zero_add]
  refine ⟨hi, h2, h4, h3, h5, fun k hk => ?_, armed ++ extra, h7, fun hf c hc => ?_,
    fun hf => ?_⟩
  · rw [h1]
    exact if_neg hk
  · rcases List.mem_append.mp hc with hc | hc
    · exact hcreate c hc
    · exact h8 hf c hc
  · obtain ⟨c1, c2, c3⟩ := h9 hf
    rw [z CSCall.cs_settings_apply_func_to_all_reset rfl,
      z CSCall.cs_take_screenshot_of_game rfl, z CSCall.map_data_init rfl]
    exact ⟨c1, c2, c3⟩

/-! ## Fault capture: the first crash and the ring -/

/-- C26, at the failing input: the thread that handles the first crash faults
inside `on_crash` before it has reached `sFirstCrash = FALSE`. `sFirstCrash`
starts true; a call of `on_crash` that runs to its end leaves it false, and
calls the reset of the settings, the screenshot and (in builds with the debug
map) the symbol table initialisation once each when it was true and not at all
when it was false; no step sets it back to true. But the reset of the settings
is in `cs_reinitialize`, before `sFirstCrash = FALSE`: a run stopped by a fault
after 5 to 9 statements has called the reset and left `sFirstCrash` true, so
the next call of `on_crash` calls the reset again. In the sequence evaluated
here the thread of slot 0 handles the fault of a game thread and faults at
`cs_reinitialize_pages()`; the thread of slot 1 starts and handles the fault
of a second game thread: the state reached has two calls of the reset. A run
stopped after 12 statements, at the screenshot, leaves `sFirstCrash` false
without a call of the screenshot or of the symbol table initialisation. -/
theorem first_crash_init_repeated (os : OSConstants) (INCLUDE_DEBUG_MAP : Bool) :
    cs_initial.sFirstCrash = true
      ∧ (∀ threadInfo s s', on_crash os INCLUDE_DEBUG_MAP threadInfo s = .ret s' →
          s'.sFirstCrash = false
            ∧ ∃ extra, s'.calls = s.calls ++ extra
              ∧ (s.sFirstCrash = true →
                  extra.count CSCall.cs_settings_apply_func_to_all_reset = 1
                    ∧ extra.count CSCall.cs_take_screenshot_of_game = 1
                    ∧ extra.count CSCall.map_data_init = (if INCLUDE_DEBUG_MAP then 1 else 0))
              ∧ (s.sFirstCrash = false →
                  extra.count CSCall.cs_settings_apply_func_to_all_reset = 0
                    ∧ extra.count CSCall.cs_take_screenshot_of_game = 0
                    ∧ extra.count CSCall.map_data_init = 0))
      ∧ (∀ s s', CSReachable os INCLUDE_DEBUG_MAP s → CSStep os INCLUDE_DEBUG_MAP s s' →
          s.sFirstCrash = false → s'.sFirstCrash = false)
      ∧ (∀ threadInfo cut s, 15 ≤ cut →
          on_crash_cut os INCLUDE_DEBUG_MAP threadInfo cut s
            = on_crash os INCLUDE_DEBUG_MAP threadInfo s)
      ∧ (∀ threadInfo cut s, s.sCSThreadIndex < NUM_CRASH_SCREEN_BUFFERS →
          s.sFirstCrash = true → 5 ≤ cut → cut ≤ 9 →
          ∃ s', on_crash_cut os INCLUDE_DEBUG_MAP threadInfo cut s = .ret s'
            ∧ s'.sFirstCrash = true
            ∧ s'.calls.count CSCall.cs_settings_apply_func_to_all_reset
                = s.calls.count CSCall.cs_settings_apply_func_to_all_reset + 1)
      ∧ (∀ threadInfo s, s.sCSThreadIndex < NUM_CRASH_SCREEN_BUFFERS →
          s.sFirstCrash = true → s.gInspectThread ≠ none →
          ∃ s', on_crash_cut os INCLUDE_DEBUG_MAP threadInfo 12 s = .ret s'
            ∧ s'.sFirstCrash = false
            ∧ s'.calls.count CSCall.cs_take_screenshot_of_game
                = s.calls.count CSCall.cs_take_screenshot_of_game
            ∧ s'.calls.count CSCall.map_data_init = s.calls.count CSCall.map_data_init)
      ∧ ∃ s0 s1 s2 s3,
          cs_armed ultra_constants = .ret s0
            ∧ crash_screen_thread_entry_recv_cut ultra_constants true 0 [cs_sample_game_thread] 7
                (os_send_event .OS_EVENT_FAULT s0) = .ret s1
            ∧ s1.sFirstCrash = true
            ∧ s1.calls.count CSCall.cs_settings_apply_func_to_all_reset = 1
            ∧ (s1.sCSThreadInfos 0).phase = some .stopped
            ∧ (s1.sCSThreadInfos 1).phase = some .started
            ∧ crash_screen_thread_entry_begin 1 (os_send_event .OS_EVENT_FAULT s1) = .ret s2
            ∧ get_crashed_thread ultra_constants
                (os_send_event .OS_EVENT_FAULT s2).gCrashedThread
                [cs_sample_second_game_thread] = some cs_sample_second_game_thread
            ∧ crash_screen_thread_entry_recv ultra_constants true 1
                [cs_sample_second_game_thread]
                (os_send_event .OS_EVENT_FAULT s2) = .ret s3
            ∧ CSReachable ultra_constants true s3
            ∧ s3.sFirstCrash = false
            ∧ s3.calls.count CSCall.cs_settings_apply_func_to_all_reset = 2
            ∧ s3.calls.count CSCall.cs_take_screenshot_of_game = 1
            ∧ s3.calls.count CSCall.map_data_init = 1 := by
  have zero : ∀ l : List CSCall, (∀ c ∈ l, is_first_crash_call c = false) →
      l.count CSCall.cs_settings_apply_func_to_all_reset = 0
        ∧ l.count CSCall.cs_take_screenshot_of_game = 0
        ∧ l.count CSCall.map_data_init = 0 := fun l hl =>
    ⟨List.count_eq_zero.mpr (fun hm => absurd (hl _ hm) (by decide)),
      List.count_eq_zero.mpr (fun hm => absurd (hl _ hm) (by decide)),
      List.count_eq_zero.mpr (fun hm => absurd (hl _ hm) (by decide))⟩
  refine ⟨rfl, fun threadInfo s s' h => ?_,
    fun s s' hr h hf => cs_step_first_crash os _ s s' h hr hf,
    fun threadInfo cut s h => on_crash_cut_whole os _ threadInfo cut s h,
    fun threadInfo cut s hi hf h5 h9 => ?_, fun threadInfo s hi hf hg => ?_, ?_⟩
  · obtain ⟨_, _, h3, _, _, _, extra, h7, h8, h9⟩ := on_crash_frame os _ threadInfo s s' h
    exact ⟨h3, extra, h7, h9, fun hf => zero extra (h8 hf)⟩
  · rcases s with ⟨infos, idx, first, gact, gcr, gin, gset, gsel, pid, sw, pop, swp, dir, pages,
      evs, calls⟩
    have hi' : idx < NUM_CRASH_SCREEN_BUFFERS := hi
    have hf' : first = true := hf
    subst hf'
    interval_cases cut <;>
      simp [on_crash_cut, cs_reinitialize_cut, cs_statement, cs_reinitialize_pages,
        create_crash_screen_thread, hi', List.count_append, List.count_cons]
  · rcases s with ⟨infos, idx, first, gact, gcr, gin, gset, gsel, pid, sw, pop, swp, dir, pages,
      evs, calls⟩
    have hi' : idx < NUM_CRASH_SCREEN_BUFFERS := hi
    have hf' : first = true := hf
    subst hf'
    cases gin with
    | none => exact absurd rfl hg
    | some tc =>
      by_cases hc : tc.cause = os.EXC_II <;> by_cases hp : gset = 0 <;>
        simp [on_crash_cut, cs_reinitialize_cut, cs_statement, cs_reinitialize_pages,
          cs_set_page, create_crash_screen_thread, hi', hc, hp, List.count_append,
          List.count_cons]
  · have hr : CSReachable ultra_constants true _ :=
      CSReachable.step _ _
        (CSReachable.step _ _
          (CSReachable.step _ _
            (CSReachable.step _ _
              (CSReachable.step _ _
                (CSReachable.step _ _
                  (CSReachable.step _ _ (CSReachable.startup _ rfl)
                    (CSStep.entry_begin _ _ 0 (by decide) rfl rfl))
                  (CSStep.event _ .OS_EVENT_FAULT))
                (CSStep.entry_recv_cut _ _ 0 [cs_sample_game_thread] 7 (by decide) rfl rfl))
              (CSStep.event _ .OS_EVENT_FAULT))
            (CSStep.entry_begin _ _ 1 (by decide) rfl rfl))
          (CSStep.event _ .OS_EVENT_FAULT))
        (CSStep.entry_recv _ _ 1 [cs_sample_second_game_thread] (by decide) rfl rfl)
    exact ⟨_, _, _, _, rfl, rfl, rfl, by decide, rfl, rfl, rfl, rfl, rfl, hr, rfl, by decide,
      by decide, by decide⟩

/-- C28: the ring. In every reachable state, also after turns in which a
thread faulted inside `on_crash`, `sCSThreadIndex` is inside the ring.
`crash_screen_thread_entry` takes the slot the index names and advances the
index by one around the ring before it waits. A call of `on_crash` with the
index inside the ring is `create_crash_screen_thread`, which writes the slot
the index names and the record of calls and nothing else, followed by the rest
of `on_crash`; a run of `on_crash` stopped after its first statement is that
call of `create_crash_screen_thread` and nothing more. So for the thread of
slot `i` that waits, the index is `(i + 1) % NUM_CRASH_SCREEN_BUFFERS`, which
is not `i`; and when it has a message and finds a crashed thread, its turn
returns, the slot `(i + 1) % NUM_CRASH_SCREEN_BUFFERS` is the one armed
(zeroed, its thread created and started), while its own slot keeps its thread
and only has the message consumed and the thread marked as showing the crash
screen. -/
theorem on_crash_arms_next_slot (os : OSConstants) (INCLUDE_DEBUG_MAP : Bool) (s : CSState)
    (h : CSReachable os INCLUDE_DEBUG_MAP s) :
    s.sCSThreadIndex < NUM_CRASH_SCREEN_BUFFERS
      ∧ (∀ self s', crash_screen_thread_entry_begin self s = .ret s' →
          (s'.sCSThreadInfos self).threadInfo = some s.sCSThreadIndex
            ∧ s'.sCSThreadIndex = (s.sCSThreadIndex + 1) % NUM_CRASH_SCREEN_BUFFERS)
      ∧ (∀ threadInfo s0, s0.sCSThreadIndex < NUM_CRASH_SCREEN_BUFFERS →
          ∃ s1, create_crash_screen_thread os s0 = .ret s1
            ∧ on_crash os INCLUDE_DEBUG_MAP threadInfo s0
                = on_crash_session os INCLUDE_DEBUG_MAP threadInfo s1
            ∧ on_crash_cut os INCLUDE_DEBUG_MAP threadInfo 1 s0 = .ret s1
            ∧ s1 = { s0 with sCSThreadInfos := s1.sCSThreadInfos, calls := s1.calls }
            ∧ (s1.sCSThreadInfos s0.sCSThreadIndex).phase = some .started
            ∧ ∀ k, k ≠ s0.sCSThreadIndex → s1.sCSThreadInfos k = s0.sCSThreadInfos k)
      ∧ ∀ i, (s.sCSThreadInfos i).phase = some .waiting →
          (s.sCSThreadInfos i).threadInfo = some i ∧ i < NUM_CRASH_SCREEN_BUFFERS
            ∧ s.sCSThreadIndex = (i + 1) % NUM_CRASH_SCREEN_BUFFERS
            ∧ (i + 1) % NUM_CRASH_SCREEN_BUFFERS ≠ i
            ∧ ∀ queue mesg t, (s.sCSThreadInfos i).mesgQueue = some mesg →
                get_crashed_thread os s.gCrashedThread queue = some t →
                ∃ s', crash_screen_thread_entry_recv os INCLUDE_DEBUG_MAP i queue s = .ret s'
                  ∧ s'.sCSThreadIndex = (i + 1) % NUM_CRASH_SCREEN_BUFFERS
                  ∧ s'.sCSThreadInfos ((i + 1) % NUM_CRASH_SCREEN_BUFFERS)
                      = ⟨some (os.THREAD_1000_CRASH_SCREEN_0
                            + (i + 1) % NUM_CRASH_SCREEN_BUFFERS, os.OS_PRIORITY_APPMAX - 1),
                          some .started, none, none, none⟩
                  ∧ s'.sCSThreadInfos i
                      = { s.sCSThreadInfos i with
                          mesgQueue := none, mesg := some mesg, phase := some .active } := by
  obtain ⟨i1, i2, i3⟩ := cs_reachable_invariant os INCLUDE_DEBUG_MAP s h
  refine ⟨i1, fun self s' hb => ?_, fun threadInfo s0 h0 => ?_, fun i hw => ?_⟩
  · obtain ⟨_, f2, _, _, f5, _⟩ := crash_screen_thread_entry_begin_frame self s s' hb
    exact ⟨by rw [f5 self, if_pos rfl], f2⟩
  · refine ⟨_, create_crash_screen_thread_eq os s0 h0, ?_, ?_, rfl, ?_, fun k hk => ?_⟩
    · unfold on_crash
      rw [create_crash_screen_thread_eq os s0 h0]
    · simp only [on_crash_cut, cs_reinitialize_cut, cs_statement,
        create_crash_screen_thread_eq os s0 h0]
      split_ifs <;> rfl
    · simp
    · simp [hk]
  · obtain ⟨j1, j2, j3, _, _⟩ := i3 i hw
    have hne : (i + 1) % NUM_CRASH_SCREEN_BUFFERS ≠ i := by
      have : i < 3 := j2
      show (i + 1) % 3 ≠ i
      omega
    refine ⟨j1, j2, j3.symm, hne, fun queue mesg t hq hg => ?_⟩
    obtain ⟨s', hr⟩ :=
      crash_screen_thread_entry_recv_total os INCLUDE_DEBUG_MAP i queue s mesg t hw j1 j2 i1 hq hg
    obtain ⟨r1, _, _, _, _, r6, _⟩ :=
      crash_screen_thread_entry_recv_handled os INCLUDE_DEBUG_MAP i queue s s' mesg t hw j1 j2
        i1 hq hg hr
    have hne' : i ≠ s.sCSThreadIndex := by
      rw [← j3]
      exact fun e => hne e.symm
    refine ⟨s', hr, r1.trans j3.symm, ?_, ?_⟩
    · rw [r6, if_neg hne, j3, if_pos rfl]
    · rw [r6, if_pos rfl, if_neg hne']

/-- C28 at the state after startup, the start of the thread of slot 0 and a
fault event: the state is reachable, the thread of slot 0 waits there with the
fault message in its queue, the index is 1, and with the faulted game thread
in the thread queue its turn arms the slot 1 and keeps its own slot. -/
theorem on_crash_arms_next_slot_witness :
    ∃ s0 s s', cs_armed ultra_constants = .ret s0
      ∧ s = os_send_event .OS_EVENT_FAULT s0
      ∧ CSReachable ultra_constants true s
      ∧ (s.sCSThreadInfos 0).phase = some .waiting
      ∧ (s.sCSThreadInfos 0).mesgQueue = some .CRASH_SCREEN_MSG_FAULT
      ∧ get_crashed_thread ultra_constants s.gCrashedThread [cs_sample_game_thread]
          = some cs_sample_game_thread
      ∧ s.sCSThreadIndex = (0 + 1) % NUM_CRASH_SCREEN_BUFFERS
      ∧ crash_screen_thread_entry_recv ultra_constants true 0 [cs_sample_game_thread] s
          = .ret s'
      ∧ s'.sCSThreadIndex = (0 + 1) % NUM_CRASH_SCREEN_BUFFERS
      ∧ s'.sCSThreadInfos ((0 + 1) % NUM_CRASH_SCREEN_BUFFERS)
          = ⟨some (ultra_constants.THREAD_1000_CRASH_SCREEN_0
                + (0 + 1) % NUM_CRASH_SCREEN_BUFFERS,
              ultra_constants.OS_PRIORITY_APPMAX - 1), some .started, none, none, none⟩
      ∧ s'.sCSThreadInfos 0
          = { s.sCSThreadInfos 0 with
              mesgQueue := none, mesg := some .CRASH_SCREEN_MSG_FAULT, phase := some .active } := by
  have hr : CSReachable ultra_constants true _ :=
    CSReachable.step _ _
      (CSReachable.step _ _ (CSReachable.startup _ rfl)
        (CSStep.entry_begin _ _ 0 (by decide) rfl rfl))
      (CSStep.event _ .OS_EVENT_FAULT)
  have hc := on_crash_arms_next_slot ultra_constants true _ hr
  obtain ⟨s', h1, h2, h3, h4⟩ :=
    (hc.2.2.2 0 rfl).2.2.2.2 [cs_sample_game_thread] .CRASH_SCREEN_MSG_FAULT
      cs_sample_game_thread rfl rfl
  exact ⟨_, _, s', rfl, rfl, hr, rfl, rfl, rfl, (hc.2.2.2 0 rfl).2.2.1, h1, h2, h3, h4⟩

/-- The start of a thread returns when the index is inside the ring, and
leaves the other slots and the crashed thread as they are. -/
theorem crash_screen_thread_entry_begin_total (self : Nat) (s : CSState)
    (h : s.sCSThreadIndex < NUM_CRASH_SCREEN_BUFFERS) :
    ∃ s', crash_screen_thread_entry_begin self s = .ret s'
      ∧ s'.gCrashedThread = s.gCrashedThread
      ∧ s'.gActiveCSThreadInfo = s.gActiveCSThreadInfo
      ∧ ∀ k, k ≠ self → s'.sCSThreadInfos k = s.sCSThreadInfos k := by
  unfold crash_screen_thread_entry_begin
  rw [if_pos h]
  refine ⟨_, rfl, rfl, rfl, fun k hk => ?_⟩
  simp [osSetEventMesg, hk]

/-- A thread that does not wait does nothing in a turn of the waiting loop. -/
theorem crash_screen_thread_entry_recv_not_waiting (os : OSConstants) (b : Bool) (self : Nat)
    (queue : List OSThread) (s : CSState)
    (h : (s.sCSThreadInfos self).phase ≠ some .waiting) :
    crash_screen_thread_entry_recv os b self queue s = .ret s := by
  unfold crash_screen_thread_entry_recv
  rw [if_pos h]


/-- The fault sequence in which the next thread has started before the second
fault. In a reachable state where the thread of slot
`i` (C0) waits, a fault event is raised and the thread queue holds a crashed
thread `T`: the turn of C0 returns, arms the slot
`j = (i + 1) % NUM_CRASH_SCREEN_BUFFERS` (C1), records `T` and leaves C0
showing the crash screen as the active one, the fault event still registered
to the queue of C0. Once C1 has started, which registers the event to its own
queue, a second fault event puts its message into the queue of C1 and leaves
the slot of C0 as it is; with the thread queue then holding another crashed thread `T'`, a
turn of C0 changes nothing, and the turn of C1 returns, records `T'`, makes
C1 the active one, arms the slot after `j` and leaves the slot of C0 as it
was when C0 began to show the crash screen. -/
theorem fault_sequence_after_start (os : OSConstants) (INCLUDE_DEBUG_MAP : Bool) (s : CSState)
    (i : Nat) (queue queue' : List OSThread) (T T' : OSThread)
    (hr : CSReachable os INCLUDE_DEBUG_MAP s)
    (hw : (s.sCSThreadInfos i).phase = some .waiting)
    (hT : get_crashed_thread os s.gCrashedThread queue = some T)
    (hT' : get_crashed_thread os (some T) queue' = some T') :
    ∃ s1 s2 s3,
      crash_screen_thread_entry_recv os INCLUDE_DEBUG_MAP i queue
          (os_send_event .OS_EVENT_FAULT s) = .ret s1
        ∧ (s1.sCSThreadInfos ((i + 1) % NUM_CRASH_SCREEN_BUFFERS)).phase = some .started
        ∧ (s1.sCSThreadInfos i).phase = some .active
        ∧ s1.gActiveCSThreadInfo = some i
        ∧ s1.gCrashedThread.map (·.id) = some T.id
        ∧ s1.osEvents .OS_EVENT_FAULT = some (i, .CRASH_SCREEN_MSG_FAULT)
        ∧ crash_screen_thread_entry_begin ((i + 1) % NUM_CRASH_SCREEN_BUFFERS) s1 = .ret s2
        ∧ s2.osEvents .OS_EVENT_FAULT
            = some ((i + 1) % NUM_CRASH_SCREEN_BUFFERS, .CRASH_SCREEN_MSG_FAULT)
        ∧ ((os_send_event .OS_EVENT_FAULT s2).sCSThreadInfos
              ((i + 1) % NUM_CRASH_SCREEN_BUFFERS)).mesgQueue = some .CRASH_SCREEN_MSG_FAULT
        ∧ (os_send_event .OS_EVENT_FAULT s2).sCSThreadInfos i = s1.sCSThreadInfos i
        ∧ crash_screen_thread_entry_recv os INCLUDE_DEBUG_MAP i queue'
            (os_send_event .OS_EVENT_FAULT s2) = .ret (os_send_event .OS_EVENT_FAULT s2)
        ∧ crash_screen_thread_entry_recv os INCLUDE_DEBUG_MAP
            ((i + 1) % NUM_CRASH_SCREEN_BUFFERS) queue' (os_send_event .OS_EVENT_FAULT s2)
            = .ret s3
        ∧ s3.gCrashedThread.map (·.id) = some T'.id
        ∧ s3.gActiveCSThreadInfo = some ((i + 1) % NUM_CRASH_SCREEN_BUFFERS)
        ∧ (s3.sCSThreadInfos ((i + 1) % NUM_CRASH_SCREEN_BUFFERS)).phase = some .active
        ∧ (s3.sCSThreadInfos (((i + 1) % NUM_CRASH_SCREEN_BUFFERS + 1)
              % NUM_CRASH_SCREEN_BUFFERS)).phase = some .started
        ∧ s3.sCSThreadInfos i = s1.sCSThreadInfos i := by
  obtain ⟨i1, _, i3⟩ := cs_reachable_invariant os INCLUDE_DEBUG_MAP s hr
  obtain ⟨j1, j2, j3, _, j5⟩ := i3 i hw
  obtain ⟨j, hj⟩ : ∃ j, (i + 1) % NUM_CRASH_SCREEN_BUFFERS = j := ⟨_, rfl⟩
  rw [hj] at j3
  simp only [hj]
  have hji : j ≠ i := by
    have h1 : i < 3 := j2
    have h2 : (i + 1) % 3 = j := hj
    omega
  have hj3 : j < NUM_CRASH_SCREEN_BUFFERS := by
    rw [← hj]
    exact Nat.mod_lt _ (by decide)
  have hjj : (j + 1) % NUM_CRASH_SCREEN_BUFFERS ≠ i := by
    have h1 : i < 3 := j2
    have h2 : (i + 1) % 3 = j := hj
    show (j + 1) % 3 ≠ i
    omega
  have hjj' : (j + 1) % NUM_CRASH_SCREEN_BUFFERS ≠ j := by
    have h1 : j < 3 := hj3
    show (j + 1) % 3 ≠ j
    omega
  -- the first fault
  obtain ⟨e1, _, _, e4, e5, e6⟩ := os_send_event_frame .OS_EVENT_FAULT s
  obtain ⟨d1, _, d3⟩ := os_send_event_delivers .OS_EVENT_FAULT s i _ (j5 .OS_EVENT_FAULT)
  have hph : ((os_send_event .OS_EVENT_FAULT s).sCSThreadInfos i).phase = some .waiting := by
    rw [e5]
    exact hw
  have hti : ((os_send_event .OS_EVENT_FAULT s).sCSThreadInfos i).threadInfo = some i := by
    rw [e6]
    exact j1
  have hidx : (os_send_event .OS_EVENT_FAULT s).sCSThreadIndex < NUM_CRASH_SCREEN_BUFFERS := by
    rw [e1]
    exact i1
  have hg : get_crashed_thread os (os_send_event .OS_EVENT_FAULT s).gCrashedThread queue
      = some T := by
    rw [d3]
    exact hT
  obtain ⟨s1, hs1⟩ := crash_screen_thread_entry_recv_total os INCLUDE_DEBUG_MAP i queue _ _ T
    hph hti j2 hidx d1 hg
  obtain ⟨r1, _, r3, r4, r5, r6, _⟩ :=
    crash_screen_thread_entry_recv_handled os INCLUDE_DEBUG_MAP i queue _ s1 _ T hph hti j2 hidx
      d1 hg hs1
  rw [e1, ← j3] at r1
  simp only [e1, ← j3] at r6
  have a1 : s1.sCSThreadInfos j
      = ⟨some (os.THREAD_1000_CRASH_SCREEN_0 + j, os.OS_PRIORITY_APPMAX - 1), some .started,
          none, none, none⟩ := by
    rw [r6, if_neg hji, if_pos rfl]
  have a2 : (s1.sCSThreadInfos i).phase = some .active := by
    rw [r6, if_pos rfl]
  -- the start of the next thread
  obtain ⟨s2, hs2, b1, _, b3⟩ := crash_screen_thread_entry_begin_total j s1 (by rw [r1]; exact hj3)
  obtain ⟨_, f2, _, f4, f5, f6, _, _, f9, _⟩ := crash_screen_thread_entry_begin_frame j s1 s2 hs2
  rw [r1] at f2 f5 f9
  -- the second fault
  obtain ⟨g1, _, _, _, g5, g6⟩ := os_send_event_frame .OS_EVENT_FAULT s2
  obtain ⟨k1, k2, k3⟩ := os_send_event_delivers .OS_EVENT_FAULT s2 j _ f9
  rw [f6, a1] at k1
  have c0 : (os_send_event .OS_EVENT_FAULT s2).sCSThreadInfos i = s1.sCSThreadInfos i := by
    rw [k2 i hji.symm, b3 i hji.symm]
  have hph2 : ((os_send_event .OS_EVENT_FAULT s2).sCSThreadInfos j).phase = some .waiting := by
    rw [g5, f4, if_pos rfl]
  have hti2 : ((os_send_event .OS_EVENT_FAULT s2).sCSThreadInfos j).threadInfo = some j := by
    rw [g6, f5, if_pos rfl]
  have hidx2 : (os_send_event .OS_EVENT_FAULT s2).sCSThreadIndex < NUM_CRASH_SCREEN_BUFFERS := by
    rw [g1, f2]
    exact Nat.mod_lt _ (by decide)
  have hg2 : get_crashed_thread os (os_send_event .OS_EVENT_FAULT s2).gCrashedThread queue'
      = some T' := by
    rw [k3, b1, get_crashed_thread_congr os s1.gCrashedThread (some T) r5]
    exact hT'
  obtain ⟨s3, hs3⟩ := crash_screen_thread_entry_recv_total os INCLUDE_DEBUG_MAP j queue' _ _ T'
    hph2 hti2 hj3 hidx2 k1 hg2
  obtain ⟨_, _, _, q4, q5, q6, _⟩ :=
    crash_screen_thread_entry_recv_handled os INCLUDE_DEBUG_MAP j queue' _ s3 _ T' hph2 hti2 hj3
      hidx2 k1 hg2 hs3
  rw [g1, f2] at q6
  refine ⟨s1, s2, s3, hs1, by rw [a1], a2, r4, r5, by rw [r3, e4]; exact j5 .OS_EVENT_FAULT,
    hs2, f9, k1, c0, ?_, hs3, q5, q4, ?_, ?_, ?_⟩
  · refine crash_screen_thread_entry_recv_not_waiting os INCLUDE_DEBUG_MAP i queue' _ ?_
    rw [c0, a2]
    decide
  · rw [q6, if_pos rfl]
  · rw [q6, if_neg hjj', if_pos rfl]
  · rw [q6, if_neg hji.symm, if_neg hjj.symm, c0]

/-- An event of the operating system leaves the pointer to the active crash
screen thread as it is. -/
theorem os_send_event_active (event : OSEvent) (s : CSState) :
    (os_send_event event s).gActiveCSThreadInfo = s.gActiveCSThreadInfo := by
  unfold os_send_event
  split
  · rfl
  · split <;> rfl

/-- C29, at the failing schedule: the second fault comes before the thread of
the next slot has run. In a reachable state where the thread of slot `i` (C0)
waits, a fault event is raised and the thread queue holds a crashed thread
`T`: the turn of C0 returns, arms the slot
`j = (i + 1) % NUM_CRASH_SCREEN_BUFFERS` (C1), records `T` and leaves C0
showing the crash screen; C1 is started and has not run, and the fault event
is still registered to the queue of C0, for `osSetEventMesg` is called by the
thread of C1 itself when it runs. A second fault event now puts its message
into the queue of C0, whose slot is thereby changed, and leaves every other
slot as it is. When C1 then runs, it waits on its own queue, which is empty:
whatever the thread queue holds, its turn changes nothing, the crashed thread
recorded is still `T` and the active one is still C0. -/
theorem fault_sequence_before_start (os : OSConstants) (INCLUDE_DEBUG_MAP : Bool) (s : CSState)
    (i : Nat) (queue : List OSThread) (T : OSThread)
    (hr : CSReachable os INCLUDE_DEBUG_MAP s)
    (hw : (s.sCSThreadInfos i).phase = some .waiting)
    (hT : get_crashed_thread os s.gCrashedThread queue = some T) :
    ∃ s1 s2,
      crash_screen_thread_entry_recv os INCLUDE_DEBUG_MAP i queue
          (os_send_event .OS_EVENT_FAULT s) = .ret s1
        ∧ (s1.sCSThreadInfos ((i + 1) % NUM_CRASH_SCREEN_BUFFERS)).phase = some .started
        ∧ (s1.sCSThreadInfos i).phase = some .active
        ∧ s1.gActiveCSThreadInfo = some i
        ∧ s1.gCrashedThread.map (·.id) = some T.id
        ∧ s1.osEvents .OS_EVENT_FAULT = some (i, .CRASH_SCREEN_MSG_FAULT)
        ∧ (s1.sCSThreadInfos i).mesgQueue = none
        ∧ ((os_send_event .OS_EVENT_FAULT s1).sCSThreadInfos i).mesgQueue
            = some .CRASH_SCREEN_MSG_FAULT
        ∧ (os_send_event .OS_EVENT_FAULT s1).sCSThreadInfos i ≠ s1.sCSThreadInfos i
        ∧ (∀ k, k ≠ i →
            (os_send_event .OS_EVENT_FAULT s1).sCSThreadInfos k = s1.sCSThreadInfos k)
        ∧ crash_screen_thread_entry_begin ((i + 1) % NUM_CRASH_SCREEN_BUFFERS)
            (os_send_event .OS_EVENT_FAULT s1) = .ret s2
        ∧ (s2.sCSThreadInfos ((i + 1) % NUM_CRASH_SCREEN_BUFFERS)).phase = some .waiting
        ∧ (s2.sCSThreadInfos ((i + 1) % NUM_CRASH_SCREEN_BUFFERS)).mesgQueue = none
        ∧ (s2.sCSThreadInfos i).mesgQueue = some .CRASH_SCREEN_MSG_FAULT
        ∧ (∀ queue', crash_screen_thread_entry_recv os INCLUDE_DEBUG_MAP
            ((i + 1) % NUM_CRASH_SCREEN_BUFFERS) queue' s2 = .ret s2)
        ∧ s2.gCrashedThread = s1.gCrashedThread
        ∧ s2.gActiveCSThreadInfo = some i := by
  obtain ⟨i1, _, i3⟩ := cs_reachable_invariant os INCLUDE_DEBUG_MAP s hr
  obtain ⟨j1, j2, j3, _, j5⟩ := i3 i hw
  obtain ⟨j, hj⟩ : ∃ j, (i + 1) % NUM_CRASH_SCREEN_BUFFERS = j := ⟨_, rfl⟩
  rw [hj] at j3
  simp only [hj]
  have hji : j ≠ i := by
    have h1 : i < 3 := j2
    have h2 : (i + 1) % 3 = j := hj
    omega
  have hj3 : j < NUM_CRASH_SCREEN_BUFFERS := by
    rw [← hj]
    exact Nat.mod_lt _ (by decide)
  -- the first fault
  obtain ⟨e1, _, _, e4, e5, e6⟩ := os_send_event_frame .OS_EVENT_FAULT s
  obtain ⟨d1, _, d3⟩ := os_send_event_delivers .OS_EVENT_FAULT s i _ (j5 .OS_EVENT_FAULT)
  have hph : ((os_send_event .OS_EVENT_FAULT s).sCSThreadInfos i).phase = some .waiting := by
    rw [e5]
    exact hw
  have hti : ((os_send_event .OS_EVENT_FAULT s).sCSThreadInfos i).threadInfo = some i := by
    rw [e6]
    exact j1
  have hidx : (os_send_event .OS_EVENT_FAULT s).sCSThreadIndex < NUM_CRASH_SCREEN_BUFFERS := by
    rw [e1]
    exact i1
  have hg : get_crashed_thread os (os_send_event .OS_EVENT_FAULT s).gCrashedThread queue
      = some T := by
    rw [d3]
    exact hT
  obtain ⟨s1, hs1⟩ := crash_screen_thread_entry_recv_total os INCLUDE_DEBUG_MAP i queue _ _ T
    hph hti j2 hidx d1 hg
  obtain ⟨r1, _, r3, r4, r5, r6, _⟩ :=
    crash_screen_thread_entry_recv_handled os INCLUDE_DEBUG_MAP i queue _ s1 _ T hph hti j2 hidx
      d1 hg hs1
  rw [e1, ← j3] at r1
  simp only [e1, ← j3] at r6
  have a1 : s1.sCSThreadInfos j
      = ⟨some (os.THREAD_1000_CRASH_SCREEN_0 + j, os.OS_PRIORITY_APPMAX - 1), some .started,
          none, none, none⟩ := by
    rw [r6, if_neg hji, if_pos rfl]
  have a2 : (s1.sCSThreadInfos i).phase = some .active := by
    rw [r6, if_pos rfl]
  have a3 : (s1.sCSThreadInfos i).mesgQueue = none := by
    rw [r6, if_pos rfl, if_neg hji.symm]
  have a4 : s1.osEvents .OS_EVENT_FAULT = some (i, .CRASH_SCREEN_MSG_FAULT) := by
    rw [r3, e4]
    exact j5 .OS_EVENT_FAULT
  -- the second fault, before the next thread has run
  obtain ⟨g1, _, _, _, g5, g6⟩ := os_send_event_frame .OS_EVENT_FAULT s1
  obtain ⟨k1, k2, k3⟩ := os_send_event_delivers .OS_EVENT_FAULT s1 i _ a4
  rw [a3] at k1
  have k1' : ((os_send_event .OS_EVENT_FAULT s1).sCSThreadInfos i).mesgQueue
      = some .CRASH_SCREEN_MSG_FAULT := k1
  have hchanged : (os_send_event .OS_EVENT_FAULT s1).sCSThreadInfos i ≠ s1.sCSThreadInfos i := by
    intro e
    rw [e, a3] at k1'
    cases k1'
  -- the start of the next thread
  obtain ⟨s2, hs2, b1, b2, b3⟩ :=
    crash_screen_thread_entry_begin_total j (os_send_event .OS_EVENT_FAULT s1)
      (by rw [g1, r1]; exact hj3)
  obtain ⟨_, _, _, f4, f5, f6, _⟩ :=
    crash_screen_thread_entry_begin_frame j (os_send_event .OS_EVENT_FAULT s1) s2 hs2
  rw [g1, r1] at f5
  have c1 : (s2.sCSThreadInfos j).phase = some .waiting := by
    rw [f4, if_pos rfl]
  have c2 : (s2.sCSThreadInfos j).mesgQueue = none := by
    rw [f6, k2 j hji, a1]
  have c3 : (s2.sCSThreadInfos j).threadInfo = some j := by
    rw [f5, if_pos rfl]
  have c4 : (s2.sCSThreadInfos i).mesgQueue = some .CRASH_SCREEN_MSG_FAULT := by
    rw [f6]
    exact k1'
  refine ⟨s1, s2, hs1, by rw [a1], a2, r4, r5, a4, a3, k1', hchanged, k2, hs2, c1, c2, c4,
    fun queue' => ?_, by rw [b1, k3], by rw [b2, os_send_event_active .OS_EVENT_FAULT s1]; exact r4⟩
  unfold crash_screen_thread_entry_recv
  simp only [c1, c3, hj3, c2, ne_eq, not_true_eq_false, if_false, if_true]

/-- C29 at the state after startup and the start of the thread of slot 0: a
game thread faults, then the second fault comes before the thread of slot 1
has run: its message is in the queue of slot 0 and the thread of slot 1 picks
up nothing. -/
theorem fault_sequence_before_start_witness :
    ∃ s, cs_armed ultra_constants = .ret s
      ∧ CSReachable ultra_constants true s
      ∧ (s.sCSThreadInfos 0).phase = some .waiting
      ∧ get_crashed_thread ultra_constants s.gCrashedThread [cs_sample_game_thread]
          = some cs_sample_game_thread
      ∧ ∃ s1 s2,
          crash_screen_thread_entry_recv ultra_constants true 0 [cs_sample_game_thread]
              (os_send_event .OS_EVENT_FAULT s) = .ret s1
            ∧ (s1.sCSThreadInfos 1).phase = some .started
            ∧ (s1.sCSThreadInfos 0).phase = some .active
            ∧ s1.gActiveCSThreadInfo = some 0
            ∧ ((os_send_event .OS_EVENT_FAULT s1).sCSThreadInfos 0).mesgQueue
                = some .CRASH_SCREEN_MSG_FAULT
            ∧ crash_screen_thread_entry_begin 1 (os_send_event .OS_EVENT_FAULT s1) = .ret s2
            ∧ (s2.sCSThreadInfos 1).mesgQueue = none
            ∧ crash_screen_thread_entry_recv ultra_constants true 1
                [cs_sample_crash_screen_thread, cs_sample_game_thread] s2 = .ret s2
            ∧ s2.gCrashedThread = s1.gCrashedThread
            ∧ s2.gActiveCSThreadInfo = some 0 := by
  have hr : CSReachable ultra_constants true _ :=
    CSReachable.step _ _ (CSReachable.startup _ rfl) (CSStep.entry_begin _ _ 0 (by decide) rfl rfl)
  obtain ⟨s1, s2, c1, c2, c3, c4, _, _, _, c8, _, _, c11, _, c13, _, c15, c16, c17⟩ :=
    fault_sequence_before_start ultra_constants true _ 0 [cs_sample_game_thread]
      cs_sample_game_thread hr rfl rfl
  exact ⟨_, rfl, hr, rfl, rfl, s1, s2, c1, c2, c3, c4, c8, c11, c13,
    c15 [cs_sample_crash_screen_thread, cs_sample_game_thread], c16, c17⟩


/-! ## Disassembly page: direct reads -/

/-- Every address `get_insn_branch_target_from_addr` reads directly is in a
code segment. -/
theorem get_insn_branch_target_from_addr_reads_in_code (sTextRegions : List AddressPair)
    (addr a : Nat) (h : a ∈ get_insn_branch_target_from_addr_reads sTextRegions addr) :
    is_in_code_segment sTextRegions a = true := by
  unfold get_insn_branch_target_from_addr_reads at h
  cases hc : is_in_code_segment sTextRegions addr with
  | false => simp [hc] at h
  | true =>
    simp only [hc, Bool.not_true, Bool.false_eq_true, if_false, List.mem_singleton] at h
    rw [h]
    exact hc

/-- Every address a row of `disasm_draw_asm_entries` reads directly has passed
the guarded read. -/
theorem disasm_draw_asm_entry_reads_guarded (sTextRegions : List AddressPair)
    (try_read_word_aligned : Nat → Option Nat) (addr a : Nat)
    (h : a ∈ disasm_draw_asm_entry_reads sTextRegions try_read_word_aligned addr) :
    try_read_word_aligned a ≠ none := by
  unfold disasm_draw_asm_entry_reads at h
  cases hg : try_read_word_aligned addr with
  | none => simp [hg] at h
  | some d =>
    simp only [hg] at h
    cases hc : is_in_code_segment sTextRegions addr with
    | false => simp [hc] at h
    | true =>
      simp only [hc, if_true, get_insn_branch_target_from_addr_reads, Bool.not_true,
        Bool.false_eq_true, if_false, List.mem_singleton] at h
      rw [h, hg]
      simp

/-- A turn of the loop of `disasm_fill_branch_buffer` at an address where the
guarded read fails, inside the search range and with room in the buffer: the
symbol lookup finds nothing, and the turn goes on to read the address
directly (it faults in the decoder afterwards, or reaches the test of the
time). -/
theorem disasm_fill_branch_buffer_turn_of_failed_read (c : DisasmConstants)
    (pseudoInsns : Bool) (sTextRegions : List AddressPair) (gMapSymbols : List MapSymbol)
    (try_read_word_aligned : Nat → Option Nat) (mem : Nat → Nat) (funcAddr : Nat)
    (b : BranchBuffer)
    (h1 : ¬ b.sBranchBufferCurrAddr > (funcAddr + c.DISASM_FUNCTION_SEARCH_MAX_OFFSET) % 2 ^ 32)
    (h2 : ¬ b.sBranchArrows.length ≥ c.DISASM_BRANCH_BUFFER_SIZE)
    (hg : try_read_word_aligned b.sBranchBufferCurrAddr = none) :
    disasm_fill_branch_buffer_turn c pseudoInsns sTextRegions gMapSymbols
        try_read_word_aligned mem funcAddr b = some .fault
      ∨ ∃ b', disasm_fill_branch_buffer_turn c pseudoInsns sTextRegions gMapSymbols
            try_read_word_aligned mem funcAddr b = some (.ret (true, b'))
          ∧ b'.reads = b.reads ++ [b.sBranchBufferCurrAddr] := by
  unfold disasm_fill_branch_buffer_turn
  rw [if_neg h1, if_neg h2]
  simp only [get_map_symbol, hg, Bool.not_true, Bool.false_eq_true, if_false]
  cases ho : insn_check_for_branch_offset pseudoInsns (mem b.sBranchBufferCurrAddr) with
  | fault => exact Or.inl rfl
  | ret branchOffset =>
    refine Or.inr ⟨_, rfl, ?_⟩
    by_cases hb : branchOffset = 0 <;> simp [hb]

/-- C30, at the failing input: memory is the 4 MB from `0x80000000`, the code
segment `[0x80000400, 0x80400000)`, the last function of the symbol table is
the 8 bytes at `0x803FFFF8`, and `disasm_fill_branch_buffer` is called for it
after `reset_branch_buffer` with three turns fitting into the frame. The
guarded read fails at `0x80400000`, so `get_map_symbol` returns `NULL` there,
and the third turn of the loop reads `0x80400000` directly all the same. -/
theorem disasm_fill_branch_buffer_unguarded_read :
    sample_try_read_word_aligned 0x803FFFF8 = some 0
      ∧ get_map_symbol true sample_try_read_word_aligned [⟨0x803FFFF8, 8, 0⟩] 0x803FFFF8
          SYMBOL_SEARCH_FORWARD = some (.ret (some 0))
      ∧ sample_try_read_word_aligned 0x80400000 = none
      ∧ get_map_symbol true sample_try_read_word_aligned [⟨0x803FFFF8, 8, 0⟩] 0x80400000
          SYMBOL_SEARCH_FORWARD = some (.ret none)
      ∧ disasm_fill_branch_buffer ⟨0x1000, 0x100, 4⟩ true [⟨0x80000400, 0x80400000⟩]
          [⟨0x803FFFF8, 8, 0⟩] sample_try_read_word_aligned (fun _ => 0) (some 0x80300000)
          0x803FFFF8 2 (reset_branch_buffer 0x803FFFF8 ⟨[], 0, []⟩)
        = some (.ret (true, ⟨[], 0x80400004, [0x803FFFF8, 0x803FFFFC, 0x80400000]⟩)) := by
  decide


/-! ## Decoder: the pseudo-instruction setting -/

/-- With pseudo-instruction display disabled a template `get_insn` returns is
an entry of one of the instruction tables. -/
theorem get_insn_false_mem_tables (insn : Nat) (t : InsnTemplate)
    (h : get_insn false insn = .ret (some t)) :
    t ∈ insn_db_standard ++ insn_db_spec ++ insn_db_regi ++ insn_db_cop0_sub00
      ++ insn_db_cop0_sub10 ++ insn_db_cop1_sub00 ++ insn_db_cop1_sub01
      ++ insn_db_cop1_sub10 := by
  rw [get_insn_false_eq] at h
  split at h
  · exact absurd h (by simp)
  · next list key hl =>
    have hs : scan_list list key = some t := by
      injection h
    have hm := scan_list_mem list key t hs
    have hlist : list = insn_db_standard ∨ list = insn_db_spec ∨ list = insn_db_regi
        ∨ list = insn_db_cop0_sub00 ∨ list = insn_db_cop0_sub10
        ∨ list = insn_db_cop1_sub00 ∨ list = insn_db_cop1_sub01
        ∨ list = insn_db_cop1_sub10 := by
      unfold get_insn_list at hl
      by_cases hc : opcode insn = OPC_COP0 ∨ opcode insn = OPC_COP1 ∨ opcode insn = OPC_COP2
          ∨ opcode insn = OPC_COP3
      · rw [if_pos hc] at hl
        have hc : insn_db_cop_lists (cop_num insn) (cop_subtype insn) = some list :=
          congrArg Prod.fst hl
        unfold insn_db_cop_lists at hc
        split_ifs at hc <;> first
          | exact absurd hc (Option.noConfusion)
          | (rw [← Option.some.inj hc]; simp)
      · rw [if_neg hc] at hl
        by_cases hs : opcode insn = OPC_SPECIAL
        · rw [if_pos hs] at hl
          have hc : some insn_db_spec = some list := congrArg Prod.fst hl
          rw [← Option.some.inj hc]; simp
        · rw [if_neg hs] at hl
          by_cases hr : opcode insn = OPC_REGIMM
          · rw [if_pos hr] at hl
            have hc : some insn_db_regi = some list := congrArg Prod.fst hl
            rw [← Option.some.inj hc]; simp
          · rw [if_neg hr] at hl
            have hc : some insn_db_standard = some list := congrArg Prod.fst hl
            rw [← Option.some.inj hc]; simp
    simp only [List.mem_append]
    rcases hlist with h1 | h1 | h1 | h1 | h1 | h1 | h1 | h1 <;> subst h1 <;> simp [hm]

set_option maxRecDepth 1000000 in
/-- No entry of the instruction tables is an entry of `insn_db_pseudo`. -/
theorem tables_disjoint_pseudo :
    ∀ t ∈ insn_db_standard ++ insn_db_spec ++ insn_db_regi ++ insn_db_cop0_sub00
        ++ insn_db_cop0_sub10 ++ insn_db_cop1_sub00 ++ insn_db_cop1_sub01
        ++ insn_db_cop1_sub10,
      t ∉ [PSEUDO_NOP, PSEUDO_MOVET, PSEUDO_MOVES, PSEUDO_B, PSEUDO_BEQZ, PSEUDO_BNEZ,
        PSEUDO_LI, PSEUDO_SUBI, PSEUDO_BEQZL, PSEUDO_BNEZL, PSEUDO_DSUBI].map insn_db_pseudo := by
  decide

/-- C31: with pseudo-instruction display disabled `get_insn` is the scan of
the table selected by the opcode fields alone, without any pseudo guard; a
template it returns is an entry of the instruction tables and no entry of
`insn_db_pseudo`; the word `0x00000000` decodes to SLL and every ADDI word,
also with `rs` 0, decodes to ADDI. -/
theorem get_insn_pseudo_disabled (insn : Nat) :
    get_insn false insn
        = (match get_insn_list insn with
          | (none, _) => .fault
          | (some list, key) => .ret (scan_list list key))
      ∧ (∀ t, get_insn false insn = .ret (some t) → ∀ id, t ≠ insn_db_pseudo id)
      ∧ get_insn false 0x00000000 = .ret (some ⟨"SLL", "\x27dta", 1, 0⟩)
      ∧ (opcode insn = OPC_ADDI →
          get_insn false insn = .ret (some ⟨"ADDI", "\x27tsI", 1, 8⟩)) := by
  refine ⟨get_insn_false_eq insn, fun t h id hid => ?_, by decide, fun hop => ?_⟩
  · refine tables_disjoint_pseudo t (get_insn_false_mem_tables insn t h) ?_
    rw [hid]
    cases id <;> decide
  · have hl : get_insn_list insn = (some insn_db_standard, opcode insn) := by
      unfold get_insn_list
      rw [hop]
      rfl
    rw [get_insn_false_eq, hl, hop]
    decide


/-- A word that a pseudo guard rewrites is recognised by the instruction tables
as well, by a template that contains the branch-offset directive exactly when
the pseudo template does. -/
theorem check_pseudo_instructions_base (insn : Nat) (t : InsnTemplate)
    (h : check_pseudo_instructions insn = some t) :
    ∃ t', get_insn false insn = .ret (some t')
      ∧ strchr t.fmt CHAR_P_BRANCH = strchr t'.fmt CHAR_P_BRANCH := by
  rw [check_pseudo_instructions_eq] at h
  by_cases h0 : raw insn = 0
  · rw [if_pos h0] at h
    have h0' : insn % 2 ^ 32 = 0 := h0
    have hop : opcode insn = OPC_SPECIAL := by
      show insn / 2 ^ 26 % 64 = 0
      omega
    have hf : func insn = 0 := by
      show insn % 64 = 0
      omega
    refine ⟨⟨"SLL", "\x27dta", 1, 0⟩, ?_, ?_⟩
    · rw [get_insn_false_eq, get_insn_list_special insn hop, hf]
      decide
    · rw [← Option.some.inj h]
      decide
  rw [if_neg h0] at h
  by_cases hc : cop_opcode insn = COP_OPCODE
  · rw [if_pos hc] at h
    exact absurd h (by simp)
  rw [if_neg hc] at h
  have hstd : ∀ k, opcode insn = k → k ≠ OPC_SPECIAL → k ≠ OPC_REGIMM →
      ¬ (k = OPC_COP0 ∨ k = OPC_COP1 ∨ k = OPC_COP2 ∨ k = OPC_COP3) →
      get_insn false insn = .ret (scan_list insn_db_standard k) := by
    intro k hk h1 h2 h3
    rw [get_insn_false_eq]
    unfold get_insn_list
    rw [hk, if_neg h3, if_neg h1, if_neg h2]
  unfold pseudo_guards at h
  generalize decide (rt insn = 0) = b1 at h
  generalize decide (rs insn = 0) = b2 at h
  generalize decide (rs insn = rt insn) = b3 at h
  generalize decide (toS16 (immediate insn) < 0) = b4 at h
  by_cases hsp : opcode insn = OPC_SPECIAL
  · rw [if_pos hsp] at h
    by_cases hadd : func insn = OPS_ADD
    · rw [if_pos hadd] at h
      refine ⟨⟨"ADD", "\x27dst", 1, 32⟩, ?_, ?_⟩
      · rw [get_insn_false_eq, get_insn_list_special insn hsp, hadd]
        decide
      · cases b1 <;> cases b2 <;> simp at h <;> rw [← h] <;> decide
    · rw [if_neg hadd] at h
      by_cases hor : func insn = OPS_OR
      · rw [if_pos hor] at h
        refine ⟨⟨"OR", "\x27dst", 1, 37⟩, ?_, ?_⟩
        · rw [get_insn_false_eq, get_insn_list_special insn hsp, hor]
          decide
        · cases b1 <;> simp at h
          rw [← h]
          decide
      · rw [if_neg hor] at h
        exact absurd h (by simp)
  rw [if_neg hsp] at h
  by_cases h4 : opcode insn = OPC_BEQ
  · rw [if_pos h4] at h
    refine ⟨⟨"BEQ", "\x27stB", 0, 4⟩, ?_, ?_⟩
    · rw [hstd _ h4 (by decide) (by decide) (by decide)]
      decide
    · cases b3 <;> cases b1 <;> simp at h <;> rw [← h] <;> decide
  rw [if_neg h4] at h
  by_cases h5 : opcode insn = OPC_BNE
  · rw [if_pos h5] at h
    refine ⟨⟨"BNE", "\x27stB", 0, 5⟩, ?_, ?_⟩
    · rw [hstd _ h5 (by decide) (by decide) (by decide)]
      decide
    · cases b1 <;> simp at h
      rw [← h]
      decide
  rw [if_neg h5] at h
  by_cases h8 : opcode insn = OPC_ADDI
  · rw [if_pos h8] at h
    refine ⟨⟨"ADDI", "\x27tsI", 1, 8⟩, ?_, ?_⟩
    · rw [hstd _ h8 (by decide) (by decide) (by decide)]
      decide
    · cases b2 <;> cases b4 <;> simp at h <;> rw [← h] <;> decide
  rw [if_neg h8] at h
  by_cases h9 : opcode insn = OPC_ADDIU
  · rw [if_pos h9] at h
    refine ⟨⟨"ADDIU", "\x27tsI", 1, 9⟩, ?_, ?_⟩
    · rw [hstd _ h9 (by decide) (by decide) (by decide)]
      decide
    · cases b2 <;> simp at h
      rw [← h]
      decide
  rw [if_neg h9] at h
  by_cases h20 : opcode insn = OPC_BEQL
  · rw [if_pos h20] at h
    refine ⟨⟨"BEQL", "\x27stB", 0, 20⟩, ?_, ?_⟩
    · rw [hstd _ h20 (by decide) (by decide) (by decide)]
      decide
    · cases b1 <;> simp at h
      rw [← h]
      decide
  rw [if_neg h20] at h
  by_cases h21 : opcode insn = OPC_BNEL
  · rw [if_pos h21] at h
    refine ⟨⟨"BNEL", "\x27stB", 0, 21⟩, ?_, ?_⟩
    · rw [hstd _ h21 (by decide) (by decide) (by decide)]
      decide
    · cases b1 <;> simp at h
      rw [← h]
      decide
  rw [if_neg h21] at h
  by_cases h24 : opcode insn = OPC_DADDI
  · rw [if_pos h24] at h
    refine ⟨⟨"DADDI", "\x27tsI", 1, 24⟩, ?_, ?_⟩
    · rw [hstd _ h24 (by decide) (by decide) (by decide)]
      decide
    · cases b4 <;> simp at h
      rw [← h]
      decide
  rw [if_neg h24] at h
  exact absurd h (by simp)


/-- C32: with pseudo-instruction display enabled, where two guards hold for a
word `get_insn` returns the template of the guard tested first. An ADD word
with `rs` and `rt` 0 satisfies the guards of both MOVE templates and decodes
to the one with the operands `(rd, rs)`; a BEQ word with `rs` and `rt` 0
satisfies the guards of B and BEQZ and decodes to B; an ADDI word with `rs` 0
and a negative immediate satisfies the guards of LI and SUBI and decodes to
LI. -/
theorem get_insn_first_satisfied_guard (insn : Nat) :
    (opcode insn = OPC_SPECIAL → func insn = OPS_ADD → rs insn = 0 → rt insn = 0 →
        satisfied_guards insn = [PSEUDO_MOVES, PSEUDO_MOVET]
          ∧ get_insn true insn = .ret (some ⟨"MOVE", "\x27ds", 1, 32⟩))
      ∧ (opcode insn = OPC_BEQ → rs insn = 0 → rt insn = 0 →
          satisfied_guards insn = [PSEUDO_B, PSEUDO_BEQZ]
            ∧ get_insn true insn = .ret (some ⟨"B", "\x27B", 0, 4⟩)
            ∧ get_insn true insn ≠ .ret (some (insn_db_pseudo PSEUDO_BEQZ)))
      ∧ (opcode insn = OPC_ADDI → rs insn = 0 → toS16 (immediate insn) < 0 →
          satisfied_guards insn = [PSEUDO_LI, PSEUDO_SUBI]
            ∧ get_insn true insn = .ret (some ⟨"LI", "\x27tI", 1, 8⟩)
            ∧ get_insn true insn ≠ .ret (some (insn_db_pseudo PSEUDO_SUBI)))
      ∧ insn_db_pseudo PSEUDO_MOVES = ⟨"MOVE", "\x27ds", 1, 32⟩
      ∧ insn_db_pseudo PSEUDO_B = ⟨"B", "\x27B", 0, 4⟩
      ∧ insn_db_pseudo PSEUDO_LI = ⟨"LI", "\x27tI", 1, 8⟩ := by
  have key : ∀ g : List (PseudoInsns × Bool), raw insn ≠ 0 → cop_opcode insn ≠ COP_OPCODE →
      pseudo_guards insn = g →
      satisfied_guards insn = (g.filter (·.2)).map (·.1)
        ∧ get_insn true insn
          = match (g.find? (·.2)).map (fun g => insn_db_pseudo g.1) with
            | some t => .ret (some t)
            | none =>
              match get_insn_list insn with
              | (none, _) => .fault
              | (some list, key) => .ret (scan_list list key) := by
    intro g h0 hc hg
    refine ⟨by rw [satisfied_guards, hg], ?_⟩
    unfold get_insn
    rw [if_pos rfl, check_pseudo_instructions_eq, if_neg h0, if_neg hc, hg]
  refine ⟨fun hop hf hrs hrt => ?_, fun hop hrs hrt => ?_, fun hop hrs himm => ?_, rfl, rfl,
    rfl⟩
  · have hop' : insn / 2 ^ 26 % 64 = 0 := hop
    have hf' : insn % 64 = 32 := hf
    have h0 : raw insn ≠ 0 := by
      show insn % 2 ^ 32 ≠ 0
      omega
    have hc : cop_opcode insn ≠ COP_OPCODE := by
      show insn / 2 ^ 28 % 16 ≠ 4
      omega
    obtain ⟨h1, h2⟩ := key _ h0 hc (by simp [pseudo_guards, hop, hf, hrs, hrt] : _ =
      [(PSEUDO_MOVES, true), (PSEUDO_MOVET, true)])
    exact ⟨h1, h2⟩
  · have hop' : insn / 2 ^ 26 % 64 = 4 := hop
    have h0 : raw insn ≠ 0 := by
      show insn % 2 ^ 32 ≠ 0
      omega
    have hc : cop_opcode insn ≠ COP_OPCODE := by
      show insn / 2 ^ 28 % 16 ≠ 4
      omega
    obtain ⟨h1, h2⟩ := key _ h0 hc (by simp [pseudo_guards, hop, hrs, hrt] : _ =
      [(PSEUDO_B, true), (PSEUDO_BEQZ, true)])
    have h3 : get_insn true insn = .ret (some ⟨"B", "\x27B", 0, 4⟩) := h2
    refine ⟨h1, h3, ?_⟩
    rw [h3]
    decide
  · have hop' : insn / 2 ^ 26 % 64 = 8 := hop
    have h0 : raw insn ≠ 0 := by
      show insn % 2 ^ 32 ≠ 0
      omega
    have hc : cop_opcode insn ≠ COP_OPCODE := by
      show insn / 2 ^ 28 % 16 ≠ 4
      omega
    obtain ⟨h1, h2⟩ := key _ h0 hc (by simp [pseudo_guards, hop, hrs, himm] : _ =
      [(PSEUDO_LI, true), (PSEUDO_SUBI, true)])
    have h3 : get_insn true insn = .ret (some ⟨"LI", "\x27tI", 1, 8⟩) := h2
    refine ⟨h1, h3, ?_⟩
    rw [h3]
    decide

/-- C35: whether a word is recognised does not depend on the
pseudo-instruction setting: `get_insn` returns `NULL` with the display enabled
exactly when it returns `NULL` with the display disabled, and it dereferences
a `NULL` list with the display enabled exactly when it does with the display
disabled. -/
theorem get_insn_recognised_iff (insn : Nat) :
    (get_insn true insn = .ret none ↔ get_insn false insn = .ret none)
      ∧ (get_insn true insn = .fault ↔ get_insn false insn = .fault) := by
  cases hp : check_pseudo_instructions insn with
  | none =>
    have : get_insn true insn = get_insn false insn := by
      unfold get_insn
      rw [if_pos rfl, hp]
      rfl
    rw [this]
    exact ⟨Iff.rfl, Iff.rfl⟩
  | some t =>
    obtain ⟨t', ht', _⟩ := check_pseudo_instructions_base insn t hp
    have : get_insn true insn = .ret (some t) := by
      unfold get_insn
      rw [if_pos rfl, hp]
    rw [this, ht']
    simp

/-- C36: `insn_check_for_branch_offset` returns the same value, or faults
alike, with pseudo-instruction display enabled and disabled: a word that a
pseudo guard rewrites has a template in the instruction tables, and that
template contains the branch-offset directive exactly when the pseudo
template does. -/
theorem insn_check_for_branch_offset_setting (insn : Nat) :
    insn_check_for_branch_offset true insn = insn_check_for_branch_offset false insn
      ∧ ∀ t, check_pseudo_instructions insn = some t →
          ∃ t', get_insn false insn = .ret (some t')
            ∧ strchr t.fmt CHAR_P_BRANCH = strchr t'.fmt CHAR_P_BRANCH := by
  refine ⟨?_, fun t h => check_pseudo_instructions_base insn t h⟩
  cases hp : check_pseudo_instructions insn with
  | none =>
    have : get_insn true insn = get_insn false insn := by
      unfold get_insn
      rw [if_pos rfl, hp]
      rfl
    unfold insn_check_for_branch_offset
    rw [this]
  | some t =>
    obtain ⟨t', ht', hb⟩ := check_pseudo_instructions_base insn t hp
    have : get_insn true insn = .ret (some t) := by
      unfold get_insn
      rw [if_pos rfl, hp]
    unfold insn_check_for_branch_offset
    rw [this, ht']
    simp only [hb]


/-! ## Formatting: the registers recorded -/

/-- The case `CHAR_P_FUNC` records no register. -/
theorem cs_insn_func_saved_regs (env : CSEnv) (insn : Nat) (format : Bool)
    (s s' : InsnLoopState) (h : cs_insn_func env insn format s = some (.ret s')) :
    s'.savedRegs = s.savedRegs := by
  have hc := (color_change_frame s env.colors.COLOR_RGBA32_CRASH_FUNCTION_NAME format).2.2.2.1
  unfold cs_insn_func at h
  simp only [] at h
  repeat' (split at h)
  all_goals first
    | (injection h with h; injection h with h; subst h; simpa [ADD_STR] using hc)
    | exact absurd h (by simp)

/-- One command of the format records the register it prints, unless its
position is `info->out`, and records nothing else; only NOP leaves the loop. -/
theorem cs_insn_command_saved_regs (env : CSEnv) (addr insn : Nat) (info : InsnTemplate)
    (format : Bool) (cmdIndex : Nat) (c : Char) (s s' : InsnLoopState) (ctl : LoopControl)
    (hdir : is_directive c = true)
    (h : cs_insn_command env addr insn info format cmdIndex c s = some (.ret (s', ctl))) :
    s'.savedRegs
        = s.savedRegs ++ (if cmdIndex ≠ info.out then (register_operand insn c).toList else [])
      ∧ ctl = (if c = CHAR_P_NOP then .returned else .next) := by
  have hc := fun col => (color_change_frame s col format).2.2.2.1
  simp only [is_directive, is_operand_directive, Bool.or_eq_true, decide_eq_true_eq] at hdir
  rcases hdir with ((((rfl | rfl) | rfl) | rfl) |
    (((((((((((rfl | rfl) | rfl) | rfl) | rfl) | rfl) | rfl) | rfl) | rfl) | rfl) | rfl) | rfl))
  all_goals
    simp only [cs_insn_command, CHAR_P_NOP, CHAR_P_NAME, CHAR_P_NAMEF, CHAR_P_RS, CHAR_P_RT,
      CHAR_P_RD, CHAR_P_IMM, CHAR_P_NIMM, CHAR_P_SHIFT, CHAR_P_BASE, CHAR_P_BRANCH, CHAR_P_COP0D,
      CHAR_P_FT, CHAR_P_FS, CHAR_P_FD, CHAR_P_FUNC, Char.reduceEq, if_true,
      if_false] at h
  all_goals try (split at h)
  all_goals try (split at h)
  all_goals first
    | (injection h with h; injection h with h; injection h with ha hb; subst ha; subst hb
       by_cases hout : cmdIndex = info.out <;>
         simp [ADD_STR, ADD_REG, append_reg_to_buffer, register_operand, hc, hout, CHAR_P_NOP,
           CHAR_P_NAME, CHAR_P_NAMEF, CHAR_P_RS, CHAR_P_RT, CHAR_P_RD, CHAR_P_IMM, CHAR_P_NIMM,
           CHAR_P_SHIFT, CHAR_P_BASE, CHAR_P_BRANCH, CHAR_P_COP0D, CHAR_P_FT, CHAR_P_FS,
           CHAR_P_FD, CHAR_P_FUNC] <;>
         exact cs_insn_func_saved_regs env insn format s _ (by assumption))
    | (injection h with h; cases h)
    | cases h

/-- The loop of `cs_insn_to_string` over directives other than NOP records the
register operands at the positions other than `info->out`, in order. -/
theorem cs_insn_loop_saved_regs (env : CSEnv) (addr insn : Nat) (info : InsnTemplate)
    (format : Bool) :
    ∀ (cs : List Char) (cmdIndex : Nat) (s r : InsnLoopState) (u : Bool),
      (∀ c ∈ cs, (is_directive c = true ∧ c ≠ CHAR_NULL) ∧ c ≠ CHAR_P_NOP) →
      cs_insn_loop env addr insn info format cs cmdIndex s = some (.ret (r, u)) →
      r.savedRegs = s.savedRegs ++ read_register_operands insn info.out cs cmdIndex := by
  intro cs
  induction cs with
  | nil =>
    intro cmdIndex s r u _ h
    unfold cs_insn_loop at h
    injection h with h
    injection h with h
    injection h with h1 h2
    subst h1
    simp [read_register_operands]
  | cons c rest ih =>
    intro cmdIndex s r u hcs h
    obtain ⟨⟨hdir, hnz⟩, hnop⟩ := hcs c (List.mem_cons_self _ _)
    obtain ⟨s1, hs1, hsaved1⟩ : ∃ s1, s1 = (if s.separator then
        ADD_STR { s with separator := false } .separator else s)
        ∧ s1.savedRegs = s.savedRegs := by
      refine ⟨_, rfl, ?_⟩
      cases hsp : s.separator <;> simp [ADD_STR, hsp]
    unfold cs_insn_loop at h
    rw [if_neg hnz] at h
    simp only [] at h
    rw [← hs1] at h
    cases hcmd : cs_insn_command env addr insn info format cmdIndex c s1 with
    | none =>
      rw [hcmd] at h
      cases h
    | some res =>
      cases res with
      | fault =>
        rw [hcmd] at h
        cases h
      | ret p =>
        obtain ⟨s2, ctl⟩ := p
        obtain ⟨hreg, hctl⟩ :=
          cs_insn_command_saved_regs env addr insn info format cmdIndex c s1 s2 ctl hdir hcmd
        rw [if_neg hnop] at hctl
        subst hctl
        rw [hcmd] at h
        simp only [] at h
        rw [ih (cmdIndex + 1) s2 r u (fun c hc => hcs c (List.mem_cons_of_mem _ hc)) h, hreg,
          hsaved1, List.append_assoc]
        rfl

set_option maxRecDepth 1000000 in
/-- The NOP directive stands alone in the one format that has it. -/
theorem all_templates_nop :
    ∀ t ∈ all_templates,
      (∀ c ∈ t.fmt.toList, c ≠ CHAR_P_NOP) ∨ t.fmt.toList = [CHAR_P_NOP] := by
  decide


/-- The NOP directive is no register. -/
theorem register_operand_nop (insn : Nat) : register_operand insn CHAR_P_NOP = none := rfl

/-- The loop of `cs_insn_to_string` at the NOP directive records nothing. -/
theorem cs_insn_loop_nop_saved_regs (env : CSEnv) (addr insn : Nat) (info : InsnTemplate)
    (format : Bool) (rest : List Char) (cmdIndex : Nat) (s r : InsnLoopState) (u : Bool)
    (h : cs_insn_loop env addr insn info format (CHAR_P_NOP :: rest) cmdIndex s
      = some (.ret (r, u))) :
    r.savedRegs = s.savedRegs := by
  obtain ⟨s1, hs1, hsaved1⟩ : ∃ s1, s1 = (if s.separator then
      ADD_STR { s with separator := false } .separator else s)
      ∧ s1.savedRegs = s.savedRegs := by
    refine ⟨_, rfl, ?_⟩
    cases hsp : s.separator <;> simp [ADD_STR, hsp]
  unfold cs_insn_loop at h
  rw [if_neg (by decide)] at h
  simp only [] at h
  rw [← hs1] at h
  cases hcmd : cs_insn_command env addr insn info format cmdIndex CHAR_P_NOP s1 with
  | none =>
    rw [hcmd] at h
    cases h
  | some res =>
    cases res with
    | fault =>
      rw [hcmd] at h
      cases h
    | ret p =>
      obtain ⟨s2, ctl⟩ := p
      obtain ⟨hreg, hctl⟩ :=
        cs_insn_command_saved_regs env addr insn info format cmdIndex CHAR_P_NOP s1 s2 ctl
          (by decide) hcmd
      rw [if_pos rfl] at hctl
      subst hctl
      rw [hcmd] at h
      simp only [] at h
      injection h with h
      injection h with h
      injection h with h1 h2
      subst h1
      rw [hreg, hsaved1, register_operand_nop]
      simp

/-- C34 (counterexample): the word `0x00221820` (ADD r3, r1, r2) is matched by
the template ADD, whose output operand is at position 1 of the format, the
directive of `rd`, register 3. `cs_insn_to_string` records the registers 1 and
2, the operands `rs` and `rt` at the positions 2 and 3, and does not record
register 3. -/
theorem cs_insn_to_string_saved_regs_counterexample :
    get_insn true 0x00221820 = .ret (some ⟨"ADD", "\x27dst", 1, 32⟩)
      ∧ ("\x27dst").toList[1]? = some CHAR_P_RD
      ∧ register_operand 0x00221820 CHAR_P_RD = some (.CPU, 3)
      ∧ cs_insn_to_string
          ⟨true, true, false, false, true, ⟨0, 1, 2, 3, 4, 5, 6⟩,
            [⟨0x80000000, 0x80100000⟩], [⟨0x80000400, 0x100, 0⟩], 0x80700000,
            fun _ => 0x00221820, fun _ => some 0⟩
          0x80000100 0x00221820 none false []
        = some (.ret ⟨[.name "ADD", .reg .CPU 3, .separator, .reg .CPU 1, .separator,
            .reg .CPU 2], none, [(.CPU, 1), (.CPU, 2)]⟩)
      ∧ ([(.CPU, 1), (.CPU, 2)] : List (RegisterSources × Nat)) ≠ [(.CPU, 3)]
      ∧ ((.CPU, 3) : RegisterSources × Nat) ∉ [(RegisterSources.CPU, 1), (.CPU, 2)] := by
  decide

/-- C34 (amended): for every word matched by a template `cs_insn_to_string`
returns, and the registers in the saved-register buffer afterwards are the
register operands of the template at the positions other than the one
designated by `out`, in the order of the format: the operand at the position
`out` is the one that is not recorded. -/
theorem cs_insn_to_string_records_read_registers (env : CSEnv) (addr insn : Nat)
    (fname : Option Nat) (format : Bool) (savedRegs : List (RegisterSources × Nat))
    (t : InsnTemplate)
    (hinfo : get_insn env.CS_OPT_DISASM_PSEUDOINSNS insn = .ret (some t))
    (hword : env.CS_OPT_DISASM_OFFSET_ADDR = true →
      get_insn env.CS_OPT_DISASM_PSEUDOINSNS (env.mem addr) ≠ .fault)
    (hlen : env.gMapSymbols.length ≤ 2 ^ 31) :
    ∃ out : InsnString,
      cs_insn_to_string env addr insn fname format savedRegs = some (.ret out)
        ∧ out.savedRegs = read_register_operands insn t.out t.fmt.toList 0 := by
  obtain ⟨named, hfunc⟩ := cs_insn_func_layout env insn format hlen
  have hbranch := fun h =>
    get_insn_branch_target_total env.sTextRegions env.CS_OPT_DISASM_PSEUDOINSNS env.mem addr
      (hword h)
  have hmem := get_insn_mem_all_templates _ _ _ hinfo
  obtain ⟨hdir, _⟩ := all_templates_layout t hmem named
  obtain ⟨r, hr, _⟩ := cs_insn_loop_layout env addr insn t format named hfunc hbranch
    t.fmt.toList 0 ⟨[], env.colors.COLOR_RGBA32_NONE, false, fname, clear_saved_reg_buffer⟩ hdir
  refine ⟨⟨r.str, r.fname, r.savedRegs⟩, ?_, ?_⟩
  · unfold cs_insn_to_string
    rw [hinfo]
    simp only [hr, Bool.false_eq_true, if_false]
  · show r.savedRegs = _
    rcases all_templates_nop t hmem with hn | hn
    · rw [cs_insn_loop_saved_regs env addr insn t format t.fmt.toList 0 _ r false
        (fun c hc => ⟨hdir c hc, hn c hc⟩) hr]
      rfl
    · rw [hn] at hr ⊢
      rw [cs_insn_loop_nop_saved_regs env addr insn t format [] 0 _ r false hr]
      simp [read_register_operands, register_operand_nop, clear_saved_reg_buffer]

/-- Witness of C34 (amended): `0x8C410004` (LW r1, 4(r2)): the output operand
`rt` is not recorded, the base register is. -/
theorem cs_insn_to_string_records_read_registers_witness :
    get_insn true 0x8C410004 = .ret (some ⟨"LW", "\x27tI(", 1, 35⟩)
      ∧ cs_insn_to_string
          ⟨true, true, false, false, true, ⟨0, 1, 2, 3, 4, 5, 6⟩,
            [⟨0x80000000, 0x80100000⟩], [⟨0x80000400, 0x100, 0⟩], 0x80700000,
            fun _ => 0x8C410004, fun _ => some 0⟩
          0x80000100 0x8C410004 none false []
        = some (.ret ⟨[.name "LW", .reg .CPU 1, .separator, .immediate false 4,
            .base .CPU 2], none, [(.CPU, 2)]⟩)
      ∧ read_register_operands 0x8C410004 1 ("\x27tI(").toList 0 = [(.CPU, 2)]
      ∧ ∃ out : InsnString,
          cs_insn_to_string
            ⟨true, true, false, false, true, ⟨0, 1, 2, 3, 4, 5, 6⟩,
              [⟨0x80000000, 0x80100000⟩], [⟨0x80000400, 0x100, 0⟩], 0x80700000,
              fun _ => 0x8C410004, fun _ => some 0⟩
            0x80000100 0x8C410004 none false [] = some (.ret out)
          ∧ out.savedRegs = read_register_operands 0x8C410004 1 ("\x27tI(").toList 0 :=
  ⟨by decide, by decide, by decide,
    cs_insn_to_string_records_read_registers
      ⟨true, true, false, false, true, ⟨0, 1, 2, 3, 4, 5, 6⟩,
        [⟨0x80000000, 0x80100000⟩], [⟨0x80000400, 0x100, 0⟩], 0x80700000,
        fun _ => 0x8C410004, fun _ => some 0⟩
      0x80000100 0x8C410004 none false [] ⟨"LW", "\x27tI(", 1, 35⟩ (by decide) (by decide)
      (by decide)⟩


/-! ## Formatting: the branch offset -/

/-- C33, at the failing input: the word `0x10227FFF` (BEQ r1, r2 with offset
field `0x7FFF`) at `0x80000100`, with branch offsets displayed as a signed
delta. The offset plus one is 32768, not negative, and the branch target that
`get_insn_branch_target_from_addr` computes is `0x80000100 + 4 * 32768`; the
string shows the sign `-` with the magnitude 32768, the `s16` variable
`branchOffset` having wrapped to -32768. For every other offset field the
`s16` variable holds the offset plus one. -/
theorem cs_insn_to_string_branch_delta_wraps :
    get_insn true 0x10227FFF = .ret (some ⟨"BEQ", "\x27stB", 0, 4⟩)
      ∧ toS16 (immediate 0x10227FFF) + 1 = 32768
      ∧ cs_insn_to_string
          ⟨true, true, false, false, true, ⟨0, 1, 2, 3, 4, 5, 6⟩,
            [⟨0x80000000, 0x80100000⟩], [⟨0x80000400, 0x100, 0⟩], 0x80700000,
            fun _ => 0x10227FFF, fun _ => some 0⟩
          0x80000100 0x10227FFF none false []
        = some (.ret ⟨[.name "BEQ", .reg .CPU 1, .separator, .reg .CPU 2, .separator,
            .offset '-' 32768], none, [(.CPU, 1), (.CPU, 2)]⟩)
      ∧ get_insn_branch_target_from_addr [⟨0x80000000, 0x80100000⟩] true
          (fun _ => 0x10227FFF) 0x80000100 = .ret 0x80020100
      ∧ (0x80000100 : Int) + 4 * 32768 = 0x80020100
      ∧ (0x80000100 : Int) + 4 * (-32768) ≠ 0x80020100
      ∧ toS16 (0x7FFF + 1) = -32768
      ∧ ∀ imm : Nat, imm < 2 ^ 16 → imm ≠ 0x7FFF → toS16 (imm + 1) = toS16 imm + 1 := by
  refine ⟨by decide, by decide, by decide, by decide, by decide, by decide, by decide, ?_⟩
  intro imm h1 h2
  unfold toS16
  split <;> split <;> omega


/-! ## Address select popup: the digit under the cursor -/

/-- When the digit loop ends, the digit is a hexadecimal digit and the target
with that digit is not below `VIRTUAL_RAM_START`. -/
theorem address_select_digit_loop_post (START t shift : Nat) (change : Int) :
    ∀ (fuel new n : Nat), address_select_digit_loop START t shift change fuel new = some n →
      n < 16 ∧ START ≤ SET_HEX_DIGIT t n shift := by
  intro fuel
  induction fuel with
  | zero =>
    intro new n h
    simp [address_select_digit_loop] at h
  | succ fuel ih =>
    intro new n h
    unfold address_select_digit_loop at h
    simp only [] at h
    split at h
    · exact ih _ n h
    · next hge =>
      injection h with h
      subst h
      refine ⟨?_, Nat.le_of_not_lt hge⟩
      omega

/-- The digit loop ends within `fuel` turns when one of the first `fuel` digits
it tries puts the target at or above `VIRTUAL_RAM_START`. -/
theorem address_select_digit_loop_total (START t shift : Nat) (change : Int)
    (hch : change = 1 ∨ change = -1) :
    ∀ (fuel new m : Nat), 1 ≤ m → m ≤ fuel →
      START ≤ SET_HEX_DIGIT t ((((new : Int) + m * change) % 16).toNat) shift →
      ∃ n, address_select_digit_loop START t shift change fuel new = some n := by
  intro fuel
  induction fuel with
  | zero =>
    intro new m h1 h2
    omega
  | succ fuel ih =>
    intro new m h1 h2 h
    unfold address_select_digit_loop
    simp only []
    split
    · next hlt =>
      have hm : m ≠ 1 := by
        rintro rfl
        rw [Nat.cast_one, one_mul] at h
        exact absurd hlt (Nat.not_lt.mpr h)
      refine ih _ (m - 1) (by omega) (by omega) ?_
      have e : ((((((new : Int) + change) % 16).toNat : Nat) : Int)
          + ((m - 1 : Nat) : Int) * change) % 16 = ((new : Int) + m * change) % 16 := by
        have hm1 : ((m - 1 : Nat) : Int) = (m : Int) - 1 := by omega
        rw [hm1]
        rcases hch with rfl | rfl <;> omega
      rw [e]
      exact h
    · exact ⟨_, rfl⟩

/-- Writing back the digit that is there changes nothing. -/
theorem SET_HEX_DIGIT_self (t shift : Nat) (ht : t < 2 ^ 32) :
    SET_HEX_DIGIT t (GET_HEX_DIGIT t shift) shift = t := by
  unfold SET_HEX_DIGIT GET_HEX_DIGIT
  have h1 : t / 2 ^ shift % 16 * 2 ^ shift ≤ t :=
    le_trans (Nat.mul_le_mul_right _ (Nat.mod_le _ _)) (Nat.div_mul_le_self t (2 ^ shift))
  rw [Nat.sub_add_cancel h1, Nat.mod_eq_of_lt ht]

/-- Setting the digit at the cursor leaves the other seven digits as they
are. -/
theorem SET_HEX_DIGIT_other (t n idx j : Nat) (ht : t < 2 ^ 32) (hn : n < 16) (hi : idx ≤ 7)
    (hj : j ≤ 7) (hne : j ≠ idx) :
    GET_HEX_DIGIT (SET_HEX_DIGIT t n (28 - idx * 4)) (28 - j * 4)
      = GET_HEX_DIGIT t (28 - j * 4) := by
  unfold SET_HEX_DIGIT GET_HEX_DIGIT
  interval_cases idx <;> interval_cases j <;> first
    | exact absurd rfl hne
    | (norm_num; omega)

/-- The digit the loop ends on does not depend on the bound on its turns. -/
theorem address_select_digit_loop_fuel (START t shift : Nat) (change : Int) :
    ∀ (fuel fuel' new n n' : Nat),
      address_select_digit_loop START t shift change fuel new = some n →
      address_select_digit_loop START t shift change fuel' new = some n' → n = n' := by
  intro fuel
  induction fuel with
  | zero =>
    intro fuel' new n n' h
    simp [address_select_digit_loop] at h
  | succ fuel ih =>
    intro fuel' new n n' h h'
    cases fuel' with
    | zero => simp [address_select_digit_loop] at h'
    | succ fuel' =>
      unfold address_select_digit_loop at h h'
      simp only [] at h h'
      split at h
      · next hlt =>
        rw [if_pos hlt] at h'
        exact ih fuel' _ n n' h h'
      · next hge =>
        rw [if_neg hge] at h'
        injection h with h
        injection h' with h'
        omega


/-- With a target below `0x80000000` and the cursor on one of the seven lower
digits, no digit puts the target at or above `0x80000000`. -/
theorem SET_HEX_DIGIT_below (t n idx : Nat) (ht : t < 0x80000000) (hn : n < 16)
    (h1 : 1 ≤ idx) (h7 : idx ≤ 7) : SET_HEX_DIGIT t n (28 - idx * 4) < 0x80000000 := by
  unfold SET_HEX_DIGIT GET_HEX_DIGIT
  interval_cases idx <;> (norm_num; omega)

/-- The digit loop never ends when no digit puts the target at or above
`VIRTUAL_RAM_START`. -/
theorem address_select_digit_loop_none (START t shift : Nat) (change : Int)
    (h : ∀ n, n < 16 → SET_HEX_DIGIT t n shift < START) :
    ∀ (fuel new : Nat), address_select_digit_loop START t shift change fuel new = none := by
  intro fuel
  induction fuel with
  | zero =>
    intro new
    rfl
  | succ fuel ih =>
    intro new
    unfold address_select_digit_loop
    simp only []
    rw [if_pos (h _ (by omega))]
    exact ih _

/-- C37, at the failing input: with `VIRTUAL_RAM_START` `0x80000000`, the
target `0x00000000` and the cursor on the last digit (position 7), a press of
up or of down starts a loop that is still running after any number of turns;
the same holds for every target below `0x80000000` and every cursor position
1..7, since the loop changes only the digit under the cursor, and for the
target `0x00000000` it holds with any `VIRTUAL_RAM_START` from 16 up. With the
cursor on the first digit the loop ends. -/
theorem cs_address_select_input_loops :
    (∀ fuel, cs_address_select_input 0x80000000 true false 0x00000000 7 fuel = none)
      ∧ (∀ fuel, cs_address_select_input 0x80000000 false true 0x00000000 7 fuel = none)
      ∧ (∀ target idx up down fuel, target < 0x80000000 → 1 ≤ idx → idx ≤ 7 →
          (up = true ∨ down = true) →
          cs_address_select_input 0x80000000 up down target idx fuel = none)
      ∧ (∀ VIRTUAL_RAM_START fuel, 16 ≤ VIRTUAL_RAM_START →
          cs_address_select_input VIRTUAL_RAM_START true false 0x00000000 7 fuel = none)
      ∧ cs_address_select_input 0x80000000 true false 0x00000000 0 16 = some 0x80000000 := by
  have key : ∀ target idx up down fuel, target < 0x80000000 → 1 ≤ idx → idx ≤ 7 →
      (up = true ∨ down = true) →
      cs_address_select_input 0x80000000 up down target idx fuel = none := by
    intro target idx up down fuel ht h1 h7 hud
    have hnone := address_select_digit_loop_none 0x80000000 target (28 - idx * 4)
      (if down = true then -1 else if up = true then 1 else 0)
      (fun n hn => SET_HEX_DIGIT_below target n idx ht hn h1 h7) fuel
      (GET_HEX_DIGIT target (28 - idx * 4))
    have hch : (if down = true then (-1 : Int) else if up = true then 1 else 0) ≠ 0 := by
      cases up <;> cases down <;> simp at hud ⊢
    unfold cs_address_select_input
    simp only []
    rw [if_pos hch, hnone]
  refine ⟨fun fuel => key 0 7 true false fuel (by decide) (by decide) (by decide) (Or.inl rfl),
    fun fuel => key 0 7 false true fuel (by decide) (by decide) (by decide) (Or.inr rfl),
    key, ?_, by decide⟩
  intro START fuel hS
  have hnone := address_select_digit_loop_none START 0 0 1
    (fun n hn => by
      unfold SET_HEX_DIGIT GET_HEX_DIGIT
      norm_num
      omega) fuel 0
  have e : cs_address_select_input START true false 0 7 fuel
      = match address_select_digit_loop START 0 0 1 fuel 0 with
        | none => none
        | some new => if new ≠ 0 then some (SET_HEX_DIGIT 0 new 0) else some 0 := rfl
  rw [e, hnone]

/-- C38: with `sAddressSelectTarget` a 32-bit value not below
`VIRTUAL_RAM_START` and the cursor on one of the eight digits, whatever is
pressed, the digit change ends within 16 turns of its loop (and with any
larger bound gives the same), the new target is not below
`VIRTUAL_RAM_START`, and its digits other than the one under the cursor are
those of the old target. -/
theorem cs_address_select_input_keeps_window (VIRTUAL_RAM_START target idx : Nat)
    (up down : Bool) (ht : target < 2 ^ 32) (hs : VIRTUAL_RAM_START ≤ target) (hi : idx ≤ 7) :
    ∃ target',
      (∀ fuel, 16 ≤ fuel →
        cs_address_select_input VIRTUAL_RAM_START up down target idx fuel = some target')
      ∧ VIRTUAL_RAM_START ≤ target' ∧ target' < 2 ^ 32
      ∧ ∀ j, j ≤ 7 → j ≠ idx →
          GET_HEX_DIGIT target' (28 - j * 4) = GET_HEX_DIGIT target (28 - j * 4) := by
  obtain ⟨shift, hshift⟩ : ∃ shift, shift = 28 - idx * 4 := ⟨_, rfl⟩
  obtain ⟨digit, hdigit⟩ : ∃ digit, digit = GET_HEX_DIGIT target shift := ⟨_, rfl⟩
  have hd16 : digit < 16 := by
    rw [hdigit]
    exact Nat.mod_lt _ (by decide)
  by_cases hch : (if down = true then (-1 : Int) else if up = true then 1 else 0) = 0
  · refine ⟨target, fun fuel _ => ?_, hs, ht, fun j _ _ => rfl⟩
    unfold cs_address_select_input
    simp only []
    rw [if_neg (not_not.mpr hch)]
    simp
  · obtain ⟨change, hchange⟩ : ∃ change : Int,
        change = (if down = true then (-1 : Int) else if up = true then 1 else 0) := ⟨_, rfl⟩
    have hpm : change = 1 ∨ change = -1 := by
      rw [hchange]
      cases up <;> cases down <;> simp at hch ⊢
    have hback : VIRTUAL_RAM_START
        ≤ SET_HEX_DIGIT target ((((digit : Int) + (16 : Nat) * change) % 16).toNat) shift := by
      have e : (((digit : Int) + (16 : Nat) * change) % 16).toNat = digit := by
        rcases hpm with rfl | rfl <;> omega
      rw [e, hdigit, SET_HEX_DIGIT_self target shift ht]
      exact hs
    obtain ⟨n, hn⟩ :=
      address_select_digit_loop_total VIRTUAL_RAM_START target shift change hpm 16 digit 16
        (by decide) (le_refl _) hback
    obtain ⟨hn16, hnge⟩ :=
      address_select_digit_loop_post VIRTUAL_RAM_START target shift change 16 digit n hn
    have hmono : ∀ fuel, 16 ≤ fuel →
        address_select_digit_loop VIRTUAL_RAM_START target shift change fuel digit = some n := by
      intro fuel hf
      obtain ⟨n', hn'⟩ :=
        address_select_digit_loop_total VIRTUAL_RAM_START target shift change hpm fuel digit 16
          (by decide) hf hback
      rw [hn']
      exact congrArg some (address_select_digit_loop_fuel VIRTUAL_RAM_START target shift change
        fuel 16 digit n' n hn' hn)
    have hlt : SET_HEX_DIGIT target n shift < 2 ^ 32 := Nat.mod_lt _ (by decide)
    refine ⟨if n ≠ digit then SET_HEX_DIGIT target n shift else target, fun fuel hf => ?_, ?_,
      ?_, fun j hj hne => ?_⟩
    · unfold cs_address_select_input
      simp only []
      rw [← hchange, if_pos (hchange ▸ hch), ← hshift, ← hdigit, hmono fuel hf]
      by_cases hnd : n = digit <;> simp [hnd]
    · by_cases hnd : n = digit <;> simp [hnd, hs, hnge]
    · by_cases hnd : n = digit
      · rw [if_neg (not_not.mpr hnd)]
        exact ht
      · rw [if_pos hnd]
        exact hlt
    · by_cases hnd : n = digit
      · simp [hnd]
      · rw [if_pos hnd, hshift]
        exact SET_HEX_DIGIT_other target n idx j ht hn16 hi hj hne

/-- C38, at a concrete input: with `VIRTUAL_RAM_START` `0x80000000`, the target
`0x80000100` and the cursor on the first digit, down is pressed. -/
theorem cs_address_select_input_keeps_window_witness :
    (0x80000100 < 2 ^ 32 ∧ 0x80000000 ≤ 0x80000100 ∧ 0 ≤ 7)
      ∧ cs_address_select_input 0x80000000 false true 0x80000100 0 16 = some 0xF0000100
      ∧ ∃ target',
        (∀ fuel, 16 ≤ fuel →
          cs_address_select_input 0x80000000 false true 0x80000100 0 fuel = some target')
        ∧ 0x80000000 ≤ target' ∧ target' < 2 ^ 32
        ∧ ∀ j, j ≤ 7 → j ≠ 0 →
            GET_HEX_DIGIT target' (28 - j * 4) = GET_HEX_DIGIT 0x80000100 (28 - j * 4) :=
  ⟨by decide, by decide,
    cs_address_select_input_keeps_window 0x80000000 0x80000100 0 false true
      (by decide) (by decide) (by decide)⟩


/-! ## Disassembly page: a word drawn as binary -/

/-- The glyphs `print_as_binary` draws, one for each of the 32 turns: turn `c`
tests the word shifted right by `32 - c`. -/
theorem print_as_binary_glyphs (TEXT_WIDTH_1 : Nat) (shr32 : Nat → Nat) (charX data : Nat) :
    (print_as_binary TEXT_WIDTH_1 shr32 charX data).map Prod.snd
      = (List.range 32).map
          (fun c => if word_shift_right shr32 data (32 - c) % 2 ≠ 0 then '1' else '0') := by
  rfl

/-- The x positions `print_as_binary` draws at, as long as they fit in a
`u32`: one character to the right for each glyph, and one more before each
group of 8. -/
theorem print_as_binary_positions (TEXT_WIDTH_1 : Nat) (shr32 : Nat → Nat) (charX data : Nat)
    (h : charX + 36 * TEXT_WIDTH_1 < 2 ^ 32) :
    (print_as_binary TEXT_WIDTH_1 shr32 charX data).map Prod.fst
      = (List.range 32).map (fun c => charX + TEXT_WIDTH_1 * (c + c / 8 + 1)) := by
  have e : ∀ k, k ≤ 36 → (charX + TEXT_WIDTH_1 * k) % 2 ^ 32 = charX + TEXT_WIDTH_1 * k := by
    intro k hk
    apply Nat.mod_eq_of_lt
    have : TEXT_WIDTH_1 * k ≤ TEXT_WIDTH_1 * 36 := Nat.mul_le_mul_left _ hk
    omega
  have step : ∀ k, k < 36 →
      ((charX + TEXT_WIDTH_1 * k) + TEXT_WIDTH_1) % 2 ^ 32 = charX + TEXT_WIDTH_1 * (k + 1) := by
    intro k hk
    rw [← e (k + 1) (by omega)]
    congr 1
    ring
  have e0 : (charX + TEXT_WIDTH_1) % 2 ^ 32 = charX + TEXT_WIDTH_1 * 1 := by
    have := step 0 (by decide)
    simpa using this
  simp only [print_as_binary, print_as_binary_loop, SIZEOF_BITS_Word, SIZEOF_BITS_Byte]
  simp only [e0, step, Nat.reduceLT, Nat.reduceMod, Nat.reduceAdd, if_true, if_false,
    List.map, Nat.lt_irrefl, OfNat.ofNat_ne_zero, Nat.reduceEqDiff]

/-- C39, at the failing input: for the word `0x00000002`, whose only set bit is
bit 1, `print_as_binary` draws `1` at position 31 and `0` at position 30,
where the binary representation has `0` at position 31 and `1` at position
30. For every word the glyph at a position `c` from 1 to 31 shows bit `32 - c`,
one bit higher than the representation asks for, the glyph at position 0 shows
what the shift by 32 gives, and bit 0 of the word is shown nowhere among the
positions 1 to 31. The spacing is as claimed: one character more before each
group of 8. -/
theorem print_as_binary_shows_next_higher_bit (TEXT_WIDTH_1 : Nat) (shr32 : Nat → Nat)
    (charX : Nat) :
    ((print_as_binary TEXT_WIDTH_1 shr32 charX 0x00000002).map Prod.snd)[31]? = some '1'
      ∧ binary_glyph 0x00000002 31 = '0'
      ∧ ((print_as_binary TEXT_WIDTH_1 shr32 charX 0x00000002).map Prod.snd)[30]? = some '0'
      ∧ binary_glyph 0x00000002 30 = '1'
      ∧ (∀ data c, data < 2 ^ 32 → 1 ≤ c → c ≤ 31 →
          ((print_as_binary TEXT_WIDTH_1 shr32 charX data).map Prod.snd)[c]?
            = some (if data / 2 ^ (32 - c) % 2 = 1 then '1' else '0'))
      ∧ (∀ data, ((print_as_binary TEXT_WIDTH_1 shr32 charX data).map Prod.snd)[0]?
            = some (if shr32 data % 2 ≠ 0 then '1' else '0'))
      ∧ (∀ data, data < 2 ^ 32 → data % 2 = 0 →
          ((print_as_binary TEXT_WIDTH_1 shr32 charX (data + 1)).map Prod.snd).tail
            = ((print_as_binary TEXT_WIDTH_1 shr32 charX data).map Prod.snd).tail)
      ∧ (∀ data, charX + 36 * TEXT_WIDTH_1 < 2 ^ 32 →
          (print_as_binary TEXT_WIDTH_1 shr32 charX data).map Prod.fst
            = (List.range 32).map (fun c => charX + TEXT_WIDTH_1 * (c + c / 8 + 1))) := by
  have hglyph : ∀ data c, data < 2 ^ 32 → 1 ≤ c → c ≤ 31 →
      ((print_as_binary TEXT_WIDTH_1 shr32 charX data).map Prod.snd)[c]?
        = some (if data / 2 ^ (32 - c) % 2 = 1 then '1' else '0') := by
    intro data c hd h1 h31
    rw [print_as_binary_glyphs, List.getElem?_map, List.getElem?_range (by omega)]
    have hs : word_shift_right shr32 data (32 - c) = data / 2 ^ (32 - c) := by
      unfold word_shift_right
      rw [if_pos (by omega), Nat.mod_eq_of_lt hd]
    simp only [Option.map_some', hs]
    by_cases hb : data / 2 ^ (32 - c) % 2 = 1
    · simp [hb]
    · have hb0 : data / 2 ^ (32 - c) % 2 = 0 := by omega
      simp [hb0]
  refine ⟨?_, by decide, ?_, by decide, hglyph, ?_, ?_, ?_⟩
  · rw [hglyph 2 31 (by decide) (by decide) (by decide)]
    decide
  · rw [hglyph 2 30 (by decide) (by decide) (by decide)]
    decide
  · intro data
    rw [print_as_binary_glyphs]
    rfl
  · intro data hd heven
    have hd1 : data + 1 < 2 ^ 32 := by omega
    apply List.ext_getElem?
    intro i
    rw [List.getElem?_tail, List.getElem?_tail]
    by_cases hi : i + 1 ≤ 31
    · rw [hglyph data (i + 1) hd (by omega) hi, hglyph (data + 1) (i + 1) hd1 (by omega) hi]
      have hpow : (2 : Nat) ^ (32 - (i + 1)) = 2 * 2 ^ (31 - (i + 1)) := by
        rw [← pow_succ']
        congr 1
        omega
      have hdiv : (data + 1) / 2 ^ (32 - (i + 1)) = data / 2 ^ (32 - (i + 1)) := by
        rw [hpow, ← Nat.div_div_eq_div_mul, ← Nat.div_div_eq_div_mul]
        congr 1
        omega
      rw [hdiv]
    · rw [print_as_binary_glyphs, print_as_binary_glyphs]
      simp only [List.getElem?_map]
      rw [List.getElem?_eq_none (by simp; omega)]
      rfl
  · intro data h
    exact print_as_binary_positions TEXT_WIDTH_1 shr32 charX data h


/-! ## Printing an integer with commas: supporting lemmas -/

/-- A value in the range of `int` is stored unchanged. -/
theorem wrap_int_of_range (x : Int) (h1 : -2 ^ 31 ≤ x) (h2 : x < 2 ^ 31) : wrap_int x = x := by
  unfold wrap_int toS32 toU32
  split_ifs <;> omega

/-- The digit characters of this model are those of `Nat.digitChar`. -/
theorem decimal_digit_eq_digitChar (d : Nat) (h : d < 10) :
    decimal_digit d = Nat.digitChar d := by
  interval_cases d <;> rfl

/-- A digit character is a digit, is not the comma and not the minus sign,
and stands for its digit. -/
theorem decimal_digit_props (d : Nat) (h : d < 10) :
    (decimal_digit d).isDigit = true ∧ decimal_digit d ≠ ',' ∧ decimal_digit d ≠ '-'
      ∧ (decimal_digit d).toNat - 48 = d ∧ (decimal_digit d = '0' → d = 0) := by
  interval_cases d <;> decide

/-- The digits `Nat.toDigitsCore` puts in front of `ds` are those of
`sprintf_decimal`, with the same bound on their number. -/
theorem toDigitsCore_eq_sprintf_decimal :
    ∀ (fuel n : Nat) (ds : List Char),
      Nat.toDigitsCore 10 fuel n ds = sprintf_decimal fuel n ++ ds := by
  intro fuel
  induction fuel with
  | zero =>
    intro n ds
    rfl
  | succ fuel ih =>
    intro n ds
    unfold Nat.toDigitsCore sprintf_decimal
    simp only []
    by_cases hn : n < 10
    · have h0 : n / 10 = 0 := by omega
      have h1 : n % 10 = n := by omega
      rw [if_pos h0, if_pos hn, h1, decimal_digit_eq_digitChar n hn]
      rfl
    · have h0 : n / 10 ≠ 0 := by omega
      rw [if_neg h0, if_neg hn, ih, decimal_digit_eq_digitChar (n % 10) (by omega)]
      simp

/-- With room for all the digits, the bound does not change the digits. -/
theorem sprintf_decimal_fuel :
    ∀ (fuel fuel' n : Nat), 1 ≤ fuel → 1 ≤ fuel' → n < 10 ^ fuel → n < 10 ^ fuel' →
      sprintf_decimal fuel n = sprintf_decimal fuel' n := by
  intro fuel
  induction fuel with
  | zero =>
    intro fuel' n h
    omega
  | succ fuel ih =>
    intro fuel' n _ h1 h h'
    cases fuel' with
    | zero => omega
    | succ fuel' =>
      unfold sprintf_decimal
      by_cases hn : n < 10
      · rw [if_pos hn, if_pos hn]
      · rw [if_neg hn, if_neg hn]
        have hq : n / 10 < 10 ^ fuel := by
          rw [pow_succ] at h
          omega
        have hq' : n / 10 < 10 ^ fuel' := by
          rw [pow_succ] at h'
          omega
        have hf : 1 ≤ fuel := by
          rcases Nat.eq_zero_or_pos fuel with h0 | h0
          · subst h0
            simp at hq
            omega
          · exact h0
        have hf' : 1 ≤ fuel' := by
          rcases Nat.eq_zero_or_pos fuel' with h0 | h0
          · subst h0
            simp at hq'
            omega
          · exact h0
        rw [ih fuel' (n / 10) hf hf' hq hq']

/-- The digits `%d` prints are the digits Lean prints. -/
theorem sprintf_decimal_eq_toDigits (n : Nat) (h : n < 10 ^ 10) :
    sprintf_decimal 10 n = Nat.toDigits 10 n := by
  unfold Nat.toDigits
  rw [toDigitsCore_eq_sprintf_decimal, List.append_nil]
  apply sprintf_decimal_fuel 10 (n + 1) n (by decide) (by omega) h
  calc n < 10 ^ n := Nat.lt_pow_self (by decide) n
    _ ≤ 10 ^ (n + 1) := Nat.pow_le_pow_right (by decide) (Nat.le_succ n)

/-- The digits of a number below 1000. -/
theorem sprintf_decimal_lt_1000 (a : Nat) (h : a < 1000) :
    sprintf_decimal 10 a =
      if a < 10 then [decimal_digit a]
      else if a < 100 then [decimal_digit (a / 10), decimal_digit (a % 10)]
      else [decimal_digit (a / 100), decimal_digit (a / 10 % 10), decimal_digit (a % 10)] := by
  by_cases h1 : a < 10
  · rw [if_pos h1]
    unfold sprintf_decimal
    rw [if_pos h1]
  · rw [if_neg h1]
    by_cases h2 : a < 100
    · rw [if_pos h2]
      unfold sprintf_decimal
      rw [if_neg h1]
      unfold sprintf_decimal
      rw [if_pos (by omega)]
      rfl
    · rw [if_neg h2]
      unfold sprintf_decimal
      rw [if_neg h1]
      unfold sprintf_decimal
      rw [if_neg (by omega)]
      unfold sprintf_decimal
      rw [if_pos (by omega)]
      have e : a / 10 / 10 = a / 100 := by omega
      rw [e]
      rfl

/-- One more group of three digits: the digits of `a * 1000 + b` are the
digits of `a` followed by the three digits of `b`. -/
theorem sprintf_decimal_group (a b : Nat) (ha : 0 < a) (hb : b < 1000)
    (h : a * 1000 + b < 10 ^ 10) :
    sprintf_decimal 10 (a * 1000 + b)
      = sprintf_decimal 10 a
        ++ [decimal_digit (b / 100), decimal_digit (b / 10 % 10), decimal_digit (b % 10)] := by
  have s : ∀ fuel n, 10 ≤ n →
      sprintf_decimal (fuel + 1) n = sprintf_decimal fuel (n / 10) ++ [decimal_digit (n % 10)] := by
    intro fuel n hn
    rw [sprintf_decimal, if_neg (by omega)]
  rw [s 9 _ (by omega), s 8 _ (by omega), s 7 _ (by omega)]
  have e1 : (a * 1000 + b) / 10 / 10 / 10 = a := by omega
  have e2 : (a * 1000 + b) / 10 / 10 % 10 = b / 100 := by omega
  have e3 : (a * 1000 + b) / 10 % 10 = b / 10 % 10 := by omega
  have e4 : (a * 1000 + b) % 10 = b % 10 := by omega
  rw [e1, e2, e3, e4]
  have ha7 : a < 10 ^ 7 := by
    norm_num at h ⊢
    omega
  rw [sprintf_decimal_fuel 7 10 a (by decide) (by decide) ha7
    (lt_of_lt_of_le ha7 (by norm_num))]
  simp

/-- What `%d` writes for a value that is not negative. -/
theorem sprintf_d_of_nat (a : Nat) (x : Int) (h : x = a) :
    sprintf_d x = sprintf_decimal 10 a := by
  subst h
  unfold sprintf_d
  rw [if_neg (by omega)]
  rfl

/-- What `%03d` writes for a value from 0 to 999: exactly three digits. -/
theorem sprintf_03d_of_nat (b : Nat) (x : Int) (h : x = b) (hb : b < 1000) :
    sprintf_03d x
      = [decimal_digit (b / 100), decimal_digit (b / 10 % 10), decimal_digit (b % 10)] := by
  subst h
  unfold sprintf_03d
  simp only [Int.natAbs_ofNat]
  rw [if_neg (by omega), sprintf_decimal_lt_1000 b hb]
  by_cases h1 : b < 10
  · have e1 : b / 100 = 0 := by omega
    have e2 : b / 10 % 10 = 0 := by omega
    have e3 : b % 10 = b := by omega
    rw [if_pos h1, e1, e2, e3]
    rfl
  · by_cases h2 : b < 100
    · have e1 : b / 100 = 0 := by omega
      have e2 : b / 10 % 10 = b / 10 := by omega
      rw [if_neg h1, if_pos h2, e1, e2]
      rfl
    · rw [if_neg h1, if_neg h2]
      rfl

/-- Reading back the digits of a number gives the number. -/
theorem decimal_value_sprintf_decimal :
    ∀ (fuel n : Nat), n < 10 ^ fuel → 1 ≤ fuel → decimal_value (sprintf_decimal fuel n) = n := by
  intro fuel
  induction fuel with
  | zero =>
    intro n _ h
    omega
  | succ fuel ih =>
    intro n h _
    unfold sprintf_decimal
    by_cases hn : n < 10
    · rw [if_pos hn]
      simp only [decimal_value, List.foldl, Nat.zero_mul, Nat.zero_add]
      exact (decimal_digit_props n hn).2.2.2.1
    · rw [if_neg hn]
      have hq : n / 10 < 10 ^ fuel := by
        rw [pow_succ] at h
        omega
      have hf : 1 ≤ fuel := by
        rcases Nat.eq_zero_or_pos fuel with h0 | h0
        · subst h0
          simp at hq
          omega
        · exact h0
      have := ih (n / 10) hq hf
      unfold decimal_value at this ⊢
      rw [List.foldl_append, this]
      simp only [List.foldl]
      rw [(decimal_digit_props (n % 10) (by omega)).2.2.2.1]
      omega


/-- One turn of the first loop, when nothing overflows. -/
theorem sprintf_int_with_commas_split_step (fuel : Nat) (n n2 scale : Int) (hn : 1000 ≤ n)
    (h1 : -2 ^ 31 ≤ scale * (n % 1000) ∧ scale * (n % 1000) < 2 ^ 31)
    (h2 : -2 ^ 31 ≤ n2 + scale * (n % 1000) ∧ n2 + scale * (n % 1000) < 2 ^ 31)
    (h3 : -2 ^ 31 ≤ scale * 1000 ∧ scale * 1000 < 2 ^ 31) :
    sprintf_int_with_commas_split (fuel + 1) n n2 scale
      = sprintf_int_with_commas_split fuel (n / 1000) (n2 + scale * (n % 1000))
          (scale * 1000) := by
  rw [sprintf_int_with_commas_split, if_pos hn,
    Int.tdiv_eq_ediv (by omega) (by decide), Int.tmod_eq_emod (by omega) (by decide),
    wrap_int_of_range _ h1.1 h1.2, wrap_int_of_range _ h2.1 h2.2,
    wrap_int_of_range _ h3.1 h3.2]

/-- The first loop is left when `n` is below 1000. -/
theorem sprintf_int_with_commas_split_exit (fuel : Nat) (n n2 scale : Int) (hn : n < 1000) :
    sprintf_int_with_commas_split (fuel + 1) n n2 scale = some (n, n2, scale) := by
  rw [sprintf_int_with_commas_split, if_neg (by omega)]

/-- One turn of the second loop. -/
theorem sprintf_int_with_commas_groups_step (fuel : Nat) (n2 scale : Int)
    (st : List Char × Nat) (hs : scale ≠ 1) (h0 : 0 ≤ n2) (h1 : 0 ≤ scale) :
    sprintf_int_with_commas_groups (fuel + 1) n2 scale st
      = sprintf_int_with_commas_groups fuel (n2 % (scale / 1000)) (scale / 1000)
          (sprintf_advance st (',' :: sprintf_03d (n2 / (scale / 1000)))) := by
  have hq : 0 ≤ scale / 1000 := Int.ediv_nonneg h1 (by decide)
  rw [sprintf_int_with_commas_groups, if_pos hs]
  simp only []
  rw [Int.tdiv_eq_ediv h1 (by decide), Int.tdiv_eq_ediv h0 hq, Int.tmod_eq_emod h0 hq]

/-- The second loop is left when `scale` is 1. -/
theorem sprintf_int_with_commas_groups_exit (fuel : Nat) (n2 : Int) (st : List Char × Nat) :
    sprintf_int_with_commas_groups (fuel + 1) n2 1 st = some st := by
  rw [sprintf_int_with_commas_groups, if_neg (by decide)]

/-- The two loops on a value that is not negative: the text is a first group,
the digits of a number below 1000, and after it groups of a comma and three
digits; first group and later groups together are the digits of the value;
the count moves by the length of what was written. -/
theorem sprintf_int_with_commas_loops (fuel : Nat) (hf : 4 ≤ fuel) (m : Nat) (hm : m < 2 ^ 31)
    (st : List Char × Nat) :
    ∃ (a : Nat) (groups : List Nat),
      (match sprintf_int_with_commas_split fuel (m : Int) 0 1 with
        | none => none
        | some (n, n2, scale) =>
          sprintf_int_with_commas_groups fuel n2 scale (sprintf_advance st (sprintf_d n)))
        = some (groups.foldl
            (fun st b => sprintf_advance st
              [',', decimal_digit (b / 100), decimal_digit (b / 10 % 10), decimal_digit (b % 10)])
            (sprintf_advance st (sprintf_decimal 10 a)))
      ∧ a < 1000 ∧ (∀ b ∈ groups, b < 1000) ∧ (a = 0 → groups = [])
      ∧ sprintf_decimal 10 m
          = groups.foldl
              (fun text b => text ++
                [decimal_digit (b / 100), decimal_digit (b / 10 % 10), decimal_digit (b % 10)])
              (sprintf_decimal 10 a) := by
  obtain ⟨f, rfl⟩ : ∃ f, fuel = f + 4 := ⟨fuel - 4, by omega⟩
  have hm' : m < 2147483648 := by
    norm_num at hm
    exact hm
  by_cases c1 : m < 1000
  · refine ⟨m, [], ?_, c1, by simp, by simp, rfl⟩
    rw [sprintf_int_with_commas_split_exit _ _ _ _ (by omega)]
    simp only []
    rw [sprintf_int_with_commas_groups_exit, sprintf_d_of_nat m _ rfl]
    rfl
  · by_cases c2 : m < 1000000
    · refine ⟨m / 1000, [m % 1000], ?_, by omega, ?_, by omega, ?_⟩
      · rw [sprintf_int_with_commas_split_step _ _ _ _ (by omega) (by omega) (by omega)
            (by omega),
          sprintf_int_with_commas_split_exit _ _ _ _ (by omega)]
        simp only [zero_add, one_mul]
        rw [sprintf_int_with_commas_groups_step _ _ _ _ (by omega) (by omega) (by omega)]
        simp only [Int.reduceDiv, Int.ediv_one, Int.emod_one]
        rw [sprintf_int_with_commas_groups_exit,
          sprintf_d_of_nat (m / 1000) _ (by omega),
          sprintf_03d_of_nat (m % 1000) _ (by omega) (by omega)]
        rfl
      · intro b hb
        simp only [List.mem_singleton] at hb
        omega
      · have e : m = m / 1000 * 1000 + m % 1000 := by omega
        rw [List.foldl, List.foldl]
        nth_rewrite 1 [e]
        exact sprintf_decimal_group (m / 1000) (m % 1000) (by omega) (by omega)
          (by norm_num; omega)
    · by_cases c3 : m < 1000000000
      · refine ⟨m / 1000000, [m / 1000 % 1000, m % 1000], ?_, by omega, ?_, by omega, ?_⟩
        · rw [sprintf_int_with_commas_split_step _ _ _ _ (by omega) (by omega) (by omega)
              (by omega),
            sprintf_int_with_commas_split_step _ _ _ _ (by omega) (by omega) (by omega)
              (by omega),
            sprintf_int_with_commas_split_exit _ _ _ _ (by omega)]
          simp only [zero_add, one_mul, Int.reduceMul]
          rw [sprintf_int_with_commas_groups_step _ _ _ _ (by omega) (by omega) (by omega)]
          simp only [Int.reduceDiv]
          rw [sprintf_int_with_commas_groups_step _ _ _ _ (by omega) (by omega) (by omega)]
          simp only [Int.reduceDiv, Int.ediv_one, Int.emod_one]
          rw [sprintf_int_with_commas_groups_exit,
            sprintf_d_of_nat (m / 1000000) _ (by omega),
            sprintf_03d_of_nat (m / 1000 % 1000) _ (by omega) (by omega),
            sprintf_03d_of_nat (m % 1000) _ (by omega) (by omega)]
          rfl
        · intro b hb
          simp only [List.mem_cons, List.mem_singleton, List.not_mem_nil, or_false] at hb
          omega
        · have e : m = (m / 1000000 * 1000 + m / 1000 % 1000) * 1000 + m % 1000 := by omega
          rw [List.foldl, List.foldl, List.foldl]
          nth_rewrite 1 [e]
          rw [sprintf_decimal_group _ (m % 1000) (by omega) (by omega) (by norm_num; omega),
            sprintf_decimal_group (m / 1000000) (m / 1000 % 1000) (by omega) (by omega)
              (by norm_num; omega)]
      · refine ⟨m / 1000000000, [m / 1000000 % 1000, m / 1000 % 1000, m % 1000], ?_,
          by omega, ?_, by omega, ?_⟩
        · rw [sprintf_int_with_commas_split_step _ _ _ _ (by omega) (by omega) (by omega)
              (by omega),
            sprintf_int_with_commas_split_step _ _ _ _ (by omega) (by omega) (by omega)
              (by omega),
            sprintf_int_with_commas_split_step _ _ _ _ (by omega) (by omega) (by omega)
              (by omega),
            sprintf_int_with_commas_split_exit _ _ _ _ (by omega)]
          simp only [zero_add, one_mul, Int.reduceMul]
          rw [sprintf_int_with_commas_groups_step _ _ _ _ (by omega) (by omega) (by omega)]
          simp only [Int.reduceDiv]
          rw [sprintf_int_with_commas_groups_step _ _ _ _ (by omega) (by omega) (by omega)]
          simp only [Int.reduceDiv]
          rw [sprintf_int_with_commas_groups_step _ _ _ _ (by omega) (by omega) (by omega)]
          simp only [Int.reduceDiv, Int.ediv_one, Int.emod_one]
          rw [sprintf_int_with_commas_groups_exit,
            sprintf_d_of_nat (m / 1000000000) _ (by omega),
            sprintf_03d_of_nat (m / 1000000 % 1000) _ (by omega) (by omega),
            sprintf_03d_of_nat (m / 1000 % 1000) _ (by omega) (by omega),
            sprintf_03d_of_nat (m % 1000) _ (by omega) (by omega)]
          rfl
        · intro b hb
          simp only [List.mem_cons, List.mem_singleton, List.not_mem_nil, or_false] at hb
          omega
        · have e : m = ((m / 1000000000 * 1000 + m / 1000000 % 1000) * 1000
              + m / 1000 % 1000) * 1000 + m % 1000 := by omega
          rw [List.foldl, List.foldl, List.foldl, List.foldl]
          nth_rewrite 1 [e]
          rw [sprintf_decimal_group _ (m % 1000) (by omega) (by omega) (by norm_num; omega),
            sprintf_decimal_group _ (m / 1000 % 1000) (by omega) (by omega)
              (by norm_num; omega),
            sprintf_decimal_group (m / 1000000000) (m / 1000000 % 1000) (by omega) (by omega)
              (by norm_num; omega)]


/-- The function as its two loops on the size of `n`, after the sign. -/
theorem sprintf_int_with_commas_eq (fuel : Nat) (n : Int) (m : Nat) (hmin : -2 ^ 31 < n)
    (hmax : n < 2 ^ 31) (hm : m = n.natAbs) :
    sprintf_int_with_commas fuel n
      = match sprintf_int_with_commas_split fuel (m : Int) 0 1 with
        | none => none
        | some (n', n2, scale) =>
          sprintf_int_with_commas_groups fuel n2 scale
            (sprintf_advance ((if n < 0 then ['-'] else []), (if n < 0 then 1 else 0))
              (sprintf_d n')) := by
  have e : (if n < 0 then wrap_int (-n) else n) = (m : Int) := by
    by_cases h : n < 0
    · rw [if_pos h, wrap_int_of_range _ (by omega) (by omega)]
      omega
    · rw [if_neg h]
      omega
  unfold sprintf_int_with_commas
  simp only []
  rw [e]
  by_cases h : n < 0
  · rw [if_pos h, if_pos h, if_pos h]
    rfl
  · rw [if_neg h, if_neg h, if_neg h]

/-- The text and the count after the groups were written one by one. -/
theorem sprintf_advance_groups (groups : List Nat) :
    ∀ (st : List Char × Nat),
      groups.foldl
          (fun st b => sprintf_advance st
            [',', decimal_digit (b / 100), decimal_digit (b / 10 % 10), decimal_digit (b % 10)])
          st
        = (st.1 ++ (groups.map (fun b => ',' ::
              [decimal_digit (b / 100), decimal_digit (b / 10 % 10),
                decimal_digit (b % 10)])).flatten,
            st.2 + ((groups.map (fun b => ',' ::
              [decimal_digit (b / 100), decimal_digit (b / 10 % 10),
                decimal_digit (b % 10)])).flatten).length) := by
  induction groups with
  | nil =>
    intro st
    simp
  | cons b groups ih =>
    intro st
    rw [List.foldl, ih]
    simp only [sprintf_advance, List.map_cons, List.flatten_cons, List.length_cons,
      List.length_nil, List.length_append, List.append_assoc]
    refine Prod.ext rfl ?_
    simp only []
    omega

/-- The digits after the groups were appended one by one. -/
theorem sprintf_decimal_groups (groups : List Nat) :
    ∀ (text : List Char),
      groups.foldl
          (fun text b => text ++
            [decimal_digit (b / 100), decimal_digit (b / 10 % 10), decimal_digit (b % 10)])
          text
        = text ++ (groups.map (fun b =>
              [decimal_digit (b / 100), decimal_digit (b / 10 % 10),
                decimal_digit (b % 10)])).flatten := by
  induction groups with
  | nil =>
    intro text
    simp
  | cons b groups ih =>
    intro text
    rw [List.foldl, ih]
    simp only [List.map_cons, List.flatten_cons, List.append_assoc]

/-- Deleting the commas from the groups leaves their digits. -/
theorem filter_comma_groups (groups : List Nat) (h : ∀ b ∈ groups, b < 1000) :
    ((groups.map (fun b => ',' ::
        [decimal_digit (b / 100), decimal_digit (b / 10 % 10),
          decimal_digit (b % 10)])).flatten).filter (fun c => c != ',')
      = (groups.map (fun b =>
          [decimal_digit (b / 100), decimal_digit (b / 10 % 10),
            decimal_digit (b % 10)])).flatten := by
  induction groups with
  | nil => rfl
  | cons b groups ih =>
    have hb : b < 1000 := h b (List.mem_cons_self _ _)
    have ih' := ih (fun x hx => h x (List.mem_cons_of_mem _ hx))
    have p : ∀ d, d < 10 → (decimal_digit d != ',') = true := by
      intro d hd
      interval_cases d <;> decide
    have hf : List.filter (fun c => c != ',')
        [',', decimal_digit (b / 100), decimal_digit (b / 10 % 10), decimal_digit (b % 10)]
        = [decimal_digit (b / 100), decimal_digit (b / 10 % 10), decimal_digit (b % 10)] := by
      rw [List.filter_cons_of_neg (by decide), List.filter_eq_self]
      intro c hc
      simp only [List.mem_cons, List.mem_singleton, List.not_mem_nil, or_false] at hc
      rcases hc with rfl | rfl | rfl
      · exact p (b / 100) (by omega)
      · exact p (b / 10 % 10) (by omega)
      · exact p (b % 10) (by omega)
    rw [List.map_cons, List.flatten_cons, List.filter_append, ih', hf, List.map_cons,
      List.flatten_cons]

/-- The digits of a number below 1000: one to three digit characters, and a
leading `0` only for the number 0. -/
theorem sprintf_decimal_first_group (a : Nat) (h : a < 1000) :
    sprintf_decimal 10 a ≠ [] ∧ (sprintf_decimal 10 a).length ≤ 3
      ∧ (∀ c ∈ sprintf_decimal 10 a, c.isDigit = true ∧ c ≠ ',')
      ∧ ((sprintf_decimal 10 a).head? = some '0' → a = 0) := by
  rw [sprintf_decimal_lt_1000 a h]
  have p1 := decimal_digit_props (a / 100) (by omega)
  have p2 := decimal_digit_props (a / 10 % 10) (by omega)
  have p3 := decimal_digit_props (a % 10) (by omega)
  by_cases h1 : a < 10
  · have p := decimal_digit_props a h1
    rw [if_pos h1]
    refine ⟨by simp, by simp, ?_, ?_⟩
    · intro c hc
      simp only [List.mem_singleton] at hc
      subst hc
      exact ⟨p.1, p.2.1⟩
    · intro hh
      simp only [List.head?, Option.some.injEq] at hh
      exact p.2.2.2.2 hh
  · rw [if_neg h1]
    by_cases h2 : a < 100
    · have q := decimal_digit_props (a / 10) (by omega)
      rw [if_pos h2]
      refine ⟨by simp, by simp, ?_, ?_⟩
      · intro c hc
        simp only [List.mem_cons, List.mem_singleton, List.not_mem_nil, or_false] at hc
        rcases hc with rfl | rfl
        · exact ⟨q.1, q.2.1⟩
        · exact ⟨p3.1, p3.2.1⟩
      · intro hh
        simp only [List.head?, Option.some.injEq] at hh
        have := q.2.2.2.2 hh
        omega
    · rw [if_neg h2]
      refine ⟨by simp, by simp, ?_, ?_⟩
      · intro c hc
        simp only [List.mem_cons, List.mem_singleton, List.not_mem_nil, or_false] at hc
        rcases hc with rfl | rfl | rfl
        · exact ⟨p1.1, p1.2.1⟩
        · exact ⟨p2.1, p2.2.1⟩
        · exact ⟨p3.1, p3.2.1⟩
      · intro hh
        simp only [List.head?, Option.some.injEq] at hh
        have := p1.2.2.2.2 hh
        omega


/-! ## Printing an integer with commas: the claim -/

/-- C40: for an `int` `n` above `INT_MIN`, with room for four turns of each
loop, `sprintf_int_with_commas` ends and returns the length of the text it
wrote. The text is a minus sign when `n` is negative, a first group of one to
three digits that starts with `0` only when `n` is 0, and after it groups of a
comma and exactly three digits. Deleting the commas gives the plain decimal
text of `n`, and the digits read as a number give the size of `n`. -/
theorem sprintf_int_with_commas_groups_of_three (fuel : Nat) (n : Int) (hf : 4 ≤ fuel)
    (hmin : -2 ^ 31 < n) (hmax : n < 2 ^ 31) :
    ∃ (text first : List Char) (groups : List (List Char)),
      sprintf_int_with_commas fuel n = some (text, text.length)
        ∧ text = (if n < 0 then ['-'] else []) ++ first
            ++ (groups.map (fun g => ',' :: g)).flatten
        ∧ first ≠ [] ∧ first.length ≤ 3 ∧ (∀ c ∈ first, c.isDigit = true)
        ∧ (first.head? = some '0' → n = 0 ∧ groups = [])
        ∧ (∀ g ∈ groups, g.length = 3 ∧ ∀ c ∈ g, c.isDigit = true)
        ∧ text.filter (fun c => c != ',') = plain_decimal_text n
        ∧ decimal_value (first ++ groups.flatten) = n.natAbs := by
  obtain ⟨m, hm⟩ : ∃ m, m = n.natAbs := ⟨_, rfl⟩
  have hm31 : m < 2 ^ 31 := by omega
  have hm10 : m < 10 ^ 10 := lt_trans hm31 (by norm_num)
  obtain ⟨a, gs, hrun, ha, hgs, ha0, hdig⟩ :=
    sprintf_int_with_commas_loops fuel hf m hm31
      ((if n < 0 then ['-'] else []), (if n < 0 then 1 else 0))
  rw [sprintf_decimal_groups] at hdig
  obtain ⟨hne, hlen, hdigits, hhead⟩ := sprintf_decimal_first_group a ha
  have hsign : (if n < 0 then 1 else 0) = (if n < 0 then ['-'] else []).length := by
    by_cases h : n < 0
    · rw [if_pos h, if_pos h]
      rfl
    · rw [if_neg h, if_neg h]
      rfl
  have hmap : (gs.map (fun b =>
        [decimal_digit (b / 100), decimal_digit (b / 10 % 10), decimal_digit (b % 10)])).map
        (fun g => ',' :: g)
      = gs.map (fun b => ',' ::
        [decimal_digit (b / 100), decimal_digit (b / 10 % 10), decimal_digit (b % 10)]) := by
    rw [List.map_map]
    rfl
  refine ⟨(if n < 0 then ['-'] else []) ++ sprintf_decimal 10 a
      ++ (gs.map (fun b => ',' ::
        [decimal_digit (b / 100), decimal_digit (b / 10 % 10),
          decimal_digit (b % 10)])).flatten,
    sprintf_decimal 10 a,
    gs.map (fun b =>
      [decimal_digit (b / 100), decimal_digit (b / 10 % 10), decimal_digit (b % 10)]),
    ?_, ?_, hne, hlen, fun c hc => (hdigits c hc).1, ?_, ?_, ?_, ?_⟩
  · rw [sprintf_int_with_commas_eq fuel n m hmin hmax hm, hrun, sprintf_advance_groups]
    simp only [sprintf_advance, List.length_append, hsign]
  · rw [hmap]
  · intro h0
    have ha00 := hhead h0
    have hg := ha0 ha00
    subst ha00
    subst hg
    simp only [List.map_nil, List.flatten_nil, List.append_nil] at hdig
    have hv := decimal_value_sprintf_decimal 10 m hm10 (by decide)
    rw [hdig] at hv
    have hm0 : m = 0 := by
      rw [← hv]
      decide
    refine ⟨by omega, rfl⟩
  · intro g hg
    rw [List.mem_map] at hg
    obtain ⟨b, hb, rfl⟩ := hg
    have hb' := hgs b hb
    refine ⟨rfl, ?_⟩
    intro c hc
    simp only [List.mem_cons, List.mem_singleton, List.not_mem_nil, or_false] at hc
    rcases hc with rfl | rfl | rfl
    · exact (decimal_digit_props (b / 100) (by omega)).1
    · exact (decimal_digit_props (b / 10 % 10) (by omega)).1
    · exact (decimal_digit_props (b % 10) (by omega)).1
  · have hfs : (if n < 0 then ['-'] else []).filter (fun c => c != ',')
        = (if n < 0 then ['-'] else []) := by
      by_cases h : n < 0
      · rw [if_pos h]
        decide
      · rw [if_neg h]
        rfl
    have hff : (sprintf_decimal 10 a).filter (fun c => c != ',') = sprintf_decimal 10 a := by
      rw [List.filter_eq_self]
      intro c hc
      have := (hdigits c hc).2
      simpa using this
    rw [List.filter_append, List.filter_append, hfs, hff, filter_comma_groups gs hgs,
      List.append_assoc, ← hdig, sprintf_decimal_eq_toDigits m hm10, hm]
    rfl
  · rw [← hdig, decimal_value_sprintf_decimal 10 m hm10 (by decide), hm]

/-- C40, at a concrete input: `-1234567` is written as `-1,234,567`. -/
theorem sprintf_int_with_commas_groups_of_three_witness :
    (4 ≤ 4 ∧ (-2 ^ 31 : Int) < -1234567 ∧ (-1234567 : Int) < 2 ^ 31)
      ∧ sprintf_int_with_commas 4 (-1234567)
          = some (['-', '1', ',', '2', '3', '4', ',', '5', '6', '7'], 10)
      ∧ ∃ (text first : List Char) (groups : List (List Char)),
        sprintf_int_with_commas 4 (-1234567) = some (text, text.length)
          ∧ text = (if (-1234567 : Int) < 0 then ['-'] else []) ++ first
              ++ (groups.map (fun g => ',' :: g)).flatten
          ∧ first ≠ [] ∧ first.length ≤ 3 ∧ (∀ c ∈ first, c.isDigit = true)
          ∧ (first.head? = some '0' → (-1234567 : Int) = 0 ∧ groups = [])
          ∧ (∀ g ∈ groups, g.length = 3 ∧ ∀ c ∈ g, c.isDigit = true)
          ∧ text.filter (fun c => c != ',') = plain_decimal_text (-1234567)
          ∧ decimal_value (first ++ groups.flatten) = (-1234567 : Int).natAbs :=
  ⟨by decide, by decide,
    sprintf_int_with_commas_groups_of_three 4 (-1234567) (by decide) (by decide) (by decide)⟩

end HackerSM64
